import Mathlib

/-!
# Virgil Cards service: content-snapshot validation, stamp validation,
# supersession checks, identifier derivation, counter-signature and storage

A shallow embedding of the Go sources of the card service.  Go strings are
modelled by `String` with `len` the number of UTF-8 bytes (what Go's builtin
`len` returns); byte slices are lists of bytes.  Collaborators that live
outside the repository (the Go standard library's base64 and JSON decoders,
SHA-512, the native crypto library, the UUID source, the wall clock) are
parameters of the definitions that use them; the two codecs of the standard
library, `encoding/hex` and `base64.StdEncoding`, are also embedded, for the
results that are about the codecs themselves, and so is the decoding of a JSON
document into `api.CSR` by `encoding/json`, for the result about its type
errors.  Error values are identified by
their declaration in `api/errors.go`; the text attached with `WithMessage` is
not modelled.
-/

set_option autoImplicit false
set_option linter.unusedVariables false

namespace VirgilCards

/-! ## Basic data -/

/-- One byte. -/
abbrev Byte := Fin 256

/-- Go `[]byte`.  A nil slice and an empty slice are both the empty list. -/
abbrev Bytes := List Byte

/-- Go builtin `len` on a string: the number of bytes. -/
def len (s : String) : Nat := s.utf8ByteSize

/-! ## `api/errors.go` -/

/-- The error values declared in `api/errors.go`. -/
inductive ApiError where
  | ErrInternalError
  | ErrNotFound
  | ErrApplicationIDHeaderIsNotSet
  | ErrIdentityHeaderNotSet
  | ErrRequestParsing
  | ErrCSRIsEmpty
  | ErrContentSnapshotIsNotABase64EncodedString
  | ErrContentSnapshotIsNotAJSONMessage
  | ErrCSRStampSignatureIsMissing
  | ErrCSRStampSignerIsIncorrect
  | ErrCSRStampSignerIsEmpty
  | ErrCSRStampSignerIsTooLong
  | ErrSelfCSRStampIsMissing
  | ErrSelfCSRStampMustBeUnique
  | ErrCSRVersionIsIncorrect
  | ErrCSRPublicKeyDecoding
  | ErrCSRPreviousCardIDIsIncorrect
  | ErrPreviousVirgilCardDoesNotExist
  | ErrPreviousVirgilCardIsRegisteredForAnotherScope
  | ErrPreviousVirgilCardIdentityIsIncorrect
  | ErrPreviousVirgilCardExistsAlready
  | ErrCSRIdentityIsIncorrect
  | ErrCSRIdentityDoesNotMatchRequestIdentity
  | ErrCSRIdentityIsEmpty
  | ErrCSRCreationTimeIsIncorrect
  | ErrCSRStampExtraSnapshotDecoding
  | ErrSignatureDecoding
  | ErrSignatureVerificationFailed
  | ErrCSRStampsListIsTooSmall
  | ErrCSRStampsListIsTooLarge
  | ErrExtraContentSnapshotIsTooLong
  | ErrVirgilCardContentSnapshotIsNotUnique
  | ErrCSRPublicKeyIsTooLong
  | ErrCSRPublicKeyIsTooShort
  | ErrVirgilCardApplicationIDIsNotInTheAuthApplicationList
  | ErrIdentitySearchTermCannotBeEmpty
  | ErrIdentitySearchCountIsLimited (searchIdentitiesLimit : Nat)
  | ErrCSRPublicKeyMustBeEmpty
  | ErrCSRPrevCardIDMustNotBeEmpty
  | ErrChainAlreadyDeleted
  deriving DecidableEq, Repr

/-- Numeric code of an error value. -/
def ApiError.code : ApiError → Nat
  | .ErrInternalError => 10000
  | .ErrNotFound => 10001
  | .ErrApplicationIDHeaderIsNotSet => 20310
  | .ErrIdentityHeaderNotSet => 20311
  | .ErrRequestParsing => 30001
  | .ErrCSRIsEmpty => 40001
  | .ErrContentSnapshotIsNotABase64EncodedString => 40002
  | .ErrContentSnapshotIsNotAJSONMessage => 40003
  | .ErrCSRStampSignatureIsMissing => 40006
  | .ErrCSRStampSignerIsIncorrect => 40007
  | .ErrCSRStampSignerIsEmpty => 40035
  | .ErrCSRStampSignerIsTooLong => 40036
  | .ErrSelfCSRStampIsMissing => 40008
  | .ErrSelfCSRStampMustBeUnique => 40031
  | .ErrCSRVersionIsIncorrect => 40011
  | .ErrCSRPublicKeyDecoding => 40012
  | .ErrCSRPreviousCardIDIsIncorrect => 40014
  | .ErrPreviousVirgilCardDoesNotExist => 40015
  | .ErrPreviousVirgilCardIsRegisteredForAnotherScope => 40016
  | .ErrPreviousVirgilCardIdentityIsIncorrect => 40032
  | .ErrPreviousVirgilCardExistsAlready => 40037
  | .ErrCSRIdentityIsIncorrect => 40017
  | .ErrCSRIdentityDoesNotMatchRequestIdentity => 40034
  | .ErrCSRIdentityIsEmpty => 40033
  | .ErrCSRCreationTimeIsIncorrect => 40018
  | .ErrCSRStampExtraSnapshotDecoding => 40019
  | .ErrSignatureDecoding => 40020
  | .ErrSignatureVerificationFailed => 40021
  | .ErrCSRStampsListIsTooSmall => 40022
  | .ErrCSRStampsListIsTooLarge => 40023
  | .ErrExtraContentSnapshotIsTooLong => 40026
  | .ErrVirgilCardContentSnapshotIsNotUnique => 40027
  | .ErrCSRPublicKeyIsTooLong => 40029
  | .ErrCSRPublicKeyIsTooShort => 40030
  | .ErrVirgilCardApplicationIDIsNotInTheAuthApplicationList => 40100
  | .ErrIdentitySearchTermCannotBeEmpty => 40200
  | .ErrIdentitySearchCountIsLimited _ => 40300
  | .ErrCSRPublicKeyMustBeEmpty => 40410
  | .ErrCSRPrevCardIDMustNotBeEmpty => 40420
  | .ErrChainAlreadyDeleted => 40310

/-- HTTP status of an error value (the `NewHTTP…Error` constructor used). -/
def ApiError.httpStatus : ApiError → Nat
  | .ErrInternalError => 500
  | .ErrNotFound => 404
  | .ErrVirgilCardApplicationIDIsNotInTheAuthApplicationList => 403
  | .ErrChainAlreadyDeleted => 403
  | _ => 400

/-! ## `dep/crypto/encoder` -/

/-- What `DecodeString` returns: the byte slice and whether the error is nil. -/
structure Decoded where
  data : Bytes
  ok : Bool
  deriving DecidableEq, Repr

/-- The interface `encoder.Provider`. -/
structure encoder.Provider where
  DecodeString : String → Decoded
  EncodeToString : Bytes → String

/-! ## `api/request_csr.go`, `api/request_csr_stamp.go`, `api/request_base.go` -/

/-- Signature types of `model/card_signature_dto.go`. -/
def SelfSignatureType : String := "self"

/-- Signer label of an application stamp. -/
def ApplicationSignatureType : String := "app"

/-- Signer label of the service stamp. -/
def VirgilSignatureType : String := "virgil"

/-- Card versions of `model/card_dto.go`. -/
def CardVersion5 : String := "5.0"

/-- The Card Signing Request message `api.CSR`. -/
structure CSR where
  PublicKey : String := ""
  Identity : String := ""
  PreviousCardID : String := ""
  Version : String := ""
  CreatedAt : Int := 0
  deriving DecidableEq, Repr

/-- The stamp `api.CSRStamp`. -/
structure CSRStamp where
  Signer : String := ""
  Signature : String := ""
  Snapshot : String := ""
  deriving DecidableEq, Repr

/-- `CSRStamp.IsSelf`. -/
def CSRStamp.IsSelf (s : CSRStamp) : Bool := SelfSignatureType == s.Signer

/-- `CSRStamp.IsApplication`. -/
def CSRStamp.IsApplication (s : CSRStamp) : Bool := ApplicationSignatureType == s.Signer

/-- `CSRStamp.IsVirgil`. -/
def CSRStamp.IsVirgil (s : CSRStamp) : Bool := VirgilSignatureType == s.Signer

/-- `api.CardBaseRequest` with its embedded `Headers`. -/
structure CardBaseRequest where
  UserID : String := ""
  ApplicationID : String := ""
  AccountID : String := ""
  CSR : String := ""
  CSRStamps : List CSRStamp := []
  deriving DecidableEq, Repr

/-! ## `app/controller/validator_csr.go` -/

/-- Validation constraint `PublicKeyMinLength`. -/
def PublicKeyMinLength : Nat := 16

/-- Validation constraint `PublicKeyMaxLength`. -/
def PublicKeyMaxLength : Nat := 4096

/-- Validation constraint `IdentityMinLength`. -/
def IdentityMinLength : Nat := 1

/-- Validation constraint `IdentityMaxLength`. -/
def IdentityMaxLength : Nat := 1024

/-- Modelled from the spec: the constant `models.IDLength` of the core kit is
not part of the sources; the spec gives a card id 64 characters. -/
def IDLength : Nat := 64

/-- The object `ParametersStore` of `validator_base.go`. -/
structure ParametersStore where
  publicKey : Bytes := []
  csr : Bytes := []
  extraSnapshot : Bytes := []
  deriving DecidableEq, Repr

/-- The two kinds of error of `json.Unmarshal` that `parseCSR` tells apart: an
`*json.UnmarshalTypeError` (with its `Field`) and anything else. -/
inductive JsonError where
  | UnmarshalTypeError (Field : String)
  | other
  deriving DecidableEq, Repr

/-- The standard library's `json.Unmarshal(data, csr)`: from the bytes and the
CSR object it is given, the CSR object it leaves behind, or an error. -/
abbrev Unmarshal := Bytes → CSR → Except JsonError CSR

/-- CSR field name `CreatedAtFieldName`. -/
def CreatedAtFieldName : String := "created_at"

/-- `CSRValidator.parseCSR`: on success the store with `csr` set and the
decoded CSR object. -/
def parseCSR (encoder : encoder.Provider) (unmarshal : Unmarshal) (csrMsg : String)
    (params : ParametersStore) (csr : CSR) : Except ApiError (ParametersStore × CSR) :=
  let d := encoder.DecodeString csrMsg
  let params := { params with csr := d.data }
  if !d.ok then
    .error .ErrContentSnapshotIsNotABase64EncodedString
  else
    match unmarshal params.csr csr with
    | .error e =>
      match e with
      | .UnmarshalTypeError f =>
        if f = CreatedAtFieldName then .error .ErrCSRCreationTimeIsIncorrect
        else .error .ErrContentSnapshotIsNotAJSONMessage
      | .other => .error .ErrContentSnapshotIsNotAJSONMessage
    | .ok csr => .ok (params, csr)

/-- `CSRValidator.decodeCSRPublicKeyAndCheckMaxLength`. -/
def decodeCSRPublicKeyAndCheckMaxLength (encoder : encoder.Provider) (key : String) :
    Except ApiError Bytes :=
  if key = "" then .ok []
  else
    let d := encoder.DecodeString key
    if !d.ok then .error .ErrCSRPublicKeyDecoding
    else if PublicKeyMaxLength < d.data.length then .error .ErrCSRPublicKeyIsTooLong
    else .ok d.data

/-- `CSRValidator.validateCSRIdentity`. -/
def validateCSRIdentity (identity requestIdentity : String) : Option ApiError :=
  if identity = "" then some .ErrCSRIdentityIsEmpty
  else if IdentityMinLength > len identity ∨ IdentityMaxLength < len identity then
    some .ErrCSRIdentityIsIncorrect
  else if identity ≠ requestIdentity then some .ErrCSRIdentityDoesNotMatchRequestIdentity
  else none

/-- `CSRValidator.validateCSRPreviousCardID`. -/
def validateCSRPreviousCardID (id : String) : Option ApiError :=
  if id = "" then none
  else if IDLength ≠ len id then some .ErrCSRPreviousCardIDIsIncorrect
  else none

/-- `CSRValidator.validateCSRCreatedAt`. -/
def validateCSRCreatedAt (createdAt : Int) : Option ApiError :=
  if 0 ≥ createdAt then some .ErrCSRCreationTimeIsIncorrect else none

/-- `CSRValidator.validateCSRVersion`. -/
def validateCSRVersion (ver : String) : Option ApiError :=
  if CardVersion5 ≠ ver then some .ErrCSRVersionIsIncorrect else none

/-- `CSRValidator.Validate`.  The Go method fills the CSR object behind the
pointer it is given and returns the parameter store; here a successful call
returns both, a failed call returns the error (and no store). -/
def CSRValidator.Validate (encoder : encoder.Provider) (unmarshal : Unmarshal)
    (csrData : String) (csr : CSR) (identity : String) :
    Except ApiError (ParametersStore × CSR) :=
  if csrData = "" then .error .ErrCSRIsEmpty
  else
    match parseCSR encoder unmarshal csrData {} csr with
    | .error e => .error e
    | .ok (params, csr) =>
      match decodeCSRPublicKeyAndCheckMaxLength encoder csr.PublicKey with
      | .error e => .error e
      | .ok key =>
        let params := { params with publicKey := key }
        match validateCSRIdentity csr.Identity identity with
        | some e => .error e
        | none =>
          match validateCSRPreviousCardID csr.PreviousCardID with
          | some e => .error e
          | none =>
            match validateCSRCreatedAt csr.CreatedAt with
            | some e => .error e
            | none =>
              match validateCSRVersion csr.Version with
              | some e => .error e
              | none => .ok (params, csr)

/-! ## `dep/crypto/crypto.go` -/

/-- The reasons for which `Crypto.ValidateVirgilCardSignature` and the signing
methods return a non-nil error. -/
inductive crypto.Error where
  | publicKeyImport
  | privateKeyImport
  | verification
  | signatureIncorrect
  | signing
  deriving DecidableEq, Repr

/-- The interface `crypto.Provider`, for a type `SK` of private keys.  A method
returning only `error` returns `none` for nil. -/
structure crypto.Provider (SK : Type) where
  ValidateVirgilCardSignature : Bytes → Bytes → Bytes → Bytes → Option crypto.Error
  Sign : Bytes → SK → Except crypto.Error Bytes
  CalculateCardID : Bytes → String
  CalculatePublicKeyID : Bytes → String
  SignVirgilCard : Bytes → Bytes → SK → Except crypto.Error Bytes
  ImportPrivateKey : Bytes → String → Except crypto.Error SK

/-- The operations of the native crypto library that the adapter `Crypto`
calls, for types `PK` and `SK` of imported public and private keys. -/
structure NativeCrypto (PK SK : Type) where
  ImportPublicKey : Bytes → Option PK
  Verify : Bytes → Bytes → PK → Option Bool
  Sign : Bytes → SK → Option Bytes
  SignSHA512 : Bytes → SK → Option Bytes
  ImportPrivateKey : Bytes → String → Option SK

/-- The interface `generator.IDProvider`. -/
structure generator.IDProvider where
  VirgilCardID : Bytes → String
  PublicKeyID : Bytes → String

/-- `Crypto.Sign`. -/
def Crypto.Sign {PK SK : Type} (c : NativeCrypto PK SK) (data : Bytes) (privateKey : SK) :
    Except crypto.Error Bytes :=
  match c.Sign data privateKey with
  | some signature => .ok signature
  | none => .error .signing

/-- `Crypto.ImportPrivateKey`. -/
def Crypto.ImportPrivateKey {PK SK : Type} (c : NativeCrypto PK SK) (privateKey : Bytes)
    (password : String) : Except crypto.Error SK :=
  match c.ImportPrivateKey privateKey password with
  | some key => .ok key
  | none => .error .privateKeyImport

/-- `Crypto.SignVirgilCard`. -/
def Crypto.SignVirgilCard {PK SK : Type} (c : NativeCrypto PK SK)
    (csr extraCSR : Bytes) (privateKey : SK) : Except crypto.Error Bytes :=
  match c.SignSHA512 (csr ++ extraCSR) privateKey with
  | some signature => .ok signature
  | none => .error .signing

/-- `Crypto.ValidateVirgilCardSignature`; in `Verify`, `none` is a non-nil
error and `some ok` the verdict. -/
def Crypto.ValidateVirgilCardSignature {PK SK : Type} (c : NativeCrypto PK SK)
    (csr extraCSR publicKey signature : Bytes) : Option crypto.Error :=
  match c.ImportPublicKey publicKey with
  | none => some .publicKeyImport
  | some key =>
    let data := csr ++ extraCSR
    match c.Verify data signature key with
    | none => some .verification
    | some ok => if !ok then some .signatureIncorrect else none

/-! ## `app/controller/validator_csr_stamps.go` -/

/-- Validation constraint `CSRStampsListMinLength`. -/
def CSRStampsListMinLength : Nat := 1

/-- Validation constraint `CSRStampsListMaxLength`. -/
def CSRStampsListMaxLength : Nat := 8

/-- Validation constraint `CSRStampSnapshotMaxLength`. -/
def CSRStampSnapshotMaxLength : Nat := 1024

/-- Validation constraint `CSRStampSignerMaxLength`. -/
def CSRStampSignerMaxLength : Nat := 1024

/-- The arguments of one call of `crypto.Provider.ValidateVirgilCardSignature`. -/
structure VerifyCall where
  csr : Bytes
  extraCSR : Bytes
  publicKey : Bytes
  signature : Bytes
  deriving DecidableEq, Repr

/-- What a run of the stamp validation leaves behind: the returned error, the
parameter store behind the pointer, and the signature verifications it called,
in order. -/
structure StampsOutcome where
  err : Option ApiError
  params : ParametersStore
  calls : List VerifyCall
  deriving DecidableEq, Repr

/-- `CSRStampsValidator.validateCSRStampSnapshot`. -/
def validateCSRStampSnapshot (encoder : encoder.Provider) (snapshot : String) :
    Option ApiError :=
  if snapshot = "" then none
  else
    let d := encoder.DecodeString snapshot
    if !d.ok then some .ErrCSRStampExtraSnapshotDecoding
    else if CSRStampSnapshotMaxLength < d.data.length then
      some .ErrExtraContentSnapshotIsTooLong
    else none

/-- `CSRStampsValidator.validateCSRSigner`. -/
def validateCSRSigner (signerType : String) : Option ApiError :=
  if VirgilSignatureType = signerType then some .ErrCSRStampSignerIsIncorrect
  else if CSRStampSignerMaxLength < len signerType then some .ErrCSRStampSignerIsTooLong
  else if 0 = len signerType then some .ErrCSRStampSignerIsEmpty
  else none

/-- `CSRStampsValidator.validateCSRStampSignature`. -/
def validateCSRStampSignature {SK : Type} (crypto : crypto.Provider SK)
    (encoder : encoder.Provider) (signature snapshot : String)
    (decodeAndValidateSignature : Bool) (csrParams : ParametersStore) : StampsOutcome :=
  if 0 = len signature then ⟨some .ErrCSRStampSignatureIsMissing, csrParams, []⟩
  else
    let sd := encoder.DecodeString signature
    if !sd.ok then ⟨some .ErrSignatureDecoding, csrParams, []⟩
    else if decodeAndValidateSignature then
      if snapshot = "" then
        let csrParams := { csrParams with extraSnapshot := [] }
        let call : VerifyCall :=
          ⟨csrParams.csr, csrParams.extraSnapshot, csrParams.publicKey, sd.data⟩
        match crypto.ValidateVirgilCardSignature csrParams.csr csrParams.extraSnapshot
            csrParams.publicKey sd.data with
        | some _ => ⟨some .ErrSignatureVerificationFailed, csrParams, [call]⟩
        | none => ⟨none, csrParams, [call]⟩
      else
        let xd := encoder.DecodeString snapshot
        let csrParams := { csrParams with extraSnapshot := xd.data }
        if !xd.ok then ⟨some .ErrInternalError, csrParams, []⟩
        else
          let call : VerifyCall :=
            ⟨csrParams.csr, csrParams.extraSnapshot, csrParams.publicKey, sd.data⟩
          match crypto.ValidateVirgilCardSignature csrParams.csr csrParams.extraSnapshot
              csrParams.publicKey sd.data with
          | some _ => ⟨some .ErrSignatureVerificationFailed, csrParams, [call]⟩
          | none => ⟨none, csrParams, [call]⟩
    else ⟨none, csrParams, []⟩

/-- `CSRStampsValidator.validateCSRStamp`. -/
def validateCSRStamp {SK : Type} (crypto : crypto.Provider SK)
    (encoder : encoder.Provider) (csrStamp : CSRStamp) (csrParams : ParametersStore) :
    StampsOutcome :=
  match validateCSRStampSnapshot encoder csrStamp.Snapshot with
  | some e => ⟨some e, csrParams, []⟩
  | none =>
    let r := validateCSRStampSignature crypto encoder csrStamp.Signature csrStamp.Snapshot
      (csrStamp.IsSelf && decide (0 < csrParams.publicKey.length)) csrParams
    match r.err with
    | some _ => r
    | none =>
      match validateCSRSigner csrStamp.Signer with
      | some e => ⟨some e, r.params, r.calls⟩
      | none => ⟨none, r.params, r.calls⟩

/-- The loop of `CSRStampsValidator.Validate` over the stamps still to visit,
with the flag `doesSelfStampExist`, followed by the check after the loop. -/
def validateCSRStampsLoop {SK : Type} (crypto : crypto.Provider SK)
    (encoder : encoder.Provider) :
    List CSRStamp → Bool → ParametersStore → StampsOutcome
  | [], doesSelfStampExist, csrParams =>
    if !doesSelfStampExist then ⟨some .ErrSelfCSRStampIsMissing, csrParams, []⟩
    else ⟨none, csrParams, []⟩
  | csrStamp :: rest, doesSelfStampExist, csrParams =>
    let r := validateCSRStamp crypto encoder csrStamp csrParams
    match r.err with
    | some _ => r
    | none =>
      if csrStamp.IsSelf then
        if doesSelfStampExist then ⟨some .ErrSelfCSRStampMustBeUnique, r.params, r.calls⟩
        else
          let t := validateCSRStampsLoop crypto encoder rest true r.params
          ⟨t.err, t.params, r.calls ++ t.calls⟩
      else
        let t := validateCSRStampsLoop crypto encoder rest doesSelfStampExist r.params
        ⟨t.err, t.params, r.calls ++ t.calls⟩

/-- `CSRStampsValidator.Validate`.  The scope id argument is not used by the
method. -/
def CSRStampsValidator.Validate {SK : Type} (crypto : crypto.Provider SK)
    (encoder : encoder.Provider) (scrStamps : List CSRStamp) (scopeID : String)
    (csrParams : ParametersStore) : StampsOutcome :=
  if CSRStampsListMinLength > scrStamps.length then
    ⟨some .ErrCSRStampsListIsTooSmall, csrParams, []⟩
  else if CSRStampsListMaxLength < scrStamps.length then
    ⟨some .ErrCSRStampsListIsTooLarge, csrParams, []⟩
  else validateCSRStampsLoop crypto encoder scrStamps false csrParams

/-- The extra snapshot bytes a stamp stands for: its decoded snapshot, or the
0-length byte string when it has none. -/
def stampExtra (encoder : encoder.Provider) (s : CSRStamp) : Bytes :=
  if s.Snapshot = "" then [] else (encoder.DecodeString s.Snapshot).data

/-- The signature verification expected for a self stamp: the CSR bytes, the
stamp's extra snapshot, the CSR's public key and the decoded signature. -/
def selfVerifyCall (encoder : encoder.Provider) (s : CSRStamp) (p : ParametersStore) :
    VerifyCall :=
  ⟨p.csr, stampExtra encoder s, p.publicKey, (encoder.DecodeString s.Signature).data⟩

/-! ## `dep/crypto/encoder/hex.go`, `dep/crypto/hasher/sha512.go`, `dep/crypto/generator/id.go` -/

/-- The table `hextable` of Go's `encoding/hex`. -/
def hextable : List Char := "0123456789abcdef".data

/-- Go's `hex.EncodeToString`: two table characters for each byte. -/
def hexEncode : Bytes → List Char
  | [] => []
  | v :: rest => hextable.getD (v.val / 16) '0' :: hextable.getD (v.val % 16) '0' :: hexEncode rest

/-- Go's `fromHexChar`. -/
def fromHexChar (c : Char) : Option Nat :=
  if '0' ≤ c ∧ c ≤ '9' then some (c.toNat - '0'.toNat)
  else if 'a' ≤ c ∧ c ≤ 'f' then some (c.toNat - 'a'.toNat + 10)
  else if 'A' ≤ c ∧ c ≤ 'F' then some (c.toNat - 'A'.toNat + 10)
  else none

/-- Go's `hex.DecodeString`: the bytes decoded before the first invalid
character or the dangling last character, and whether the error is nil. -/
def hexDecode : List Char → Decoded
  | [] => ⟨[], true⟩
  | [_] => ⟨[], false⟩
  | p :: q :: rest =>
    match fromHexChar p, fromHexChar q with
    | some a, some b =>
      let r := hexDecode rest
      ⟨Fin.ofNat (a * 16 + b) :: r.data, r.ok⟩
    | _, _ => ⟨[], false⟩

/-- The encoder `Hex` as an `encoder.Provider`. -/
def encoder.Hex : encoder.Provider where
  DecodeString := fun data => hexDecode data.data
  EncodeToString := fun data => String.mk (hexEncode data)

/-- The encoder `Base64`: both methods hand over to `base64.StdEncoding` of the
standard library, given here as `StdEncoding`. -/
def encoder.Base64 (StdEncoding : encoder.Provider) : encoder.Provider where
  DecodeString := fun data => StdEncoding.DecodeString data
  EncodeToString := fun data => StdEncoding.EncodeToString data

/-- The interface `hasher.Provider`. -/
structure hasher.Provider where
  Hash : Bytes → Bytes

/-- Go's `[64]byte`, the result type of `sha512.Sum512`. -/
abbrev Sum512 := { h : Bytes // h.length = 64 }

/-- `SHA512.Hash`: `sha512.Sum512(data)` as a slice. -/
def hasher.SHA512 (sum512 : Bytes → Sum512) : hasher.Provider where
  Hash := fun data => (sum512 data).val

/-- IDs constant `PublicKeyBytesInID`. -/
def PublicKeyBytesInID : Nat := 8

/-- IDs constant `VirgilCardBytesInID`. -/
def VirgilCardBytesInID : Nat := 32

/-- The Go slice expression `h[:n]` on a slice whose capacity is its length:
`none` is the run-time panic of an out-of-range bound. -/
def sliceTo (h : Bytes) (n : Nat) : Option Bytes :=
  if n ≤ h.length then some (h.take n) else none

/-- `IDGenerator.VirgilCardID`; `none` is a run-time panic. -/
def IDGenerator.VirgilCardID (hasher : hasher.Provider) (encoder : encoder.Provider)
    (snapshot : Bytes) : Option String :=
  let h := hasher.Hash snapshot
  match sliceTo h VirgilCardBytesInID with
  | none => none
  | some data => some (encoder.EncodeToString data)

/-- `IDGenerator.PublicKeyID`; `none` is a run-time panic. -/
def IDGenerator.PublicKeyID (hasher : hasher.Provider) (encoder : encoder.Provider)
    (key : Bytes) : Option String :=
  let h := hasher.Hash key
  match sliceTo h PublicKeyBytesInID with
  | none => none
  | some data => some (encoder.EncodeToString data)

/-! ## `model/card_signature_dto.go`, `model/card_dto.go`, `model/card_signer.go` -/

/-- The signature entry `model.CardSignatureDTO`. -/
structure CardSignatureDTO where
  Signer : String := ""
  Snapshot : String := ""
  Signature : String := ""
  deriving DecidableEq, Repr

/-- `CardSignatureDTO.IsVirgil`. -/
def CardSignatureDTO.IsVirgil (cs : CardSignatureDTO) : Bool := VirgilSignatureType == cs.Signer

/-- `CardSignatureDTO.IsApp`. -/
def CardSignatureDTO.IsApp (cs : CardSignatureDTO) : Bool :=
  ApplicationSignatureType == cs.Signer

/-- The card object `model.CardDTO`. -/
structure CardDTO where
  ID : String := ""
  ContentSnapshot : String := ""
  Identity : String := ""
  PreviousCardID : String := ""
  ApplicationID : String := ""
  Version : String := ""
  ChainID : String := ""
  CreatedAt : Int := 0
  Signatures : List CardSignatureDTO := []
  PublicKey : Bytes := []
  IsSuperseeded : Bool := false
  deriving DecidableEq, Repr

/-- `NewCardDTO`. -/
def NewCardDTO : CardDTO := {}

/-- `CardDTO.AppendSignature`. -/
def CardDTO.AppendSignature (c : CardDTO) (signature : CardSignatureDTO) : CardDTO :=
  { c with Signatures := c.Signatures ++ [signature] }

/-- `CardDTO.SetChainID`. -/
def CardDTO.SetChainID (c : CardDTO) (chainID : String) : CardDTO :=
  { c with ChainID := chainID }

/-- `CardDTO.DoesScopeMatch`. -/
def CardDTO.DoesScopeMatch (c : CardDTO) (scopeID : String) : Bool :=
  scopeID == c.ApplicationID

/-- `CardDTO.GetEncodedPublicKey`, with `base64.StdEncoding` given. -/
def CardDTO.GetEncodedPublicKey (StdEncoding : encoder.Provider) (c : CardDTO) : String :=
  StdEncoding.EncodeToString c.PublicKey

/-- The signer `model.DefaultSigner`. -/
structure DefaultSigner (SK : Type) where
  crypto : crypto.Provider SK
  cards5PrivateKey : SK
  cards5SignerID : String

/-- The two failures of `SignCardByCardsService`. -/
inductive SignerError where
  | snapshotDecode
  | sign
  deriving DecidableEq, Repr

/-- `DefaultSigner.SignCardByCardsService`, with `base64.StdEncoding` given:
the returned error (`none` for nil) and the card behind the pointer. -/
def DefaultSigner.SignCardByCardsService {SK : Type} (StdEncoding : encoder.Provider)
    (cs : DefaultSigner SK) (c : CardDTO) : Option SignerError × CardDTO :=
  let d := StdEncoding.DecodeString c.ContentSnapshot
  if !d.ok then (some .snapshotDecode, c)
  else
    match cs.crypto.SignVirgilCard d.data [] cs.cards5PrivateKey with
    | .error _ => (some .sign, c)
    | .ok signature =>
      (none, c.AppendSignature
        { Signer := VirgilSignatureType, Signature := StdEncoding.EncodeToString signature })

/-! ## `dao/card.go`, `dao/queries.go` -/

/-- Go `map[string]string`, as the list of its entries. -/
abbrev StringMap := List (String × String)

/-- Go map index `m[k]`: the value stored under `k`, or the empty string. -/
def StringMap.get (m : StringMap) (k : String) : String :=
  match m.find? (fun kv => kv.1 == k) with
  | some kv => kv.2
  | none => ""

/-- The custom signature list type `SignatureList`. -/
abbrev SignatureList := List StringMap

/-- `wrapDBSignatureListToDTOs`. -/
def wrapDBSignatureListToDTOs (signatures : SignatureList) : List CardSignatureDTO :=
  signatures.foldl (fun signs signature => signs ++ [{
    Signer := signature.get "signer",
    Signature := signature.get "signature",
    Snapshot := signature.get "snapshot" }]) []

/-- `wrapSignatureDTOsToDBSignatureList`. -/
def wrapSignatureDTOsToDBSignatureList (signatureDTOs : List CardSignatureDTO) :
    SignatureList :=
  signatureDTOs.foldl (fun signatures signature => signatures ++ [[
    ("signer", signature.Signer),
    ("signature", signature.Signature),
    ("snapshot", signature.Snapshot)]]) []

/-- A row of `card_by_card_id` and of `card_by_identity`: the columns of
`InsertFormatFullCardInfo`. -/
structure CardRow where
  id : String
  identity : String
  public_key : String
  content_snapshot : String
  version : String
  application_id : String
  previous_card_id : String
  signatures : SignatureList
  created_at_timestamp : Int
  chain_id : String
  deriving DecidableEq, Repr

/-- A row of `card_previous_ids`. -/
structure PreviousIDRow where
  previous_card_id : String
  application_id : String
  deriving DecidableEq, Repr

/-- A row of `card_chain`; a column never written is null (`none`). -/
structure ChainRow where
  identity : String
  application_id : String
  chain_id : String
  ids : List String
  created_at_timestamp : Option Int
  deleted_at : Option Int
  deriving DecidableEq, Repr

/-- Modelled from the spec: the database behind the gocql session is not part
of the sources.  The four collections of `dao/queries.go`, each a list of rows
with at most one row for a primary key; the primary keys are those the spec
gives: `id` for `card_by_card_id`, `(identity, application_id, id)` for
`card_by_identity`, `(previous_card_id, application_id)` for
`card_previous_ids`, `(identity, application_id, chain_id)` for `card_chain`.
Every statement is carried out at once and never fails. -/
structure Store where
  card_by_card_id : List CardRow := []
  card_by_identity : List CardRow := []
  card_previous_ids : List PreviousIDRow := []
  card_chain : List ChainRow := []
  deriving DecidableEq, Repr

/-- The errors a repository method returns: `cassandra.ErrEntityNotFound`, or
any other error. -/
inductive dao.Error where
  | ErrEntityNotFound
  | other
  deriving DecidableEq, Repr

/-- The query methods of the interface `dao.CardRepositoryProvider` that the
validators and `CardGet` call, for a repository in a given state. -/
structure dao.CardRepositoryProvider where
  GetCardByID : String → Except dao.Error CardDTO
  DoesCardExistByPreviousIDAndScopeID : String → String → Except dao.Error Bool

/-- `CardRepository.GetCardByID`: the query `qGetCardByID` reads seven columns
of the row with the given id, then the public key is decoded. -/
def CardRepository.GetCardByID (StdEncoding : encoder.Provider) (db : Store) (ID : String) :
    Except dao.Error CardDTO :=
  match db.card_by_card_id.find? (fun r => r.id == ID) with
  | none => .error .ErrEntityNotFound
  | some r =>
    let d := StdEncoding.DecodeString r.public_key
    if !d.ok then .error .other
    else .ok {
      ID := r.id,
      ContentSnapshot := r.content_snapshot,
      Identity := r.identity,
      ApplicationID := r.application_id,
      ChainID := r.chain_id,
      PublicKey := d.data,
      Signatures := wrapDBSignatureListToDTOs r.signatures }

/-- `CardRepository.DoesCardExistByPreviousIDAndScopeID`: the query
`qIsPreviousCardIsExists` on `card_previous_ids`. -/
def CardRepository.DoesCardExistByPreviousIDAndScopeID (db : Store)
    (prevID applicationID : String) : Except dao.Error Bool :=
  match db.card_previous_ids.find?
      (fun r => r.previous_card_id == prevID && r.application_id == applicationID) with
  | none => .ok false
  | some r => if r.previous_card_id ≠ "" then .ok true else .ok false

/-- The repository in state `db`, as seen through the interface. -/
def CardRepository.provider (StdEncoding : encoder.Provider) (db : Store) :
    dao.CardRepositoryProvider where
  GetCardByID := CardRepository.GetCardByID StdEncoding db
  DoesCardExistByPreviousIDAndScopeID := CardRepository.DoesCardExistByPreviousIDAndScopeID db

/-- The row written by `qCreateCardInCardPKTable` and
`qCreateCardInIdentityPKTable` for a card. -/
def CardRow.ofCard (StdEncoding : encoder.Provider) (card : CardDTO) : CardRow where
  id := card.ID
  identity := card.Identity
  public_key := card.GetEncodedPublicKey StdEncoding
  content_snapshot := card.ContentSnapshot
  version := card.Version
  application_id := card.ApplicationID
  previous_card_id := card.PreviousCardID
  signatures := wrapSignatureDTOsToDBSignatureList card.Signatures
  created_at_timestamp := card.CreatedAt
  chain_id := card.ChainID

/-- `INSERT INTO card_by_card_id`: the row replaces the row with its id. -/
def insertCardByID (row : CardRow) (t : List CardRow) : List CardRow :=
  row :: t.filter (fun r => r.id != row.id)

/-- `INSERT INTO card_by_identity`: the row replaces the row with its
`(identity, application_id, id)`. -/
def insertCardByIdentity (row : CardRow) (t : List CardRow) : List CardRow :=
  row :: t.filter (fun r =>
    !(r.identity == row.identity && r.application_id == row.application_id && r.id == row.id))

/-- `qUpdatePreviousCardIDs`: insert `(previous_card_id, application_id)`. -/
def insertPreviousID (row : PreviousIDRow) (t : List PreviousIDRow) : List PreviousIDRow :=
  row :: t.filter (fun r => r != row)

/-- Whether a chain row has the given primary key. -/
def ChainRow.hasKey (r : ChainRow) (identity applicationID chainID : String) : Bool :=
  r.identity == identity && r.application_id == applicationID && r.chain_id == chainID

/-- The set update `ids = ids + (id)`. -/
def addID (id : String) (ids : List String) : List String :=
  if id ∈ ids then ids else ids ++ [id]

/-- The statement of `getCreateChainIdentitiesQuery(id)`: an update (creating the
row when there is none) that adds `id` to `ids` and sets `created_at_timestamp`
and `deleted_at = 0`. -/
def createChainIdentities (id : String) (createdAt : Int)
    (identity applicationID chainID : String) (t : List ChainRow) : List ChainRow :=
  match t.find? (fun r => r.hasKey identity applicationID chainID) with
  | none => ⟨identity, applicationID, chainID, [id], some createdAt, some 0⟩ :: t
  | some _ =>
    t.map (fun r =>
      if r.hasKey identity applicationID chainID then
        { r with ids := addID id r.ids, created_at_timestamp := some createdAt,
                 deleted_at := some 0 }
      else r)

/-- The statement of `getUpdateChainIdentitiesQuery(id)`: an update (creating the
row when there is none) that adds `id` to `ids` and nothing else. -/
def updateChainIdentities (id : String)
    (identity applicationID chainID : String) (t : List ChainRow) : List ChainRow :=
  match t.find? (fun r => r.hasKey identity applicationID chainID) with
  | none => ⟨identity, applicationID, chainID, [id], none, none⟩ :: t
  | some _ =>
    t.map (fun r =>
      if r.hasKey identity applicationID chainID then { r with ids := addID id r.ids }
      else r)

/-- `CardRepository.SaveCard`: the statements of the batch, in order. -/
def CardRepository.SaveCard (StdEncoding : encoder.Provider) (db : Store) (card : CardDTO) :
    Store :=
  let row := CardRow.ofCard StdEncoding card
  let db := { db with card_by_card_id := insertCardByID row db.card_by_card_id }
  let db := { db with card_by_identity := insertCardByIdentity row db.card_by_identity }
  let chain :=
    if card.PreviousCardID = "" then
      createChainIdentities card.ID card.CreatedAt card.Identity card.ApplicationID
        card.ChainID db.card_chain
    else
      updateChainIdentities card.ID card.Identity card.ApplicationID card.ChainID
        db.card_chain
  let db := { db with card_chain := chain }
  if card.PreviousCardID ≠ "" then
    let previous :=
      insertPreviousID ⟨card.PreviousCardID, card.ApplicationID⟩ db.card_previous_ids
    { db with card_previous_ids := previous }
  else db

/-- `CardRepository.SetCardChainID`; `newV4` is what `uuid.NewV4()` returns
when it is called (`none` for an error). -/
def CardRepository.SetCardChainID (newV4 : Option String) (db : Store) (card : CardDTO) :
    Except dao.Error CardDTO :=
  if card.PreviousCardID = "" then
    match newV4 with
    | none => .error .other
    | some chainID => .ok (card.SetChainID chainID)
  else
    match db.card_by_card_id.find? (fun r => r.id == card.PreviousCardID) with
    | none => .error .other
    | some r =>
      if r.chain_id = "" then .error .other
      else .ok (card.SetChainID r.chain_id)

/-- What the query `qGetChainDeletedAt` leaves in `deletedAt`: it stays 0 when
no row is scanned or the column is null. -/
def scanChainDeletedAt (db : Store) (identity scopeID chainID : String) : Int :=
  match db.card_chain.find? (fun r => r.hasKey identity scopeID chainID) with
  | none => 0
  | some r => r.deleted_at.getD 0

/-- `CardRepository.IsChainDeleted`. -/
def CardRepository.IsChainDeleted (db : Store) (identity scopeID chainID : String) :
    Except dao.Error Bool :=
  let deletedAt := scanChainDeletedAt db identity scopeID chainID
  .ok (decide (0 < deletedAt))

/-- `CardRepository.SetChainDeleted`: the conditional update `qSetChainDeletedAt`
is applied exactly when the row exists with `deleted_at = 0`; the result is the
applied flag and the store after it. -/
def CardRepository.SetChainDeleted (db : Store) (identity scopeID chainID : String)
    (unixSeconds : Int) : Except dao.Error Bool × Store :=
  match db.card_chain.find? (fun r => r.hasKey identity scopeID chainID) with
  | none => (.ok false, db)
  | some r =>
    if r.deleted_at = some 0 then
      (.ok true, { db with card_chain := db.card_chain.map (fun r =>
        if r.hasKey identity scopeID chainID then { r with deleted_at := some unixSeconds }
        else r) })
    else (.ok false, db)

/-! ## `app/controller/validator_base.go`, `validator_create.go`, `validator_delete.go` -/

/-- What a card validation leaves behind: the returned error (`none` for nil),
the card behind the pointer, and the signature verifications called. -/
structure ValidateOutcome where
  err : Option ApiError
  card : CardDTO
  calls : List VerifyCall
  deriving DecidableEq, Repr

/-- `BaseCardValidator.validatePreviousCardID`. -/
def validatePreviousCardID (cardRepository : dao.CardRepositoryProvider)
    (previousCardID scopeID identity : String) : Option ApiError :=
  if previousCardID = "" then none
  else
    match cardRepository.DoesCardExistByPreviousIDAndScopeID previousCardID scopeID with
    | .error _ => some .ErrInternalError
    | .ok isSuperseeded =>
      if isSuperseeded then some .ErrPreviousVirgilCardExistsAlready
      else
        match cardRepository.GetCardByID previousCardID with
        | .error _ => some .ErrPreviousVirgilCardDoesNotExist
        | .ok card =>
          if scopeID ≠ card.ApplicationID then
            some .ErrPreviousVirgilCardIsRegisteredForAnotherScope
          else if identity ≠ card.Identity then
            some .ErrPreviousVirgilCardIdentityIsIncorrect
          else none

/-- `BaseCardValidator.validateVirgilCardDuplicates`. -/
def validateVirgilCardDuplicates (cardRepository : dao.CardRepositoryProvider)
    (virgilCardID : String) : Option ApiError :=
  match cardRepository.GetCardByID virgilCardID with
  | .ok _ => some .ErrVirgilCardContentSnapshotIsNotUnique
  | .error _ => none

/-- `BaseCardValidator.fillVirgilCardModel`. -/
def fillVirgilCardModel {SK : Type} (crypto : crypto.Provider SK) (card : CardDTO)
    (csr : CSR) (request : CardBaseRequest) (scopeID : String)
    (decodedParams : ParametersStore) : CardDTO :=
  let card := { card with
    ID := crypto.CalculateCardID decodedParams.csr,
    ContentSnapshot := request.CSR,
    PublicKey := decodedParams.publicKey,
    Identity := csr.Identity,
    Version := csr.Version,
    CreatedAt := csr.CreatedAt,
    PreviousCardID := csr.PreviousCardID,
    ApplicationID := scopeID }
  request.CSRStamps.foldl (fun card s => card.AppendSignature {
    Signer := s.Signer,
    Snapshot := s.Snapshot,
    Signature := s.Signature }) card

/-- `BaseCardValidator.Validate`, with the CSR validator and the stamps
validator the container wires in. -/
def BaseCardValidator.Validate {SK : Type} (crypto : crypto.Provider SK)
    (encoder : encoder.Provider) (unmarshal : Unmarshal)
    (cardRepository : dao.CardRepositoryProvider)
    (cardBaseRequest : CardBaseRequest) (virgilCard : CardDTO) (verifySignatures : Bool) :
    ValidateOutcome :=
  match CSRValidator.Validate encoder unmarshal cardBaseRequest.CSR {} cardBaseRequest.UserID with
  | .error e => ⟨some e, virgilCard, []⟩
  | .ok (decodedParams, csr) =>
    let st : StampsOutcome :=
      if verifySignatures then
        CSRStampsValidator.Validate crypto encoder cardBaseRequest.CSRStamps
          cardBaseRequest.ApplicationID decodedParams
      else ⟨none, decodedParams, []⟩
    match st.err with
    | some e => ⟨some e, virgilCard, st.calls⟩
    | none =>
      match validatePreviousCardID cardRepository csr.PreviousCardID
          cardBaseRequest.ApplicationID csr.Identity with
      | some e => ⟨some e, virgilCard, st.calls⟩
      | none =>
        let card := fillVirgilCardModel crypto virgilCard csr cardBaseRequest
          cardBaseRequest.ApplicationID st.params
        match validateVirgilCardDuplicates cardRepository card.ID with
        | some e => ⟨some e, card, st.calls⟩
        | none => ⟨none, card, st.calls⟩

/-- `CreateCardValidator.validateCSRPublicKeyLength`. -/
def CreateCardValidator.validateCSRPublicKeyLength (key : Bytes) : Option ApiError :=
  if PublicKeyMinLength > key.length then some .ErrCSRPublicKeyIsTooShort else none

/-- `CreateCardValidator.Validate`. -/
def CreateCardValidator.Validate {SK : Type} (crypto : crypto.Provider SK)
    (encoder : encoder.Provider) (unmarshal : Unmarshal)
    (cardRepository : dao.CardRepositoryProvider)
    (request : CardBaseRequest) (virgilCard : CardDTO) : ValidateOutcome :=
  let r := BaseCardValidator.Validate crypto encoder unmarshal cardRepository request
    virgilCard true
  match r.err with
  | some _ => r
  | none =>
    match CreateCardValidator.validateCSRPublicKeyLength r.card.PublicKey with
    | some e => ⟨some e, r.card, r.calls⟩
    | none => ⟨none, r.card, r.calls⟩

/-- `DeleteCardValidator.validateCSRPublicKeyLength`. -/
def DeleteCardValidator.validateCSRPublicKeyLength (key : Bytes) : Option ApiError :=
  if key.length > 0 then some .ErrCSRPublicKeyMustBeEmpty else none

/-- `DeleteCardValidator.validateCSRCardIDToDelete`. -/
def DeleteCardValidator.validateCSRCardIDToDelete (previousCardID : String) :
    Option ApiError :=
  if 0 ≥ len previousCardID then some .ErrCSRPrevCardIDMustNotBeEmpty else none

/-- `DeleteCardValidator.Validate`. -/
def DeleteCardValidator.Validate {SK : Type} (crypto : crypto.Provider SK)
    (encoder : encoder.Provider) (unmarshal : Unmarshal)
    (cardRepository : dao.CardRepositoryProvider)
    (request : CardBaseRequest) (virgilCard : CardDTO) : ValidateOutcome :=
  let r := BaseCardValidator.Validate crypto encoder unmarshal cardRepository request
    virgilCard false
  match r.err with
  | some _ => r
  | none =>
    match DeleteCardValidator.validateCSRPublicKeyLength r.card.PublicKey with
    | some e => ⟨some e, r.card, r.calls⟩
    | none =>
      match DeleteCardValidator.validateCSRCardIDToDelete r.card.PreviousCardID with
      | some e => ⟨some e, r.card, r.calls⟩
      | none => ⟨none, r.card, r.calls⟩

/-! ## `app/controller/controller.go` -/

/-- The collaborators the container hands to the controller and its
validators: `base64.StdEncoding` and `json.Unmarshal` of the standard library,
the crypto provider, and the service key of the card signer.  The validators
get the encoder `Base64`. -/
structure Wiring (SK : Type) where
  StdEncoding : encoder.Provider
  unmarshal : Unmarshal
  crypto : crypto.Provider SK
  cards5PrivateKey : SK
  cards5SignerID : String

/-- The card signer of the wiring. -/
def Wiring.cardSigner {SK : Type} (w : Wiring SK) : DefaultSigner SK :=
  ⟨w.crypto, w.cards5PrivateKey, w.cards5SignerID⟩

/-- `Controller.CardCreate` on the store `db`: the card or the error
returned, and the store afterwards.  `newV4` is the result of `uuid.NewV4()`. -/
def Controller.CardCreate {SK : Type} (w : Wiring SK) (newV4 : Option String) (db : Store)
    (request : CardBaseRequest) : Except ApiError CardDTO × Store :=
  let v := CreateCardValidator.Validate w.crypto (encoder.Base64 w.StdEncoding) w.unmarshal
    (CardRepository.provider w.StdEncoding db) request NewCardDTO
  match v.err with
  | some e => (.error e, db)
  | none =>
    let virgilCard := v.card
    if request.UserID = "" then (.error .ErrIdentityHeaderNotSet, db)
    else
      match CardRepository.SetCardChainID newV4 db virgilCard with
      | .error _ => (.error .ErrInternalError, db)
      | .ok virgilCard =>
        let deleted : Except dao.Error Bool :=
          if virgilCard.PreviousCardID ≠ "" then
            CardRepository.IsChainDeleted db request.UserID request.ApplicationID
              virgilCard.ChainID
          else .ok false
        match deleted with
        | .error _ => (.error .ErrInternalError, db)
        | .ok true => (.error .ErrChainAlreadyDeleted, db)
        | .ok false =>
          match w.cardSigner.SignCardByCardsService w.StdEncoding virgilCard with
          | (some _, _) => (.error .ErrInternalError, db)
          | (none, virgilCard) =>
            (.ok virgilCard, CardRepository.SaveCard w.StdEncoding db virgilCard)

/-- What `Controller.CardGet` returns as error: an API error, or the
repository's error handed on as it is. -/
inductive CardGetError where
  | api (e : ApiError)
  | repository (e : dao.Error)
  deriving DecidableEq, Repr

/-- `Controller.CardGet`. -/
def Controller.CardGet (cardRepository : dao.CardRepositoryProvider)
    (request : CardBaseRequest) (cardID : String) : Except CardGetError CardDTO :=
  match cardRepository.GetCardByID cardID with
  | .error .ErrEntityNotFound => .error (.api .ErrNotFound)
  | .error _ => .error (.api .ErrInternalError)
  | .ok card =>
    if !card.DoesScopeMatch request.ApplicationID then
      .error (.api .ErrVirgilCardApplicationIDIsNotInTheAuthApplicationList)
    else
      match cardRepository.DoesCardExistByPreviousIDAndScopeID card.ID card.ApplicationID with
      | .error e => .error (.repository e)
      | .ok b => .ok { card with IsSuperseeded := b }

/-- `Controller.CardDelete` on the store `db`: the card or the error
returned, and the store afterwards.  `now` is `time.Now().Unix()`. -/
def Controller.CardDelete {SK : Type} (w : Wiring SK) (newV4 : Option String) (now : Int)
    (db : Store) (request : CardBaseRequest) : Except ApiError CardDTO × Store :=
  if request.UserID = "" then (.error .ErrIdentityHeaderNotSet, db)
  else
    let v := DeleteCardValidator.Validate w.crypto (encoder.Base64 w.StdEncoding) w.unmarshal
      (CardRepository.provider w.StdEncoding db) request NewCardDTO
    match v.err with
    | some e => (.error e, db)
    | none =>
      match CardRepository.SetCardChainID newV4 db v.card with
      | .error _ => (.error .ErrInternalError, db)
      | .ok virgilCard =>
        match w.cardSigner.SignCardByCardsService w.StdEncoding virgilCard with
        | (some _, _) => (.error .ErrInternalError, db)
        | (none, virgilCard) =>
          match CardRepository.SetChainDeleted db request.UserID request.ApplicationID
              virgilCard.ChainID now with
          | (.error _, db) => (.error .ErrInternalError, db)
          | (.ok false, db) => (.error .ErrChainAlreadyDeleted, db)
          | (.ok true, db) =>
            (.ok virgilCard, CardRepository.SaveCard w.StdEncoding db virgilCard)

/-! ## The container's wiring of the crypto adapter (`cfg/di`) -/

/-- `NewID`: the ID generator behind the interface `generator.IDProvider`.  A
call that panics is given the empty id. -/
def generator.NewID (hasher : hasher.Provider) (encoder : encoder.Provider) :
    generator.IDProvider where
  VirgilCardID := fun snapshot => (IDGenerator.VirgilCardID hasher encoder snapshot).getD ""
  PublicKeyID := fun key => (IDGenerator.PublicKeyID hasher encoder key).getD ""

/-- `NewCrypto`: the adapter `Crypto` behind the interface `crypto.Provider`. -/
def NewCrypto {PK SK : Type} (c : NativeCrypto PK SK) (idGenerator : generator.IDProvider) :
    crypto.Provider SK where
  ValidateVirgilCardSignature := Crypto.ValidateVirgilCardSignature c
  Sign := Crypto.Sign c
  CalculateCardID := fun snapshot => idGenerator.VirgilCardID snapshot
  CalculatePublicKeyID := fun key => idGenerator.PublicKeyID key
  SignVirgilCard := Crypto.SignVirgilCard c
  ImportPrivateKey := Crypto.ImportPrivateKey c

/-! ## A small instance of the collaborators, for concrete runs -/

/-- A stand-in for the native crypto library: keys are byte strings, the
signature of `data` under `key` is `key ++ data`, and a key pair has the same
bytes on both sides. -/
def Example.native : NativeCrypto Bytes Bytes where
  ImportPublicKey := fun k => if k.length = 0 then none else some k
  Verify := fun data signature key => some (decide (signature = key ++ data))
  Sign := fun data key => some (key ++ data)
  SignSHA512 := fun data key => some (key ++ data)
  ImportPrivateKey := fun k _ => some k

/-- A stand-in for `sha512.Sum512`: the data, zero-padded or cut to 64 bytes. -/
def Example.sum512 (data : Bytes) : Sum512 :=
  ⟨(data ++ List.replicate 64 0).take 64, by simp⟩

/-- A key of sixteen bytes. -/
def Example.key : Bytes := List.replicate 16 7

/-- The id the example generator gives the card with snapshot bytes `[1]`. -/
def Example.rootID : String :=
  "0100000000000000000000000000000000000000000000000000000000000000"

/-- A stand-in for `json.Unmarshal` that knows three messages: a root card of
alice, its successor, and the tombstone request for the root card. -/
def Example.unmarshal : Unmarshal := fun data csr =>
  if data = [1] then
    .ok { csr with PublicKey := "07070707070707070707070707070707", Identity := "alice",
                   Version := "5.0", CreatedAt := 1700000000 }
  else if data = [2] then
    .ok { csr with PublicKey := "07070707070707070707070707070707", Identity := "alice",
                   Version := "5.0", CreatedAt := 1700000100,
                   PreviousCardID := Example.rootID }
  else if data = [3] then
    .ok { csr with Identity := "alice", Version := "5.0", CreatedAt := 1700000200,
                   PreviousCardID := Example.rootID }
  else .error .other

/-- The example wiring; the encoder `Hex` stands in for `base64.StdEncoding`. -/
def Example.wiring : Wiring Bytes where
  StdEncoding := encoder.Hex
  unmarshal := Example.unmarshal
  crypto := NewCrypto Example.native
    (generator.NewID (hasher.SHA512 Example.sum512) encoder.Hex)
  cards5PrivateKey := [9]
  cards5SignerID := "service"

/-- The self stamp of the example root card: the signature is the key followed
by the snapshot bytes `[1]`. -/
def Example.selfStamp : CSRStamp :=
  { Signer := "self", Signature := "0707070707070707070707070707070701" }

/-- An application stamp. -/
def Example.appStamp : CSRStamp :=
  { Signer := "app", Signature := "aa" }

/-- The create request for the example root card. -/
def Example.createRoot : CardBaseRequest :=
  { UserID := "alice", ApplicationID := "S1", CSR := "01",
    CSRStamps := [Example.selfStamp, Example.appStamp] }

/-- The create request for the successor of the example root card. -/
def Example.createNext : CardBaseRequest :=
  { UserID := "alice", ApplicationID := "S1", CSR := "02",
    CSRStamps := [{ Signer := "self", Signature := "0707070707070707070707070707070702" }] }

/-- The delete request for the chain of the example root card. -/
def Example.deleteRoot : CardBaseRequest :=
  { UserID := "alice", ApplicationID := "S1", CSR := "03", CSRStamps := [] }


/-- The signature entry a stamp is converted to by `fillVirgilCardModel`. -/
def CSRStamp.toDTO (s : CSRStamp) : CardSignatureDTO :=
  { Signer := s.Signer, Snapshot := s.Snapshot, Signature := s.Signature }

/-- The stamp validation step of `BaseCardValidator.Validate`. -/
def baseStamps {SK : Type} (crypto : crypto.Provider SK) (encoder : encoder.Provider)
    (request : CardBaseRequest) (verifySignatures : Bool) (p : ParametersStore) :
    StampsOutcome :=
  if verifySignatures then
    CSRStampsValidator.Validate crypto encoder request.CSRStamps request.ApplicationID p
  else ⟨none, p, []⟩

/-- The stores the service passes through: the empty store, and the store left
by any `CardCreate` or `CardDelete` call (each carried out at once) on such a
store. -/
inductive Reachable {SK : Type} (w : Wiring SK) : Store → Prop where
  | empty : Reachable w {}
  | create (db : Store) (newV4 : Option String) (request : CardBaseRequest) :
      Reachable w db → Reachable w (Controller.CardCreate w newV4 db request).2
  | delete (db : Store) (newV4 : Option String) (now : Int) (request : CardBaseRequest) :
      Reachable w db → Reachable w (Controller.CardDelete w newV4 now db request).2

/-- The round trip law of an encoding: decoding what it encoded gives the
bytes back, with no error. -/
def RoundTrips (e : encoder.Provider) : Prop :=
  ∀ b : Bytes, e.DecodeString (e.EncodeToString b) = ⟨b, true⟩

/-- A card row claims `(p, a)` as its predecessor and scope. -/
def CardRow.claims (r : CardRow) (p a : String) : Bool :=
  r.previous_card_id == p && r.application_id == a

/-- Every card row of the table `t` that names a predecessor has its
`(previous_card_id, application_id)` pair among the rows `ps` of
`card_previous_ids`. -/
def Indexed (t : List CardRow) (ps : List PreviousIDRow) : Prop :=
  ∀ r ∈ t, r.previous_card_id ≠ "" →
    (⟨r.previous_card_id, r.application_id⟩ : PreviousIDRow) ∈ ps

/-- The single-successor property of a table of card rows: for a non-empty card
id `p` and a scope `a`, at most one row has `previous_card_id = p` and
`application_id = a`. -/
def SingleSuccessor (t : List CardRow) : Prop :=
  ∀ p a : String, p ≠ "" → (t.filter (fun r => r.claims p a)).length ≤ 1

/-- Every row of `card_previous_ids` is backed by a stored card that names
that predecessor in that scope. -/
def Backed (db : Store) : Prop :=
  ∀ q ∈ db.card_previous_ids,
    ∃ r ∈ db.card_by_card_id,
      r.previous_card_id = q.previous_card_id ∧ r.application_id = q.application_id

/-- Every stored public key column is the encoding of some byte string. -/
def KeysEncoded (std : encoder.Provider) (db : Store) : Prop :=
  ∀ r ∈ db.card_by_card_id, ∃ b : Bytes, r.public_key = std.EncodeToString b

/-- The card a request stands for, in the words of the specification: the id is
derived from the decoded snapshot, the snapshot is kept verbatim, the key is
the decoded public key, identity, version, creation time and previous card id
are the fields of the CSR `json.Unmarshal` reads from the decoded snapshot, the
application id is the request scope, and the signatures are the request's
stamps in order. -/
def IsCardOfRequest {SK : Type} (crypto : crypto.Provider SK) (encoder : encoder.Provider)
    (unmarshal : Unmarshal) (request : CardBaseRequest) (card : CardDTO) : Prop :=
  ∃ csr : CSR,
    unmarshal (encoder.DecodeString request.CSR).data {} = .ok csr ∧
    card.ID = crypto.CalculateCardID (encoder.DecodeString request.CSR).data ∧
    card.ContentSnapshot = request.CSR ∧
    card.PublicKey =
      (if csr.PublicKey = "" then [] else (encoder.DecodeString csr.PublicKey).data) ∧
    card.Identity = csr.Identity ∧
    card.Version = csr.Version ∧
    card.CreatedAt = csr.CreatedAt ∧
    card.PreviousCardID = csr.PreviousCardID ∧
    card.ApplicationID = request.ApplicationID ∧
    card.Signatures.length = request.CSRStamps.length ∧
    ∀ (i : Nat) (h1 : i < card.Signatures.length) (h2 : i < request.CSRStamps.length),
      (card.Signatures.get ⟨i, h1⟩).Signer = (request.CSRStamps.get ⟨i, h2⟩).Signer ∧
      (card.Signatures.get ⟨i, h1⟩).Signature = (request.CSRStamps.get ⟨i, h2⟩).Signature ∧
      (card.Signatures.get ⟨i, h1⟩).Snapshot = (request.CSRStamps.get ⟨i, h2⟩).Snapshot

/-! ## `api/request_search.go`, `app/controller/validator_search.go` -/

/-- The search request `api.CardSearchRequest` with its embedded `Headers`. -/
structure CardSearchRequest where
  UserID : String := ""
  ApplicationID : String := ""
  AccountID : String := ""
  Identity : String := ""
  Identities : List String := []
  deriving DecidableEq, Repr

/-- `CardSearchRequest.GetIdentities`. -/
def CardSearchRequest.GetIdentities (r : CardSearchRequest) : List String :=
  let identities : List String := []
  if r.Identity ≠ "" then identities ++ [r.Identity]
  else if r.Identities.length > 0 then identities ++ r.Identities
  else identities

/-- Validation constraint `searchIdentitiesLimit`. -/
def searchIdentitiesLimit : Nat := 50

/-- `SearchCardValidator.Validate`. -/
def SearchCardValidator.Validate (cardSearchRequest : CardSearchRequest) : Option ApiError :=
  let identitiesCount := cardSearchRequest.GetIdentities.length
  if identitiesCount = 0 then some .ErrIdentitySearchTermCannotBeEmpty
  else if searchIdentitiesLimit < identitiesCount then
    some (.ErrIdentitySearchCountIsLimited searchIdentitiesLimit)
  else none

/-! ## `dao/queries.go`: the search statements -/

/-- The character that opens and closes a string literal of the query language. -/
def quote : Char := '\''

/-- Go's `strings.Replace(s, "'", "''", -1)` on the characters of `s`. -/
def replaceQuotes : List Char → List Char
  | [] => []
  | c :: rest => if c = quote then quote :: quote :: replaceQuotes rest
                 else c :: replaceQuotes rest

/-- The loop of `joinCqlEscapedStrings` over the elements still to visit, with
the index `i` and the string `joined` so far. -/
def joinCqlEscapedStringsLoop (separator : String) : List String → Nat → String → String
  | [], _, joined => joined
  | stringElement :: rest, i, joined =>
    let joined := if i > 0 then joined ++ separator else joined
    let joined := joined ++ String.mk (replaceQuotes stringElement.data)
    joinCqlEscapedStringsLoop separator rest (i + 1) joined

/-- `joinCqlEscapedStrings`. -/
def joinCqlEscapedStrings (literals : List String) (separator : String) : String :=
  joinCqlEscapedStringsLoop separator literals 0 ""

/-- The text of `getSearchByCardsIDs` up to the opening bracket of the list. -/
def qSelectCardsByIDsHead : String :=
  "\n\tSELECT\n\t\tcontent_snapshot,\n\t\tsignatures\n\tFROM\n\t\tcard_by_card_id\n\tWHERE" ++
    " id IN ("

/-- `getSearchByCardsIDs`. -/
def getSearchByCardsIDs (ids : List String) : String :=
  qSelectCardsByIDsHead ++ "'" ++ joinCqlEscapedStrings ids "', '" ++ "')"

/-- The text of `getSearchCardIDsByMultipleIdentitiesQuery` up to the opening
bracket of the list. -/
def qSelectCardIDsForSetOfIdentitiesAndAppIDHead : String :=
  "\n\tSELECT\n\t\tdeleted_at, \n\t\tids\n\tFROM\n\t\tcard_chain\n\tWHERE" ++
    " application_id = ?" ++ " AND identity IN ("

/-- `getSearchCardIDsByMultipleIdentitiesQuery`. -/
def getSearchCardIDsByMultipleIdentitiesQuery (identities : List String) : String :=
  qSelectCardIDsForSetOfIdentitiesAndAppIDHead ++ "'" ++
    joinCqlEscapedStrings identities "', '" ++ "')"

/-! ## How the database reads the list of an `IN (...)` clause -/

/-- Modelled from the spec: the query language of the database is not part of
the sources.  The rest of a string literal after its opening quote: two quotes
in a row stand for one quote character, a single quote ends the literal.  The
result is the characters of the literal and the text after it; `none` for a
literal that is never closed. -/
def readLiteral : List Char → List Char → Option (List Char × List Char)
  | [], _ => none
  | c :: rest, acc =>
    if c = quote then
      match rest with
      | [] => some (acc, [])
      | d :: rest2 =>
        if d = quote then readLiteral rest2 (acc ++ [quote])
        else some (acc, d :: rest2)
    else readLiteral rest (acc ++ [c])

/-- Blanks between the tokens of a statement are skipped. -/
def skipBlanks : List Char → List Char
  | [] => []
  | c :: rest => if c = ' ' then skipBlanks rest else c :: rest

/-- Modelled from the spec: the list of an `IN (...)` clause, read from the text
after the opening bracket: string literals separated by commas, up to the
closing bracket that ends the statement.  `none` is a syntax error. -/
def readInList : Nat → List Char → Option (List String)
  | 0, _ => none
  | fuel + 1, text =>
    match skipBlanks text with
    | [] => none
    | c :: rest =>
      if c = quote then
        match readLiteral rest [] with
        | none => none
        | some (s, after) =>
          match skipBlanks after with
          | [] => none
          | d :: rest2 =>
            if d = ')' then
              if skipBlanks rest2 = [] then some [String.mk s] else none
            else if d = ',' then
              match readInList fuel rest2 with
              | none => none
              | some l => some (String.mk s :: l)
            else none
      else none

/-- The text of a statement after a given head; `none` if the statement does
not start with the head. -/
def dropHead : List Char → List Char → Option (List Char)
  | [], text => some text
  | _ :: _, [] => none
  | h :: head, c :: text => if h = c then dropHead head text else none

/-- Modelled from the spec: the list the database reads from the `IN (...)`
clause that ends a statement with the given head. -/
def cqlInList (head statement : String) : Option (List String) :=
  match dropHead head.data statement.data with
  | none => none
  | some text => readInList (text.length + 1) text

/-- The lengths of the maximal runs of quote characters of a text, continuing a
run of `run` quotes. -/
def quoteRuns : Nat → List Char → List Nat
  | run, [] => if run > 0 then [run] else []
  | run, c :: rest =>
    if c = quote then quoteRuns (run + 1) rest
    else (if run > 0 then [run] else []) ++ quoteRuns 0 rest

/-- Replacing each doubled quote by one quote, from left to right. -/
def unescapeQuotes : List Char → List Char
  | [] => []
  | [c] => [c]
  | c :: d :: rest =>
    if c = quote ∧ d = quote then quote :: unescapeQuotes rest
    else c :: unescapeQuotes (d :: rest)

/-- The text that follows the first escaped literal of an `IN (...)` clause
built with the separator `', '`: the further literals and the closing quote and
bracket. -/
def inListTail : List String → List Char
  | [] => [quote, ')']
  | y :: rest => quote :: ',' :: ' ' :: quote :: (replaceQuotes y.data ++ inListTail rest)

/-! ## Properties of the chain table kept by the service -/

/-- The common shape of the two chain statements of `SaveCard`: when no row has
the key the row `newRow` is created, otherwise every row with the key is
changed by `f`. -/
def upsertChain (newRow : ChainRow) (f : ChainRow → ChainRow)
    (identity applicationID chainID : String) (t : List ChainRow) : List ChainRow :=
  match t.find? (fun r => r.hasKey identity applicationID chainID) with
  | none => newRow :: t
  | some _ => t.map (fun r => if r.hasKey identity applicationID chainID then f r else r)

/-- The row `newRow` and the change `f` add the card id `id` to the chain with
the given key and leave the key alone. -/
structure AddsID (id identity applicationID chainID : String) (newRow : ChainRow)
    (f : ChainRow → ChainRow) : Prop where
  new_identity : newRow.identity = identity
  new_application_id : newRow.application_id = applicationID
  new_chain_id : newRow.chain_id = chainID
  new_ids : newRow.ids = [id]
  identity_eq : ∀ r, (f r).identity = r.identity
  application_id_eq : ∀ r, (f r).application_id = r.application_id
  chain_id_eq : ∀ r, (f r).chain_id = r.chain_id
  ids_eq : ∀ r, (f r).ids = addID id r.ids

/-- The properties of the card table `T` and the chain table `C` that every
store of the service has: card ids and chain keys are unique, the ids of a
chain row are the ids of the stored cards with the key of that row, and a card
that names a predecessor has the chain, identity and scope of that
predecessor, and no chain row has an empty identity. -/
structure ChainInv (T : List CardRow) (C : List ChainRow) : Prop where
  unique_ids : ∀ r ∈ T, T.find? (fun x => x.id == r.id) = some r
  unique_keys : ∀ R ∈ C,
    C.find? (fun x => x.hasKey R.identity R.application_id R.chain_id) = some R
  ids_stored : ∀ R ∈ C, ∀ id ∈ R.ids, ∃ r ∈ T, r.id = id
  ids_key : ∀ R ∈ C, ∀ r ∈ T, r.id ∈ R.ids →
    R.hasKey r.identity r.application_id r.chain_id = true
  card_in_chain : ∀ r ∈ T, ∃ R ∈ C,
    R.hasKey r.identity r.application_id r.chain_id = true ∧ r.id ∈ R.ids
  predecessor : ∀ r ∈ T, r.previous_card_id ≠ "" →
    ∃ p ∈ T, p.id = r.previous_card_id ∧ p.chain_id = r.chain_id ∧
      p.identity = r.identity ∧ p.application_id = r.application_id
  chain_identity : ∀ R ∈ C, R.identity ≠ ""

/-- What is known of the card that a successful `CardCreate` or `CardDelete`
for `request` on the store `db` hands to `SaveCard`. -/
structure Accepted {SK : Type} (w : Wiring SK) (db : Store) (request : CardBaseRequest)
    (card : CardDTO) : Prop where
  user : request.UserID ≠ ""
  csr : ∃ csr : CSR,
    w.unmarshal ((encoder.Base64 w.StdEncoding).DecodeString request.CSR).data {} = .ok csr ∧
    card.PreviousCardID = csr.PreviousCardID
  id : card.ID =
    w.crypto.CalculateCardID ((encoder.Base64 w.StdEncoding).DecodeString request.CSR).data
  identity : card.Identity = request.UserID
  application_id : card.ApplicationID = request.ApplicationID
  previous : validatePreviousCardID (CardRepository.provider w.StdEncoding db)
    card.PreviousCardID card.ApplicationID card.Identity = none
  duplicates : validateVirgilCardDuplicates (CardRepository.provider w.StdEncoding db)
    card.ID = none
  chain : card.PreviousCardID ≠ "" →
    ∃ p, db.card_by_card_id.find? (fun r => r.id == card.PreviousCardID) = some p ∧
      p.chain_id ≠ "" ∧ card.ChainID = p.chain_id

/-! ## `dao/card.go`: `SearchCardsByIdentities`; `Controller.CardSearch` -/

/-- Modelled from the spec: the rows the database returns for the statement of
`getSearchCardIDsByMultipleIdentitiesQuery` with the scope bound to its
placeholder: the rows of `card_chain` with that `application_id` whose identity
is one of the literals of the `IN (...)` list; `none` for a statement that
cannot be read. -/
def selectChainsByIdentities (db : Store) (statement scopeID : String) :
    Option (List ChainRow) :=
  match cqlInList qSelectCardIDsForSetOfIdentitiesAndAppIDHead statement with
  | none => none
  | some identities =>
    some (db.card_chain.filter (fun r =>
      r.application_id == scopeID && identities.contains r.identity))

/-- Modelled from the spec: the rows the database returns for the statement of
`getSearchByCardsIDs`: the rows of `card_by_card_id` whose id is one of the
literals of the `IN (...)` list; `none` for a statement that cannot be read. -/
def selectCardsByIDs (db : Store) (statement : String) : Option (List CardRow) :=
  match cqlInList qSelectCardsByIDsHead statement with
  | none => none
  | some ids => some (db.card_by_card_id.filter (fun r => ids.contains r.id))

/-- The loop of `SearchCardsByIdentities` over the scanned chain rows: a null
`deleted_at` is scanned as 0, and the ids of a row are appended when
`0 >= deletedAt`. -/
def collectCardIDs : List ChainRow → List String → List String
  | [], cardIDs => cardIDs
  | row :: rest, cardIDs =>
    let deletedAt := row.deleted_at.getD 0
    if 0 ≥ deletedAt then collectCardIDs rest (cardIDs ++ row.ids)
    else collectCardIDs rest cardIDs

/-- The card built from a scanned row of the second statement of
`SearchCardsByIdentities`. -/
def searchCard (r : CardRow) : CardDTO :=
  { ContentSnapshot := r.content_snapshot,
    Signatures := wrapDBSignatureListToDTOs r.signatures }

/-- What `SearchCardsByIdentities` leaves behind: its result and the statements
it sent to the database, in order. -/
structure SearchOutcome where
  result : Except dao.Error (List CardDTO)
  statements : List String

/-- `CardRepository.SearchCardsByIdentities`. -/
def CardRepository.SearchCardsByIdentities (db : Store) (identities : List String)
    (scopeID : String) : SearchOutcome :=
  let chains := getSearchCardIDsByMultipleIdentitiesQuery identities
  match selectChainsByIdentities db chains scopeID with
  | none => ⟨.error .other, [chains]⟩
  | some rows =>
    let cardIDs := collectCardIDs rows []
    if 0 = cardIDs.length then ⟨.ok [], [chains]⟩
    else
      let byIDs := getSearchByCardsIDs cardIDs
      match selectCardsByIDs db byIDs with
      | none => ⟨.error .other, [chains, byIDs]⟩
      | some cardRows => ⟨.ok (cardRows.map searchCard), [chains, byIDs]⟩

/-- `Controller.CardSearch` on the store `db`. -/
def Controller.CardSearch (db : Store) (request : CardSearchRequest) :
    Except ApiError (List CardDTO) :=
  match SearchCardValidator.Validate request with
  | some e => .error e
  | none =>
    match (CardRepository.SearchCardsByIdentities db request.GetIdentities
        request.ApplicationID).result with
    | .error _ => .error .ErrInternalError
    | .ok virgilCards => .ok virgilCards

/-- A chain row that a search for `identities` in the scope `scopeID` takes
ids from: it has that scope, one of the identities, and a `deleted_at` that is
not positive. -/
def ChainRow.isLiveFor (R : ChainRow) (identities : List String) (scopeID : String) : Prop :=
  R.application_id = scopeID ∧ R.identity ∈ identities ∧ ¬ 0 < R.deleted_at.getD 0

/-- The example store after the root card was created. -/
def Example.oneCard : Store :=
  (Controller.CardCreate Example.wiring (some "chain-1") {} Example.createRoot).2

/-- The example store after the root card and its successor were created. -/
def Example.twoCards : Store :=
  (Controller.CardCreate Example.wiring (some "chain-2") Example.oneCard Example.createNext).2

/-- The stored row of the example root card. -/
def Example.rootRow : CardRow where
  id := Example.rootID
  identity := "alice"
  public_key := "07070707070707070707070707070707"
  content_snapshot := "01"
  version := "5.0"
  application_id := "S1"
  previous_card_id := ""
  signatures := [[("signer", "self"), ("signature", "0707070707070707070707070707070701"),
      ("snapshot", "")],
    [("signer", "app"), ("signature", "aa"), ("snapshot", "")],
    [("signer", "virgil"), ("signature", "0901"), ("snapshot", "")]]
  created_at_timestamp := 1700000000
  chain_id := "chain-1"

/-- The claim that a search returns only the latest card of each live chain, in
the words of the specification: a stored card of a requested identity and the
scope, in a chain that is not deleted, that has been superseded (a stored card
names it as predecessor in its scope) is not among the cards returned. -/
def SearchReturnsOnlyLatest (db : Store) (identities : List String) (scopeID : String) :
    Prop :=
  ∀ cards, (CardRepository.SearchCardsByIdentities db identities scopeID).result = .ok cards →
    ∀ r ∈ db.card_by_card_id, r.identity ∈ identities → r.application_id = scopeID →
      CardRepository.IsChainDeleted db r.identity r.application_id r.chain_id = .ok false →
      (∃ r2 ∈ db.card_by_card_id,
        r2.previous_card_id = r.id ∧ r2.application_id = r.application_id) →
      searchCard r ∉ cards

/-- The example store after the root card was created and its chain deleted at
second 99. -/
def Example.deletedChain : Store :=
  (Controller.CardDelete Example.wiring none 99 Example.oneCard Example.deleteRoot).2

/-- The chain row of the example chain after its deletion at second 99. -/
def Example.deletedChainRow : ChainRow where
  identity := "alice"
  application_id := "S1"
  chain_id := "chain-1"
  ids := [Example.rootID, "0300000000000000000000000000000000000000000000000000000000000000"]
  created_at_timestamp := some 1700000000
  deleted_at := some 99

/-! ## Runs of the service with fresh chain ids -/

/-- One call of the service that takes the store `db` to the second store,
where a value that `uuid.NewV4` returns to `CardCreate` is not the chain id of
a row of `card_chain` (the library hands out fresh ids). -/
inductive FreshStep {SK : Type} (w : Wiring SK) : Store → Store → Prop where
  | create (db : Store) (newV4 : Option String) (request : CardBaseRequest) :
      (∀ v, newV4 = some v → ∀ R ∈ db.card_chain, R.chain_id ≠ v) →
      FreshStep w db (Controller.CardCreate w newV4 db request).2
  | delete (db : Store) (newV4 : Option String) (now : Int) (request : CardBaseRequest) :
      FreshStep w db (Controller.CardDelete w newV4 now db request).2

/-- Any sequence of such calls, from the first store to the second. -/
inductive FreshRun {SK : Type} (w : Wiring SK) : Store → Store → Prop where
  | refl (db : Store) : FreshRun w db db
  | step (db db2 db3 : Store) : FreshRun w db db2 → FreshStep w db2 db3 → FreshRun w db db3

/-- The id the example generator gives the tombstone card of the example chain. -/
def Example.tombstoneID : String :=
  "0300000000000000000000000000000000000000000000000000000000000000"

/-- A stand-in for `json.Unmarshal` that knows two more messages: a delete
request that names the tombstone card of the example chain as predecessor, and
a second root card of alice. -/
def Example.unmarshalMore : Unmarshal := fun data csr =>
  if data = [4] then
    .ok { csr with Identity := "alice", Version := "5.0", CreatedAt := 1700000300,
                   PreviousCardID := Example.tombstoneID }
  else if data = [5] then
    .ok { csr with PublicKey := "07070707070707070707070707070707", Identity := "alice",
                   Version := "5.0", CreatedAt := 1700000400 }
  else Example.unmarshal data csr

/-- The example wiring with the larger stand-in for `json.Unmarshal`. -/
def Example.wiringMore : Wiring Bytes :=
  { Example.wiring with unmarshal := Example.unmarshalMore }

/-- The delete request that names the tombstone card as predecessor. -/
def Example.deleteTombstone : CardBaseRequest :=
  { UserID := "alice", ApplicationID := "S1", CSR := "04", CSRStamps := [] }

/-- The create request for a second root card of alice. -/
def Example.createOther : CardBaseRequest :=
  { UserID := "alice", ApplicationID := "S1", CSR := "05",
    CSRStamps := [{ Signer := "self", Signature := "0707070707070707070707070707070705" }] }


/-- The tombstone card that the delete request for the example chain saves. -/
def Example.tombstone : CardDTO :=
  { ID := Example.tombstoneID, ContentSnapshot := "03", Identity := "alice",
    PreviousCardID := Example.rootID, ApplicationID := "S1", Version := "5.0",
    ChainID := "chain-1", CreatedAt := 1700000200,
    Signatures := [{ Signer := "virgil", Signature := "0903" }] }

/-- The example store after the chain of the root card was deleted and a second
root card of alice was created with a fresh chain id. -/
def Example.afterOther : Store :=
  (Controller.CardCreate Example.wiringMore (some "chain-5") Example.deletedChain
    Example.createOther).2

/-- The first failing check of the fields of a decoded content snapshot, in the
order the specification lists the checks: public-key decode, public-key too
long, identity empty, identity too long, identity mismatch with the request
identity, previous-card-id length, created_at, version; `none` when no check
fails. -/
def firstFailingCSRFieldCheck (encoder : encoder.Provider) (csr : CSR) (identity : String) :
    Option ApiError :=
  if csr.PublicKey ≠ "" ∧ (encoder.DecodeString csr.PublicKey).ok = false then
    some .ErrCSRPublicKeyDecoding
  else if csr.PublicKey ≠ "" ∧ 4096 < (encoder.DecodeString csr.PublicKey).data.length then
    some .ErrCSRPublicKeyIsTooLong
  else if csr.Identity = "" then some .ErrCSRIdentityIsEmpty
  else if 1024 < len csr.Identity then some .ErrCSRIdentityIsIncorrect
  else if csr.Identity ≠ identity then some .ErrCSRIdentityDoesNotMatchRequestIdentity
  else if csr.PreviousCardID ≠ "" ∧ len csr.PreviousCardID ≠ 64 then
    some .ErrCSRPreviousCardIDIsIncorrect
  else if csr.CreatedAt ≤ 0 then some .ErrCSRCreationTimeIsIncorrect
  else if csr.Version ≠ "5.0" then some .ErrCSRVersionIsIncorrect
  else none

/-- The first failing check of a content snapshot, in the order the
specification lists the checks: empty snapshot, base64 decode, JSON decode,
then the checks of the fields; `none` when no check fails. -/
def firstFailingCSRCheck (encoder : encoder.Provider) (unmarshal : Unmarshal)
    (csrData : String) (csr0 : CSR) (identity : String) : Option ApiError :=
  if csrData = "" then some .ErrCSRIsEmpty
  else if (encoder.DecodeString csrData).ok = false then
    some .ErrContentSnapshotIsNotABase64EncodedString
  else
    match unmarshal (encoder.DecodeString csrData).data csr0 with
    | .error (.UnmarshalTypeError f) =>
      if f = "created_at" then some .ErrCSRCreationTimeIsIncorrect
      else some .ErrContentSnapshotIsNotAJSONMessage
    | .error .other => some .ErrContentSnapshotIsNotAJSONMessage
    | .ok csr => firstFailingCSRFieldCheck encoder csr identity

/-- A stand-in for `json.Unmarshal` on messages that do not decode: the bytes
`[6]` stand for `{"created_at": "145"}`, a type error against the field
`created_at`; the bytes `[7]` stand for `{"identity": 5}`, a type error against
another field; anything else is not JSON. -/
def Example.unmarshalTyped : Unmarshal := fun data _ =>
  if data = [6] then .error (.UnmarshalTypeError "created_at")
  else if data = [7] then .error (.UnmarshalTypeError "identity")
  else .error .other

/-- A previous card id of 64 bytes that is not hexadecimal. -/
def Example.oddID : String := String.mk (List.replicate 64 'z')

/-- A stand-in for `json.Unmarshal` that reads from the bytes `[9]` a CSR whose
previous card id is 64 times the letter z. -/
def Example.unmarshalOdd : Unmarshal := fun data csr =>
  if data = [9] then
    .ok { csr with Identity := "alice", Version := "5.0", CreatedAt := 1700000500,
                   PreviousCardID := Example.oddID }
  else .error .other

/-- A 64-character hexadecimal id, in the words of the specification: 64
characters, each of them a hex digit. -/
def IsHexID (id : String) : Prop :=
  id.length = 64 ∧ ∀ c ∈ id.data, c ∈ "0123456789abcdefABCDEF".data

/-- The first failing check of a stamp that is not a self stamp, in the order
the specification lists the checks: snapshot present but not base64, decoded
snapshot longer than 1024 bytes, signature empty, signature not base64, signer
equal to "virgil", signer longer than 1024 bytes, signer empty; `none` when no
check fails. -/
def firstFailingStampCheck (encoder : encoder.Provider) (s : CSRStamp) : Option ApiError :=
  if s.Snapshot ≠ "" ∧ (encoder.DecodeString s.Snapshot).ok = false then
    some .ErrCSRStampExtraSnapshotDecoding
  else if s.Snapshot ≠ "" ∧ 1024 < (encoder.DecodeString s.Snapshot).data.length then
    some .ErrExtraContentSnapshotIsTooLong
  else if s.Signature = "" then some .ErrCSRStampSignatureIsMissing
  else if (encoder.DecodeString s.Signature).ok = false then some .ErrSignatureDecoding
  else if s.Signer = "virgil" then some .ErrCSRStampSignerIsIncorrect
  else if 1024 < len s.Signer then some .ErrCSRStampSignerIsTooLong
  else if s.Signer = "" then some .ErrCSRStampSignerIsEmpty
  else none

/-- A stamp at the limits: a custom signer label of 1024 bytes and a snapshot
that decodes to 1024 bytes. -/
def Example.limitStamp : CSRStamp :=
  { Signer := String.mk (List.replicate 1024 'a'),
    Signature := "aa",
    Snapshot := encoder.Hex.EncodeToString (List.replicate 1024 0) }

/-- The create request for the example root card with a second application
stamp. -/
def Example.createRootTwoApps : CardBaseRequest :=
  { Example.createRoot with
    CSRStamps := [Example.selfStamp, Example.appStamp, { Signer := "app", Signature := "bb" }] }

/-- The claim about the signers of an accepted stamp list, in the words of the
specification: at most one stamp with signer "app" and at most one with signer
"self". -/
def AtMostOneAppAndOneSelf (stamps : List CSRStamp) : Prop :=
  stamps.countP CSRStamp.IsApplication ≤ 1 ∧ stamps.countP CSRStamp.IsSelf ≤ 1

/-- The delete request for the example root card, carrying a client stamp with
signer "virgil". -/
def Example.deleteRootVirgil : CardBaseRequest :=
  { Example.deleteRoot with CSRStamps := [{ Signer := "virgil", Signature := "zz" }] }

/-- The error values declared in `api/errors.go`, in the order of their
declaration; `ErrIdentitySearchCountIsLimited`, declared as a function of the
limit, is listed at the limit `n`. -/
def ApiError.declared (n : Nat) : List ApiError :=
  [.ErrInternalError, .ErrNotFound, .ErrApplicationIDHeaderIsNotSet, .ErrIdentityHeaderNotSet,
   .ErrRequestParsing, .ErrCSRIsEmpty, .ErrContentSnapshotIsNotABase64EncodedString,
   .ErrContentSnapshotIsNotAJSONMessage, .ErrCSRStampSignatureIsMissing,
   .ErrCSRStampSignerIsIncorrect, .ErrCSRStampSignerIsEmpty, .ErrCSRStampSignerIsTooLong,
   .ErrSelfCSRStampIsMissing, .ErrSelfCSRStampMustBeUnique, .ErrCSRVersionIsIncorrect,
   .ErrCSRPublicKeyDecoding, .ErrCSRPreviousCardIDIsIncorrect,
   .ErrPreviousVirgilCardDoesNotExist, .ErrPreviousVirgilCardIsRegisteredForAnotherScope,
   .ErrPreviousVirgilCardIdentityIsIncorrect, .ErrPreviousVirgilCardExistsAlready,
   .ErrCSRIdentityIsIncorrect, .ErrCSRIdentityDoesNotMatchRequestIdentity,
   .ErrCSRIdentityIsEmpty, .ErrCSRCreationTimeIsIncorrect, .ErrCSRStampExtraSnapshotDecoding,
   .ErrSignatureDecoding, .ErrSignatureVerificationFailed, .ErrCSRStampsListIsTooSmall,
   .ErrCSRStampsListIsTooLarge, .ErrExtraContentSnapshotIsTooLong,
   .ErrVirgilCardContentSnapshotIsNotUnique, .ErrCSRPublicKeyIsTooLong,
   .ErrCSRPublicKeyIsTooShort, .ErrVirgilCardApplicationIDIsNotInTheAuthApplicationList,
   .ErrIdentitySearchTermCannotBeEmpty, .ErrIdentitySearchCountIsLimited n,
   .ErrCSRPublicKeyMustBeEmpty, .ErrCSRPrevCardIDMustNotBeEmpty, .ErrChainAlreadyDeleted]

/-- The declaration of `api/errors.go` an error value comes from, given as the
value it declares; for `ErrIdentitySearchCountIsLimited`, the value at the
limit 0. -/
def ApiError.declaration : ApiError → ApiError
  | .ErrIdentitySearchCountIsLimited _ => .ErrIdentitySearchCountIsLimited 0
  | e => e

/-- A stand-in for the native crypto library that imports only public keys of
sixteen bytes; the rest is as in `Example.native`. -/
def Example.nativeStrict : NativeCrypto Bytes Bytes :=
  { Example.native with ImportPublicKey := fun k => if k.length = 16 then some k else none }

/-- The crypto adapter over `Example.nativeStrict`. -/
def Example.cryptoStrict : crypto.Provider Bytes :=
  NewCrypto Example.nativeStrict (generator.NewID (hasher.SHA512 Example.sum512) encoder.Hex)

/-- The create request for the example root card, sent without the identity
header. -/
def Example.createRootNoIdentity : CardBaseRequest :=
  { Example.createRoot with UserID := "" }

/-! ## Go's `encoding/base64`: `StdEncoding` -/

/-- The alphabet `encodeStd` of Go's `encoding/base64`. -/
def encodeStd : List Char :=
  "ABCDEFGHIJKLMNOPQRSTUVWXYZabcdefghijklmnopqrstuvwxyz0123456789+/".data

/-- The padding character `StdPadding`. -/
def StdPadding : Char := '='

/-- Go's `Encoding.EncodeToString` for `StdEncoding`: four alphabet characters
for each group of three bytes; a last group of one or two bytes gives two or
three characters and is padded to four. -/
def base64Encode : Bytes → List Char
  | [] => []
  | [a] =>
    [encodeStd.getD (a.val / 4) 'A', encodeStd.getD (a.val % 4 * 16) 'A', StdPadding,
      StdPadding]
  | [a, b] =>
    [encodeStd.getD (a.val / 4) 'A', encodeStd.getD (a.val % 4 * 16 + b.val / 16) 'A',
      encodeStd.getD (b.val % 16 * 4) 'A', StdPadding]
  | a :: b :: c :: rest =>
    encodeStd.getD (a.val / 4) 'A' :: encodeStd.getD (a.val % 4 * 16 + b.val / 16) 'A' ::
      encodeStd.getD (b.val % 16 * 4 + c.val / 64) 'A' :: encodeStd.getD (c.val % 64) 'A' ::
      base64Encode rest

/-- The table `decodeMap` of `StdEncoding`: the index of an alphabet character;
`none` stands for the entry `0xff` of every other character. -/
def decodeMap (c : Char) : Option Nat :=
  let i := encodeStd.indexOf c
  if i < 64 then some i else none

/-- The bytes that `decodeQuantum` writes for a quantum of two, three or four
six-bit values: one byte fewer than values. -/
def quantumBytes : List Nat → Bytes
  | [s0, s1] => [Fin.ofNat (s0 * 4 + s1 / 16)]
  | [s0, s1, s2] => [Fin.ofNat (s0 * 4 + s1 / 16), Fin.ofNat (s1 % 16 * 16 + s2 / 4)]
  | [s0, s1, s2, s3] =>
    [Fin.ofNat (s0 * 4 + s1 / 16), Fin.ofNat (s1 % 16 * 16 + s2 / 4),
      Fin.ofNat (s2 % 4 * 64 + s3)]
  | _ => []

/-- The text left after the line breaks that `decodeQuantum` skips. -/
def skipNewlines : List Char → List Char
  | [] => []
  | c :: rest => if c = '\n' ∨ c = '\r' then skipNewlines rest else c :: rest

/-- Go's `Encoding.Decode` with `decodeQuantum` for `StdEncoding` (padded, not
strict), on the text still to read and the six-bit values read so far in the
current quantum: the bytes written and whether the error is nil.  Line breaks
are skipped; a character outside the alphabet, padding after fewer than two
values, a missing second padding character, text after the padding, and an
unpadded last quantum are errors. -/
def base64DecodeLoop : List Char → List Nat → Decoded
  | [], q => if q.length = 0 then ⟨[], true⟩ else ⟨[], false⟩
  | c :: rest, q =>
    match decodeMap c with
    | some out =>
      if q.length = 3 then
        let r := base64DecodeLoop rest []
        ⟨quantumBytes (q ++ [out]) ++ r.data, r.ok⟩
      else base64DecodeLoop rest (q ++ [out])
    | none =>
      if c = '\n' ∨ c = '\r' then base64DecodeLoop rest q
      else if c ≠ StdPadding then ⟨[], false⟩
      else
        match q with
        | [_, _] =>
          match skipNewlines rest with
          | [] => ⟨[], false⟩
          | d :: rest2 =>
            if d ≠ StdPadding then ⟨[], false⟩
            else ⟨quantumBytes q, (skipNewlines rest2).isEmpty⟩
        | [_, _, _] => ⟨quantumBytes q, (skipNewlines rest).isEmpty⟩
        | _ => ⟨[], false⟩

/-- Go's `base64.StdEncoding` as an `encoder.Provider`. -/
def base64.StdEncoding : encoder.Provider where
  DecodeString := fun data => base64DecodeLoop data.data []
  EncodeToString := fun data => String.mk (base64Encode data)

/-! ## The controller over a repository that may fail -/

/-- The interface `dao.CardRepositoryProvider` in full, for a repository in a
given state: besides the two query methods of `dao.CardRepositoryProvider`, the
methods the controller calls.  Every method may return an error; `SaveCard`
returns `none` for nil. -/
structure dao.Repository extends dao.CardRepositoryProvider where
  SaveCard : CardDTO → Option dao.Error
  SearchCardsByIdentities : List String → String → Except dao.Error (List CardDTO)
  SetCardChainID : CardDTO → Except dao.Error CardDTO
  IsChainDeleted : String → String → String → Except dao.Error Bool
  SetChainDeleted : String → String → String → Int → Except dao.Error Bool

/-- `Controller.CardCreate` over a repository behind the interface: the card or
the error returned. -/
def Controller.CardCreateOn {SK : Type} (w : Wiring SK) (repo : dao.Repository)
    (request : CardBaseRequest) : Except ApiError CardDTO :=
  let v := CreateCardValidator.Validate w.crypto (encoder.Base64 w.StdEncoding) w.unmarshal
    repo.toCardRepositoryProvider request NewCardDTO
  match v.err with
  | some e => .error e
  | none =>
    let virgilCard := v.card
    if request.UserID = "" then .error .ErrIdentityHeaderNotSet
    else
      match repo.SetCardChainID virgilCard with
      | .error _ => .error .ErrInternalError
      | .ok virgilCard =>
        let deleted : Except dao.Error Bool :=
          if virgilCard.PreviousCardID ≠ "" then
            repo.IsChainDeleted request.UserID request.ApplicationID virgilCard.ChainID
          else .ok false
        match deleted with
        | .error _ => .error .ErrInternalError
        | .ok true => .error .ErrChainAlreadyDeleted
        | .ok false =>
          match w.cardSigner.SignCardByCardsService w.StdEncoding virgilCard with
          | (some _, _) => .error .ErrInternalError
          | (none, virgilCard) =>
            match repo.SaveCard virgilCard with
            | some _ => .error .ErrInternalError
            | none => .ok virgilCard

/-- `Controller.CardSearch` over a repository behind the interface. -/
def Controller.CardSearchOn (repo : dao.Repository) (request : CardSearchRequest) :
    Except ApiError (List CardDTO) :=
  match SearchCardValidator.Validate request with
  | some e => .error e
  | none =>
    match repo.SearchCardsByIdentities request.GetIdentities request.ApplicationID with
    | .error _ => .error .ErrInternalError
    | .ok virgilCards => .ok virgilCards

/-- `Controller.CardDelete` over a repository behind the interface; `now` is
`time.Now().Unix()`. -/
def Controller.CardDeleteOn {SK : Type} (w : Wiring SK) (repo : dao.Repository) (now : Int)
    (request : CardBaseRequest) : Except ApiError CardDTO :=
  if request.UserID = "" then .error .ErrIdentityHeaderNotSet
  else
    let v := DeleteCardValidator.Validate w.crypto (encoder.Base64 w.StdEncoding) w.unmarshal
      repo.toCardRepositoryProvider request NewCardDTO
    match v.err with
    | some e => .error e
    | none =>
      match repo.SetCardChainID v.card with
      | .error _ => .error .ErrInternalError
      | .ok virgilCard =>
        match w.cardSigner.SignCardByCardsService w.StdEncoding virgilCard with
        | (some _, _) => .error .ErrInternalError
        | (none, virgilCard) =>
          match repo.SetChainDeleted request.UserID request.ApplicationID virgilCard.ChainID
              now with
          | .error _ => .error .ErrInternalError
          | .ok false => .error .ErrChainAlreadyDeleted
          | .ok true =>
            match repo.SaveCard virgilCard with
            | some _ => .error .ErrInternalError
            | none => .ok virgilCard

/-- The repository in state `db` behind the full interface: the in-memory
store, on which no statement fails. -/
def CardRepository.repository (StdEncoding : encoder.Provider) (newV4 : Option String)
    (db : Store) : dao.Repository where
  toCardRepositoryProvider := CardRepository.provider StdEncoding db
  SaveCard := fun _ => none
  SearchCardsByIdentities := fun identities scopeID =>
    (CardRepository.SearchCardsByIdentities db identities scopeID).result
  SetCardChainID := CardRepository.SetCardChainID newV4 db
  IsChainDeleted := CardRepository.IsChainDeleted db
  SetChainDeleted := fun identity scopeID chainID unixSeconds =>
    (CardRepository.SetChainDeleted db identity scopeID chainID unixSeconds).1

/-- A repository whose reads of `card_by_card_id` fail with a driver error
(not with not-found) while every other statement succeeds: no card is
superseded, a chain id is handed out, and no chain is deleted. -/
def Example.failingReads : dao.Repository where
  GetCardByID := fun _ => .error .other
  DoesCardExistByPreviousIDAndScopeID := fun _ _ => .ok false
  SaveCard := fun _ => none
  SearchCardsByIdentities := fun _ _ => .ok []
  SetCardChainID := fun card => .ok (card.SetChainID "chain-1")
  IsChainDeleted := fun _ _ _ => .ok false
  SetChainDeleted := fun _ _ _ _ => .ok true

/-- A repository on which the batch of `SaveCard` fails while every other
statement succeeds and finds nothing. -/
def Example.failingSave : dao.Repository :=
  { Example.failingReads with
    GetCardByID := fun _ => .error .ErrEntityNotFound
    SaveCard := fun _ => some .other }

/-- A string of 64 characters and 128 bytes: 64 times the letter é. -/
def Example.accented64 : String := String.mk (List.replicate 64 'é')

/-- A string of 32 characters and 64 bytes: 32 times the letter é. -/
def Example.accented32 : String := String.mk (List.replicate 32 'é')

/-- A stand-in for `json.Unmarshal` that reads from the bytes `[10]` a CSR whose
previous card id is `Example.accented64` and from the bytes `[11]` one whose
previous card id is `Example.accented32`; the other fields are valid. -/
def Example.unmarshalAccented : Unmarshal := fun data csr =>
  if data = [10] then
    .ok { csr with Identity := "alice", Version := "5.0", CreatedAt := 1700000600,
                   PreviousCardID := Example.accented64 }
  else if data = [11] then
    .ok { csr with Identity := "alice", Version := "5.0", CreatedAt := 1700000700,
                   PreviousCardID := Example.accented32 }
  else .error .other

/-! ## Go's `encoding/json`: `Unmarshal` into `api.CSR` -/

/-- A JSON value as far as storing it in a field of `api.CSR` looks at it: its
kind, the text of a string, and for a number whether its literal is an integer
literal (what `strconv.ParseInt` reads) and then which integer. -/
inductive JsonValue where
  | null
  | bool (b : Bool)
  | integer (n : Int)
  | fraction
  | string (s : String)
  | array
  | object
  deriving DecidableEq, Repr

/-- A JSON text that passed the syntax check of `json.Unmarshal`: an object
with its members in document order, the literal null, or a value of another
kind. -/
inductive JsonDocument where
  | object (members : List (String × JsonValue))
  | null
  | other
  deriving DecidableEq, Repr

/-- The fields of the struct `api.CSR`. -/
inductive CSRField where
  | PublicKey
  | Identity
  | PreviousCardID
  | Version
  | CreatedAt
  deriving DecidableEq, Repr

/-- The name of a field in JSON: its `json` tag. -/
def CSRField.name : CSRField → String
  | .PublicKey => "public_key"
  | .Identity => "identity"
  | .PreviousCardID => "previous_card_id"
  | .Version => "version"
  | .CreatedAt => CreatedAtFieldName

/-- The fields in the order of the struct. -/
def CSRField.all : List CSRField :=
  [.PublicKey, .Identity, .PreviousCardID, .Version, .CreatedAt]

/-- The field that `json.Unmarshal` stores the member with the given key in:
the field with that name, else the first field whose name equals the key under
`equalFold`, the case-insensitive comparison of the library, given here. -/
def fieldOfKey (equalFold : String → String → Bool) (key : String) : Option CSRField :=
  match CSRField.all.find? (fun f => f.name == key) with
  | some f => some f
  | none => CSRField.all.find? (fun f => equalFold f.name key)

/-- Whether `json.Unmarshal` can store the value in the field: null (which
leaves the field alone) or a string in a string field; null or an integer
literal within the range of `int64` in `created_at`. -/
def JsonValue.fits (v : JsonValue) (f : CSRField) : Bool :=
  match f with
  | .CreatedAt =>
    match v with
    | .null => true
    | .integer n => decide (-(2 ^ 63) ≤ n ∧ n < 2 ^ 63)
    | _ => false
  | _ =>
    match v with
    | .null => true
    | .string _ => true
    | _ => false

/-- The CSR object after the value was stored in the field. -/
def CSR.store (csr : CSR) (f : CSRField) (v : JsonValue) : CSR :=
  match f, v with
  | .PublicKey, .string s => { csr with PublicKey := s }
  | .Identity, .string s => { csr with Identity := s }
  | .PreviousCardID, .string s => { csr with PreviousCardID := s }
  | .Version, .string s => { csr with Version := s }
  | .CreatedAt, .integer n => { csr with CreatedAt := n }
  | _, _ => csr

/-- The loop of `json.Unmarshal` over the members of an object: a member whose
key names no field is skipped; a value that does not fit its field is a type
error, of which the first is saved (`saveError`) while decoding goes on.  The
result is the CSR object and the `Field` of the saved error. -/
def decodeMembers (equalFold : String → String → Bool) :
    List (String × JsonValue) → CSR → Option String → CSR × Option String
  | [], csr, saved => (csr, saved)
  | (key, v) :: rest, csr, saved =>
    match fieldOfKey equalFold key with
    | none => decodeMembers equalFold rest csr saved
    | some f =>
      if v.fits f then decodeMembers equalFold rest (csr.store f v) saved
      else
        decodeMembers equalFold rest csr
          (match saved with
           | some e => some e
           | none => some f.name)

/-- Go's `json.Unmarshal(data, csr)` for a pointer to `api.CSR`, with the
scanner of the library given as `parse` (`none` for a syntax error): null
leaves the object alone, an array or a scalar is a type error that names no
field, and an object is decoded member by member. -/
def jsonUnmarshal (parse : Bytes → Option JsonDocument)
    (equalFold : String → String → Bool) : Unmarshal := fun data csr =>
  match parse data with
  | none => .error .other
  | some .null => .ok csr
  | some .other => .error (.UnmarshalTypeError "")
  | some (.object members) =>
    match decodeMembers equalFold members csr none with
    | (csr, none) => .ok csr
    | (_, some field) => .error (.UnmarshalTypeError field)

/-- The field of the first member of the document, in document order, whose
value does not fit the field its key names. -/
def firstMistyped (equalFold : String → String → Bool) :
    List (String × JsonValue) → Option CSRField
  | [] => none
  | (key, v) :: rest =>
    match fieldOfKey equalFold key with
    | none => firstMistyped equalFold rest
    | some f => if v.fits f then firstMistyped equalFold rest else some f

/-- A stand-in for the scanner of `encoding/json` that knows three texts: the
bytes `[6]` stand for `{"created_at": "145"}`, the bytes `[8]` for
`{"identity": 5, "created_at": "145"}`, and the bytes `[12]` for
`{"created_at": 1.5}`. -/
def Example.parseJson : Bytes → Option JsonDocument := fun data =>
  if data = [6] then some (.object [("created_at", .string "145")])
  else if data = [8] then
    some (.object [("identity", .integer 5), ("created_at", .string "145")])
  else if data = [12] then some (.object [("created_at", .fraction)])
  else none

/-- A stand-in for the case-insensitive comparison of `encoding/json`: equality
after ASCII letters are lowered. -/
def Example.equalFold (a b : String) : Bool :=
  a.data.map Char.toLower == b.data.map Char.toLower

/-! # Theorems -/

variable {SK : Type}

/-! ## Content-snapshot validator -/

theorem utf8ByteSize_go_pos (cs : List Char) (h : cs ≠ []) : 0 < String.utf8ByteSize.go cs := by
  cases cs with
  | nil => exact absurd rfl h
  | cons c cs =>
    have := Char.utf8Size_pos c
    simp only [String.utf8ByteSize.go]
    omega

theorem len_pos_of_ne_empty (s : String) (h : s ≠ "") : 0 < len s := by
  obtain ⟨cs⟩ := s
  have hcs : cs ≠ [] := by
    intro hc
    apply h
    rw [hc]
  exact utf8ByteSize_go_pos cs hcs

theorem parseCSR_ok_iff (encoder : encoder.Provider) (unmarshal : Unmarshal) (s : String)
    (p0 : ParametersStore) (csr0 : CSR) (p : ParametersStore) (c : CSR) :
    parseCSR encoder unmarshal s p0 csr0 = .ok (p, c) ↔
      (encoder.DecodeString s).ok = true ∧
      unmarshal (encoder.DecodeString s).data csr0 = .ok c ∧
      p = { p0 with csr := (encoder.DecodeString s).data } := by
  unfold parseCSR
  cases hok : (encoder.DecodeString s).ok
  · simp [hok]
  · cases hu : unmarshal (encoder.DecodeString s).data csr0 with
    | error e =>
      cases e with
      | UnmarshalTypeError f => by_cases hf : f = CreatedAtFieldName <;> simp [hok, hu, hf]
      | other => simp [hok, hu]
    | ok c1 =>
      simp [hok, hu]
      constructor
      · rintro ⟨h1, h2⟩
        exact ⟨h2, h1.symm⟩
      · rintro ⟨h1, h2⟩
        exact ⟨h2.symm, h1⟩

theorem decodeCSRPublicKey_ok_iff (encoder : encoder.Provider) (key : String) (k : Bytes) :
    decodeCSRPublicKeyAndCheckMaxLength encoder key = .ok k ↔
      (key = "" ∨ ((encoder.DecodeString key).ok = true ∧
        (encoder.DecodeString key).data.length ≤ 4096)) ∧
      k = (if key = "" then [] else (encoder.DecodeString key).data) := by
  unfold decodeCSRPublicKeyAndCheckMaxLength PublicKeyMaxLength
  by_cases hk : key = ""
  · simp [hk]
  · cases hok : (encoder.DecodeString key).ok
    · simp [hk, hok]
    · by_cases hl : 4096 < (encoder.DecodeString key).data.length
      · simp [hk, hok, hl]
      · simp [hk, hok, hl]
        constructor
        · intro h
          exact ⟨by omega, h.symm⟩
        · intro h
          exact h.2.symm

theorem validateCSRIdentity_none_iff (identity r : String) :
    validateCSRIdentity identity r = none ↔
      identity ≠ "" ∧ len identity ≤ 1024 ∧ identity = r := by
  unfold validateCSRIdentity IdentityMinLength IdentityMaxLength
  by_cases h : identity = ""
  · simp [h]
  · have hp := len_pos_of_ne_empty identity h
    rw [if_neg h]
    by_cases h2 : 1024 < len identity
    · rw [if_pos (Or.inr h2)]
      simp
      intro _ h4
      omega
    · have h5 : ¬ (1 > len identity ∨ 1024 < len identity) := by omega
      rw [if_neg h5]
      by_cases h3 : identity = r
      · simp [h, h3]
        rw [← h3]
        exact ⟨h, by omega⟩
      · simp [h, h3]

theorem validateCSRPreviousCardID_none_iff (id : String) :
    validateCSRPreviousCardID id = none ↔ id = "" ∨ len id = 64 := by
  unfold validateCSRPreviousCardID IDLength
  by_cases h : id = ""
  · simp [h]
  · simp [h]
    exact eq_comm

theorem validateCSRCreatedAt_none_iff (t : Int) :
    validateCSRCreatedAt t = none ↔ 0 < t := by
  unfold validateCSRCreatedAt
  by_cases h : 0 < t
  · simp [h]
  · simp [h]

theorem validateCSRVersion_none_iff (v : String) :
    validateCSRVersion v = none ↔ v = "5.0" := by
  unfold validateCSRVersion CardVersion5
  by_cases h : v = "5.0"
  · simp [h]
  · simp [h]
    exact fun h2 => h h2.symm


theorem CSRValidator_Validate_ok_iff (encoder : encoder.Provider) (unmarshal : Unmarshal)
    (s : String) (csr0 : CSR) (r : String) (p : ParametersStore) (c : CSR) :
    CSRValidator.Validate encoder unmarshal s csr0 r = .ok (p, c) ↔
      (s ≠ "" ∧
       (encoder.DecodeString s).ok = true ∧
       unmarshal (encoder.DecodeString s).data csr0 = .ok c ∧
       (c.PublicKey = "" ∨ ((encoder.DecodeString c.PublicKey).ok = true ∧
          (encoder.DecodeString c.PublicKey).data.length ≤ 4096)) ∧
       (c.Identity ≠ "" ∧ len c.Identity ≤ 1024 ∧ c.Identity = r) ∧
       (c.PreviousCardID = "" ∨ len c.PreviousCardID = 64) ∧
       0 < c.CreatedAt ∧
       c.Version = "5.0") ∧
      p = { csr := (encoder.DecodeString s).data,
            publicKey := if c.PublicKey = "" then []
                         else (encoder.DecodeString c.PublicKey).data,
            extraSnapshot := [] } := by
  unfold CSRValidator.Validate
  by_cases hs : s = ""
  · simp [hs]
  · rw [if_neg hs]
    cases hp : parseCSR encoder unmarshal s {} csr0 with
    | error e =>
      have hn := parseCSR_ok_iff encoder unmarshal s {} csr0
      simp only []
      constructor
      · intro h; cases h
      · rintro ⟨⟨-, h1, h2, -⟩, -⟩
        have := (hn { csr := (encoder.DecodeString s).data } c).2 ⟨h1, h2, rfl⟩
        rw [hp] at this
        cases this
    | ok pc =>
      obtain ⟨p1, c1⟩ := pc
      obtain ⟨h1, h2, h3⟩ := (parseCSR_ok_iff encoder unmarshal s {} csr0 p1 c1).1 hp
      simp only []
      have hc : ∀ c2, unmarshal (encoder.DecodeString s).data csr0 = .ok c2 → c2 = c1 := by
        intro c2 h
        rw [h2] at h
        cases h
        rfl
      have hK := decodeCSRPublicKey_ok_iff encoder c1.PublicKey
      have hI := validateCSRIdentity_none_iff c1.Identity r
      have hP := validateCSRPreviousCardID_none_iff c1.PreviousCardID
      have hT := validateCSRCreatedAt_none_iff c1.CreatedAt
      have hV := validateCSRVersion_none_iff c1.Version
      cases hk : decodeCSRPublicKeyAndCheckMaxLength encoder c1.PublicKey with
      | error e =>
        simp only []
        constructor
        · intro h; cases h
        · rintro ⟨⟨-, -, hu, hpk, -⟩, -⟩
          have := hc c hu
          subst this
          have := (hK _).2 ⟨hpk, rfl⟩
          rw [hk] at this
          cases this
      | ok key =>
        have hk1 := (hK key).1 hk
        simp only []
        cases hi : validateCSRIdentity c1.Identity r with
        | some e =>
          simp only []
          constructor
          · intro h; cases h
          · rintro ⟨⟨-, -, hu, -, hid, -⟩, -⟩
            have := hc c hu
            subst this
            have := hI.2 hid
            rw [hi] at this
            cases this
        | none =>
          have hi1 := hI.1 hi
          simp only []
          cases hpv : validateCSRPreviousCardID c1.PreviousCardID with
          | some e =>
            simp only []
            constructor
            · intro h; cases h
            · rintro ⟨⟨-, -, hu, -, -, hprev, -⟩, -⟩
              have := hc c hu
              subst this
              have := hP.2 hprev
              rw [hpv] at this
              cases this
          | none =>
            have hp1 := hP.1 hpv
            simp only []
            cases ht : validateCSRCreatedAt c1.CreatedAt with
            | some e =>
              simp only []
              constructor
              · intro h; cases h
              · rintro ⟨⟨-, -, hu, -, -, -, hcr, -⟩, -⟩
                have := hc c hu
                subst this
                have := hT.2 hcr
                rw [ht] at this
                cases this
            | none =>
              have ht1 := hT.1 ht
              simp only []
              cases hv : validateCSRVersion c1.Version with
              | some e =>
                simp only []
                constructor
                · intro h; cases h
                · rintro ⟨⟨-, -, hu, -, -, -, -, hver⟩, -⟩
                  have := hc c hu
                  subst this
                  have := hV.2 hver
                  rw [hv] at this
                  cases this
              | none =>
                have hv1 := hV.1 hv
                simp only []
                constructor
                · intro h
                  injection h with h
                  injection h with ha hb
                  subst hb
                  subst ha
                  refine ⟨⟨hs, h1, h2, hk1.1, hi1, hp1, ht1, hv1⟩, ?_⟩
                  rw [h3, hk1.2]
                · rintro ⟨⟨-, -, hu, -⟩, hpeq⟩
                  have := hc c hu
                  subst this
                  rw [hpeq, h3, hk1.2]

/-- C1, amended: `CSRValidator.Validate` succeeds exactly when the snapshot is
non-empty, decodes to bytes that `json.Unmarshal` turns into a CSR whose public
key is empty or decodes to at most 4096 bytes, whose identity is non-empty, at
most 1024 bytes long and equal to the request identity, whose previous card id
is empty or exactly 64 bytes long (Go's `len`, not a number of characters),
whose `created_at` is positive and whose version is `5.0`; the returned store
then holds the decoded snapshot as `csr` and the decoded key (the 0-length byte
string for an absent key) as `publicKey`. -/
theorem CSRValidator_Validate_spec (encoder : encoder.Provider) (unmarshal : Unmarshal)
    (s : String) (csr0 : CSR) (r : String) :
    ((∃ p c, CSRValidator.Validate encoder unmarshal s csr0 r = .ok (p, c)) ↔
      s ≠ "" ∧
      (encoder.DecodeString s).ok = true ∧
      ∃ c, unmarshal (encoder.DecodeString s).data csr0 = .ok c ∧
        (c.PublicKey = "" ∨ ((encoder.DecodeString c.PublicKey).ok = true ∧
          (encoder.DecodeString c.PublicKey).data.length ≤ 4096)) ∧
        c.Identity ≠ "" ∧ len c.Identity ≤ 1024 ∧ c.Identity = r ∧
        (c.PreviousCardID = "" ∨ len c.PreviousCardID = 64) ∧
        0 < c.CreatedAt ∧
        c.Version = "5.0") ∧
    (∀ p c, CSRValidator.Validate encoder unmarshal s csr0 r = .ok (p, c) →
      unmarshal (encoder.DecodeString s).data csr0 = .ok c ∧
      p.csr = (encoder.DecodeString s).data ∧
      p.publicKey = (if c.PublicKey = "" then []
        else (encoder.DecodeString c.PublicKey).data)) := by
  constructor
  · constructor
    · rintro ⟨p, c, h⟩
      obtain ⟨⟨h1, h2, h3, h4, ⟨h5, h6, h7⟩, h8, h9, h10⟩, -⟩ :=
        (CSRValidator_Validate_ok_iff encoder unmarshal s csr0 r p c).1 h
      exact ⟨h1, h2, c, h3, h4, h5, h6, h7, h8, h9, h10⟩
    · rintro ⟨h1, h2, c, h3, h4, h5, h6, h7, h8, h9, h10⟩
      exact ⟨_, c, (CSRValidator_Validate_ok_iff encoder unmarshal s csr0 r _ c).2
        ⟨⟨h1, h2, h3, h4, ⟨h5, h6, h7⟩, h8, h9, h10⟩, rfl⟩⟩
  · intro p c h
    obtain ⟨⟨-, -, h3, -⟩, hp⟩ :=
      (CSRValidator_Validate_ok_iff encoder unmarshal s csr0 r p c).1 h
    rw [hp]
    exact ⟨h3, rfl, rfl⟩

/-! ## Stamp-set validator -/

theorem validateCSRStampSignature_params (crypto : crypto.Provider SK)
    (encoder : encoder.Provider) (sig snap : String) (flag : Bool) (p : ParametersStore) :
    (validateCSRStampSignature crypto encoder sig snap flag p).params.csr = p.csr ∧
    (validateCSRStampSignature crypto encoder sig snap flag p).params.publicKey = p.publicKey := by
  unfold validateCSRStampSignature
  simp only []
  split_ifs <;> (try split) <;> simp

theorem validateCSRStampSignature_congr (crypto : crypto.Provider SK)
    (encoder : encoder.Provider) (sig snap : String) (flag : Bool) (p q : ParametersStore)
    (h1 : p.csr = q.csr) (h2 : p.publicKey = q.publicKey) :
    (validateCSRStampSignature crypto encoder sig snap flag p).err =
      (validateCSRStampSignature crypto encoder sig snap flag q).err ∧
    (validateCSRStampSignature crypto encoder sig snap flag p).calls =
      (validateCSRStampSignature crypto encoder sig snap flag q).calls := by
  unfold validateCSRStampSignature
  simp only [h1, h2]
  split_ifs <;> (try split) <;> simp

theorem validateCSRStamp_params (crypto : crypto.Provider SK)
    (encoder : encoder.Provider) (s : CSRStamp) (p : ParametersStore) :
    (validateCSRStamp crypto encoder s p).params.csr = p.csr ∧
    (validateCSRStamp crypto encoder s p).params.publicKey = p.publicKey := by
  have h := validateCSRStampSignature_params crypto encoder s.Signature s.Snapshot
    (s.IsSelf && decide (0 < p.publicKey.length)) p
  unfold validateCSRStamp
  simp only []
  split
  · simp
  · split
    · exact h
    · split <;> exact h

theorem validateCSRStamp_err (crypto : crypto.Provider SK)
    (encoder : encoder.Provider) (s : CSRStamp) (p : ParametersStore) :
    (validateCSRStamp crypto encoder s p).err =
      match validateCSRStampSnapshot encoder s.Snapshot with
      | some e => some e
      | none =>
        match (validateCSRStampSignature crypto encoder s.Signature s.Snapshot
            (s.IsSelf && decide (0 < p.publicKey.length)) p).err with
        | some e => some e
        | none => validateCSRSigner s.Signer := by
  cases h1 : validateCSRStampSnapshot encoder s.Snapshot with
  | some e => simp [validateCSRStamp, h1]
  | none =>
    cases h2 : (validateCSRStampSignature crypto encoder s.Signature s.Snapshot
        (s.IsSelf && decide (0 < p.publicKey.length)) p).err with
    | some e => simp [validateCSRStamp, h1, h2]
    | none =>
      cases h3 : validateCSRSigner s.Signer <;> simp [validateCSRStamp, h1, h2, h3]

theorem validateCSRStamp_calls (crypto : crypto.Provider SK)
    (encoder : encoder.Provider) (s : CSRStamp) (p : ParametersStore) :
    (validateCSRStamp crypto encoder s p).calls =
      match validateCSRStampSnapshot encoder s.Snapshot with
      | some _ => []
      | none =>
        (validateCSRStampSignature crypto encoder s.Signature s.Snapshot
            (s.IsSelf && decide (0 < p.publicKey.length)) p).calls := by
  unfold validateCSRStamp
  simp only []
  split
  · rfl
  · split
    · rfl
    · split <;> rfl

theorem validateCSRStamp_params_eq (crypto : crypto.Provider SK)
    (encoder : encoder.Provider) (s : CSRStamp) (p : ParametersStore) :
    (validateCSRStamp crypto encoder s p).params =
      match validateCSRStampSnapshot encoder s.Snapshot with
      | some _ => p
      | none =>
        (validateCSRStampSignature crypto encoder s.Signature s.Snapshot
            (s.IsSelf && decide (0 < p.publicKey.length)) p).params := by
  unfold validateCSRStamp
  simp only []
  split
  · rfl
  · split
    · rfl
    · split <;> rfl

theorem validateCSRStamp_congr (crypto : crypto.Provider SK)
    (encoder : encoder.Provider) (s : CSRStamp) (p q : ParametersStore)
    (h1 : p.csr = q.csr) (h2 : p.publicKey = q.publicKey) :
    (validateCSRStamp crypto encoder s p).err = (validateCSRStamp crypto encoder s q).err := by
  have h := validateCSRStampSignature_congr crypto encoder s.Signature s.Snapshot
    (s.IsSelf && decide (0 < q.publicKey.length)) p q h1 h2
  rw [validateCSRStamp_err, validateCSRStamp_err, h2, h.1]

theorem validateCSRStampsLoop_err_of_valid (crypto : crypto.Provider SK)
    (encoder : encoder.Provider) (xs : List CSRStamp) :
    ∀ (flag : Bool) (p q : ParametersStore), p.csr = q.csr → p.publicKey = q.publicKey →
      (∀ s ∈ xs, (validateCSRStamp crypto encoder s q).err = none) →
      (validateCSRStampsLoop crypto encoder xs flag p).err =
        if xs.countP CSRStamp.IsSelf + flag.toNat = 0 then some .ErrSelfCSRStampIsMissing
        else if xs.countP CSRStamp.IsSelf + flag.toNat = 1 then none
        else some .ErrSelfCSRStampMustBeUnique := by
  induction xs with
  | nil =>
    intro flag p q _ _ _
    cases flag <;> simp [validateCSRStampsLoop]
  | cons x xs ih =>
    intro flag p q h1 h2 hv
    have hx : (validateCSRStamp crypto encoder x p).err = none := by
      rw [validateCSRStamp_congr crypto encoder x p q h1 h2]
      exact hv x (List.mem_cons_self _ _)
    have hp := validateCSRStamp_params crypto encoder x p
    have hrest : ∀ s ∈ xs, (validateCSRStamp crypto encoder s q).err = none :=
      fun s hs => hv s (List.mem_cons_of_mem _ hs)
    unfold validateCSRStampsLoop
    simp only [hx]
    cases hself : x.IsSelf
    · simp only [Bool.false_eq_true, if_false]
      rw [ih flag _ q (hp.1.trans h1) (hp.2.trans h2) hrest]
      simp [List.countP_cons, hself]
    · cases flag
      · simp only [if_true, Bool.false_eq_true, if_false]
        rw [ih true _ q (hp.1.trans h1) (hp.2.trans h2) hrest]
        simp [List.countP_cons, hself]
      · simp [List.countP_cons, hself]

theorem validateCSRStampsLoop_valid_of_none (crypto : crypto.Provider SK)
    (encoder : encoder.Provider) (xs : List CSRStamp) :
    ∀ (flag : Bool) (p q : ParametersStore), p.csr = q.csr → p.publicKey = q.publicKey →
      (validateCSRStampsLoop crypto encoder xs flag p).err = none →
      ∀ s ∈ xs, (validateCSRStamp crypto encoder s q).err = none := by
  induction xs with
  | nil => intro _ _ _ _ _ _ s hs; cases hs
  | cons x xs ih =>
    intro flag p q h1 h2 hn s hs
    have hp := validateCSRStamp_params crypto encoder x p
    unfold validateCSRStampsLoop at hn
    cases hx : (validateCSRStamp crypto encoder x p).err with
    | some e =>
      simp only [hx] at hn
      cases hn
    | none =>
      simp only [hx] at hn
      rcases List.mem_cons.1 hs with rfl | hs
      · rw [← validateCSRStamp_congr crypto encoder s p q h1 h2]
        exact hx
      · cases hself : x.IsSelf
        · simp only [hself, Bool.false_eq_true, if_false] at hn
          exact ih flag _ q (hp.1.trans h1) (hp.2.trans h2) hn s hs
        · cases flag
          · simp only [hself, if_true, Bool.false_eq_true, if_false] at hn
            exact ih true _ q (hp.1.trans h1) (hp.2.trans h2) hn s hs
          · simp [hself] at hn

theorem validateCSRStampsLoop_params (crypto : crypto.Provider SK)
    (encoder : encoder.Provider) (xs : List CSRStamp) :
    ∀ (flag : Bool) (p : ParametersStore),
      (validateCSRStampsLoop crypto encoder xs flag p).params.csr = p.csr ∧
      (validateCSRStampsLoop crypto encoder xs flag p).params.publicKey = p.publicKey := by
  induction xs with
  | nil => intro flag p; cases flag <;> simp [validateCSRStampsLoop]
  | cons x xs ih =>
    intro flag p
    have hp := validateCSRStamp_params crypto encoder x p
    unfold validateCSRStampsLoop
    simp only []
    split
    · exact hp
    · split_ifs
      · exact hp
      · exact ⟨(ih true _).1.trans hp.1, (ih true _).2.trans hp.2⟩
      · exact ⟨(ih flag _).1.trans hp.1, (ih flag _).2.trans hp.2⟩

theorem len_eq_zero_iff (s : String) : 0 = len s ↔ s = "" := by
  constructor
  · intro h
    by_contra hne
    have := len_pos_of_ne_empty s hne
    omega
  · intro h
    rw [h]
    rfl

theorem validateCSRStampSnapshot_none_ok (encoder : encoder.Provider) (snap : String)
    (h : validateCSRStampSnapshot encoder snap = none) (hne : snap ≠ "") :
    (encoder.DecodeString snap).ok = true := by
  unfold validateCSRStampSnapshot at h
  rw [if_neg hne] at h
  cases hok : (encoder.DecodeString snap).ok
  · simp [hok] at h
  · rfl

theorem validateCSRStampSignature_self (crypto : crypto.Provider SK)
    (encoder : encoder.Provider) (s : CSRStamp) (p : ParametersStore)
    (hsnap : validateCSRStampSnapshot encoder s.Snapshot = none)
    (hsig : s.Signature ≠ "") (hdec : (encoder.DecodeString s.Signature).ok = true) :
    validateCSRStampSignature crypto encoder s.Signature s.Snapshot true p =
      ⟨match crypto.ValidateVirgilCardSignature p.csr (stampExtra encoder s) p.publicKey
            (encoder.DecodeString s.Signature).data with
        | some _ => some .ErrSignatureVerificationFailed
        | none => none,
       { p with extraSnapshot := stampExtra encoder s },
       [selfVerifyCall encoder s p]⟩ := by
  have h0 : ¬ (0 = len s.Signature) := fun h => hsig ((len_eq_zero_iff _).1 h)
  unfold validateCSRStampSignature
  rw [if_neg h0]
  simp only [hdec, Bool.not_true, Bool.false_eq_true, if_false, if_true]
  by_cases hs : s.Snapshot = ""
  · simp only [hs, if_true, stampExtra, selfVerifyCall]
    split <;> simp_all
  · have hok := validateCSRStampSnapshot_none_ok encoder s.Snapshot hsnap hs
    simp only [hs, if_false, hok, Bool.not_true, Bool.false_eq_true, stampExtra, selfVerifyCall]
    split <;> simp_all

theorem isSelf_signer (s : CSRStamp) (h : s.IsSelf = true) : s.Signer = "self" := by
  unfold CSRStamp.IsSelf SelfSignatureType at h
  exact (beq_iff_eq.1 h).symm

theorem validateCSRSigner_self : validateCSRSigner "self" = none := by decide

theorem validateCSRStampSignature_empty (crypto : crypto.Provider SK)
    (encoder : encoder.Provider) (snap : String) (flag : Bool) (p : ParametersStore) :
    validateCSRStampSignature crypto encoder "" snap flag p =
      ⟨some .ErrCSRStampSignatureIsMissing, p, []⟩ := by
  unfold validateCSRStampSignature
  rw [if_pos (by decide)]

theorem validateCSRStampSignature_undecodable (crypto : crypto.Provider SK)
    (encoder : encoder.Provider) (sig snap : String) (flag : Bool) (p : ParametersStore)
    (hsig : sig ≠ "") (hdec : (encoder.DecodeString sig).ok = false) :
    validateCSRStampSignature crypto encoder sig snap flag p =
      ⟨some .ErrSignatureDecoding, p, []⟩ := by
  have h0 : ¬ (0 = len sig) := fun h => hsig ((len_eq_zero_iff _).1 h)
  unfold validateCSRStampSignature
  rw [if_neg h0]
  simp only [hdec, Bool.not_false, if_true]

theorem validateCSRStampSignature_unverified (crypto : crypto.Provider SK)
    (encoder : encoder.Provider) (sig snap : String) (p : ParametersStore)
    (hsig : sig ≠ "") (hdec : (encoder.DecodeString sig).ok = true) :
    validateCSRStampSignature crypto encoder sig snap false p = ⟨none, p, []⟩ := by
  have h0 : ¬ (0 = len sig) := fun h => hsig ((len_eq_zero_iff _).1 h)
  unfold validateCSRStampSignature
  rw [if_neg h0]
  simp only [hdec, Bool.not_true, Bool.false_eq_true, if_false]

theorem validateCSRStamp_format_of_none (crypto : crypto.Provider SK)
    (encoder : encoder.Provider) (s : CSRStamp) (p : ParametersStore)
    (h : (validateCSRStamp crypto encoder s p).err = none) :
    validateCSRStampSnapshot encoder s.Snapshot = none ∧ s.Signature ≠ "" ∧
      (encoder.DecodeString s.Signature).ok = true := by
  rw [validateCSRStamp_err] at h
  cases h1 : validateCSRStampSnapshot encoder s.Snapshot with
  | some e => simp [h1] at h
  | none =>
    simp only [h1] at h
    refine ⟨rfl, ?_, ?_⟩
    · intro hs
      rw [hs, validateCSRStampSignature_empty] at h
      simp at h
    · by_cases hs : s.Signature = ""
      · rw [hs, validateCSRStampSignature_empty] at h
        simp at h
      · cases hok : (encoder.DecodeString s.Signature).ok
        · rw [validateCSRStampSignature_undecodable crypto encoder _ _ _ _ hs hok] at h
          simp at h
        · rfl

theorem validateCSRStamp_self (crypto : crypto.Provider SK)
    (encoder : encoder.Provider) (s : CSRStamp) (p : ParametersStore)
    (hself : s.IsSelf = true) (hpk : 0 < p.publicKey.length)
    (hsnap : validateCSRStampSnapshot encoder s.Snapshot = none)
    (hsig : s.Signature ≠ "") (hdec : (encoder.DecodeString s.Signature).ok = true) :
    validateCSRStamp crypto encoder s p =
      ⟨match crypto.ValidateVirgilCardSignature p.csr (stampExtra encoder s) p.publicKey
            (encoder.DecodeString s.Signature).data with
        | some _ => some .ErrSignatureVerificationFailed
        | none => none,
       { p with extraSnapshot := stampExtra encoder s },
       [selfVerifyCall encoder s p]⟩ := by
  have hsg := validateCSRStampSignature_self crypto encoder s p hsnap hsig hdec
  have hsn : validateCSRSigner s.Signer = none := by
    rw [isSelf_signer s hself]
    exact validateCSRSigner_self
  unfold validateCSRStamp
  simp only [hsnap, hself, hpk, decide_True, Bool.and_self, hsg, hsn]
  split <;> simp_all

theorem validateCSRStamp_other (crypto : crypto.Provider SK)
    (encoder : encoder.Provider) (s : CSRStamp) (p : ParametersStore)
    (h : (s.IsSelf && decide (0 < p.publicKey.length)) = false) :
    (validateCSRStamp crypto encoder s p).params = p ∧
    (validateCSRStamp crypto encoder s p).calls = [] := by
  rw [validateCSRStamp_params_eq, validateCSRStamp_calls, h]
  cases hsnap : validateCSRStampSnapshot encoder s.Snapshot with
  | some e => exact ⟨rfl, rfl⟩
  | none =>
    simp only []
    by_cases hs : s.Signature = ""
    · rw [hs, validateCSRStampSignature_empty]
      exact ⟨rfl, rfl⟩
    · cases hok : (encoder.DecodeString s.Signature).ok
      · rw [validateCSRStampSignature_undecodable crypto encoder _ _ _ _ hs hok]
        exact ⟨rfl, rfl⟩
      · rw [validateCSRStampSignature_unverified crypto encoder _ _ _ hs hok]
        exact ⟨rfl, rfl⟩

theorem validateCSRStamp_calls_form (crypto : crypto.Provider SK)
    (encoder : encoder.Provider) (s : CSRStamp) (p : ParametersStore) :
    (validateCSRStamp crypto encoder s p).calls = [] ∨
      ((validateCSRStamp crypto encoder s p).calls = [selfVerifyCall encoder s p] ∧
        s.IsSelf = true ∧ 0 < p.publicKey.length) := by
  cases hflag : (s.IsSelf && decide (0 < p.publicKey.length))
  · exact Or.inl (validateCSRStamp_other crypto encoder s p hflag).2
  · have hself : s.IsSelf = true := by
      cases h : s.IsSelf
      · simp [h] at hflag
      · rfl
    have hpk : 0 < p.publicKey.length := by
      simpa [hself] using hflag
    rw [validateCSRStamp_calls, hflag]
    cases hsnap : validateCSRStampSnapshot encoder s.Snapshot with
    | some e => exact Or.inl rfl
    | none =>
      simp only []
      by_cases hsig : s.Signature = ""
      · left
        rw [hsig, validateCSRStampSignature_empty]
      · cases hdec : (encoder.DecodeString s.Signature).ok
        · left
          rw [validateCSRStampSignature_undecodable crypto encoder _ _ _ _ hsig hdec]
        · right
          rw [validateCSRStampSignature_self crypto encoder s p hsnap hsig hdec]
          exact ⟨rfl, hself, hpk⟩

theorem validateCSRStampsLoop_noself (crypto : crypto.Provider SK)
    (encoder : encoder.Provider) (xs : List CSRStamp) :
    ∀ (flag : Bool) (p : ParametersStore), (∀ s ∈ xs, s.IsSelf = false) →
      (validateCSRStampsLoop crypto encoder xs flag p).params = p ∧
      (validateCSRStampsLoop crypto encoder xs flag p).calls = [] := by
  induction xs with
  | nil => intro flag p _; cases flag <;> simp [validateCSRStampsLoop]
  | cons x xs ih =>
    intro flag p h
    have hx : x.IsSelf = false := h x (List.mem_cons_self _ _)
    have ho := validateCSRStamp_other crypto encoder x p (by simp [hx])
    have hrest := ih flag p (fun s hs => h s (List.mem_cons_of_mem _ hs))
    unfold validateCSRStampsLoop
    simp only [hx, Bool.false_eq_true, if_false]
    split
    · exact ho
    · simp only [ho.1, ho.2, List.nil_append]
      exact hrest

theorem validateCSRStampsLoop_flag_noself (crypto : crypto.Provider SK)
    (encoder : encoder.Provider) (xs : List CSRStamp) (p : ParametersStore)
    (h : (validateCSRStampsLoop crypto encoder xs true p).err = none) :
    ∀ s ∈ xs, s.IsSelf = false := by
  have hv := validateCSRStampsLoop_valid_of_none crypto encoder xs true p p rfl rfl h
  have he := validateCSRStampsLoop_err_of_valid crypto encoder xs true p p rfl rfl hv
  rw [h] at he
  have hc : xs.countP CSRStamp.IsSelf = 0 := by
    by_contra hne
    simp only [Bool.toNat_true] at he
    rw [if_neg (by omega), if_neg (by omega)] at he
    cases he
  intro s hs
  have := (List.countP_eq_zero.1 hc) s hs
  simpa using this

theorem validateCSRStampsLoop_self (crypto : crypto.Provider SK)
    (encoder : encoder.Provider) (s : CSRStamp) (xs : List CSRStamp) :
    ∀ (p : ParametersStore),
      (validateCSRStampsLoop crypto encoder xs false p).err = none →
      s ∈ xs → s.IsSelf = true → 0 < p.publicKey.length →
      (validateCSRStampsLoop crypto encoder xs false p).params.extraSnapshot =
          stampExtra encoder s ∧
      selfVerifyCall encoder s p ∈ (validateCSRStampsLoop crypto encoder xs false p).calls ∧
      crypto.ValidateVirgilCardSignature p.csr (stampExtra encoder s) p.publicKey
          (encoder.DecodeString s.Signature).data = none := by
  induction xs with
  | nil => intro _ _ h; cases h
  | cons x xs ih =>
    intro p hn hs hself hpk
    have hvx : (validateCSRStamp crypto encoder x p).err = none :=
      validateCSRStampsLoop_valid_of_none crypto encoder (x :: xs) false p p rfl rfl hn x
        (List.mem_cons_self _ _)
    unfold validateCSRStampsLoop at hn ⊢
    simp only [hvx] at hn ⊢
    cases hx : x.IsSelf
    · have ho := validateCSRStamp_other crypto encoder x p (by simp [hx])
      simp only [hx, Bool.false_eq_true, if_false, ho.1, ho.2, List.nil_append] at hn ⊢
      have hs2 : s ∈ xs := by
        rcases List.mem_cons.1 hs with rfl | h
        · rw [hx] at hself; cases hself
        · exact h
      exact ih p hn hs2 hself hpk
    · obtain ⟨f1, f2, f3⟩ := validateCSRStamp_format_of_none crypto encoder x p hvx
      have hform := validateCSRStamp_self crypto encoder x p hx hpk f1 f2 f3
      simp only [hx, if_true, Bool.false_eq_true, if_false] at hn ⊢
      have hno := validateCSRStampsLoop_flag_noself crypto encoder xs _ hn
      have hsx : s = x := by
        rcases List.mem_cons.1 hs with h | h
        · exact h
        · have := hno s h
          rw [this] at hself; cases hself
      subst hsx
      have hns := validateCSRStampsLoop_noself crypto encoder xs true
        (validateCSRStamp crypto encoder s p).params hno
      rw [hns.1, hns.2, hform]
      rw [hform] at hvx
      refine ⟨rfl, by simp, ?_⟩
      cases hc : crypto.ValidateVirgilCardSignature p.csr (stampExtra encoder s) p.publicKey
          (encoder.DecodeString s.Signature).data with
      | none => rfl
      | some e => simp [hc] at hvx

theorem CSRStampsValidator_Validate_valid (crypto : crypto.Provider SK)
    (encoder : encoder.Provider) (xs : List CSRStamp) (scopeID : String)
    (p : ParametersStore)
    (h : (CSRStampsValidator.Validate crypto encoder xs scopeID p).err = none) :
    ∀ s ∈ xs, (validateCSRStamp crypto encoder s p).err = none := by
  unfold CSRStampsValidator.Validate at h
  split_ifs at h
  exact validateCSRStampsLoop_valid_of_none crypto encoder xs false p p rfl rfl h

/-- C2: the stamps validator accepts a list exactly when it has between 1 and 8
entries, every stamp passes `validateCSRStamp` and exactly one stamp is a self
stamp; the empty list and a list longer than 8 are rejected with the store
untouched and no verification called; within the bounds, individually valid
stamps without a self stamp give `ErrSelfCSRStampIsMissing` and with two or
more self stamps `ErrSelfCSRStampMustBeUnique`. -/
theorem CSRStampsValidator_Validate_spec (crypto : crypto.Provider SK)
    (encoder : encoder.Provider) (xs : List CSRStamp) (scopeID : String)
    (p : ParametersStore) :
    ((CSRStampsValidator.Validate crypto encoder xs scopeID p).err = none ↔
      1 ≤ xs.length ∧ xs.length ≤ 8 ∧
      (∀ s ∈ xs, (validateCSRStamp crypto encoder s p).err = none) ∧
      xs.countP CSRStamp.IsSelf = 1) ∧
    (xs = [] → CSRStampsValidator.Validate crypto encoder xs scopeID p =
      ⟨some .ErrCSRStampsListIsTooSmall, p, []⟩) ∧
    (8 < xs.length → CSRStampsValidator.Validate crypto encoder xs scopeID p =
      ⟨some .ErrCSRStampsListIsTooLarge, p, []⟩) ∧
    (1 ≤ xs.length → xs.length ≤ 8 →
      (∀ s ∈ xs, (validateCSRStamp crypto encoder s p).err = none) →
      xs.countP CSRStamp.IsSelf = 0 →
      (CSRStampsValidator.Validate crypto encoder xs scopeID p).err =
        some .ErrSelfCSRStampIsMissing) ∧
    (1 ≤ xs.length → xs.length ≤ 8 →
      (∀ s ∈ xs, (validateCSRStamp crypto encoder s p).err = none) →
      2 ≤ xs.countP CSRStamp.IsSelf →
      (CSRStampsValidator.Validate crypto encoder xs scopeID p).err =
        some .ErrSelfCSRStampMustBeUnique) := by
  have hin : 1 ≤ xs.length → xs.length ≤ 8 →
      CSRStampsValidator.Validate crypto encoder xs scopeID p =
        validateCSRStampsLoop crypto encoder xs false p := by
    intro h1 h2
    unfold CSRStampsValidator.Validate CSRStampsListMinLength CSRStampsListMaxLength
    rw [if_neg (by omega), if_neg (by omega)]
  have hval := validateCSRStampsLoop_err_of_valid crypto encoder xs false p p rfl rfl
  simp only [Bool.toNat_false, Nat.add_zero] at hval
  refine ⟨⟨?_, ?_⟩, ?_, ?_, ?_, ?_⟩
  · intro h
    by_cases h1 : 1 ≤ xs.length
    · by_cases h2 : xs.length ≤ 8
      · rw [hin h1 h2] at h
        have hv := validateCSRStampsLoop_valid_of_none crypto encoder xs false p p rfl rfl h
        refine ⟨h1, h2, hv, ?_⟩
        have he := hval hv
        rw [h] at he
        by_contra hc
        by_cases h0 : xs.countP CSRStamp.IsSelf = 0
        · rw [if_pos h0] at he; cases he
        · rw [if_neg h0, if_neg hc] at he; cases he
      · exfalso
        unfold CSRStampsValidator.Validate CSRStampsListMinLength CSRStampsListMaxLength at h
        rw [if_neg (by omega), if_pos (by omega)] at h
        cases h
    · exfalso
      unfold CSRStampsValidator.Validate CSRStampsListMinLength at h
      rw [if_pos (by omega)] at h
      cases h
  · rintro ⟨h1, h2, hv, hc⟩
    rw [hin h1 h2, hval hv, hc]
    rfl
  · intro h
    subst h
    rfl
  · intro h
    unfold CSRStampsValidator.Validate CSRStampsListMinLength CSRStampsListMaxLength
    rw [if_neg (by omega), if_pos (by omega)]
  · intro h1 h2 hv hc
    rw [hin h1 h2, hval hv, hc]
    rfl
  · intro h1 h2 hv hc
    rw [hin h1 h2, hval hv, if_neg (by omega), if_neg (by omega)]

/-- C2, concrete run: on the two example stamps the validator succeeds, and
on the application stamp alone it reports the missing self stamp. -/
theorem CSRStampsValidator_Validate_spec_witness :
    (CSRStampsValidator.Validate Example.wiring.crypto encoder.Hex
        [Example.selfStamp, Example.appStamp] "S1"
        { publicKey := Example.key, csr := [1] }).err = none ∧
    (CSRStampsValidator.Validate Example.wiring.crypto encoder.Hex
        [Example.appStamp] "S1" { publicKey := Example.key, csr := [1] }).err =
      some .ErrSelfCSRStampIsMissing :=
  ⟨(CSRStampsValidator_Validate_spec Example.wiring.crypto encoder.Hex
      [Example.selfStamp, Example.appStamp] "S1"
      { publicKey := Example.key, csr := [1] }).1.2
      ⟨by decide, by decide, by decide, by decide⟩,
   (CSRStampsValidator_Validate_spec Example.wiring.crypto encoder.Hex
      [Example.appStamp] "S1" { publicKey := Example.key, csr := [1] }).2.2.2.1
      (by decide) (by decide) (by decide) (by decide)⟩

/-- C3: for a self stamp validated against a CSR with a non-empty public key,
every verification the stamp validation calls is the one on (csr bytes, the
stamp's extra snapshot, public key bytes, decoded signature), and there is at
most one; once the stamp's snapshot and signature pass their format checks the
call is made, a reported failure gives `ErrSignatureVerificationFailed`, and on
success the store's `extraSnapshot` is the stamp's extra snapshot.  The same
holds at the end of a successful validation of a whole stamp list. -/
theorem validateCSRStamp_self_verification (crypto : crypto.Provider SK)
    (encoder : encoder.Provider) (s : CSRStamp) (p : ParametersStore)
    (hself : s.IsSelf = true) (hpk : 0 < p.publicKey.length) :
    ((validateCSRStamp crypto encoder s p).calls = [] ∨
      (validateCSRStamp crypto encoder s p).calls = [selfVerifyCall encoder s p]) ∧
    (validateCSRStampSnapshot encoder s.Snapshot = none → s.Signature ≠ "" →
      (encoder.DecodeString s.Signature).ok = true →
      (validateCSRStamp crypto encoder s p).calls = [selfVerifyCall encoder s p] ∧
      (crypto.ValidateVirgilCardSignature p.csr (stampExtra encoder s) p.publicKey
          (encoder.DecodeString s.Signature).data ≠ none →
        (validateCSRStamp crypto encoder s p).err = some .ErrSignatureVerificationFailed) ∧
      (crypto.ValidateVirgilCardSignature p.csr (stampExtra encoder s) p.publicKey
          (encoder.DecodeString s.Signature).data = none →
        (validateCSRStamp crypto encoder s p).err = none ∧
        (validateCSRStamp crypto encoder s p).params.extraSnapshot = stampExtra encoder s)) ∧
    (∀ (xs : List CSRStamp) (scopeID : String), s ∈ xs →
      (CSRStampsValidator.Validate crypto encoder xs scopeID p).err = none →
      selfVerifyCall encoder s p ∈
        (CSRStampsValidator.Validate crypto encoder xs scopeID p).calls ∧
      crypto.ValidateVirgilCardSignature p.csr (stampExtra encoder s) p.publicKey
          (encoder.DecodeString s.Signature).data = none ∧
      (CSRStampsValidator.Validate crypto encoder xs scopeID p).params.extraSnapshot =
        stampExtra encoder s) := by
  refine ⟨?_, ?_, ?_⟩
  · rcases validateCSRStamp_calls_form crypto encoder s p with h | h
    · exact Or.inl h
    · exact Or.inr h.1
  · intro hsnap hsig hdec
    rw [validateCSRStamp_self crypto encoder s p hself hpk hsnap hsig hdec]
    refine ⟨rfl, ?_, ?_⟩
    · intro hne
      cases hc : crypto.ValidateVirgilCardSignature p.csr (stampExtra encoder s) p.publicKey
          (encoder.DecodeString s.Signature).data with
      | none => exact absurd hc hne
      | some e => rfl
    · intro hc
      simp [hc]
  · intro xs scopeID hmem hn
    have hlen : ¬ (CSRStampsListMinLength > xs.length) := by
      intro h
      unfold CSRStampsValidator.Validate at hn
      rw [if_pos h] at hn
      cases hn
    have hlen2 : ¬ (CSRStampsListMaxLength < xs.length) := by
      intro h
      unfold CSRStampsValidator.Validate at hn
      rw [if_neg hlen, if_pos h] at hn
      cases hn
    have heq : CSRStampsValidator.Validate crypto encoder xs scopeID p =
        validateCSRStampsLoop crypto encoder xs false p := by
      unfold CSRStampsValidator.Validate
      rw [if_neg hlen, if_neg hlen2]
    rw [heq] at hn ⊢
    obtain ⟨h1, h2, h3⟩ := validateCSRStampsLoop_self crypto encoder s xs p hn hmem hself hpk
    exact ⟨h2, h3, h1⟩

/-- C3, concrete run: the example self stamp, whose signature is the key
followed by the snapshot byte, has its verification called and passes. -/
theorem validateCSRStamp_self_verification_witness :
    (validateCSRStamp Example.wiring.crypto encoder.Hex Example.selfStamp
        { publicKey := Example.key, csr := [1] }).calls =
      [⟨[1], [], Example.key, Example.key ++ [1]⟩] ∧
    (validateCSRStamp Example.wiring.crypto encoder.Hex Example.selfStamp
        { publicKey := Example.key, csr := [1] }).err = none :=
  have h := (validateCSRStamp_self_verification Example.wiring.crypto encoder.Hex
    Example.selfStamp { publicKey := Example.key, csr := [1] } (by decide) (by decide)).2.1
    (by decide) (by decide) (by decide)
  ⟨h.1.trans (by decide), (h.2.2 (by decide)).1⟩

/-! ## Card validators -/


theorem foldl_AppendSignature (stamps : List CSRStamp) :
    ∀ card : CardDTO,
      stamps.foldl (fun card s => card.AppendSignature {
        Signer := s.Signer, Snapshot := s.Snapshot, Signature := s.Signature }) card =
      { card with Signatures := card.Signatures ++ stamps.map CSRStamp.toDTO } := by
  induction stamps with
  | nil => intro card; simp
  | cons s rest ih =>
    intro card
    rw [List.foldl_cons, ih]
    simp [CardDTO.AppendSignature, CSRStamp.toDTO]

theorem fillVirgilCardModel_eq (crypto : crypto.Provider SK) (card : CardDTO) (csr : CSR)
    (request : CardBaseRequest) (scopeID : String) (p : ParametersStore) :
    fillVirgilCardModel crypto card csr request scopeID p =
      { ID := crypto.CalculateCardID p.csr,
        ContentSnapshot := request.CSR,
        Identity := csr.Identity,
        PreviousCardID := csr.PreviousCardID,
        ApplicationID := scopeID,
        Version := csr.Version,
        ChainID := card.ChainID,
        CreatedAt := csr.CreatedAt,
        Signatures := card.Signatures ++ request.CSRStamps.map CSRStamp.toDTO,
        PublicKey := p.publicKey,
        IsSuperseeded := card.IsSuperseeded } := by
  unfold fillVirgilCardModel
  rw [foldl_AppendSignature]

theorem CSRStampsValidator_Validate_params (crypto : crypto.Provider SK)
    (encoder : encoder.Provider) (xs : List CSRStamp) (scopeID : String)
    (p : ParametersStore) :
    (CSRStampsValidator.Validate crypto encoder xs scopeID p).params.csr = p.csr ∧
    (CSRStampsValidator.Validate crypto encoder xs scopeID p).params.publicKey =
      p.publicKey := by
  unfold CSRStampsValidator.Validate
  split_ifs
  · exact ⟨rfl, rfl⟩
  · exact ⟨rfl, rfl⟩
  · exact validateCSRStampsLoop_params crypto encoder xs false p

theorem baseStamps_params (crypto : crypto.Provider SK) (encoder : encoder.Provider)
    (request : CardBaseRequest) (vs : Bool) (p : ParametersStore) :
    (baseStamps crypto encoder request vs p).params.csr = p.csr ∧
    (baseStamps crypto encoder request vs p).params.publicKey = p.publicKey := by
  unfold baseStamps
  cases vs
  · exact ⟨rfl, rfl⟩
  · exact CSRStampsValidator_Validate_params crypto encoder request.CSRStamps
      request.ApplicationID p

theorem BaseCardValidator_Validate_err (crypto : crypto.Provider SK)
    (encoder : encoder.Provider) (unmarshal : Unmarshal)
    (repo : dao.CardRepositoryProvider) (request : CardBaseRequest) (card0 : CardDTO)
    (vs : Bool) :
    (BaseCardValidator.Validate crypto encoder unmarshal repo request card0 vs).err =
      match CSRValidator.Validate encoder unmarshal request.CSR {} request.UserID with
      | .error e => some e
      | .ok (params, csr) =>
        match (baseStamps crypto encoder request vs params).err with
        | some e => some e
        | none =>
          match validatePreviousCardID repo csr.PreviousCardID request.ApplicationID
              csr.Identity with
          | some e => some e
          | none =>
            validateVirgilCardDuplicates repo (crypto.CalculateCardID params.csr) := by
  unfold BaseCardValidator.Validate
  cases h1 : CSRValidator.Validate encoder unmarshal request.CSR {} request.UserID with
  | error e => rfl
  | ok pc =>
    obtain ⟨params, csr⟩ := pc
    simp only []
    have hst : (if vs = true then CSRStampsValidator.Validate crypto encoder request.CSRStamps
        request.ApplicationID params else ⟨none, params, []⟩) =
        baseStamps crypto encoder request vs params := rfl
    rw [hst]
    cases h2 : (baseStamps crypto encoder request vs params).err with
    | some e => rfl
    | none =>
      simp only []
      cases h3 : validatePreviousCardID repo csr.PreviousCardID request.ApplicationID
          csr.Identity with
      | some e => rfl
      | none =>
        simp only []
        have hid : (fillVirgilCardModel crypto card0 csr request request.ApplicationID
            (baseStamps crypto encoder request vs params).params).ID =
            crypto.CalculateCardID params.csr := by
          rw [fillVirgilCardModel_eq, (baseStamps_params crypto encoder request vs params).1]
        rw [hid]
        cases h4 : validateVirgilCardDuplicates repo (crypto.CalculateCardID params.csr) <;> rfl

theorem BaseCardValidator_Validate_ok (crypto : crypto.Provider SK)
    (encoder : encoder.Provider) (unmarshal : Unmarshal)
    (repo : dao.CardRepositoryProvider) (request : CardBaseRequest) (card0 : CardDTO)
    (vs : Bool)
    (h : (BaseCardValidator.Validate crypto encoder unmarshal repo request card0 vs).err =
      none) :
    ∃ params csr,
      CSRValidator.Validate encoder unmarshal request.CSR {} request.UserID =
        .ok (params, csr) ∧
      (baseStamps crypto encoder request vs params).err = none ∧
      validatePreviousCardID repo csr.PreviousCardID request.ApplicationID csr.Identity =
        none ∧
      validateVirgilCardDuplicates repo (crypto.CalculateCardID params.csr) = none ∧
      (BaseCardValidator.Validate crypto encoder unmarshal repo request card0 vs).card =
        fillVirgilCardModel crypto card0 csr request request.ApplicationID params ∧
      (BaseCardValidator.Validate crypto encoder unmarshal repo request card0 vs).calls =
        (baseStamps crypto encoder request vs params).calls := by
  have herr := BaseCardValidator_Validate_err crypto encoder unmarshal repo request card0 vs
  rw [h] at herr
  unfold BaseCardValidator.Validate
  cases h1 : CSRValidator.Validate encoder unmarshal request.CSR {} request.UserID with
  | error e => rw [h1] at herr; cases herr
  | ok pc =>
    obtain ⟨params, csr⟩ := pc
    rw [h1] at herr
    simp only [] at herr ⊢
    have hst : (if vs = true then CSRStampsValidator.Validate crypto encoder request.CSRStamps
        request.ApplicationID params else ⟨none, params, []⟩) =
        baseStamps crypto encoder request vs params := rfl
    rw [hst]
    cases h2 : (baseStamps crypto encoder request vs params).err with
    | some e => rw [h2] at herr; cases herr
    | none =>
      rw [h2] at herr
      simp only [] at herr ⊢
      cases h3 : validatePreviousCardID repo csr.PreviousCardID request.ApplicationID
          csr.Identity with
      | some e => rw [h3] at herr; cases herr
      | none =>
        rw [h3] at herr
        simp only [] at herr ⊢
        have hfill : fillVirgilCardModel crypto card0 csr request request.ApplicationID
            (baseStamps crypto encoder request vs params).params =
            fillVirgilCardModel crypto card0 csr request request.ApplicationID params := by
          rw [fillVirgilCardModel_eq, fillVirgilCardModel_eq,
            (baseStamps_params crypto encoder request vs params).1,
            (baseStamps_params crypto encoder request vs params).2]
        have hid : (fillVirgilCardModel crypto card0 csr request request.ApplicationID
            params).ID = crypto.CalculateCardID params.csr := by
          rw [fillVirgilCardModel_eq]
        rw [hfill, hid, ← herr]
        exact ⟨params, csr, rfl, h2, h3, herr.symm, rfl, rfl⟩

/-! ## Repository and controller steps -/

theorem SaveCard_card_by_card_id (std : encoder.Provider) (db : Store) (card : CardDTO) :
    (CardRepository.SaveCard std db card).card_by_card_id =
      insertCardByID (CardRow.ofCard std card) db.card_by_card_id := by
  unfold CardRepository.SaveCard
  simp only []
  split_ifs <;> rfl

theorem SaveCard_card_previous_ids (std : encoder.Provider) (db : Store) (card : CardDTO) :
    (CardRepository.SaveCard std db card).card_previous_ids =
      if card.PreviousCardID ≠ "" then
        insertPreviousID ⟨card.PreviousCardID, card.ApplicationID⟩ db.card_previous_ids
      else db.card_previous_ids := by
  unfold CardRepository.SaveCard
  simp only []
  split_ifs <;> rfl

theorem mem_insertCardByID (row r : CardRow) (t : List CardRow) :
    r ∈ insertCardByID row t ↔ r = row ∨ (r ∈ t ∧ r.id ≠ row.id) := by
  unfold insertCardByID
  simp [List.mem_filter]

theorem mem_insertPreviousID (row r : PreviousIDRow) (t : List PreviousIDRow) :
    r ∈ insertPreviousID row t ↔ r = row ∨ r ∈ t := by
  unfold insertPreviousID
  simp only [List.mem_cons, List.mem_filter, bne_iff_ne, ne_eq]
  constructor
  · rintro (h | h)
    · exact Or.inl h
    · exact Or.inr h.1
  · rintro (h | h)
    · exact Or.inl h
    · by_cases hr : r = row
      · exact Or.inl hr
      · exact Or.inr ⟨h, hr⟩

theorem DoesCardExist_false_iff (db : Store) (p a : String) (hp : p ≠ "") :
    CardRepository.DoesCardExistByPreviousIDAndScopeID db p a = .ok false ↔
      (⟨p, a⟩ : PreviousIDRow) ∉ db.card_previous_ids := by
  unfold CardRepository.DoesCardExistByPreviousIDAndScopeID
  cases hf : db.card_previous_ids.find?
      (fun r => r.previous_card_id == p && r.application_id == a) with
  | none =>
    simp only [true_iff]
    intro hmem
    have := List.find?_eq_none.1 hf _ hmem
    simp at this
  | some r =>
    have hr := List.find?_some hf
    have hm := List.mem_of_find?_eq_some hf
    simp only [Bool.and_eq_true, beq_iff_eq] at hr
    have hre : r = ⟨p, a⟩ := by
      cases r
      simp only [PreviousIDRow.mk.injEq]
      exact hr
    subst hre
    simp [hp, hm]

theorem DoesCardExist_ok (db : Store) (p a : String) :
    ∃ b, CardRepository.DoesCardExistByPreviousIDAndScopeID db p a = .ok b := by
  unfold CardRepository.DoesCardExistByPreviousIDAndScopeID
  split
  · exact ⟨_, rfl⟩
  · split_ifs <;> exact ⟨_, rfl⟩

theorem validatePreviousCardID_none_absent (std : encoder.Provider) (db : Store)
    (p a i : String) (hp : p ≠ "")
    (h : validatePreviousCardID (CardRepository.provider std db) p a i = none) :
    (⟨p, a⟩ : PreviousIDRow) ∉ db.card_previous_ids := by
  unfold validatePreviousCardID at h
  rw [if_neg hp] at h
  simp only [CardRepository.provider] at h
  obtain ⟨b, hb⟩ := DoesCardExist_ok db p a
  rw [hb] at h
  cases b
  · exact (DoesCardExist_false_iff db p a hp).1 hb
  · simp at h

theorem SetCardChainID_ok (newV4 : Option String) (db : Store) (c c2 : CardDTO)
    (h : CardRepository.SetCardChainID newV4 db c = .ok c2) :
    ∃ chainID, c2 = { c with ChainID := chainID } := by
  unfold CardRepository.SetCardChainID at h
  split_ifs at h
  · split at h
    · cases h
    · next chainID => cases h; exact ⟨chainID, rfl⟩
  · split at h
    · cases h
    · next r _ =>
      split_ifs at h
      cases h
      exact ⟨r.chain_id, rfl⟩

theorem SignCardByCardsService_ok (std : encoder.Provider) (cs : DefaultSigner SK)
    (c c2 : CardDTO) (h : cs.SignCardByCardsService std c = (none, c2)) :
    (std.DecodeString c.ContentSnapshot).ok = true ∧
    ∃ signature,
      cs.crypto.SignVirgilCard (std.DecodeString c.ContentSnapshot).data []
        cs.cards5PrivateKey = .ok signature ∧
      c2 = { c with Signatures := c.Signatures ++
        [{ Signer := "virgil", Signature := std.EncodeToString signature }] } := by
  unfold DefaultSigner.SignCardByCardsService at h
  cases hok : (std.DecodeString c.ContentSnapshot).ok
  · simp [hok] at h
  · simp only [hok, Bool.not_true, Bool.false_eq_true, if_false] at h
    refine ⟨rfl, ?_⟩
    cases hs : cs.crypto.SignVirgilCard (std.DecodeString c.ContentSnapshot).data []
        cs.cards5PrivateKey with
    | error e => simp [hs] at h
    | ok signature =>
      simp only [hs, Prod.mk.injEq, true_and] at h
      exact ⟨signature, rfl, h.symm⟩

theorem SignCardByCardsService_err (std : encoder.Provider) (cs : DefaultSigner SK)
    (c c2 : CardDTO) (e : SignerError) (h : cs.SignCardByCardsService std c = (some e, c2)) :
    c2 = c := by
  unfold DefaultSigner.SignCardByCardsService at h
  cases hok : (std.DecodeString c.ContentSnapshot).ok
  · simp only [hok, Bool.not_false, if_true, Prod.mk.injEq] at h
    exact h.2.symm
  · simp only [hok, Bool.not_true, Bool.false_eq_true, if_false] at h
    cases hs : cs.crypto.SignVirgilCard (std.DecodeString c.ContentSnapshot).data []
        cs.cards5PrivateKey with
    | error e2 =>
      simp only [hs, Prod.mk.injEq] at h
      exact h.2.symm
    | ok signature => simp [hs] at h

theorem IsChainDeleted_ok (db : Store) (i a c : String) :
    ∃ b, CardRepository.IsChainDeleted db i a c = .ok b := ⟨_, rfl⟩

theorem CardCreate_ok_iff (w : Wiring SK) (newV4 : Option String) (db : Store)
    (request : CardBaseRequest) (card : CardDTO) (db2 : Store) :
    Controller.CardCreate w newV4 db request = (.ok card, db2) ↔
      ∃ c1,
        (CreateCardValidator.Validate w.crypto (encoder.Base64 w.StdEncoding) w.unmarshal
          (CardRepository.provider w.StdEncoding db) request NewCardDTO).err = none ∧
        request.UserID ≠ "" ∧
        CardRepository.SetCardChainID newV4 db
          (CreateCardValidator.Validate w.crypto (encoder.Base64 w.StdEncoding) w.unmarshal
            (CardRepository.provider w.StdEncoding db) request NewCardDTO).card = .ok c1 ∧
        (c1.PreviousCardID ≠ "" →
          CardRepository.IsChainDeleted db request.UserID request.ApplicationID c1.ChainID =
            .ok false) ∧
        w.cardSigner.SignCardByCardsService w.StdEncoding c1 = (none, card) ∧
        db2 = CardRepository.SaveCard w.StdEncoding db card := by
  unfold Controller.CardCreate
  simp only []
  cases hv : (CreateCardValidator.Validate w.crypto (encoder.Base64 w.StdEncoding) w.unmarshal
      (CardRepository.provider w.StdEncoding db) request NewCardDTO).err with
  | some e => simp
  | none =>
    simp only []
    by_cases hu : request.UserID = ""
    · simp [hu]
    · rw [if_neg hu]
      cases hc : CardRepository.SetCardChainID newV4 db
          (CreateCardValidator.Validate w.crypto (encoder.Base64 w.StdEncoding) w.unmarshal
            (CardRepository.provider w.StdEncoding db) request NewCardDTO).card with
      | error e => simp
      | ok c1 =>
        simp only []
        by_cases hp : c1.PreviousCardID = ""
        · simp only [hp, ne_eq, not_true_eq_false, if_false]
          cases hs : w.cardSigner.SignCardByCardsService w.StdEncoding c1 with
          | mk se c2 =>
            cases se with
            | some e =>
              simp only []
              constructor
              · intro h; cases h
              · rintro ⟨c, -, -, hc1, -, hs1, -⟩
                cases hc1
                rw [hs] at hs1
                cases hs1
            | none =>
              simp only [Prod.mk.injEq, Except.ok.injEq]
              constructor
              · rintro ⟨h1, h2⟩
                subst h1
                exact ⟨c1, trivial, hu, rfl, fun h => absurd hp h, hs, h2.symm⟩
              · rintro ⟨c, -, -, hc1, -, hs1, hd⟩
                cases hc1
                rw [hs] at hs1
                cases hs1
                exact ⟨rfl, hd.symm⟩
        · simp only [ne_eq, hp, not_false_eq_true, if_true]
          obtain ⟨b, hb⟩ := IsChainDeleted_ok db request.UserID request.ApplicationID c1.ChainID
          rw [hb]
          cases b
          · simp only []
            cases hs : w.cardSigner.SignCardByCardsService w.StdEncoding c1 with
            | mk se c2 =>
              cases se with
              | some e =>
                simp only []
                constructor
                · intro h; cases h
                · rintro ⟨c, -, -, hc1, -, hs1, -⟩
                  cases hc1
                  rw [hs] at hs1
                  cases hs1
              | none =>
                simp only [Prod.mk.injEq, Except.ok.injEq]
                constructor
                · rintro ⟨h1, h2⟩
                  subst h1
                  exact ⟨c1, trivial, hu, rfl, fun _ => hb, hs, h2.symm⟩
                · rintro ⟨c, -, -, hc1, -, hs1, hd⟩
                  cases hc1
                  rw [hs] at hs1
                  cases hs1
                  exact ⟨rfl, hd.symm⟩
          · simp only []
            constructor
            · intro h; cases h
            · rintro ⟨c, -, -, hc1, hdel, -, -⟩
              cases hc1
              have := hdel hp
              rw [hb] at this
              cases this

theorem CardCreate_cases (w : Wiring SK) (newV4 : Option String) (db : Store)
    (request : CardBaseRequest) :
    (∃ e, Controller.CardCreate w newV4 db request = (.error e, db)) ∨
    (∃ card, Controller.CardCreate w newV4 db request =
      (.ok card, CardRepository.SaveCard w.StdEncoding db card)) := by
  unfold Controller.CardCreate
  simp only []
  cases hv : (CreateCardValidator.Validate w.crypto (encoder.Base64 w.StdEncoding) w.unmarshal
      (CardRepository.provider w.StdEncoding db) request NewCardDTO).err with
  | some e => exact Or.inl ⟨e, rfl⟩
  | none =>
    simp only []
    by_cases hu : request.UserID = ""
    · rw [if_pos hu]
      exact Or.inl ⟨_, rfl⟩
    · rw [if_neg hu]
      cases hc : CardRepository.SetCardChainID newV4 db
          (CreateCardValidator.Validate w.crypto (encoder.Base64 w.StdEncoding) w.unmarshal
            (CardRepository.provider w.StdEncoding db) request NewCardDTO).card with
      | error e => exact Or.inl ⟨_, rfl⟩
      | ok c1 =>
        simp only []
        have hsign : (∃ e, (match w.cardSigner.SignCardByCardsService w.StdEncoding c1 with
            | (some _, _) => ((.error .ErrInternalError : Except ApiError CardDTO), db)
            | (none, virgilCard) =>
              (.ok virgilCard, CardRepository.SaveCard w.StdEncoding db virgilCard)) =
              (.error e, db)) ∨
            (∃ card, (match w.cardSigner.SignCardByCardsService w.StdEncoding c1 with
            | (some _, _) => ((.error .ErrInternalError : Except ApiError CardDTO), db)
            | (none, virgilCard) =>
              (.ok virgilCard, CardRepository.SaveCard w.StdEncoding db virgilCard)) =
              (.ok card, CardRepository.SaveCard w.StdEncoding db card)) := by
          cases hs : w.cardSigner.SignCardByCardsService w.StdEncoding c1 with
          | mk se c2 =>
            cases se with
            | some e => exact Or.inl ⟨_, rfl⟩
            | none => exact Or.inr ⟨c2, rfl⟩
        by_cases hp : c1.PreviousCardID = ""
        · simp only [hp, ne_eq, not_true_eq_false, if_false]
          exact hsign
        · simp only [ne_eq, hp, not_false_eq_true, if_true]
          obtain ⟨b, hb⟩ := IsChainDeleted_ok db request.UserID request.ApplicationID c1.ChainID
          rw [hb]
          cases b
          · exact hsign
          · exact Or.inl ⟨_, rfl⟩

theorem SetChainDeleted_cases (db : Store) (i a c : String) (now : Int) :
    CardRepository.SetChainDeleted db i a c now = (.ok false, db) ∨
    ∃ dbm, CardRepository.SetChainDeleted db i a c now = (.ok true, dbm) ∧
      dbm.card_by_card_id = db.card_by_card_id ∧
      dbm.card_by_identity = db.card_by_identity ∧
      dbm.card_previous_ids = db.card_previous_ids := by
  unfold CardRepository.SetChainDeleted
  split
  · exact Or.inl rfl
  · split_ifs
    · exact Or.inr ⟨_, rfl, rfl, rfl, rfl⟩
    · exact Or.inl rfl

theorem CardDelete_cases (w : Wiring SK) (newV4 : Option String) (now : Int) (db : Store)
    (request : CardBaseRequest) :
    (∃ e, Controller.CardDelete w newV4 now db request = (.error e, db)) ∨
    (∃ c1 card dbm,
      request.UserID ≠ "" ∧
      (DeleteCardValidator.Validate w.crypto (encoder.Base64 w.StdEncoding) w.unmarshal
        (CardRepository.provider w.StdEncoding db) request NewCardDTO).err = none ∧
      CardRepository.SetCardChainID newV4 db
        (DeleteCardValidator.Validate w.crypto (encoder.Base64 w.StdEncoding) w.unmarshal
          (CardRepository.provider w.StdEncoding db) request NewCardDTO).card = .ok c1 ∧
      w.cardSigner.SignCardByCardsService w.StdEncoding c1 = (none, card) ∧
      CardRepository.SetChainDeleted db request.UserID request.ApplicationID card.ChainID
        now = (.ok true, dbm) ∧
      dbm.card_by_card_id = db.card_by_card_id ∧
      dbm.card_by_identity = db.card_by_identity ∧
      dbm.card_previous_ids = db.card_previous_ids ∧
      Controller.CardDelete w newV4 now db request =
        (.ok card, CardRepository.SaveCard w.StdEncoding dbm card)) := by
  unfold Controller.CardDelete
  by_cases hu : request.UserID = ""
  · rw [if_pos hu]
    exact Or.inl ⟨_, rfl⟩
  · rw [if_neg hu]
    simp only []
    cases hv : (DeleteCardValidator.Validate w.crypto (encoder.Base64 w.StdEncoding) w.unmarshal
        (CardRepository.provider w.StdEncoding db) request NewCardDTO).err with
    | some e => exact Or.inl ⟨e, rfl⟩
    | none =>
      simp only []
      cases hc : CardRepository.SetCardChainID newV4 db
          (DeleteCardValidator.Validate w.crypto (encoder.Base64 w.StdEncoding) w.unmarshal
            (CardRepository.provider w.StdEncoding db) request NewCardDTO).card with
      | error e => exact Or.inl ⟨_, rfl⟩
      | ok c1 =>
        simp only []
        cases hs : w.cardSigner.SignCardByCardsService w.StdEncoding c1 with
        | mk se c2 =>
          cases se with
          | some e => exact Or.inl ⟨_, rfl⟩
          | none =>
            simp only []
            rcases SetChainDeleted_cases db request.UserID request.ApplicationID c2.ChainID
              now with h | ⟨dbm, h, h1, h2, h3⟩
            · rw [h]
              exact Or.inl ⟨_, rfl⟩
            · rw [h]
              exact Or.inr ⟨c1, c2, dbm, hu, trivial, rfl, hs, h, h1, h2, h3, rfl⟩

theorem CreateCardValidator_Validate_ok (crypto : crypto.Provider SK)
    (encoder : encoder.Provider) (unmarshal : Unmarshal)
    (repo : dao.CardRepositoryProvider) (request : CardBaseRequest) (card0 : CardDTO)
    (h : (CreateCardValidator.Validate crypto encoder unmarshal repo request card0).err =
      none) :
    (BaseCardValidator.Validate crypto encoder unmarshal repo request card0 true).err =
      none ∧
    CreateCardValidator.Validate crypto encoder unmarshal repo request card0 =
      BaseCardValidator.Validate crypto encoder unmarshal repo request card0 true ∧
    16 ≤ (BaseCardValidator.Validate crypto encoder unmarshal repo request card0
      true).card.PublicKey.length := by
  unfold CreateCardValidator.Validate at h ⊢
  simp only [] at h ⊢
  cases hb : (BaseCardValidator.Validate crypto encoder unmarshal repo request card0
      true).err with
  | some e => simp [hb] at h
  | none =>
    simp only [hb] at h ⊢
    unfold CreateCardValidator.validateCSRPublicKeyLength PublicKeyMinLength at h ⊢
    by_cases hl : 16 > (BaseCardValidator.Validate crypto encoder unmarshal repo request card0
        true).card.PublicKey.length
    · simp [hl] at h
    · simp only [hl, if_false, true_and]
      refine ⟨?_, by omega⟩
      rw [← hb]

theorem DeleteCardValidator_Validate_ok (crypto : crypto.Provider SK)
    (encoder : encoder.Provider) (unmarshal : Unmarshal)
    (repo : dao.CardRepositoryProvider) (request : CardBaseRequest) (card0 : CardDTO)
    (h : (DeleteCardValidator.Validate crypto encoder unmarshal repo request card0).err =
      none) :
    (BaseCardValidator.Validate crypto encoder unmarshal repo request card0 false).err =
      none ∧
    DeleteCardValidator.Validate crypto encoder unmarshal repo request card0 =
      BaseCardValidator.Validate crypto encoder unmarshal repo request card0 false ∧
    (BaseCardValidator.Validate crypto encoder unmarshal repo request card0
      false).card.PublicKey.length = 0 ∧
    (BaseCardValidator.Validate crypto encoder unmarshal repo request card0
      false).card.PreviousCardID ≠ "" := by
  unfold DeleteCardValidator.Validate at h ⊢
  simp only [] at h ⊢
  cases hb : (BaseCardValidator.Validate crypto encoder unmarshal repo request card0
      false).err with
  | some e => simp [hb] at h
  | none =>
    simp only [hb] at h ⊢
    unfold DeleteCardValidator.validateCSRPublicKeyLength
      DeleteCardValidator.validateCSRCardIDToDelete at h ⊢
    by_cases hl : (BaseCardValidator.Validate crypto encoder unmarshal repo request card0
        false).card.PublicKey.length > 0
    · simp [hl] at h
    · simp only [hl, if_false] at h ⊢
      by_cases hp : 0 ≥ len (BaseCardValidator.Validate crypto encoder unmarshal repo request
          card0 false).card.PreviousCardID
      · simp [hp] at h
      · simp only [hp, if_false, true_and]
        refine ⟨?_, by omega, ?_⟩
        · rw [← hb]
        · intro he
          apply hp
          rw [he]
          decide

/-- What validation has established about a card that is about to be saved:
the predecessor check and the duplicate check passed on the store `db`. -/
theorem BaseCardValidator_Validate_checked (crypto : crypto.Provider SK)
    (encoder : encoder.Provider) (unmarshal : Unmarshal)
    (repo : dao.CardRepositoryProvider) (request : CardBaseRequest) (card0 : CardDTO)
    (vs : Bool)
    (h : (BaseCardValidator.Validate crypto encoder unmarshal repo request card0 vs).err =
      none) :
    validatePreviousCardID repo
      (BaseCardValidator.Validate crypto encoder unmarshal repo request card0
        vs).card.PreviousCardID
      (BaseCardValidator.Validate crypto encoder unmarshal repo request card0
        vs).card.ApplicationID
      (BaseCardValidator.Validate crypto encoder unmarshal repo request card0
        vs).card.Identity = none ∧
    validateVirgilCardDuplicates repo
      (BaseCardValidator.Validate crypto encoder unmarshal repo request card0 vs).card.ID =
        none := by
  obtain ⟨params, csr, -, -, h3, h4, h5, -⟩ :=
    BaseCardValidator_Validate_ok crypto encoder unmarshal repo request card0 vs h
  rw [h5, fillVirgilCardModel_eq]
  exact ⟨h3, h4⟩

/-! ## Single successor -/

theorem SaveCard_card_by_identity (std : encoder.Provider) (db : Store) (card : CardDTO) :
    (CardRepository.SaveCard std db card).card_by_identity =
      insertCardByIdentity (CardRow.ofCard std card) db.card_by_identity := by
  unfold CardRepository.SaveCard
  simp only []
  split_ifs <;> rfl

theorem filter_claims_eq_nil (t : List CardRow) (ps : List PreviousIDRow)
    (hI : Indexed t ps) (p a : String) (hp : p ≠ "")
    (habs : (⟨p, a⟩ : PreviousIDRow) ∉ ps) :
    t.filter (fun r => r.claims p a) = [] := by
  rw [List.filter_eq_nil_iff]
  intro r hr hc
  unfold CardRow.claims at hc
  simp only [Bool.and_eq_true, beq_iff_eq] at hc
  have := hI r hr (by rw [hc.1]; exact hp)
  rw [hc.1, hc.2] at this
  exact habs this

theorem insert_row_preserves (t : List CardRow) (ps ps2 : List PreviousIDRow)
    (row : CardRow) (f : CardRow → Bool)
    (hsub : ∀ q ∈ ps, q ∈ ps2)
    (hnew : row.previous_card_id ≠ "" →
      (⟨row.previous_card_id, row.application_id⟩ : PreviousIDRow) ∈ ps2)
    (habs : row.previous_card_id ≠ "" →
      (⟨row.previous_card_id, row.application_id⟩ : PreviousIDRow) ∉ ps)
    (hI : Indexed t ps) (hS : SingleSuccessor t) :
    Indexed (row :: t.filter f) ps2 ∧ SingleSuccessor (row :: t.filter f) := by
  constructor
  · intro r hr hne
    rcases List.mem_cons.1 hr with hr | hr
    · subst hr
      exact hnew hne
    · exact hsub _ (hI r (List.mem_filter.1 hr).1 hne)
  · intro p a hp
    rw [List.filter_cons]
    have hle : ((t.filter f).filter (fun r => r.claims p a)).length ≤
        (t.filter (fun r => r.claims p a)).length := by
      rw [List.filter_comm]
      exact List.length_filter_le _ _
    by_cases hc : row.claims p a = true
    · rw [if_pos hc]
      have hc2 := hc
      unfold CardRow.claims at hc2
      simp only [Bool.and_eq_true, beq_iff_eq] at hc2
      have hne : row.previous_card_id ≠ "" := by rw [hc2.1]; exact hp
      have habs2 := habs hne
      rw [hc2.1, hc2.2] at habs2
      have hnil := filter_claims_eq_nil t ps hI p a hp habs2
      rw [hnil] at hle
      simp only [List.length_cons]
      simp only [List.length_nil] at hle
      omega
    · rw [if_neg hc]
      exact le_trans hle (hS p a hp)

theorem checked_save_preserves (std : encoder.Provider) (db dbm : Store) (card : CardDTO)
    (h1 : dbm.card_by_card_id = db.card_by_card_id)
    (h2 : dbm.card_by_identity = db.card_by_identity)
    (h3 : dbm.card_previous_ids = db.card_previous_ids)
    (hprev : validatePreviousCardID (CardRepository.provider std db) card.PreviousCardID
      card.ApplicationID card.Identity = none)
    (hI : Indexed db.card_by_card_id db.card_previous_ids ∧
      Indexed db.card_by_identity db.card_previous_ids)
    (hS : SingleSuccessor db.card_by_card_id ∧ SingleSuccessor db.card_by_identity) :
    (Indexed (CardRepository.SaveCard std dbm card).card_by_card_id
        (CardRepository.SaveCard std dbm card).card_previous_ids ∧
      Indexed (CardRepository.SaveCard std dbm card).card_by_identity
        (CardRepository.SaveCard std dbm card).card_previous_ids) ∧
    (SingleSuccessor (CardRepository.SaveCard std dbm card).card_by_card_id ∧
      SingleSuccessor (CardRepository.SaveCard std dbm card).card_by_identity) := by
  have hsub : ∀ q ∈ db.card_previous_ids,
      q ∈ (CardRepository.SaveCard std dbm card).card_previous_ids := by
    intro q hq
    rw [SaveCard_card_previous_ids, h3]
    split_ifs
    · exact (mem_insertPreviousID _ _ _).2 (Or.inr hq)
    · exact hq
  have hnew : (CardRow.ofCard std card).previous_card_id ≠ "" →
      (⟨(CardRow.ofCard std card).previous_card_id,
        (CardRow.ofCard std card).application_id⟩ : PreviousIDRow) ∈
        (CardRepository.SaveCard std dbm card).card_previous_ids := by
    intro hne
    have hne2 : card.PreviousCardID ≠ "" := hne
    rw [SaveCard_card_previous_ids, if_pos hne2]
    exact (mem_insertPreviousID _ _ _).2 (Or.inl rfl)
  have habs : (CardRow.ofCard std card).previous_card_id ≠ "" →
      (⟨(CardRow.ofCard std card).previous_card_id,
        (CardRow.ofCard std card).application_id⟩ : PreviousIDRow) ∉
        db.card_previous_ids := by
    intro hne
    exact validatePreviousCardID_none_absent std db _ _ _ hne hprev
  have ha := insert_row_preserves db.card_by_card_id db.card_previous_ids _
    (CardRow.ofCard std card) (fun r => r.id != (CardRow.ofCard std card).id)
    hsub hnew habs hI.1 hS.1
  have hb := insert_row_preserves db.card_by_identity db.card_previous_ids _
    (CardRow.ofCard std card) (fun r =>
      !(r.identity == (CardRow.ofCard std card).identity &&
        r.application_id == (CardRow.ofCard std card).application_id &&
        r.id == (CardRow.ofCard std card).id))
    hsub hnew habs hI.2 hS.2
  rw [SaveCard_card_by_card_id, SaveCard_card_by_identity, h1, h2]
  exact ⟨⟨ha.1, hb.1⟩, ⟨ha.2, hb.2⟩⟩

/-- What a controller step does to the store: nothing, or the save of a card
that passed the predecessor check and the duplicate check on the store before
the step, the card tables and the predecessor index being untouched in
between. -/
theorem step_cases (w : Wiring SK) (db db2 : Store)
    (hstep : (∃ newV4 request, db2 = (Controller.CardCreate w newV4 db request).2) ∨
      (∃ newV4 now request, db2 = (Controller.CardDelete w newV4 now db request).2)) :
    db2 = db ∨
    ∃ dbm card,
      dbm.card_by_card_id = db.card_by_card_id ∧
      dbm.card_by_identity = db.card_by_identity ∧
      dbm.card_previous_ids = db.card_previous_ids ∧
      validatePreviousCardID (CardRepository.provider w.StdEncoding db) card.PreviousCardID
        card.ApplicationID card.Identity = none ∧
      validateVirgilCardDuplicates (CardRepository.provider w.StdEncoding db) card.ID =
        none ∧
      db2 = CardRepository.SaveCard w.StdEncoding dbm card := by
  rcases hstep with ⟨newV4, request, rfl⟩ | ⟨newV4, now, request, rfl⟩
  · rcases CardCreate_cases w newV4 db request with ⟨e, he⟩ | ⟨card, hc⟩
    · rw [he]; exact Or.inl rfl
    · obtain ⟨c1, hv, -, hch, -, hs, -⟩ :=
        (CardCreate_ok_iff w newV4 db request card _).1 hc
      rw [hc]
      obtain ⟨hb, heq, -⟩ := CreateCardValidator_Validate_ok _ _ _ _ _ _ hv
      obtain ⟨hp, hd⟩ := BaseCardValidator_Validate_checked _ _ _ _ _ _ _ hb
      obtain ⟨chainID, hc1⟩ := SetCardChainID_ok _ _ _ _ hch
      obtain ⟨-, sig, -, hc2⟩ := SignCardByCardsService_ok _ _ _ _ hs
      rw [heq] at hc1
      refine Or.inr ⟨db, card, rfl, rfl, rfl, ?_, ?_, rfl⟩
      · rw [hc2, hc1]; exact hp
      · rw [hc2, hc1]; exact hd
  · rcases CardDelete_cases w newV4 now db request with
      ⟨e, he⟩ | ⟨c1, card, dbm, -, hv, hch, hs, -, h1, h2, h3, hc⟩
    · rw [he]; exact Or.inl rfl
    · rw [hc]
      obtain ⟨hb, heq, -⟩ := DeleteCardValidator_Validate_ok _ _ _ _ _ _ hv
      obtain ⟨hp, hd⟩ := BaseCardValidator_Validate_checked _ _ _ _ _ _ _ hb
      obtain ⟨chainID, hc1⟩ := SetCardChainID_ok _ _ _ _ hch
      obtain ⟨-, sig, -, hc2⟩ := SignCardByCardsService_ok _ _ _ _ hs
      rw [heq] at hc1
      refine Or.inr ⟨dbm, card, h1, h2, h3, ?_, ?_, rfl⟩
      · rw [hc2, hc1]; exact hp
      · rw [hc2, hc1]; exact hd

theorem reachable_indexed_single (w : Wiring SK) (db : Store) (hr : Reachable w db) :
    (Indexed db.card_by_card_id db.card_previous_ids ∧
      Indexed db.card_by_identity db.card_previous_ids) ∧
    (SingleSuccessor db.card_by_card_id ∧ SingleSuccessor db.card_by_identity) := by
  induction hr with
  | empty =>
    refine ⟨⟨?_, ?_⟩, ⟨?_, ?_⟩⟩
    · intro r hr; cases hr
    · intro r hr; cases hr
    · intro p a _; simp
    · intro p a _; simp
  | create db newV4 request _ ih =>
    rcases step_cases w db _ (Or.inl ⟨newV4, request, rfl⟩) with h | ⟨dbm, card, h1, h2, h3, hp, -, h⟩
    · rw [h]; exact ih
    · rw [h]
      exact checked_save_preserves w.StdEncoding db dbm card h1 h2 h3 hp ih.1 ih.2
  | delete db newV4 now request _ ih =>
    rcases step_cases w db _ (Or.inr ⟨newV4, now, request, rfl⟩) with h | ⟨dbm, card, h1, h2, h3, hp, -, h⟩
    · rw [h]; exact ih
    · rw [h]
      exact checked_save_preserves w.StdEncoding db dbm card h1 h2 h3 hp ih.1 ih.2

theorem fromHexChar_nibble :
    ∀ n : Fin 16, fromHexChar (hextable.getD n.val '0') = some n.val := by
  decide

theorem fromHexChar_hi (v : Byte) :
    fromHexChar (hextable.getD (v.val / 16) '0') = some (v.val / 16) :=
  fromHexChar_nibble ⟨v.val / 16, by have := v.isLt; omega⟩

theorem fromHexChar_lo (v : Byte) :
    fromHexChar (hextable.getD (v.val % 16) '0') = some (v.val % 16) :=
  fromHexChar_nibble ⟨v.val % 16, by omega⟩

theorem ofNat_hi_lo (v : Byte) : (Fin.ofNat (v.val / 16 * 16 + v.val % 16) : Byte) = v := by
  apply Fin.ext
  have h := v.isLt
  show (v.val / 16 * 16 + v.val % 16) % 256 = v.val
  omega

theorem hexDecode_hexEncode (b : Bytes) : hexDecode (hexEncode b) = ⟨b, true⟩ := by
  induction b with
  | nil => rfl
  | cons v rest ih =>
    simp only [hexEncode, hexDecode, fromHexChar_hi, fromHexChar_lo, ih, ofNat_hi_lo]

theorem Hex_roundTrips : RoundTrips encoder.Hex := by
  intro b
  exact hexDecode_hexEncode b

/-- C10: single-successor invariant.  In every store reachable from the empty
store by `CardCreate` and `CardDelete` calls, for every non-empty card id `p`
and scope `a` at most one row of `card_by_card_id` (and at most one row of
`card_by_identity`) has `previous_card_id = p` and `application_id = a`. -/
theorem single_successor_invariant (w : Wiring SK) (db : Store) (hr : Reachable w db)
    (p a : String) (hp : p ≠ "") :
    (db.card_by_card_id.filter
      (fun r => r.previous_card_id == p && r.application_id == a)).length ≤ 1 ∧
    (db.card_by_identity.filter
      (fun r => r.previous_card_id == p && r.application_id == a)).length ≤ 1 := by
  have h := (reachable_indexed_single w db hr).2
  exact ⟨h.1 p a hp, h.2 p a hp⟩

/-- C10, concrete run: after the example root card and its successor are
created, exactly one stored card names the root card as predecessor in scope
`S1`. -/
theorem single_successor_invariant_witness :
    ((Controller.CardCreate Example.wiring (some "chain-2")
        (Controller.CardCreate Example.wiring (some "chain-1") {} Example.createRoot).2
        Example.createNext).2.card_by_card_id.filter
      (fun r => r.previous_card_id == Example.rootID && r.application_id == "S1")).length = 1 :=
  Nat.le_antisymm
    (single_successor_invariant Example.wiring _
      (Reachable.create _ (some "chain-2") Example.createNext
        (Reachable.create _ (some "chain-1") Example.createRoot Reachable.empty))
      Example.rootID "S1" (by decide)).1
    (by decide)

/-! ## Predecessor check on reachable stores -/

theorem GetCardByID_find_none (std : encoder.Provider) (db : Store) (id : String)
    (h : db.card_by_card_id.find? (fun r => r.id == id) = none) :
    CardRepository.GetCardByID std db id = .error .ErrEntityNotFound := by
  unfold CardRepository.GetCardByID
  rw [h]

theorem GetCardByID_find_some (std : encoder.Provider) (db : Store) (id : String)
    (r : CardRow) (h : db.card_by_card_id.find? (fun r => r.id == id) = some r)
    (hk : (std.DecodeString r.public_key).ok = true) :
    CardRepository.GetCardByID std db id = .ok {
      ID := r.id,
      ContentSnapshot := r.content_snapshot,
      Identity := r.identity,
      ApplicationID := r.application_id,
      ChainID := r.chain_id,
      PublicKey := (std.DecodeString r.public_key).data,
      Signatures := wrapDBSignatureListToDTOs r.signatures } := by
  unfold CardRepository.GetCardByID
  rw [h]
  simp only [hk, Bool.not_true, Bool.false_eq_true, if_false]

theorem keysEncoded_ok (std : encoder.Provider) (hrt : RoundTrips std) (db : Store)
    (hK : KeysEncoded std db) (r : CardRow) (hr : r ∈ db.card_by_card_id) :
    (std.DecodeString r.public_key).ok = true := by
  obtain ⟨b, hb⟩ := hK r hr
  rw [hb, hrt b]

theorem duplicates_none_absent (std : encoder.Provider) (hrt : RoundTrips std) (db : Store)
    (hK : KeysEncoded std db) (id : String)
    (h : validateVirgilCardDuplicates (CardRepository.provider std db) id = none) :
    ∀ r ∈ db.card_by_card_id, r.id ≠ id := by
  unfold validateVirgilCardDuplicates at h
  simp only [CardRepository.provider] at h
  cases hf : db.card_by_card_id.find? (fun r => r.id == id) with
  | none =>
    intro r hr he
    have := List.find?_eq_none.1 hf r hr
    simp [he] at this
  | some r0 =>
    have hm := List.mem_of_find?_eq_some hf
    rw [GetCardByID_find_some std db id r0 hf (keysEncoded_ok std hrt db hK r0 hm)] at h
    cases h

theorem checked_save_backed (std : encoder.Provider) (hrt : RoundTrips std)
    (db dbm : Store) (card : CardDTO)
    (h1 : dbm.card_by_card_id = db.card_by_card_id)
    (h3 : dbm.card_previous_ids = db.card_previous_ids)
    (hdup : validateVirgilCardDuplicates (CardRepository.provider std db) card.ID = none)
    (hB : Backed db) (hK : KeysEncoded std db) :
    Backed (CardRepository.SaveCard std dbm card) ∧
    KeysEncoded std (CardRepository.SaveCard std dbm card) := by
  have hfresh := duplicates_none_absent std hrt db hK card.ID hdup
  constructor
  · intro q hq
    rw [SaveCard_card_previous_ids, h3] at hq
    rw [SaveCard_card_by_card_id, h1]
    have hold : q ∈ db.card_previous_ids →
        ∃ r ∈ insertCardByID (CardRow.ofCard std card) db.card_by_card_id,
          r.previous_card_id = q.previous_card_id ∧ r.application_id = q.application_id := by
      intro hq2
      obtain ⟨r, hr, hrq⟩ := hB q hq2
      exact ⟨r, (mem_insertCardByID _ _ _).2 (Or.inr ⟨hr, hfresh r hr⟩), hrq⟩
    split_ifs at hq
    · rcases (mem_insertPreviousID _ _ _).1 hq with hq | hq
      · subst hq
        exact ⟨CardRow.ofCard std card, (mem_insertCardByID _ _ _).2 (Or.inl rfl), rfl, rfl⟩
      · exact hold hq
    · exact hold hq
  · intro r hr
    rw [SaveCard_card_by_card_id, h1, mem_insertCardByID] at hr
    rcases hr with hr | ⟨hr, -⟩
    · subst hr
      exact ⟨card.PublicKey, rfl⟩
    · exact hK r hr

theorem reachable_backed (w : Wiring SK) (hrt : RoundTrips w.StdEncoding) (db : Store)
    (hr : Reachable w db) : Backed db ∧ KeysEncoded w.StdEncoding db := by
  induction hr with
  | empty =>
    constructor
    · intro q hq; cases hq
    · intro r hr; cases hr
  | create db newV4 request _ ih =>
    rcases step_cases w db _ (Or.inl ⟨newV4, request, rfl⟩) with
      h | ⟨dbm, card, h1, -, h3, -, hd, h⟩
    · rw [h]; exact ih
    · rw [h]
      exact checked_save_backed w.StdEncoding hrt db dbm card h1 h3 hd ih.1 ih.2
  | delete db newV4 now request _ ih =>
    rcases step_cases w db _ (Or.inr ⟨newV4, now, request, rfl⟩) with
      h | ⟨dbm, card, h1, -, h3, -, hd, h⟩
    · rw [h]; exact ih
    · rw [h]
      exact checked_save_backed w.StdEncoding hrt db dbm card h1 h3 hd ih.1 ih.2

theorem DoesCardExist_true_iff (db : Store) (p a : String) (hp : p ≠ "") :
    CardRepository.DoesCardExistByPreviousIDAndScopeID db p a = .ok true ↔
      (⟨p, a⟩ : PreviousIDRow) ∈ db.card_previous_ids := by
  obtain ⟨b, hb⟩ := DoesCardExist_ok db p a
  have hf := DoesCardExist_false_iff db p a hp
  cases b
  · rw [hb]
    constructor
    · intro h; cases h
    · intro h; exact absurd h (hf.1 hb)
  · rw [hb]
    constructor
    · intro _
      by_contra hn
      have := hf.2 hn
      rw [hb] at this
      cases this
    · intro _; rfl

theorem claimed_iff_indexed (w : Wiring SK) (hrt : RoundTrips w.StdEncoding) (db : Store)
    (hr : Reachable w db) (p a : String) (hp : p ≠ "") :
    (⟨p, a⟩ : PreviousIDRow) ∈ db.card_previous_ids ↔
      ∃ r ∈ db.card_by_card_id, r.previous_card_id = p ∧ r.application_id = a := by
  constructor
  · intro h
    obtain ⟨r, hr1, hr2⟩ := (reachable_backed w hrt db hr).1 _ h
    exact ⟨r, hr1, hr2⟩
  · rintro ⟨r, hr1, hr2, hr3⟩
    have := (reachable_indexed_single w db hr).1.1 r hr1 (by rw [hr2]; exact hp)
    rw [hr2, hr3] at this
    exact this

/-- C4: `validatePreviousCardID` returns nil for an empty previous card id
whatever the repository; on a store the service can reach, for a non-empty
previous card id it returns `ErrPreviousVirgilCardExistsAlready` if a stored
card already names it as predecessor in that scope, else
`ErrPreviousVirgilCardDoesNotExist` if no card has that id, else
`ErrPreviousVirgilCardIsRegisteredForAnotherScope` if the predecessor's
application id differs, else `ErrPreviousVirgilCardIdentityIsIncorrect` if its
identity differs, else nil; so nil means the predecessor exists with that scope
and identity and has no successor in the scope. -/
theorem validatePreviousCardID_spec (w : Wiring SK) (hrt : RoundTrips w.StdEncoding)
    (db : Store) (hr : Reachable w db) (prev scope identity : String) :
    (∀ repo : dao.CardRepositoryProvider,
      validatePreviousCardID repo "" scope identity = none) ∧
    (prev ≠ "" →
      validatePreviousCardID (CardRepository.provider w.StdEncoding db) prev scope identity =
        if ∃ r ∈ db.card_by_card_id, r.previous_card_id = prev ∧ r.application_id = scope then
          some .ErrPreviousVirgilCardExistsAlready
        else
          match db.card_by_card_id.find? (fun r => r.id == prev) with
          | none => some .ErrPreviousVirgilCardDoesNotExist
          | some r =>
            if r.application_id ≠ scope then
              some .ErrPreviousVirgilCardIsRegisteredForAnotherScope
            else if r.identity ≠ identity then
              some .ErrPreviousVirgilCardIdentityIsIncorrect
            else none) ∧
    (prev ≠ "" →
      validatePreviousCardID (CardRepository.provider w.StdEncoding db) prev scope identity =
        none →
      (∃ r ∈ db.card_by_card_id,
        r.id = prev ∧ r.application_id = scope ∧ r.identity = identity) ∧
      ¬ ∃ r ∈ db.card_by_card_id, r.previous_card_id = prev ∧ r.application_id = scope) := by
  have hmain : prev ≠ "" →
      validatePreviousCardID (CardRepository.provider w.StdEncoding db) prev scope identity =
        if ∃ r ∈ db.card_by_card_id, r.previous_card_id = prev ∧ r.application_id = scope then
          some .ErrPreviousVirgilCardExistsAlready
        else
          match db.card_by_card_id.find? (fun r => r.id == prev) with
          | none => some .ErrPreviousVirgilCardDoesNotExist
          | some r =>
            if r.application_id ≠ scope then
              some .ErrPreviousVirgilCardIsRegisteredForAnotherScope
            else if r.identity ≠ identity then
              some .ErrPreviousVirgilCardIdentityIsIncorrect
            else none := by
    intro hp
    have hiff := claimed_iff_indexed w hrt db hr prev scope hp
    unfold validatePreviousCardID
    rw [if_neg hp]
    simp only [CardRepository.provider]
    by_cases hc : ∃ r ∈ db.card_by_card_id, r.previous_card_id = prev ∧ r.application_id = scope
    · rw [if_pos hc, (DoesCardExist_true_iff db prev scope hp).2 (hiff.2 hc)]
      rfl
    · rw [if_neg hc, (DoesCardExist_false_iff db prev scope hp).2 (fun h => hc (hiff.1 h))]
      simp only [Bool.false_eq_true, if_false]
      cases hf : db.card_by_card_id.find? (fun r => r.id == prev) with
      | none => rw [GetCardByID_find_none _ _ _ hf]
      | some r =>
        have hm := List.mem_of_find?_eq_some hf
        rw [GetCardByID_find_some _ _ _ r hf
          (keysEncoded_ok _ hrt db (reachable_backed w hrt db hr).2 r hm)]
        simp only [ne_eq]
        by_cases ha : r.application_id = scope
        · by_cases hi : r.identity = identity
          · simp [ha, hi]
          · have hi2 : ¬ identity = r.identity := fun h => hi h.symm
            simp [ha, hi, hi2]
        · have ha2 : ¬ scope = r.application_id := fun h => ha h.symm
          simp [ha, ha2]
  refine ⟨fun repo => by unfold validatePreviousCardID; rw [if_pos rfl], hmain, ?_⟩
  intro hp hnone
  rw [hmain hp] at hnone
  by_cases hc : ∃ r ∈ db.card_by_card_id, r.previous_card_id = prev ∧ r.application_id = scope
  · rw [if_pos hc] at hnone
    cases hnone
  · refine ⟨?_, hc⟩
    rw [if_neg hc] at hnone
    cases hf : db.card_by_card_id.find? (fun r => r.id == prev) with
    | none => rw [hf] at hnone; cases hnone
    | some r =>
      rw [hf] at hnone
      simp only [] at hnone
      have hm := List.mem_of_find?_eq_some hf
      have hid := List.find?_some hf
      simp only [beq_iff_eq] at hid
      by_cases ha : r.application_id = scope
      · by_cases hi : r.identity = identity
        · exact ⟨r, hm, hid, ha, hi⟩
        · simp [ha, hi] at hnone
      · simp [ha] at hnone

/-- C4, concrete run: once the example root card has a successor in scope
`S1`, the check of another successor of it reports that the predecessor is
superseded already; before, it passed. -/
theorem validatePreviousCardID_spec_witness :
    validatePreviousCardID (CardRepository.provider encoder.Hex
        (Controller.CardCreate Example.wiring (some "chain-2")
          (Controller.CardCreate Example.wiring (some "chain-1") {} Example.createRoot).2
          Example.createNext).2) Example.rootID "S1" "alice" =
      some .ErrPreviousVirgilCardExistsAlready ∧
    validatePreviousCardID (CardRepository.provider encoder.Hex
        (Controller.CardCreate Example.wiring (some "chain-1") {} Example.createRoot).2)
        Example.rootID "S1" "alice" = none :=
  ⟨((validatePreviousCardID_spec Example.wiring Hex_roundTrips _
      (Reachable.create _ (some "chain-2") Example.createNext
        (Reachable.create _ (some "chain-1") Example.createRoot Reachable.empty))
      Example.rootID "S1" "alice").2.1 (by decide)).trans (by decide),
   ((validatePreviousCardID_spec Example.wiring Hex_roundTrips _
      (Reachable.create _ (some "chain-1") Example.createRoot Reachable.empty)
      Example.rootID "S1" "alice").2.1 (by decide)).trans (by decide)⟩

/-! ## Create validation -/

theorem parseCSR_ne_tooShort (encoder : encoder.Provider) (unmarshal : Unmarshal)
    (s : String) (p0 : ParametersStore) (csr0 : CSR) :
    parseCSR encoder unmarshal s p0 csr0 ≠ .error .ErrCSRPublicKeyIsTooShort := by
  unfold parseCSR
  cases hok : (encoder.DecodeString s).ok
  · simp [hok]
  · cases hu : unmarshal (encoder.DecodeString s).data csr0 with
    | error e =>
      cases e with
      | UnmarshalTypeError f => by_cases hf : f = CreatedAtFieldName <;> simp [hok, hu, hf]
      | other => simp [hok, hu]
    | ok c1 => simp [hok, hu]

theorem decodeCSRPublicKey_ne_tooShort (encoder : encoder.Provider) (key : String) :
    decodeCSRPublicKeyAndCheckMaxLength encoder key ≠ .error .ErrCSRPublicKeyIsTooShort := by
  unfold decodeCSRPublicKeyAndCheckMaxLength
  simp only []
  split_ifs <;> simp

theorem validateCSRIdentity_ne_tooShort (i r : String) :
    validateCSRIdentity i r ≠ some .ErrCSRPublicKeyIsTooShort := by
  unfold validateCSRIdentity
  split_ifs <;> simp

theorem validateCSRPreviousCardID_ne_tooShort (i : String) :
    validateCSRPreviousCardID i ≠ some .ErrCSRPublicKeyIsTooShort := by
  unfold validateCSRPreviousCardID
  split_ifs <;> simp

theorem validateCSRCreatedAt_ne_tooShort (t : Int) :
    validateCSRCreatedAt t ≠ some .ErrCSRPublicKeyIsTooShort := by
  unfold validateCSRCreatedAt
  split_ifs <;> simp

theorem validateCSRVersion_ne_tooShort (v : String) :
    validateCSRVersion v ≠ some .ErrCSRPublicKeyIsTooShort := by
  unfold validateCSRVersion
  split_ifs <;> simp

theorem CSRValidator_Validate_ne_tooShort (encoder : encoder.Provider)
    (unmarshal : Unmarshal) (s : String) (csr0 : CSR) (r : String) :
    CSRValidator.Validate encoder unmarshal s csr0 r ≠ .error .ErrCSRPublicKeyIsTooShort := by
  unfold CSRValidator.Validate
  by_cases hs : s = ""
  · simp [hs]
  · rw [if_neg hs]
    have h1 := parseCSR_ne_tooShort encoder unmarshal s {} csr0
    cases hp : parseCSR encoder unmarshal s {} csr0 with
    | error e => rw [hp] at h1; simpa using h1
    | ok pc =>
      obtain ⟨p1, c1⟩ := pc
      simp only []
      have h2 := decodeCSRPublicKey_ne_tooShort encoder c1.PublicKey
      cases hk : decodeCSRPublicKeyAndCheckMaxLength encoder c1.PublicKey with
      | error e => rw [hk] at h2; simpa using h2
      | ok key =>
        simp only []
        have h3 := validateCSRIdentity_ne_tooShort c1.Identity r
        cases hi : validateCSRIdentity c1.Identity r with
        | some e => rw [hi] at h3; simpa using h3
        | none =>
          simp only []
          have h4 := validateCSRPreviousCardID_ne_tooShort c1.PreviousCardID
          cases hpv : validateCSRPreviousCardID c1.PreviousCardID with
          | some e => rw [hpv] at h4; simpa using h4
          | none =>
            simp only []
            have h5 := validateCSRCreatedAt_ne_tooShort c1.CreatedAt
            cases ht : validateCSRCreatedAt c1.CreatedAt with
            | some e => rw [ht] at h5; simpa using h5
            | none =>
              simp only []
              have h6 := validateCSRVersion_ne_tooShort c1.Version
              cases hv : validateCSRVersion c1.Version with
              | some e => rw [hv] at h6; simpa using h6
              | none => simp

theorem validateCSRStampSnapshot_ne_tooShort (encoder : encoder.Provider) (s : String) :
    validateCSRStampSnapshot encoder s ≠ some .ErrCSRPublicKeyIsTooShort := by
  unfold validateCSRStampSnapshot
  simp only []
  split_ifs <;> simp

theorem validateCSRSigner_ne_tooShort (s : String) :
    validateCSRSigner s ≠ some .ErrCSRPublicKeyIsTooShort := by
  unfold validateCSRSigner
  split_ifs <;> simp

theorem validateCSRStampSignature_ne_tooShort (crypto : crypto.Provider SK)
    (encoder : encoder.Provider) (sig snap : String) (flag : Bool) (p : ParametersStore) :
    (validateCSRStampSignature crypto encoder sig snap flag p).err ≠
      some .ErrCSRPublicKeyIsTooShort := by
  unfold validateCSRStampSignature
  simp only []
  split_ifs <;> (try split) <;> simp

theorem validateCSRStamp_ne_tooShort (crypto : crypto.Provider SK)
    (encoder : encoder.Provider) (s : CSRStamp) (p : ParametersStore) :
    (validateCSRStamp crypto encoder s p).err ≠ some .ErrCSRPublicKeyIsTooShort := by
  rw [validateCSRStamp_err]
  have h1 := validateCSRStampSnapshot_ne_tooShort encoder s.Snapshot
  cases hs : validateCSRStampSnapshot encoder s.Snapshot with
  | some e => rw [hs] at h1; simpa using h1
  | none =>
    simp only []
    have h2 := validateCSRStampSignature_ne_tooShort crypto encoder s.Signature s.Snapshot
      (s.IsSelf && decide (0 < p.publicKey.length)) p
    cases hg : (validateCSRStampSignature crypto encoder s.Signature s.Snapshot
        (s.IsSelf && decide (0 < p.publicKey.length)) p).err with
    | some e => rw [hg] at h2; simpa using h2
    | none => exact validateCSRSigner_ne_tooShort s.Signer

theorem validateCSRStampsLoop_ne_tooShort (crypto : crypto.Provider SK)
    (encoder : encoder.Provider) (xs : List CSRStamp) :
    ∀ (flag : Bool) (p : ParametersStore),
      (validateCSRStampsLoop crypto encoder xs flag p).err ≠
        some .ErrCSRPublicKeyIsTooShort := by
  induction xs with
  | nil => intro flag p; cases flag <;> simp [validateCSRStampsLoop]
  | cons x xs ih =>
    intro flag p
    have hx := validateCSRStamp_ne_tooShort crypto encoder x p
    unfold validateCSRStampsLoop
    simp only []
    split
    · next e he => rw [he] at hx; rw [he]; exact hx
    · split_ifs
      · simp
      · exact ih true _
      · exact ih flag _

theorem CSRStampsValidator_Validate_ne_tooShort (crypto : crypto.Provider SK)
    (encoder : encoder.Provider) (xs : List CSRStamp) (scopeID : String)
    (p : ParametersStore) :
    (CSRStampsValidator.Validate crypto encoder xs scopeID p).err ≠
      some .ErrCSRPublicKeyIsTooShort := by
  unfold CSRStampsValidator.Validate
  split_ifs
  · simp
  · simp
  · exact validateCSRStampsLoop_ne_tooShort crypto encoder xs false p

theorem validatePreviousCardID_ne_tooShort (repo : dao.CardRepositoryProvider)
    (p a i : String) :
    validatePreviousCardID repo p a i ≠ some .ErrCSRPublicKeyIsTooShort := by
  unfold validatePreviousCardID
  split_ifs
  · simp
  · split
    · simp
    · split_ifs
      · simp
      · split
        · simp
        · split_ifs <;> simp

theorem validateVirgilCardDuplicates_ne_tooShort (repo : dao.CardRepositoryProvider)
    (id : String) :
    validateVirgilCardDuplicates repo id ≠ some .ErrCSRPublicKeyIsTooShort := by
  unfold validateVirgilCardDuplicates
  split <;> simp

theorem CreateCardValidator_Validate_err (crypto : crypto.Provider SK)
    (encoder : encoder.Provider) (unmarshal : Unmarshal)
    (repo : dao.CardRepositoryProvider) (request : CardBaseRequest) (card0 : CardDTO) :
    (CreateCardValidator.Validate crypto encoder unmarshal repo request card0).err =
      match CSRValidator.Validate encoder unmarshal request.CSR {} request.UserID with
      | .error e => some e
      | .ok (params, csr) =>
        match (CSRStampsValidator.Validate crypto encoder request.CSRStamps
            request.ApplicationID params).err with
        | some e => some e
        | none =>
          match validatePreviousCardID repo csr.PreviousCardID request.ApplicationID
              csr.Identity with
          | some e => some e
          | none =>
            match validateVirgilCardDuplicates repo (crypto.CalculateCardID params.csr) with
            | some e => some e
            | none =>
              if params.publicKey.length < 16 then some .ErrCSRPublicKeyIsTooShort
              else none := by
  have hb := BaseCardValidator_Validate_err crypto encoder unmarshal repo request card0 true
  cases hbe : (BaseCardValidator.Validate crypto encoder unmarshal repo request card0
      true).err with
  | some e =>
    have hc : (CreateCardValidator.Validate crypto encoder unmarshal repo request card0).err =
        some e := by
      unfold CreateCardValidator.Validate
      simp only [hbe]
    rw [hc, ← hbe, hb]
    cases h1 : CSRValidator.Validate encoder unmarshal request.CSR {} request.UserID with
    | error e1 => rfl
    | ok pc =>
      obtain ⟨params, csr⟩ := pc
      rw [h1] at hb
      simp only [baseStamps, if_true] at hb ⊢
      cases h2 : (CSRStampsValidator.Validate crypto encoder request.CSRStamps
          request.ApplicationID params).err with
      | some e2 => rfl
      | none =>
        rw [h2] at hb
        simp only [] at hb ⊢
        cases h3 : validatePreviousCardID repo csr.PreviousCardID request.ApplicationID
            csr.Identity with
        | some e3 => rfl
        | none =>
          rw [h3] at hb
          simp only [] at hb ⊢
          cases h4 : validateVirgilCardDuplicates repo (crypto.CalculateCardID params.csr) with
          | some e4 => rfl
          | none =>
            rw [h4, hbe] at hb
            cases hb
  | none =>
    obtain ⟨params, csr, h1, h2, h3, h4, h5, -⟩ :=
      BaseCardValidator_Validate_ok crypto encoder unmarshal repo request card0 true hbe
    simp only [baseStamps, if_true] at h2
    rw [h1]
    simp only [h2, h3, h4]
    unfold CreateCardValidator.Validate
    simp only [hbe, h5, fillVirgilCardModel_eq,
      CreateCardValidator.validateCSRPublicKeyLength, PublicKeyMinLength]
    by_cases hl : params.publicKey.length < 16
    · simp [hl]
    · simp [hl]

/-- C5: `CreateCardValidator.Validate` reports the first failure among CSR
validation, stamp validation, the predecessor check, the duplicate check and,
last, the minimum key length; it returns `ErrCSRPublicKeyIsTooShort` exactly
when the four earlier checks pass and the decoded public key has fewer than 16
bytes; and every request it accepts has a public key of 16 to 4096 bytes. -/
theorem CreateCardValidator_Validate_spec (crypto : crypto.Provider SK)
    (encoder : encoder.Provider) (unmarshal : Unmarshal)
    (repo : dao.CardRepositoryProvider) (request : CardBaseRequest) (card0 : CardDTO) :
    ((CreateCardValidator.Validate crypto encoder unmarshal repo request card0).err =
      match CSRValidator.Validate encoder unmarshal request.CSR {} request.UserID with
      | .error e => some e
      | .ok (params, csr) =>
        match (CSRStampsValidator.Validate crypto encoder request.CSRStamps
            request.ApplicationID params).err with
        | some e => some e
        | none =>
          match validatePreviousCardID repo csr.PreviousCardID request.ApplicationID
              csr.Identity with
          | some e => some e
          | none =>
            match validateVirgilCardDuplicates repo (crypto.CalculateCardID params.csr) with
            | some e => some e
            | none =>
              if params.publicKey.length < 16 then some .ErrCSRPublicKeyIsTooShort
              else none) ∧
    ((CreateCardValidator.Validate crypto encoder unmarshal repo request card0).err =
        some .ErrCSRPublicKeyIsTooShort ↔
      ∃ params csr,
        CSRValidator.Validate encoder unmarshal request.CSR {} request.UserID =
          .ok (params, csr) ∧
        (CSRStampsValidator.Validate crypto encoder request.CSRStamps
          request.ApplicationID params).err = none ∧
        validatePreviousCardID repo csr.PreviousCardID request.ApplicationID csr.Identity =
          none ∧
        validateVirgilCardDuplicates repo (crypto.CalculateCardID params.csr) = none ∧
        params.publicKey.length < 16) ∧
    ((CreateCardValidator.Validate crypto encoder unmarshal repo request card0).err = none →
      ∃ params csr,
        CSRValidator.Validate encoder unmarshal request.CSR {} request.UserID =
          .ok (params, csr) ∧
        (CreateCardValidator.Validate crypto encoder unmarshal repo request
          card0).card.PublicKey = params.publicKey ∧
        16 ≤ params.publicKey.length ∧ params.publicKey.length ≤ 4096) := by
  have hf := CreateCardValidator_Validate_err crypto encoder unmarshal repo request card0
  refine ⟨hf, ?_, ?_⟩
  · rw [hf]
    have n1 := CSRValidator_Validate_ne_tooShort encoder unmarshal request.CSR {}
      request.UserID
    cases h1 : CSRValidator.Validate encoder unmarshal request.CSR {} request.UserID with
    | error e =>
      rw [h1] at n1
      simp only [Option.some.injEq]
      constructor
      · intro h; subst h; exact absurd rfl n1
      · rintro ⟨_, _, h, _⟩; cases h
    | ok pc =>
      obtain ⟨params, csr⟩ := pc
      simp only []
      have n2 := CSRStampsValidator_Validate_ne_tooShort crypto encoder request.CSRStamps
        request.ApplicationID params
      have n3 := validatePreviousCardID_ne_tooShort repo csr.PreviousCardID
        request.ApplicationID csr.Identity
      have n4 := validateVirgilCardDuplicates_ne_tooShort repo
        (crypto.CalculateCardID params.csr)
      constructor
      · intro h
        refine ⟨params, csr, rfl, ?_⟩
        cases h2 : (CSRStampsValidator.Validate crypto encoder request.CSRStamps
            request.ApplicationID params).err with
        | some e => rw [h2] at h n2; exact absurd h n2
        | none =>
          rw [h2] at h
          simp only [] at h
          cases h3 : validatePreviousCardID repo csr.PreviousCardID request.ApplicationID
              csr.Identity with
          | some e => rw [h3] at h n3; exact absurd h n3
          | none =>
            rw [h3] at h
            simp only [] at h
            cases h4 : validateVirgilCardDuplicates repo
                (crypto.CalculateCardID params.csr) with
            | some e => rw [h4] at h n4; exact absurd h n4
            | none =>
              rw [h4] at h
              simp only [] at h
              refine ⟨rfl, rfl, rfl, ?_⟩
              by_contra hl
              rw [if_neg hl] at h
              cases h
      · rintro ⟨p2, c2, he, h2, h3, h4, hl⟩
        cases he
        rw [h2]
        simp only []
        rw [h3]
        simp only []
        rw [h4]
        simp only []
        rw [if_pos hl]
  · intro hn
    obtain ⟨hb, heq, hl⟩ := CreateCardValidator_Validate_ok _ _ _ _ _ _ hn
    obtain ⟨params, csr, h1, -, -, -, h5, -⟩ :=
      BaseCardValidator_Validate_ok crypto encoder unmarshal repo request card0 true hb
    rw [h5, fillVirgilCardModel_eq] at hl
    rw [heq, h5, fillVirgilCardModel_eq]
    refine ⟨params, csr, h1, rfl, hl, ?_⟩
    have hc := (CSRValidator_Validate_ok_iff encoder unmarshal request.CSR {} request.UserID
      params csr).1 h1
    obtain ⟨⟨-, -, -, hk, -⟩, hp⟩ := hc
    rw [hp]
    simp only []
    split_ifs with hke
    · simp
    · rcases hk with hk | hk
      · exact absurd hk hke
      · exact hk.2

/-- C5, concrete run: the example create request is accepted on the empty
store, with its key of 16 bytes. -/
theorem CreateCardValidator_Validate_spec_witness :
    ∃ params csr,
      CSRValidator.Validate (encoder.Base64 encoder.Hex) Example.unmarshal
        Example.createRoot.CSR {} Example.createRoot.UserID = .ok (params, csr) ∧
      (CreateCardValidator.Validate Example.wiring.crypto (encoder.Base64 encoder.Hex)
        Example.unmarshal (CardRepository.provider encoder.Hex {}) Example.createRoot
        NewCardDTO).card.PublicKey = params.publicKey ∧
      16 ≤ params.publicKey.length ∧ params.publicKey.length ≤ 4096 :=
  (CreateCardValidator_Validate_spec Example.wiring.crypto (encoder.Base64 encoder.Hex)
    Example.unmarshal (CardRepository.provider encoder.Hex {}) Example.createRoot
    NewCardDTO).2.2 (by decide)

/-! ## The card produced by validation -/

theorem base_card_isCardOfRequest (crypto : crypto.Provider SK)
    (encoder : encoder.Provider) (unmarshal : Unmarshal)
    (repo : dao.CardRepositoryProvider) (request : CardBaseRequest) (vs : Bool)
    (h : (BaseCardValidator.Validate crypto encoder unmarshal repo request NewCardDTO vs).err =
      none) :
    IsCardOfRequest crypto encoder unmarshal request
      (BaseCardValidator.Validate crypto encoder unmarshal repo request NewCardDTO vs).card := by
  obtain ⟨params, csr, h1, -, -, -, h5, -⟩ :=
    BaseCardValidator_Validate_ok crypto encoder unmarshal repo request NewCardDTO vs h
  obtain ⟨⟨-, -, hu, -⟩, hp⟩ :=
    (CSRValidator_Validate_ok_iff encoder unmarshal request.CSR {} request.UserID
      params csr).1 h1
  rw [h5, fillVirgilCardModel_eq, hp]
  refine ⟨csr, hu, rfl, rfl, rfl, rfl, rfl, rfl, rfl, rfl, ?_, ?_⟩
  · simp [NewCardDTO]
  · intro i h1 h2
    simp [NewCardDTO, CSRStamp.toDTO]

/-- C6: after a successful create validation, and after a successful delete
validation, of a request into a fresh card, the card has the id derived from
the decoded snapshot, the snapshot verbatim, the decoded public key, the
identity, version, creation time and previous card id of the CSR, the request
scope as application id, and the request's stamps as signatures, in order and
with the same signer, signature and snapshot. -/
theorem validated_card_fields (crypto : crypto.Provider SK)
    (encoder : encoder.Provider) (unmarshal : Unmarshal)
    (repo : dao.CardRepositoryProvider) (request : CardBaseRequest) :
    ((CreateCardValidator.Validate crypto encoder unmarshal repo request NewCardDTO).err =
        none →
      IsCardOfRequest crypto encoder unmarshal request
        (CreateCardValidator.Validate crypto encoder unmarshal repo request
          NewCardDTO).card) ∧
    ((DeleteCardValidator.Validate crypto encoder unmarshal repo request NewCardDTO).err =
        none →
      IsCardOfRequest crypto encoder unmarshal request
        (DeleteCardValidator.Validate crypto encoder unmarshal repo request
          NewCardDTO).card) := by
  constructor
  · intro h
    obtain ⟨hb, heq, -⟩ := CreateCardValidator_Validate_ok _ _ _ _ _ _ h
    rw [heq]
    exact base_card_isCardOfRequest crypto encoder unmarshal repo request true hb
  · intro h
    obtain ⟨hb, heq, -⟩ := DeleteCardValidator_Validate_ok _ _ _ _ _ _ h
    rw [heq]
    exact base_card_isCardOfRequest crypto encoder unmarshal repo request false hb

/-- C6, concrete run: the card validated from the example create request. -/
theorem validated_card_fields_witness :
    IsCardOfRequest Example.wiring.crypto (encoder.Base64 encoder.Hex) Example.unmarshal
      Example.createRoot
      (CreateCardValidator.Validate Example.wiring.crypto (encoder.Base64 encoder.Hex)
        Example.unmarshal (CardRepository.provider encoder.Hex {}) Example.createRoot
        NewCardDTO).card :=
  (validated_card_fields Example.wiring.crypto (encoder.Base64 encoder.Hex)
    Example.unmarshal (CardRepository.provider encoder.Hex {}) Example.createRoot).1
    (by decide)

/-! ## Identifier derivation -/

theorem hexEncode_length (b : Bytes) : (hexEncode b).length = 2 * b.length := by
  induction b with
  | nil => rfl
  | cons v rest ih =>
    simp only [hexEncode, List.length_cons, ih]
    omega

theorem hextable_nibble_mem : ∀ n : Fin 16, hextable.getD n.val '0' ∈ hextable := by
  decide

theorem hextable_utf8Size : ∀ c ∈ hextable, c.utf8Size = 1 := by
  decide

theorem hexEncode_mem (b : Bytes) : ∀ c ∈ hexEncode b, c ∈ hextable := by
  induction b with
  | nil => intro c hc; cases hc
  | cons v rest ih =>
    intro c hc
    simp only [hexEncode, List.mem_cons] at hc
    rcases hc with hc | hc | hc
    · rw [hc]
      exact hextable_nibble_mem ⟨v.val / 16, by have := v.isLt; omega⟩
    · rw [hc]
      exact hextable_nibble_mem ⟨v.val % 16, by omega⟩
    · exact ih c hc

theorem utf8ByteSize_go_ascii (l : List Char) (h : ∀ c ∈ l, c.utf8Size = 1) :
    String.utf8ByteSize.go l = l.length := by
  induction l with
  | nil => rfl
  | cons c cs ih =>
    simp only [String.utf8ByteSize.go, List.length_cons]
    rw [ih (fun d hd => h d (List.mem_cons_of_mem _ hd)), h c (List.mem_cons_self _ _)]

theorem len_hexEncode (b : Bytes) : len (String.mk (hexEncode b)) = 2 * b.length := by
  show String.utf8ByteSize.go (hexEncode b) = 2 * b.length
  rw [utf8ByteSize_go_ascii _ (fun c hc => hextable_utf8Size c (hexEncode_mem b c hc)),
    hexEncode_length]

/-- C7: for every byte string, the ID generator built from the SHA-512 hasher
and the hex encoder returns as card id the lowercase hex of the first 32 bytes
of the hash, a string of exactly 64 characters of `0123456789abcdef`, and as
public key id the lowercase hex of the first 8 bytes, of 16 such characters;
neither slice is out of range. -/
theorem IDGenerator_spec (sum512 : Bytes → Sum512) (s : Bytes) :
    sliceTo ((hasher.SHA512 sum512).Hash s) VirgilCardBytesInID =
      some ((sum512 s).val.take 32) ∧
    sliceTo ((hasher.SHA512 sum512).Hash s) PublicKeyBytesInID =
      some ((sum512 s).val.take 8) ∧
    IDGenerator.VirgilCardID (hasher.SHA512 sum512) encoder.Hex s =
      some (String.mk (hexEncode ((sum512 s).val.take 32))) ∧
    (String.mk (hexEncode ((sum512 s).val.take 32))).length = 64 ∧
    len (String.mk (hexEncode ((sum512 s).val.take 32))) = 64 ∧
    (∀ c ∈ (String.mk (hexEncode ((sum512 s).val.take 32))).data,
      c ∈ "0123456789abcdef".data) ∧
    IDGenerator.PublicKeyID (hasher.SHA512 sum512) encoder.Hex s =
      some (String.mk (hexEncode ((sum512 s).val.take 8))) ∧
    (String.mk (hexEncode ((sum512 s).val.take 8))).length = 16 ∧
    len (String.mk (hexEncode ((sum512 s).val.take 8))) = 16 ∧
    (∀ c ∈ (String.mk (hexEncode ((sum512 s).val.take 8))).data,
      c ∈ "0123456789abcdef".data) := by
  have hlen : (sum512 s).val.length = 64 := (sum512 s).property
  have h32 : ((sum512 s).val.take 32).length = 32 := by
    rw [List.length_take, hlen]; rfl
  have h8 : ((sum512 s).val.take 8).length = 8 := by
    rw [List.length_take, hlen]; rfl
  have s32 : sliceTo ((hasher.SHA512 sum512).Hash s) VirgilCardBytesInID =
      some ((sum512 s).val.take 32) := by
    unfold sliceTo VirgilCardBytesInID hasher.SHA512
    simp only []
    rw [if_pos (by rw [hlen]; decide)]
  have s8 : sliceTo ((hasher.SHA512 sum512).Hash s) PublicKeyBytesInID =
      some ((sum512 s).val.take 8) := by
    unfold sliceTo PublicKeyBytesInID hasher.SHA512
    simp only []
    rw [if_pos (by rw [hlen]; decide)]
  refine ⟨s32, s8, ?_, ?_, ?_, ?_, ?_, ?_, ?_, ?_⟩
  · unfold IDGenerator.VirgilCardID
    simp only [s32]
    rfl
  · show (hexEncode _).length = 64
    rw [hexEncode_length, h32]
  · rw [len_hexEncode, h32]
  · intro c hc
    exact hexEncode_mem _ c hc
  · unfold IDGenerator.PublicKeyID
    simp only [s8]
    rfl
  · show (hexEncode _).length = 16
    rw [hexEncode_length, h8]
  · rw [len_hexEncode, h8]
  · intro c hc
    exact hexEncode_mem _ c hc

/-! ## Service counter-signature -/

/-- C8: when `SignCardByCardsService` succeeds, the card differs from the one
it was given only in its signature list, which is the old list followed by one
stamp with signer `virgil`, no snapshot, and as signature the encoding of
`SignVirgilCard(decoded content snapshot, 0-length extra, service key)`; when
the content snapshot does not decode, or signing fails, it returns an error and
the card, with its signature list, is unchanged.  With the adapter `Crypto`,
`SignVirgilCard` signs the snapshot bytes followed by the extra bytes. -/
theorem SignCardByCardsService_spec (std : encoder.Provider) (cs : DefaultSigner SK)
    (c : CardDTO) :
    (∀ c2, cs.SignCardByCardsService std c = (none, c2) →
      (std.DecodeString c.ContentSnapshot).ok = true ∧
      ∃ signature,
        cs.crypto.SignVirgilCard (std.DecodeString c.ContentSnapshot).data []
          cs.cards5PrivateKey = .ok signature ∧
        c2 = { c with Signatures := c.Signatures ++
          [{ Signer := "virgil", Snapshot := "",
             Signature := std.EncodeToString signature }] }) ∧
    (∀ signature,
      (std.DecodeString c.ContentSnapshot).ok = true →
      cs.crypto.SignVirgilCard (std.DecodeString c.ContentSnapshot).data []
        cs.cards5PrivateKey = .ok signature →
      cs.SignCardByCardsService std c =
        (none, { c with Signatures := c.Signatures ++
          [{ Signer := "virgil", Snapshot := "",
             Signature := std.EncodeToString signature }] })) ∧
    ((std.DecodeString c.ContentSnapshot).ok = false →
      cs.SignCardByCardsService std c = (some .snapshotDecode, c)) ∧
    (∀ e,
      (std.DecodeString c.ContentSnapshot).ok = true →
      cs.crypto.SignVirgilCard (std.DecodeString c.ContentSnapshot).data []
        cs.cards5PrivateKey = .error e →
      cs.SignCardByCardsService std c = (some .sign, c)) ∧
    (∀ (PK : Type) (n : NativeCrypto PK SK) (g : generator.IDProvider)
        (csr extra : Bytes) (key : SK) (signature : Bytes),
      (NewCrypto n g).SignVirgilCard csr extra key = .ok signature ↔
        n.SignSHA512 (csr ++ extra) key = some signature) := by
  refine ⟨?_, ?_, ?_, ?_, ?_⟩
  · intro c2 h
    exact SignCardByCardsService_ok std cs c c2 h
  · intro signature hok hs
    unfold DefaultSigner.SignCardByCardsService
    simp only [hok, hs, Bool.not_true, Bool.false_eq_true, if_false]
    rfl
  · intro hok
    unfold DefaultSigner.SignCardByCardsService
    simp only [hok, Bool.not_false, if_true]
  · intro e hok hs
    unfold DefaultSigner.SignCardByCardsService
    simp only [hok, hs, Bool.not_true, Bool.false_eq_true, if_false]
  · intro PK n g csr extra key signature
    simp only [NewCrypto, Crypto.SignVirgilCard]
    cases h : n.SignSHA512 (csr ++ extra) key with
    | none => simp
    | some s => simp

/-- C8, concrete run: the example signer appends its stamp to a card that has
one stamp already. -/
theorem SignCardByCardsService_spec_witness :
    Example.wiring.cardSigner.SignCardByCardsService encoder.Hex
        { ContentSnapshot := "01", Signatures := [Example.selfStamp.toDTO] } =
      (none, { ContentSnapshot := "01",
               Signatures := [Example.selfStamp.toDTO,
                 { Signer := "virgil", Snapshot := "", Signature := "0901" }] }) :=
  ((SignCardByCardsService_spec encoder.Hex Example.wiring.cardSigner
      { ContentSnapshot := "01", Signatures := [Example.selfStamp.toDTO] }).2.1
    [9, 1] (by decide) rfl).trans (by decide)

/-! ## Create, then get -/

theorem wrapSignatureDTOs_eq_map (l : List CardSignatureDTO) :
    wrapSignatureDTOsToDBSignatureList l =
      l.map (fun s => [("signer", s.Signer), ("signature", s.Signature),
        ("snapshot", s.Snapshot)]) := by
  unfold wrapSignatureDTOsToDBSignatureList
  have h : ∀ (acc : SignatureList),
      l.foldl (fun signatures signature => signatures ++ [[
        ("signer", signature.Signer),
        ("signature", signature.Signature),
        ("snapshot", signature.Snapshot)]]) acc =
      acc ++ l.map (fun s => [("signer", s.Signer), ("signature", s.Signature),
        ("snapshot", s.Snapshot)]) := by
    induction l with
    | nil => intro acc; simp
    | cons s rest ih => intro acc; rw [List.foldl_cons, ih]; simp
  rw [h]
  simp

theorem wrapDBSignatureList_eq_map (l : SignatureList) :
    wrapDBSignatureListToDTOs l =
      l.map (fun m =>
        CardSignatureDTO.mk (m.get "signer") (m.get "snapshot") (m.get "signature")) := by
  unfold wrapDBSignatureListToDTOs
  have h : ∀ (acc : List CardSignatureDTO),
      l.foldl (fun signs signature => signs ++ [({
        Signer := signature.get "signer",
        Signature := signature.get "signature",
        Snapshot := signature.get "snapshot" } : CardSignatureDTO)]) acc =
      acc ++ l.map (fun m =>
        CardSignatureDTO.mk (m.get "signer") (m.get "snapshot") (m.get "signature")) := by
    induction l with
    | nil => intro acc; simp
    | cons s rest ih => intro acc; rw [List.foldl_cons, ih]; simp
  rw [h]
  simp

theorem wrap_roundtrip (l : List CardSignatureDTO) :
    wrapDBSignatureListToDTOs (wrapSignatureDTOsToDBSignatureList l) = l := by
  rw [wrapSignatureDTOs_eq_map, wrapDBSignatureList_eq_map, List.map_map]
  have h : ∀ s : CardSignatureDTO,
      ((fun m : StringMap =>
        CardSignatureDTO.mk (m.get "signer") (m.get "snapshot") (m.get "signature")) ∘
      (fun s : CardSignatureDTO => [("signer", s.Signer), ("signature", s.Signature),
        ("snapshot", s.Snapshot)])) s = s := by
    intro s
    cases s
    simp [StringMap.get, List.find?]
  rw [List.map_congr_left (fun s _ => h s)]
  simp

theorem validateCSRStamp_signer (crypto : crypto.Provider SK)
    (encoder : encoder.Provider) (s : CSRStamp) (p : ParametersStore)
    (h : (validateCSRStamp crypto encoder s p).err = none) : s.Signer ≠ "virgil" := by
  rw [validateCSRStamp_err] at h
  cases h1 : validateCSRStampSnapshot encoder s.Snapshot with
  | some e => simp [h1] at h
  | none =>
    simp only [h1] at h
    cases h2 : (validateCSRStampSignature crypto encoder s.Signature s.Snapshot
        (s.IsSelf && decide (0 < p.publicKey.length)) p).err with
    | some e => simp [h2] at h
    | none =>
      simp only [h2] at h
      intro hv
      rw [hv] at h
      simp [validateCSRSigner, VirgilSignatureType] at h

theorem find_insertCardByID (row : CardRow) (t : List CardRow) :
    (insertCardByID row t).find? (fun r => r.id == row.id) = some row := by
  unfold insertCardByID
  simp [List.find?]

/-- C9: if `CardCreate` succeeds for a request, then `CardGet` of the derived
card id on the resulting store, with the same scope, returns a card whose
content snapshot is the request's and whose signatures are the request's
stamps, in order, followed by one stamp with signer `virgil`; no stamp of the
request has that signer. -/
theorem create_then_get (w : Wiring SK) (hrt : RoundTrips w.StdEncoding)
    (newV4 : Option String) (db db2 : Store) (request getRequest : CardBaseRequest)
    (card : CardDTO)
    (hcreate : Controller.CardCreate w newV4 db request = (.ok card, db2))
    (hscope : getRequest.ApplicationID = request.ApplicationID) :
    card.ID = w.crypto.CalculateCardID (w.StdEncoding.DecodeString request.CSR).data ∧
    ∃ got virgil,
      Controller.CardGet (CardRepository.provider w.StdEncoding db2) getRequest card.ID =
        .ok got ∧
      got.ContentSnapshot = request.CSR ∧
      got.Signatures = request.CSRStamps.map CSRStamp.toDTO ++ [virgil] ∧
      virgil.Signer = "virgil" ∧
      ∀ s ∈ request.CSRStamps, s.Signer ≠ "virgil" := by
  obtain ⟨c1, hv, -, hch, -, hs, hdb⟩ := (CardCreate_ok_iff w newV4 db request card db2).1 hcreate
  obtain ⟨hb, heq, -⟩ := CreateCardValidator_Validate_ok _ _ _ _ _ _ hv
  obtain ⟨params, csr, h1, h2, -, -, h5, -⟩ :=
    BaseCardValidator_Validate_ok _ _ _ _ _ _ _ hb
  obtain ⟨⟨-, -, -, -⟩, hp⟩ :=
    (CSRValidator_Validate_ok_iff _ _ _ _ _ params csr).1 h1
  obtain ⟨chainID, hc1⟩ := SetCardChainID_ok _ _ _ _ hch
  obtain ⟨-, sig, -, hc2⟩ := SignCardByCardsService_ok _ _ _ _ hs
  rw [heq, h5, fillVirgilCardModel_eq] at hc1
  have hstamps : ∀ s ∈ request.CSRStamps, s.Signer ≠ "virgil" := by
    intro s hs
    simp only [baseStamps, if_true] at h2
    have hall := CSRStampsValidator_Validate_valid w.crypto (encoder.Base64 w.StdEncoding)
      request.CSRStamps request.ApplicationID params h2
    exact validateCSRStamp_signer _ _ s params (hall s hs)
  have hcard : card = {
      ID := w.crypto.CalculateCardID params.csr,
      ContentSnapshot := request.CSR,
      Identity := csr.Identity,
      PreviousCardID := csr.PreviousCardID,
      ApplicationID := request.ApplicationID,
      Version := csr.Version,
      ChainID := chainID,
      CreatedAt := csr.CreatedAt,
      Signatures := request.CSRStamps.map CSRStamp.toDTO ++
        [{ Signer := "virgil", Signature := w.StdEncoding.EncodeToString sig }],
      PublicKey := params.publicKey,
      IsSuperseeded := false } := by
    rw [hc2, hc1]
    simp [NewCardDTO]
  have hid : card.ID = w.crypto.CalculateCardID params.csr := by rw [hcard]
  refine ⟨?_, ?_⟩
  · rw [hid, hp]
    rfl
  · have hfind : db2.card_by_card_id.find? (fun r => r.id == card.ID) =
        some (CardRow.ofCard w.StdEncoding card) := by
      rw [hdb, SaveCard_card_by_card_id]
      exact find_insertCardByID (CardRow.ofCard w.StdEncoding card) db.card_by_card_id
    have hkey : (w.StdEncoding.DecodeString
        (CardRow.ofCard w.StdEncoding card).public_key).ok = true := by
      simp only [CardRow.ofCard, CardDTO.GetEncodedPublicKey]
      rw [hrt]
    have hget := GetCardByID_find_some w.StdEncoding db2 card.ID _ hfind hkey
    obtain ⟨b, hb2⟩ := DoesCardExist_ok db2 card.ID card.ApplicationID
    have hG : ∃ got,
        Controller.CardGet (CardRepository.provider w.StdEncoding db2) getRequest card.ID =
          .ok got ∧
        got.ContentSnapshot = card.ContentSnapshot ∧ got.Signatures = card.Signatures := by
      unfold Controller.CardGet
      simp only [CardRepository.provider]
      rw [hget]
      simp only [CardDTO.DoesScopeMatch, CardRow.ofCard]
      have hm : (getRequest.ApplicationID == card.ApplicationID) = true := by
        rw [hscope, hcard]
        simp
      simp only [hm, Bool.not_true, Bool.false_eq_true, if_false, hb2]
      exact ⟨_, rfl, rfl, wrap_roundtrip card.Signatures⟩
    obtain ⟨got, hg1, hg2, hg3⟩ := hG
    refine ⟨got, { Signer := "virgil", Signature := w.StdEncoding.EncodeToString sig }, hg1,
      ?_, ?_, rfl, hstamps⟩
    · rw [hg2, hcard]
    · rw [hg3, hcard]

/-- C9, concrete run: the example root card is created on the empty store and
read back with its three stamps. -/
theorem create_then_get_witness :
    ∃ got virgil,
      Controller.CardGet (CardRepository.provider encoder.Hex
        (Controller.CardCreate Example.wiring (some "chain-1") {} Example.createRoot).2)
        { ApplicationID := "S1" } Example.rootID = .ok got ∧
      got.ContentSnapshot = "01" ∧
      got.Signatures = [Example.selfStamp.toDTO, Example.appStamp.toDTO] ++ [virgil] ∧
      virgil.Signer = "virgil" ∧
      ∀ s ∈ Example.createRoot.CSRStamps, s.Signer ≠ "virgil" :=
  (create_then_get Example.wiring Hex_roundTrips (some "chain-1") {}
    (Controller.CardCreate Example.wiring (some "chain-1") {} Example.createRoot).2
    Example.createRoot { ApplicationID := "S1" }
    { ID := Example.rootID, ContentSnapshot := "01", Identity := "alice",
      ApplicationID := "S1", Version := "5.0", ChainID := "chain-1",
      CreatedAt := 1700000000,
      Signatures := [Example.selfStamp.toDTO, Example.appStamp.toDTO,
        { Signer := "virgil", Signature := "0901" }],
      PublicKey := Example.key }
    rfl rfl).2

/-! ## Search request validation -/

/-- C19: `SearchCardValidator.Validate` accepts a search request exactly when
`GetIdentities` returns between 1 and 50 identities; none gives
`ErrIdentitySearchTermCannotBeEmpty`, more than 50 gives
`ErrIdentitySearchCountIsLimited(50)`. -/
theorem SearchCardValidator_Validate_spec (r : CardSearchRequest) :
    (SearchCardValidator.Validate r = none ↔
      1 ≤ r.GetIdentities.length ∧ r.GetIdentities.length ≤ 50) ∧
    (r.GetIdentities.length = 0 →
      SearchCardValidator.Validate r = some .ErrIdentitySearchTermCannotBeEmpty) ∧
    (50 < r.GetIdentities.length →
      SearchCardValidator.Validate r = some (.ErrIdentitySearchCountIsLimited 50)) := by
  unfold SearchCardValidator.Validate searchIdentitiesLimit
  simp only []
  refine ⟨?_, ?_, ?_⟩
  · by_cases h0 : r.GetIdentities.length = 0
    · rw [if_pos h0]
      constructor
      · intro h; cases h
      · intro h; omega
    · rw [if_neg h0]
      by_cases h1 : 50 < r.GetIdentities.length
      · rw [if_pos h1]
        constructor
        · intro h; cases h
        · intro h; omega
      · rw [if_neg h1]
        constructor
        · intro _; omega
        · intro _; rfl
  · intro h0
    rw [if_pos h0]
  · intro h1
    rw [if_neg (by omega), if_pos h1]

/-- C19, concrete run: one identity is accepted, fifty-one are refused. -/
theorem SearchCardValidator_Validate_spec_witness :
    SearchCardValidator.Validate { Identity := "alice" } = none ∧
    SearchCardValidator.Validate { Identities := List.replicate 51 "identity" } =
      some (.ErrIdentitySearchCountIsLimited 50) :=
  ⟨(SearchCardValidator_Validate_spec { Identity := "alice" }).1.2 ⟨by decide, by decide⟩,
   (SearchCardValidator_Validate_spec { Identities := List.replicate 51 "identity" }).2.2
     (by decide)⟩

/-! ## Escaping of the literals of an `IN (...)` clause -/

theorem joinLoop_eq_go (separator : String) (rest : List String) :
    ∀ (i : Nat) (joined : String),
      joinCqlEscapedStringsLoop separator rest (i + 1) joined =
        String.intercalate.go joined separator
          (rest.map (fun e => String.mk (replaceQuotes e.data))) := by
  induction rest with
  | nil => intro i joined; rfl
  | cons e rest ih =>
    intro i joined
    simp only [joinCqlEscapedStringsLoop, List.map_cons, String.intercalate.go]
    rw [if_pos (by omega), ih]

theorem joinCqlEscapedStrings_eq (xs : List String) (separator : String) :
    joinCqlEscapedStrings xs separator =
      separator.intercalate (xs.map (fun e => String.mk (replaceQuotes e.data))) := by
  cases xs with
  | nil => rfl
  | cons x rest =>
    simp only [joinCqlEscapedStrings, joinCqlEscapedStringsLoop, List.map_cons,
      String.intercalate]
    rw [if_neg (by omega), joinLoop_eq_go]
    congr 1

theorem quoteRuns_replaceQuotes (l : List Char) :
    ∀ run : Nat, run % 2 = 0 → ∀ n ∈ quoteRuns run (replaceQuotes l), n % 2 = 0 := by
  induction l with
  | nil =>
    intro run hr n hn
    simp only [replaceQuotes, quoteRuns] at hn
    split_ifs at hn
    · simp only [List.mem_singleton] at hn
      rw [hn]; exact hr
    · cases hn
  | cons c rest ih =>
    intro run hr n hn
    by_cases hc : c = quote
    · simp only [replaceQuotes, hc, if_true, quoteRuns] at hn
      exact ih (run + 1 + 1) (by omega) n hn
    · simp only [replaceQuotes, hc, if_false, quoteRuns, List.mem_append] at hn
      rcases hn with hn | hn
      · split_ifs at hn
        · simp only [List.mem_singleton] at hn
          rw [hn]; exact hr
        · cases hn
      · exact ih 0 rfl n hn

theorem unescapeQuotes_replaceQuotes (l : List Char) :
    unescapeQuotes (replaceQuotes l) = l := by
  induction l with
  | nil => rfl
  | cons c rest ih =>
    by_cases hc : c = quote
    · simp only [replaceQuotes, hc, if_true, unescapeQuotes, and_self, ih]
    · simp only [replaceQuotes, hc, if_false]
      cases hr : replaceQuotes rest with
      | nil =>
        rw [hr] at ih
        rw [← ih]
        rfl
      | cons d rest2 =>
        rw [hr] at ih
        simp only [unescapeQuotes, hc, false_and, if_false, ih]

theorem readLiteral_quote_nil (acc : List Char) :
    readLiteral [quote] acc = some (acc, []) := by
  simp [readLiteral]

theorem readLiteral_quote_quote (r acc : List Char) :
    readLiteral (quote :: quote :: r) acc = readLiteral r (acc ++ [quote]) := by
  simp [readLiteral]

theorem readLiteral_quote_other (d : Char) (r acc : List Char) (h : d ≠ quote) :
    readLiteral (quote :: d :: r) acc = some (acc, d :: r) := by
  simp [readLiteral, h]

theorem readLiteral_other (c : Char) (r acc : List Char) (h : c ≠ quote) :
    readLiteral (c :: r) acc = readLiteral r (acc ++ [c]) := by
  cases r with
  | nil => simp [readLiteral, h]
  | cons d r => simp [readLiteral, h]

theorem readLiteral_replaceQuotes (l : List Char) :
    ∀ (acc rest : List Char), (∀ d rest2, rest = d :: rest2 → d ≠ quote) →
      readLiteral (replaceQuotes l ++ quote :: rest) acc = some (acc ++ l, rest) := by
  induction l with
  | nil =>
    intro acc rest hrest
    cases rest with
    | nil => simp [replaceQuotes, readLiteral_quote_nil]
    | cons d rest2 =>
      simp [replaceQuotes, readLiteral_quote_other d rest2 acc (hrest d rest2 rfl)]
  | cons c l ih =>
    intro acc rest hrest
    by_cases hc : c = quote
    · subst hc
      have : replaceQuotes (quote :: l) = quote :: quote :: replaceQuotes l := by
        simp [replaceQuotes]
      rw [this, List.cons_append, List.cons_append, readLiteral_quote_quote, ih _ _ hrest]
      simp
    · have : replaceQuotes (c :: l) = c :: replaceQuotes l := by
        simp [replaceQuotes, hc]
      rw [this, List.cons_append, readLiteral_other _ _ _ hc, ih _ _ hrest]
      simp

theorem dropHead_append (head text : List Char) :
    dropHead head (head ++ text) = some text := by
  induction head with
  | nil => cases text <;> rfl
  | cons h head ih =>
    show dropHead (h :: head) (h :: (head ++ text)) = some text
    simp [dropHead, ih]

theorem readInList_inListTail (rest : List String) :
    ∀ (x : String) (fuel : Nat), rest.length < fuel →
      readInList fuel (quote :: (replaceQuotes x.data ++ inListTail rest)) =
        some (x :: rest) := by
  induction rest with
  | nil =>
    intro x fuel hfuel
    cases fuel with
    | zero => simp at hfuel
    | succ fuel =>
      have hq : skipBlanks (quote :: (replaceQuotes x.data ++ inListTail [])) =
          quote :: (replaceQuotes x.data ++ [quote, ')']) := by
        simp [skipBlanks, quote, inListTail]
      have hr := readLiteral_replaceQuotes x.data [] [')'] (by
        intro d rest2 h; cases h; decide)
      simp only [readInList, hq, if_true, hr]
      simp [skipBlanks]
  | cons y rest ih =>
    intro x fuel hfuel
    cases fuel with
    | zero => simp at hfuel
    | succ fuel =>
      have hrec := ih y fuel (by simp at hfuel ⊢; omega)
      have hq : skipBlanks (quote :: (replaceQuotes x.data ++ inListTail (y :: rest))) =
          quote :: (replaceQuotes x.data ++ quote :: ',' :: ' ' ::
            quote :: (replaceQuotes y.data ++ inListTail rest)) := by
        simp [skipBlanks, quote, inListTail]
      have hr := readLiteral_replaceQuotes x.data []
        (',' :: ' ' :: quote :: (replaceQuotes y.data ++ inListTail rest)) (by
        intro d rest2 h; cases h; decide)
      have hb : readInList fuel (' ' :: quote :: (replaceQuotes y.data ++ inListTail rest)) =
          some (y :: rest) := by
        rw [← hrec]
        cases fuel with
        | zero => rfl
        | succ fuel => simp [readInList, skipBlanks]
      simp only [readInList, hq, if_true, hr]
      simp [skipBlanks, hb]

theorem length_inListTail (rest : List String) : rest.length < (inListTail rest).length := by
  induction rest with
  | nil => simp [inListTail]
  | cons y rest ih => simp [inListTail]; omega

theorem joinLoop_data (rest : List String) :
    ∀ (i : Nat) (joined : String),
      (joinCqlEscapedStringsLoop "', '" rest (i + 1) joined).data ++ [quote, ')'] =
        joined.data ++ inListTail rest := by
  induction rest with
  | nil => intro i joined; simp [joinCqlEscapedStringsLoop, inListTail]
  | cons y rest ih =>
    intro i joined
    simp only [joinCqlEscapedStringsLoop]
    rw [if_pos (Nat.succ_pos i), ih]
    simp [inListTail, quote]

theorem inList_data (head : String) (x : String) (rest : List String) :
    (head ++ "'" ++ joinCqlEscapedStrings (x :: rest) "', '" ++ "')").data =
      head.data ++ (quote :: (replaceQuotes x.data ++ inListTail rest)) := by
  have h := joinLoop_data rest 0 ("" ++ String.mk (replaceQuotes x.data))
  simp only [joinCqlEscapedStrings, joinCqlEscapedStringsLoop, String.data_append]
  have h0 : ¬ (0 > 0) := by decide
  rw [if_neg h0, List.append_assoc, List.append_assoc]
  show head.data ++ ([quote] ++ (_ ++ [quote, ')'])) = _
  rw [h]
  simp

theorem cqlInList_joined (head : String) (xs : List String) (hne : xs ≠ []) :
    cqlInList head (head ++ "'" ++ joinCqlEscapedStrings xs "', '" ++ "')") = some xs := by
  cases xs with
  | nil => exact absurd rfl hne
  | cons x rest =>
    unfold cqlInList
    rw [inList_data, dropHead_append]
    apply readInList_inListTail
    have := length_inListTail rest
    simp
    omega

/-- C20: `joinCqlEscapedStrings xs sep` is the elements of `xs`, each with every
single quote replaced by two, joined by `sep` (the empty string for no element).
In an escaped element every maximal run of quotes has even length and replacing
each doubled quote by one gives the element back.  A literal read from an
escaped element ends at the quote that the builder puts after it, and the lists
of the two search statements are read back as exactly the given strings. -/
theorem joinCqlEscapedStrings_spec (xs : List String) (sep : String) :
    joinCqlEscapedStrings xs sep =
      sep.intercalate (xs.map (fun e => String.mk (replaceQuotes e.data))) ∧
    joinCqlEscapedStrings [] sep = "" ∧
    (∀ e : String, replaceQuotes e.data =
      e.data.flatMap (fun c => if c = quote then [quote, quote] else [c])) ∧
    (∀ e : String, ∀ n ∈ quoteRuns 0 (replaceQuotes e.data), n % 2 = 0) ∧
    (∀ e : String, unescapeQuotes (replaceQuotes e.data) = e.data) ∧
    (∀ (e : String) (rest : List Char), (∀ d rest2, rest = d :: rest2 → d ≠ quote) →
      readLiteral (replaceQuotes e.data ++ quote :: rest) [] = some (e.data, rest)) ∧
    (xs ≠ [] →
      cqlInList qSelectCardIDsForSetOfIdentitiesAndAppIDHead
          (getSearchCardIDsByMultipleIdentitiesQuery xs) = some xs ∧
      cqlInList qSelectCardsByIDsHead (getSearchByCardsIDs xs) = some xs) := by
  refine ⟨joinCqlEscapedStrings_eq xs sep, rfl, ?_, ?_, ?_, ?_, ?_⟩
  · intro e
    induction e.data with
    | nil => rfl
    | cons c l ih =>
      by_cases hc : c = quote
      · simp [replaceQuotes, hc, ih]
      · simp [replaceQuotes, hc, ih]
  · intro e
    exact quoteRuns_replaceQuotes e.data 0 rfl
  · intro e
    exact unescapeQuotes_replaceQuotes e.data
  · intro e rest hrest
    simpa using readLiteral_replaceQuotes e.data [] rest hrest
  · intro hne
    exact ⟨cqlInList_joined _ xs hne, cqlInList_joined _ xs hne⟩

/-- C20, concrete run: identities that carry quotes and a closing bracket are
read back unchanged from both statements. -/
theorem joinCqlEscapedStrings_spec_witness :
    cqlInList qSelectCardIDsForSetOfIdentitiesAndAppIDHead
        (getSearchCardIDsByMultipleIdentitiesQuery ["a') OR id IN ('b", "o'neil"]) =
      some ["a') OR id IN ('b", "o'neil"] ∧
    cqlInList qSelectCardsByIDsHead (getSearchByCardsIDs ["a') OR id IN ('b", "o'neil"]) =
      some ["a') OR id IN ('b", "o'neil"] :=
  (joinCqlEscapedStrings_spec ["a') OR id IN ('b", "o'neil"] ", ").2.2.2.2.2.2
    (List.cons_ne_nil _ _)

/-! ## The chain table -/

theorem hasKey_iff (R : ChainRow) (i a c : String) :
    R.hasKey i a c = true ↔ R.identity = i ∧ R.application_id = a ∧ R.chain_id = c := by
  simp [ChainRow.hasKey, and_assoc]

theorem hasKey_self (R : ChainRow) : R.hasKey R.identity R.application_id R.chain_id = true :=
  (hasKey_iff R _ _ _).2 ⟨rfl, rfl, rfl⟩

theorem hasKey_congr (R R2 : ChainRow) (h1 : R2.identity = R.identity)
    (h2 : R2.application_id = R.application_id) (h3 : R2.chain_id = R.chain_id)
    (i a c : String) : R2.hasKey i a c = R.hasKey i a c := by
  simp [ChainRow.hasKey, h1, h2, h3]

theorem createChainIdentities_eq (id : String) (createdAt : Int) (i a c : String)
    (t : List ChainRow) :
    createChainIdentities id createdAt i a c t =
      upsertChain ⟨i, a, c, [id], some createdAt, some 0⟩
        (fun r => { r with ids := addID id r.ids, created_at_timestamp := some createdAt,
                           deleted_at := some 0 }) i a c t := rfl

theorem updateChainIdentities_eq (id : String) (i a c : String) (t : List ChainRow) :
    updateChainIdentities id i a c t =
      upsertChain ⟨i, a, c, [id], none, none⟩
        (fun r => { r with ids := addID id r.ids }) i a c t := rfl

theorem addsID_create (id : String) (createdAt : Int) (i a c : String) :
    AddsID id i a c ⟨i, a, c, [id], some createdAt, some 0⟩
      (fun r => { r with ids := addID id r.ids, created_at_timestamp := some createdAt,
                         deleted_at := some 0 }) :=
  ⟨rfl, rfl, rfl, rfl, fun _ => rfl, fun _ => rfl, fun _ => rfl, fun _ => rfl⟩

theorem addsID_update (id : String) (i a c : String) :
    AddsID id i a c ⟨i, a, c, [id], none, none⟩ (fun r => { r with ids := addID id r.ids }) :=
  ⟨rfl, rfl, rfl, rfl, fun _ => rfl, fun _ => rfl, fun _ => rfl, fun _ => rfl⟩

theorem mem_addID (id x : String) (ids : List String) :
    x ∈ addID id ids ↔ x = id ∨ x ∈ ids := by
  unfold addID
  by_cases h : id ∈ ids
  · rw [if_pos h]
    constructor
    · intro hx; exact Or.inr hx
    · intro hx
      cases hx with
      | inl hx => rw [hx]; exact h
      | inr hx => exact hx
  · rw [if_neg h]
    simp [or_comm]

theorem mem_upsertChain (newRow : ChainRow) (f : ChainRow → ChainRow) (i a c : String)
    (t : List ChainRow) (R2 : ChainRow) (h : R2 ∈ upsertChain newRow f i a c t) :
    (R2 ∈ t ∧ R2.hasKey i a c = false) ∨
    (R2 = newRow ∧ t.find? (fun r => r.hasKey i a c) = none) ∨
    (∃ R ∈ t, R.hasKey i a c = true ∧ R2 = f R) := by
  unfold upsertChain at h
  cases hf : t.find? (fun r => r.hasKey i a c) with
  | none =>
    rw [hf] at h
    simp only [List.mem_cons] at h
    cases h with
    | inl h => exact Or.inr (Or.inl ⟨h, rfl⟩)
    | inr h =>
      have := List.find?_eq_none.1 hf R2 h
      exact Or.inl ⟨h, by simpa using this⟩
  | some r0 =>
    rw [hf] at h
    simp only [List.mem_map] at h
    obtain ⟨R, hR, hR2⟩ := h
    by_cases hk : R.hasKey i a c = true
    · rw [if_pos hk] at hR2
      exact Or.inr (Or.inr ⟨R, hR, hk, hR2.symm⟩)
    · rw [if_neg hk] at hR2
      subst hR2
      exact Or.inl ⟨hR, by simpa using hk⟩

theorem upsertChain_has (id : String) (newRow : ChainRow) (f : ChainRow → ChainRow)
    (i a c : String) (hA : AddsID id i a c newRow f) (t : List ChainRow) :
    ∃ R2 ∈ upsertChain newRow f i a c t, R2.hasKey i a c = true ∧ id ∈ R2.ids := by
  unfold upsertChain
  cases hf : t.find? (fun r => r.hasKey i a c) with
  | none =>
    refine ⟨newRow, List.mem_cons_self _ _, ?_, ?_⟩
    · exact (hasKey_iff _ _ _ _).2 ⟨hA.new_identity, hA.new_application_id, hA.new_chain_id⟩
    · rw [hA.new_ids]; exact List.mem_singleton.2 rfl
  | some r0 =>
    have hk : r0.hasKey i a c = true := by
      have := List.find?_some hf
      simpa using this
    have hm : r0 ∈ t := List.mem_of_find?_eq_some hf
    refine ⟨f r0, ?_, ?_, ?_⟩
    · simp only [List.mem_map]
      exact ⟨r0, hm, by rw [if_pos hk]⟩
    · rw [hasKey_congr r0 (f r0) (hA.identity_eq _) (hA.application_id_eq _)
        (hA.chain_id_eq _)]
      exact hk
    · rw [hA.ids_eq]
      exact (mem_addID _ _ _).2 (Or.inl rfl)

theorem upsertChain_keeps (id : String) (newRow : ChainRow) (f : ChainRow → ChainRow)
    (i a c : String) (hA : AddsID id i a c newRow f) (t : List ChainRow) (R : ChainRow)
    (hR : R ∈ t) :
    ∃ R2 ∈ upsertChain newRow f i a c t,
      R2.identity = R.identity ∧ R2.application_id = R.application_id ∧
      R2.chain_id = R.chain_id ∧ ∀ x ∈ R.ids, x ∈ R2.ids := by
  unfold upsertChain
  cases hf : t.find? (fun r => r.hasKey i a c) with
  | none => exact ⟨R, List.mem_cons_of_mem _ hR, rfl, rfl, rfl, fun x hx => hx⟩
  | some r0 =>
    by_cases hk : R.hasKey i a c = true
    · refine ⟨f R, ?_, hA.identity_eq _, hA.application_id_eq _, hA.chain_id_eq _, ?_⟩
      · simp only [List.mem_map]
        exact ⟨R, hR, by rw [if_pos hk]⟩
      · intro x hx
        rw [hA.ids_eq]
        exact (mem_addID _ _ _).2 (Or.inr hx)
    · refine ⟨R, ?_, rfl, rfl, rfl, fun x hx => hx⟩
      simp only [List.mem_map]
      exact ⟨R, hR, by rw [if_neg hk]⟩

theorem find_map_key (g : ChainRow → ChainRow) (t : List ChainRow)
    (hg : ∀ r i a c, (g r).hasKey i a c = r.hasKey i a c) (i a c : String) :
    (t.map g).find? (fun r => r.hasKey i a c) =
      (t.find? (fun r => r.hasKey i a c)).map g := by
  have h : ((fun r => r.hasKey i a c) ∘ g) = (fun r : ChainRow => r.hasKey i a c) := by
    funext r
    exact hg r i a c
  rw [List.find?_map, h]

theorem unique_keys_map (g : ChainRow → ChainRow) (t : List ChainRow)
    (hg : ∀ r i a c, (g r).hasKey i a c = r.hasKey i a c)
    (hid : ∀ r, (g r).identity = r.identity) (happ : ∀ r, (g r).application_id = r.application_id)
    (hch : ∀ r, (g r).chain_id = r.chain_id)
    (hU : ∀ R ∈ t, t.find? (fun x => x.hasKey R.identity R.application_id R.chain_id) = some R) :
    ∀ R ∈ t.map g,
      (t.map g).find? (fun x => x.hasKey R.identity R.application_id R.chain_id) = some R := by
  intro R2 hR2
  obtain ⟨R, hR, rfl⟩ := List.mem_map.1 hR2
  rw [find_map_key g t hg, hid, happ, hch, hU R hR]
  rfl

theorem unique_keys_upsert (id : String) (newRow : ChainRow) (f : ChainRow → ChainRow)
    (i a c : String) (hA : AddsID id i a c newRow f) (t : List ChainRow)
    (hU : ∀ R ∈ t, t.find? (fun x => x.hasKey R.identity R.application_id R.chain_id) = some R) :
    ∀ R ∈ upsertChain newRow f i a c t,
      (upsertChain newRow f i a c t).find?
        (fun x => x.hasKey R.identity R.application_id R.chain_id) = some R := by
  unfold upsertChain
  cases hf : t.find? (fun r => r.hasKey i a c) with
  | none =>
    intro R hR
    simp only [List.mem_cons] at hR
    cases hR with
    | inl h =>
      subst h
      rw [List.find?_cons, hasKey_self]
    | inr h =>
      have hnk : R.hasKey i a c = false := by
        have := List.find?_eq_none.1 hf R h
        simpa using this
      have hne : newRow.hasKey R.identity R.application_id R.chain_id = false := by
        cases hb : newRow.hasKey R.identity R.application_id R.chain_id with
        | false => rfl
        | true =>
          obtain ⟨h1, h2, h3⟩ := (hasKey_iff _ _ _ _).1 hb
          have : R.hasKey i a c = true :=
            (hasKey_iff _ _ _ _).2 ⟨by rw [← h1, hA.new_identity],
              by rw [← h2, hA.new_application_id], by rw [← h3, hA.new_chain_id]⟩
          rw [this] at hnk
          cases hnk
      rw [List.find?_cons, hne]
      exact hU R h
  | some r0 =>
    have hi : ∀ r : ChainRow,
        (if r.hasKey i a c = true then f r else r).identity = r.identity := by
      intro r
      by_cases hk : r.hasKey i a c = true
      · rw [if_pos hk]; exact hA.identity_eq _
      · rw [if_neg hk]
    have ha : ∀ r : ChainRow,
        (if r.hasKey i a c = true then f r else r).application_id = r.application_id := by
      intro r
      by_cases hk : r.hasKey i a c = true
      · rw [if_pos hk]; exact hA.application_id_eq _
      · rw [if_neg hk]
    have hc : ∀ r : ChainRow,
        (if r.hasKey i a c = true then f r else r).chain_id = r.chain_id := by
      intro r
      by_cases hk : r.hasKey i a c = true
      · rw [if_pos hk]; exact hA.chain_id_eq _
      · rw [if_neg hk]
    exact unique_keys_map (fun r => if r.hasKey i a c = true then f r else r) t
      (fun r i2 a2 c2 => hasKey_congr r _ (hi r) (ha r) (hc r) i2 a2 c2) hi ha hc hU

theorem insertCardByID_fresh (row : CardRow) (T : List CardRow)
    (hfresh : ∀ r ∈ T, r.id ≠ row.id) : insertCardByID row T = row :: T := by
  unfold insertCardByID
  congr 1
  apply List.filter_eq_self.2
  intro r hr
  simpa using hfresh r hr

theorem chainInv_map (T : List CardRow) (C : List ChainRow) (g : ChainRow → ChainRow)
    (hid : ∀ r, (g r).identity = r.identity)
    (happ : ∀ r, (g r).application_id = r.application_id)
    (hch : ∀ r, (g r).chain_id = r.chain_id) (hids : ∀ r, (g r).ids = r.ids)
    (h : ChainInv T C) : ChainInv T (C.map g) := by
  have hg : ∀ r i a c, (g r).hasKey i a c = r.hasKey i a c :=
    fun r i a c => hasKey_congr r (g r) (hid r) (happ r) (hch r) i a c
  refine ⟨h.unique_ids, unique_keys_map g C hg hid happ hch h.unique_keys, ?_, ?_, ?_,
    h.predecessor, ?_⟩
  · intro R2 hR2 id hmem
    obtain ⟨R, hR, rfl⟩ := List.mem_map.1 hR2
    rw [hids] at hmem
    exact h.ids_stored R hR id hmem
  · intro R2 hR2 r hr hmem
    obtain ⟨R, hR, rfl⟩ := List.mem_map.1 hR2
    rw [hids] at hmem
    rw [hg]
    exact h.ids_key R hR r hr hmem
  · intro r hr
    obtain ⟨R, hR, hk, hmem⟩ := h.card_in_chain r hr
    refine ⟨g R, List.mem_map.2 ⟨R, hR, rfl⟩, ?_, ?_⟩
    · rw [hg]; exact hk
    · rw [hids]; exact hmem
  · intro R2 hR2
    obtain ⟨R, hR, rfl⟩ := List.mem_map.1 hR2
    rw [hid]
    exact h.chain_identity R hR

theorem chainInv_insert (T : List CardRow) (C : List ChainRow) (row : CardRow)
    (newRow : ChainRow) (f : ChainRow → ChainRow)
    (hA : AddsID row.id row.identity row.application_id row.chain_id newRow f)
    (hfresh : ∀ r ∈ T, r.id ≠ row.id) (hident : row.identity ≠ "")
    (hprev : row.previous_card_id ≠ "" →
      ∃ p ∈ T, p.id = row.previous_card_id ∧ p.chain_id = row.chain_id ∧
        p.identity = row.identity ∧ p.application_id = row.application_id)
    (h : ChainInv T C) :
    ChainInv (insertCardByID row T)
      (upsertChain newRow f row.identity row.application_id row.chain_id C) := by
  rw [insertCardByID_fresh row T hfresh]
  refine ⟨?_, unique_keys_upsert row.id newRow f _ _ _ hA C h.unique_keys, ?_, ?_, ?_, ?_, ?_⟩
  · intro r hr
    simp only [List.mem_cons] at hr
    cases hr with
    | inl hr =>
      subst hr
      simp [List.find?_cons]
    | inr hr =>
      have hne : (row.id == r.id) = false := by
        have := hfresh r hr
        simp only [beq_eq_false_iff_ne, ne_eq]
        exact fun e => this e.symm
      rw [List.find?_cons, hne]
      exact h.unique_ids r hr
  · intro R2 hR2 id hmem
    rcases mem_upsertChain _ _ _ _ _ _ _ hR2 with ⟨hR, _⟩ | ⟨hnew, _⟩ | ⟨R, hR, _, hf⟩
    · obtain ⟨r, hr, hrid⟩ := h.ids_stored R2 hR id hmem
      exact ⟨r, List.mem_cons_of_mem _ hr, hrid⟩
    · rw [hnew, hA.new_ids] at hmem
      exact ⟨row, List.mem_cons_self _ _, (List.mem_singleton.1 hmem).symm⟩
    · rw [hf, hA.ids_eq] at hmem
      rcases (mem_addID _ _ _).1 hmem with hx | hx
      · exact ⟨row, List.mem_cons_self _ _, hx.symm⟩
      · obtain ⟨r, hr, hrid⟩ := h.ids_stored R hR id hx
        exact ⟨r, List.mem_cons_of_mem _ hr, hrid⟩
  · intro R2 hR2 r hr hmem
    simp only [List.mem_cons] at hr
    rcases mem_upsertChain _ _ _ _ _ _ _ hR2 with ⟨hR, hnk⟩ | ⟨hnew, _⟩ | ⟨R, hR, hk, hf⟩
    · cases hr with
      | inl hr =>
        subst hr
        obtain ⟨r0, hr0, hrid⟩ := h.ids_stored R2 hR _ hmem
        exact absurd hrid (hfresh r0 hr0)
      | inr hr => exact h.ids_key R2 hR r hr hmem
    · rw [hnew, hA.new_ids] at hmem
      have hid := List.mem_singleton.1 hmem
      cases hr with
      | inl hr =>
        subst hr
        rw [hnew]
        exact (hasKey_iff _ _ _ _).2 ⟨hA.new_identity, hA.new_application_id, hA.new_chain_id⟩
      | inr hr => exact absurd hid (hfresh r hr)
    · rw [hf, hA.ids_eq] at hmem
      rw [hf, hasKey_congr R (f R) (hA.identity_eq _) (hA.application_id_eq _)
        (hA.chain_id_eq _)]
      cases hr with
      | inl hr =>
        subst hr
        exact hk
      | inr hr =>
        rcases (mem_addID _ _ _).1 hmem with hx | hx
        · exact absurd hx (hfresh r hr)
        · exact h.ids_key R hR r hr hx
  · intro r hr
    simp only [List.mem_cons] at hr
    cases hr with
    | inl hr =>
      subst hr
      exact upsertChain_has _ newRow f _ _ _ hA C
    | inr hr =>
      obtain ⟨R, hR, hk, hmem⟩ := h.card_in_chain r hr
      obtain ⟨R2, hR2, h1, h2, h3, hsub⟩ := upsertChain_keeps _ newRow f _ _ _ hA C R hR
      refine ⟨R2, hR2, ?_, hsub _ hmem⟩
      rw [hasKey_congr R R2 h1 h2 h3]
      exact hk
  · intro r hr hne
    simp only [List.mem_cons] at hr
    cases hr with
    | inl hr =>
      subst hr
      obtain ⟨p, hp, hrest⟩ := hprev hne
      exact ⟨p, List.mem_cons_of_mem _ hp, hrest⟩
    | inr hr =>
      obtain ⟨p, hp, hrest⟩ := h.predecessor r hr hne
      exact ⟨p, List.mem_cons_of_mem _ hp, hrest⟩
  · intro R2 hR2
    rcases mem_upsertChain _ _ _ _ _ _ _ hR2 with ⟨hR, _⟩ | ⟨hnew, _⟩ | ⟨R, hR, _, hf⟩
    · exact h.chain_identity R2 hR
    · rw [hnew, hA.new_identity]; exact hident
    · rw [hf, hA.identity_eq]; exact h.chain_identity R hR

theorem SaveCard_card_chain (std : encoder.Provider) (db : Store) (card : CardDTO) :
    (CardRepository.SaveCard std db card).card_chain =
      if card.PreviousCardID = "" then
        createChainIdentities card.ID card.CreatedAt card.Identity card.ApplicationID
          card.ChainID db.card_chain
      else
        updateChainIdentities card.ID card.Identity card.ApplicationID card.ChainID
          db.card_chain := by
  unfold CardRepository.SaveCard
  by_cases h : card.PreviousCardID = ""
  · simp [h]
  · simp [h]

theorem chainInv_SaveCard (std : encoder.Provider) (db : Store) (card : CardDTO)
    (hfresh : ∀ r ∈ db.card_by_card_id, r.id ≠ card.ID) (hident : card.Identity ≠ "")
    (hprev : card.PreviousCardID ≠ "" →
      ∃ p ∈ db.card_by_card_id, p.id = card.PreviousCardID ∧ p.chain_id = card.ChainID ∧
        p.identity = card.Identity ∧ p.application_id = card.ApplicationID)
    (h : ChainInv db.card_by_card_id db.card_chain) :
    ChainInv (CardRepository.SaveCard std db card).card_by_card_id
      (CardRepository.SaveCard std db card).card_chain := by
  rw [SaveCard_card_by_card_id, SaveCard_card_chain]
  by_cases hp : card.PreviousCardID = ""
  · rw [if_pos hp, createChainIdentities_eq]
    exact chainInv_insert _ _ (CardRow.ofCard std card) _ _
      (addsID_create card.ID card.CreatedAt card.Identity card.ApplicationID card.ChainID)
      hfresh hident hprev h
  · rw [if_neg hp, updateChainIdentities_eq]
    exact chainInv_insert _ _ (CardRow.ofCard std card) _ _
      (addsID_update card.ID card.Identity card.ApplicationID card.ChainID)
      hfresh hident hprev h

/-! ## What a successful call saves -/


theorem SetCardChainID_cases (newV4 : Option String) (db : Store) (c c2 : CardDTO)
    (h : CardRepository.SetCardChainID newV4 db c = .ok c2) :
    c2 = c.SetChainID c2.ChainID ∧
    (c.PreviousCardID = "" → newV4 = some c2.ChainID) ∧
    (c.PreviousCardID ≠ "" →
      ∃ p, db.card_by_card_id.find? (fun r => r.id == c.PreviousCardID) = some p ∧
        p.chain_id ≠ "" ∧ c2.ChainID = p.chain_id) := by
  unfold CardRepository.SetCardChainID at h
  by_cases hp : c.PreviousCardID = ""
  · rw [if_pos hp] at h
    cases hv : newV4 with
    | none => rw [hv] at h; cases h
    | some v =>
      rw [hv] at h
      injection h with h
      subst h
      exact ⟨rfl, fun _ => rfl, fun hne => absurd hp hne⟩
  · rw [if_neg hp] at h
    cases hf : db.card_by_card_id.find? (fun r => r.id == c.PreviousCardID) with
    | none => rw [hf] at h; cases h
    | some p =>
      rw [hf] at h
      by_cases hc : p.chain_id = ""
      · simp only [hc, if_true] at h
        cases h
      · simp only [hc, if_false] at h
        injection h with h
        subst h
        exact ⟨rfl, fun he => absurd he hp, fun _ => ⟨p, rfl, hc, rfl⟩⟩

theorem base_accepted (w : Wiring SK) (newV4 : Option String) (db : Store)
    (request : CardBaseRequest) (vs : Bool) (c1 card : CardDTO)
    (hv : (BaseCardValidator.Validate w.crypto (encoder.Base64 w.StdEncoding) w.unmarshal
      (CardRepository.provider w.StdEncoding db) request NewCardDTO vs).err = none)
    (hc : CardRepository.SetCardChainID newV4 db
      (BaseCardValidator.Validate w.crypto (encoder.Base64 w.StdEncoding) w.unmarshal
        (CardRepository.provider w.StdEncoding db) request NewCardDTO vs).card = .ok c1)
    (hs : w.cardSigner.SignCardByCardsService w.StdEncoding c1 = (none, card)) :
    Accepted w db request card ∧
    (card.PreviousCardID = "" → newV4 = some card.ChainID) ∧
    card.ChainID = c1.ChainID ∧
    card.PreviousCardID = c1.PreviousCardID := by
  obtain ⟨params, csr, hcsr, _, hprev, hdup, hcard, _⟩ :=
    BaseCardValidator_Validate_ok _ _ _ _ _ _ _ hv
  obtain ⟨⟨_, _, hun, _, ⟨hine, _, hieq⟩, _, _, _⟩, hparams⟩ :=
    (CSRValidator_Validate_ok_iff _ _ _ _ _ _ _).1 hcsr
  rw [fillVirgilCardModel_eq] at hcard
  obtain ⟨hc1, hroot, hchain⟩ := SetCardChainID_cases _ _ _ _ hc
  obtain ⟨_, signature, _, hsig⟩ := SignCardByCardsService_ok _ _ _ _ hs
  rw [hcard] at hc1 hroot hchain
  have hparams2 : params.csr =
      ((encoder.Base64 w.StdEncoding).DecodeString request.CSR).data := by
    rw [hparams]
  have e1 : card.PreviousCardID = csr.PreviousCardID := by rw [hsig, hc1]; rfl
  have e2 : card.ID = w.crypto.CalculateCardID params.csr := by rw [hsig, hc1]; rfl
  have e3 : card.Identity = csr.Identity := by rw [hsig, hc1]; rfl
  have e4 : card.ApplicationID = request.ApplicationID := by rw [hsig, hc1]; rfl
  have e5 : card.ChainID = c1.ChainID := by rw [hsig]
  refine ⟨⟨?_, ⟨csr, hun, e1⟩, ?_, ?_, e4, ?_, ?_, ?_⟩, ?_, e5, ?_⟩
  · rw [← hieq]; exact hine
  · rw [e2, hparams2]
  · rw [e3, hieq]
  · rw [e1, e4, e3]; exact hprev
  · rw [e2]; exact hdup
  · intro hne
    rw [e1, e5]
    rw [e1] at hne
    exact hchain hne
  · intro he
    rw [e5]
    rw [e1] at he
    exact hroot he
  · rw [hsig]

theorem CardCreate_accepted (w : Wiring SK) (newV4 : Option String) (db db2 : Store)
    (request : CardBaseRequest) (card : CardDTO)
    (h : Controller.CardCreate w newV4 db request = (.ok card, db2)) :
    Accepted w db request card ∧
    (card.PreviousCardID = "" → newV4 = some card.ChainID) ∧
    (card.PreviousCardID ≠ "" →
      CardRepository.IsChainDeleted db request.UserID request.ApplicationID card.ChainID =
        .ok false) ∧
    db2 = CardRepository.SaveCard w.StdEncoding db card := by
  obtain ⟨c1, hv, _, hc, hdel, hs, hdb⟩ := (CardCreate_ok_iff _ _ _ _ _ _).1 h
  obtain ⟨hb, heq, _⟩ := CreateCardValidator_Validate_ok _ _ _ _ _ _ hv
  rw [heq] at hc
  obtain ⟨hacc, hroot, hch, hpr⟩ := base_accepted w newV4 db request true c1 card hb hc hs
  refine ⟨hacc, hroot, ?_, hdb⟩
  intro hne
  rw [hch]
  rw [hpr] at hne
  exact hdel hne

theorem CardDelete_accepted (w : Wiring SK) (newV4 : Option String) (now : Int)
    (db db2 : Store) (request : CardBaseRequest) (card : CardDTO)
    (h : Controller.CardDelete w newV4 now db request = (.ok card, db2)) :
    Accepted w db request card ∧
    card.PreviousCardID ≠ "" ∧
    ∃ dbm,
      CardRepository.SetChainDeleted db request.UserID request.ApplicationID card.ChainID
        now = (.ok true, dbm) ∧
      db2 = CardRepository.SaveCard w.StdEncoding dbm card := by
  rcases CardDelete_cases w newV4 now db request with ⟨e, he⟩ | ⟨c1, card2, dbm, _, hv, hc, hs,
    hset, _, _, _, hres⟩
  · rw [he] at h
    cases h
  · rw [hres] at h
    injection h with h1 h2
    injection h1 with h1
    subst h1
    obtain ⟨hb, heq, _, hprev⟩ := DeleteCardValidator_Validate_ok _ _ _ _ _ _ hv
    rw [heq] at hc
    obtain ⟨hacc, _, _, hpr⟩ := base_accepted w newV4 db request false c1 card2 hb hc hs
    refine ⟨hacc, ?_, dbm, hset, h2.symm⟩
    rw [hpr]
    obtain ⟨hc1, _, _⟩ := SetCardChainID_cases _ _ _ _ hc
    rw [hc1]
    exact hprev

theorem SetChainDeleted_applied (db dbm : Store) (i a c : String) (now : Int)
    (h : CardRepository.SetChainDeleted db i a c now = (.ok true, dbm)) :
    (∃ R, db.card_chain.find? (fun r => r.hasKey i a c) = some R ∧ R.deleted_at = some 0) ∧
    dbm = { db with card_chain := db.card_chain.map (fun r =>
      if r.hasKey i a c then { r with deleted_at := some now } else r) } := by
  unfold CardRepository.SetChainDeleted at h
  cases hf : db.card_chain.find? (fun r => r.hasKey i a c) with
  | none =>
    rw [hf] at h
    cases h
  | some R =>
    rw [hf] at h
    by_cases hd : R.deleted_at = some 0
    · simp only [hd, if_true] at h
      injection h with _ h2
      exact ⟨⟨R, rfl, hd⟩, h2.symm⟩
    · simp only [hd, if_false] at h
      cases h

theorem SetChainDeleted_refused (db : Store) (i a c : String) (now : Int) (R : ChainRow)
    (hf : db.card_chain.find? (fun r => r.hasKey i a c) = some R)
    (hd : R.deleted_at ≠ some 0) :
    CardRepository.SetChainDeleted db i a c now = (.ok false, db) := by
  unfold CardRepository.SetChainDeleted
  rw [hf]
  simp only [hd, if_false]

theorem validatePreviousCardID_row (std : encoder.Provider) (db : Store) (p a i : String)
    (hp : p ≠ "") (row : CardRow)
    (hf : db.card_by_card_id.find? (fun r => r.id == p) = some row)
    (h : validatePreviousCardID (CardRepository.provider std db) p a i = none) :
    row.application_id = a ∧ row.identity = i := by
  unfold validatePreviousCardID at h
  rw [if_neg hp] at h
  simp only [CardRepository.provider] at h
  obtain ⟨b, hb⟩ := DoesCardExist_ok db p a
  rw [hb] at h
  cases b with
  | true => simp at h
  | false =>
    simp only [Bool.false_eq_true, if_false] at h
    unfold CardRepository.GetCardByID at h
    rw [hf] at h
    by_cases hk : (std.DecodeString row.public_key).ok = true
    · simp only [hk, Bool.not_true, Bool.false_eq_true, if_false] at h
      by_cases h1 : a ≠ row.application_id
      · simp [h1] at h
      · by_cases h2 : i ≠ row.identity
        · simp [h1, h2] at h
        · exact ⟨(not_not.1 h1).symm, (not_not.1 h2).symm⟩
    · simp [hk] at h

theorem accepted_chainInv (w : Wiring SK) (hrt : RoundTrips w.StdEncoding) (db dbm : Store)
    (request : CardBaseRequest) (card : CardDTO) (g : ChainRow → ChainRow)
    (hK : KeysEncoded w.StdEncoding db)
    (hacc : Accepted w db request card)
    (h1 : dbm.card_by_card_id = db.card_by_card_id)
    (h2 : dbm.card_chain = db.card_chain.map g)
    (hid : ∀ r, (g r).identity = r.identity)
    (happ : ∀ r, (g r).application_id = r.application_id)
    (hch : ∀ r, (g r).chain_id = r.chain_id) (hids : ∀ r, (g r).ids = r.ids)
    (h : ChainInv db.card_by_card_id db.card_chain) :
    ChainInv (CardRepository.SaveCard w.StdEncoding dbm card).card_by_card_id
      (CardRepository.SaveCard w.StdEncoding dbm card).card_chain := by
  apply chainInv_SaveCard
  · rw [h1]
    exact duplicates_none_absent _ hrt db hK _ hacc.duplicates
  · rw [hacc.identity]; exact hacc.user
  · intro hne
    obtain ⟨p, hf, _, hc⟩ := hacc.chain hne
    obtain ⟨ha, hi⟩ := validatePreviousCardID_row _ _ _ _ _ hne p hf hacc.previous
    refine ⟨p, ?_, ?_, hc.symm, hi, ha⟩
    · rw [h1]; exact List.mem_of_find?_eq_some hf
    · have := List.find?_some hf
      simpa using this
  · rw [h1, h2]
    exact chainInv_map _ _ g hid happ hch hids h

theorem reachable_chainInv (w : Wiring SK) (hrt : RoundTrips w.StdEncoding) (db : Store)
    (hr : Reachable w db) : ChainInv db.card_by_card_id db.card_chain := by
  induction hr with
  | empty =>
    exact ⟨fun _ h => (List.not_mem_nil _ h).elim, fun _ h => (List.not_mem_nil _ h).elim,
      fun _ h => (List.not_mem_nil _ h).elim, fun _ h => (List.not_mem_nil _ h).elim,
      fun _ h => (List.not_mem_nil _ h).elim, fun _ h => (List.not_mem_nil _ h).elim,
      fun _ h => (List.not_mem_nil _ h).elim⟩
  | create db newV4 request hr ih =>
    rcases CardCreate_cases w newV4 db request with ⟨e, he⟩ | ⟨card, hc⟩
    · rw [he]; exact ih
    · obtain ⟨hacc, _, _, _⟩ := CardCreate_accepted _ _ _ _ _ _ hc
      rw [hc]
      refine accepted_chainInv w hrt db db request card id (reachable_backed w hrt db hr).2
        hacc rfl ?_ (fun _ => rfl) (fun _ => rfl) (fun _ => rfl) (fun _ => rfl) ih
      simp
  | delete db newV4 now request hr ih =>
    cases hres : Controller.CardDelete w newV4 now db request with
    | mk res db2 =>
      cases res with
      | error e =>
        rcases CardDelete_cases w newV4 now db request with ⟨e2, he⟩ | ⟨_, card, _, _, _, _, _,
          _, _, _, _, hok⟩
        · rw [he] at hres
          injection hres with _ h2
          rw [← h2]; exact ih
        · rw [hok] at hres
          injection hres with h1 _
          cases h1
      | ok card =>
        obtain ⟨hacc, _, dbm, hset, hdb⟩ := CardDelete_accepted _ _ _ _ _ _ _ hres
        obtain ⟨_, hdbm⟩ := SetChainDeleted_applied _ _ _ _ _ _ hset
        show ChainInv db2.card_by_card_id db2.card_chain
        rw [hdb]
        refine accepted_chainInv w hrt db dbm request card _
          (reachable_backed w hrt db hr).2 hacc (by rw [hdbm]) (by rw [hdbm]) ?_ ?_ ?_ ?_ ih
        · intro r; by_cases hk : r.hasKey request.UserID request.ApplicationID card.ChainID = true
          · simp [hk]
          · simp [hk]
        · intro r; by_cases hk : r.hasKey request.UserID request.ApplicationID card.ChainID = true
          · simp [hk]
          · simp [hk]
        · intro r; by_cases hk : r.hasKey request.UserID request.ApplicationID card.ChainID = true
          · simp [hk]
          · simp [hk]
        · intro r; by_cases hk : r.hasKey request.UserID request.ApplicationID card.ChainID = true
          · simp [hk]
          · simp [hk]

/-! ## Search -/


theorem cqlInList_joined_nil (head : String) :
    cqlInList head (head ++ "'" ++ joinCqlEscapedStrings [] "', '" ++ "')") = some [""] := by
  unfold cqlInList
  have h : (head ++ "'" ++ joinCqlEscapedStrings [] "', '" ++ "')").data =
      head.data ++ [quote, quote, ')'] := by
    simp only [joinCqlEscapedStrings, joinCqlEscapedStringsLoop, String.data_append]
    rw [List.append_assoc, List.append_assoc]
    rfl
  rw [h, dropHead_append]
  decide

theorem mem_collectCardIDs (rows : List ChainRow) :
    ∀ (cardIDs : List String) (x : String),
      x ∈ collectCardIDs rows cardIDs ↔
        x ∈ cardIDs ∨ ∃ R ∈ rows, ¬ 0 < R.deleted_at.getD 0 ∧ x ∈ R.ids := by
  induction rows with
  | nil => intro cardIDs x; simp [collectCardIDs]
  | cons row rest ih =>
    intro cardIDs x
    unfold collectCardIDs
    by_cases hd : 0 ≥ row.deleted_at.getD 0
    · simp only [hd, if_true]
      rw [ih]
      simp only [List.mem_append, List.mem_cons, exists_eq_or_imp]
      have : ¬ 0 < row.deleted_at.getD 0 := by omega
      tauto
    · simp only [hd, if_false]
      rw [ih]
      simp only [List.mem_cons, exists_eq_or_imp]
      have : 0 < row.deleted_at.getD 0 := by omega
      tauto

theorem selectChainsByIdentities_eq (db : Store) (identities : List String)
    (scopeID : String)
    (h : identities ≠ [] ∨ ∀ R ∈ db.card_chain, R.identity ≠ "") :
    ∃ rows, selectChainsByIdentities db
        (getSearchCardIDsByMultipleIdentitiesQuery identities) scopeID = some rows ∧
      ∀ R, R ∈ rows ↔ R ∈ db.card_chain ∧ R.application_id = scopeID ∧
        R.identity ∈ identities := by
  unfold selectChainsByIdentities getSearchCardIDsByMultipleIdentitiesQuery
  by_cases hne : identities = []
  · subst hne
    rw [cqlInList_joined_nil]
    refine ⟨_, rfl, ?_⟩
    intro R
    have hid : ∀ R ∈ db.card_chain, R.identity ≠ "" := by
      cases h with
      | inl h => exact absurd rfl h
      | inr h => exact h
    simp only [List.mem_filter, Bool.and_eq_true, beq_iff_eq, List.not_mem_nil, and_false,
      iff_false, not_and]
    intro hR _ he
    have he2 : R.identity = "" := by simpa using he
    exact hid R hR he2
  · rw [cqlInList_joined _ identities hne]
    refine ⟨_, rfl, ?_⟩
    intro R
    simp [List.mem_filter]

theorem selectCardsByIDs_eq (db : Store) (ids : List String) (hne : ids ≠ []) :
    selectCardsByIDs db (getSearchByCardsIDs ids) =
      some (db.card_by_card_id.filter (fun r => ids.contains r.id)) := by
  unfold selectCardsByIDs getSearchByCardsIDs
  rw [cqlInList_joined _ ids hne]

theorem SearchCardsByIdentities_cases (db : Store) (identities : List String)
    (scopeID : String)
    (h : identities ≠ [] ∨ ∀ R ∈ db.card_chain, R.identity ≠ "") :
    ∃ ids : List String,
      (∀ x, x ∈ ids ↔ ∃ R ∈ db.card_chain, R.isLiveFor identities scopeID ∧ x ∈ R.ids) ∧
      ((ids = [] ∧
        (CardRepository.SearchCardsByIdentities db identities scopeID).result = .ok [] ∧
        (CardRepository.SearchCardsByIdentities db identities scopeID).statements =
          [getSearchCardIDsByMultipleIdentitiesQuery identities]) ∨
       (ids ≠ [] ∧
        (CardRepository.SearchCardsByIdentities db identities scopeID).result =
          .ok ((db.card_by_card_id.filter (fun r => ids.contains r.id)).map searchCard) ∧
        (CardRepository.SearchCardsByIdentities db identities scopeID).statements =
          [getSearchCardIDsByMultipleIdentitiesQuery identities,
           getSearchByCardsIDs ids])) := by
  obtain ⟨rows, hrows, hmem⟩ := selectChainsByIdentities_eq db identities scopeID h
  refine ⟨collectCardIDs rows [], ?_, ?_⟩
  · intro x
    rw [mem_collectCardIDs]
    simp only [List.not_mem_nil, false_or, ChainRow.isLiveFor]
    constructor
    · rintro ⟨R, hR, hd, hx⟩
      obtain ⟨h1, h2, h3⟩ := (hmem R).1 hR
      exact ⟨R, h1, ⟨h2, h3, hd⟩, hx⟩
    · rintro ⟨R, hR, ⟨h2, h3, hd⟩, hx⟩
      exact ⟨R, (hmem R).2 ⟨hR, h2, h3⟩, hd, hx⟩
  · unfold CardRepository.SearchCardsByIdentities
    simp only [hrows]
    by_cases he : collectCardIDs rows [] = []
    · left
      simp [he]
    · right
      have hl : ¬ (0 = (collectCardIDs rows []).length) := by
        intro h0
        exact he (List.length_eq_zero.1 h0.symm)
      simp only [hl, if_false, selectCardsByIDs_eq db _ he]
      exact ⟨he, trivial, trivial⟩

theorem chain_row_of_member (w : Wiring SK) (hrt : RoundTrips w.StdEncoding) (db : Store)
    (hr : Reachable w db) (R : ChainRow) (hR : R ∈ db.card_chain) (r : CardRow)
    (hrow : r ∈ db.card_by_card_id) (hmem : r.id ∈ R.ids) :
    r.identity = R.identity ∧ r.application_id = R.application_id ∧
    r.chain_id = R.chain_id ∧
    db.card_chain.find? (fun x => x.hasKey r.identity r.application_id r.chain_id) =
      some R := by
  have hinv := reachable_chainInv w hrt db hr
  obtain ⟨h1, h2, h3⟩ := (hasKey_iff _ _ _ _).1 (hinv.ids_key R hR r hrow hmem)
  refine ⟨h1.symm, h2.symm, h3.symm, ?_⟩
  rw [← h1, ← h2, ← h3]
  exact hinv.unique_keys R hR

/-- C17: on every store the service reaches, for every identity list and scope,
`SearchCardsByIdentities` succeeds and returns exactly the cards built from the
stored rows whose id is in the `ids` of a chain row with that scope, an identity
of the list and a `deleted_at` that is not positive, so rows with
`deleted_at > 0` add nothing; when no id is collected the result is empty and
only the chain statement was sent.  Every row behind the result has a requested
identity, the scope, and a chain that `IsChainDeleted` reports as not deleted. -/
theorem SearchCardsByIdentities_spec (w : Wiring SK) (hrt : RoundTrips w.StdEncoding)
    (db : Store) (hr : Reachable w db) (identities : List String) (scopeID : String) :
    ∃ cards,
      (CardRepository.SearchCardsByIdentities db identities scopeID).result = .ok cards ∧
      (∀ c, c ∈ cards ↔
        ∃ r ∈ db.card_by_card_id, c = searchCard r ∧
          ∃ R ∈ db.card_chain, R.application_id = scopeID ∧ R.identity ∈ identities ∧
            ¬ 0 < R.deleted_at.getD 0 ∧ r.id ∈ R.ids) ∧
      ((∀ R ∈ db.card_chain, R.application_id = scopeID → R.identity ∈ identities →
          0 < R.deleted_at.getD 0 ∨ R.ids = []) →
        cards = [] ∧
        (CardRepository.SearchCardsByIdentities db identities scopeID).statements =
          [getSearchCardIDsByMultipleIdentitiesQuery identities]) ∧
      (∀ r ∈ db.card_by_card_id,
        (∃ R ∈ db.card_chain, R.application_id = scopeID ∧ R.identity ∈ identities ∧
          ¬ 0 < R.deleted_at.getD 0 ∧ r.id ∈ R.ids) →
        r.identity ∈ identities ∧ r.application_id = scopeID ∧
        CardRepository.IsChainDeleted db r.identity r.application_id r.chain_id =
          .ok false) := by
  have hinv := reachable_chainInv w hrt db hr
  obtain ⟨ids, hids, hcases⟩ :=
    SearchCardsByIdentities_cases db identities scopeID (Or.inr hinv.chain_identity)
  have hhence : ∀ r ∈ db.card_by_card_id,
      (∃ R ∈ db.card_chain, R.application_id = scopeID ∧ R.identity ∈ identities ∧
        ¬ 0 < R.deleted_at.getD 0 ∧ r.id ∈ R.ids) →
      r.identity ∈ identities ∧ r.application_id = scopeID ∧
      CardRepository.IsChainDeleted db r.identity r.application_id r.chain_id =
        .ok false := by
    rintro r hrow ⟨R, hR, happ, hid, hd, hmem⟩
    obtain ⟨h1, h2, _, hfind⟩ := chain_row_of_member w hrt db hr R hR r hrow hmem
    refine ⟨by rw [h1]; exact hid, by rw [h2]; exact happ, ?_⟩
    unfold CardRepository.IsChainDeleted scanChainDeletedAt
    rw [hfind]
    simp only [hd, decide_False]
  rcases hcases with ⟨hnil, hres, hst⟩ | ⟨hne, hres, hst⟩
  · refine ⟨[], hres, ?_, fun _ => ⟨rfl, hst⟩, hhence⟩
    intro c
    simp only [List.not_mem_nil, false_iff, not_exists, not_and]
    intro r _ _ R hR happ hid hd hmem
    have : r.id ∈ ids := (hids r.id).2 ⟨R, hR, ⟨happ, hid, hd⟩, hmem⟩
    rw [hnil] at this
    cases this
  · refine ⟨_, hres, ?_, ?_, hhence⟩
    · intro c
      simp only [List.mem_map, List.mem_filter, List.contains_eq_any_beq, List.any_eq_true,
        beq_iff_eq]
      constructor
      · rintro ⟨r, ⟨hrow, x, hx, hxe⟩, hc⟩
        subst hxe
        obtain ⟨R, hR, ⟨h1, h2, h3⟩, h4⟩ := (hids _).1 hx
        exact ⟨r, hrow, hc.symm, R, hR, h1, h2, h3, h4⟩
      · rintro ⟨r, hrow, hc, R, hR, h1, h2, h3, h4⟩
        exact ⟨r, ⟨hrow, r.id, (hids _).2 ⟨R, hR, ⟨h1, h2, h3⟩, h4⟩, rfl⟩, hc.symm⟩
    · intro hall
      exfalso
      cases ids with
      | nil => exact hne rfl
      | cons x rest =>
        obtain ⟨R, hR, ⟨h1, h2, h3⟩, h4⟩ := (hids x).1 (List.mem_cons_self _ _)
        rcases hall R hR h1 h2 with hd | he
        · exact h3 hd
        · rw [he] at h4
          cases h4

theorem reachable_oneCard : Reachable Example.wiring Example.oneCard :=
  Reachable.create _ (some "chain-1") Example.createRoot Reachable.empty

theorem reachable_twoCards : Reachable Example.wiring Example.twoCards :=
  Reachable.create _ (some "chain-2") Example.createNext reachable_oneCard

/-- C17, concrete run: after the example root card is created, a search for
alice in scope `S1` returns cards that all come from stored rows of alice in
`S1`, and a search for bob returns nothing and sends one statement. -/
theorem SearchCardsByIdentities_spec_witness :
    (∃ cards,
      (CardRepository.SearchCardsByIdentities Example.oneCard ["alice"] "S1").result =
        .ok cards ∧
      ∀ c ∈ cards, ∃ r ∈ Example.oneCard.card_by_card_id, c = searchCard r ∧
        r.identity ∈ ["alice"] ∧ r.application_id = "S1") ∧
    (CardRepository.SearchCardsByIdentities Example.oneCard ["bob"] "S1").statements =
      [getSearchCardIDsByMultipleIdentitiesQuery ["bob"]] :=
  ⟨(SearchCardsByIdentities_spec Example.wiring Hex_roundTrips Example.oneCard
      reachable_oneCard ["alice"] "S1").elim
    (fun cards h => ⟨cards, h.1, fun c hc =>
      ((h.2.1 c).1 hc).elim (fun r hr =>
        ⟨r, hr.1, hr.2.1, (h.2.2.2 r hr.1 hr.2.2).1, (h.2.2.2 r hr.1 hr.2.2).2.1⟩)⟩),
   (SearchCardsByIdentities_spec Example.wiring Hex_roundTrips Example.oneCard
      reachable_oneCard ["bob"] "S1").elim
    (fun _ h => (h.2.2.1 (by decide)).2)⟩

set_option maxRecDepth 100000 in
/-- C18, counterexample: after the example root card and its successor are
created, the root card is superseded and is still returned by the search for
alice in scope `S1`. -/
theorem search_returns_superseded :
    ¬ SearchReturnsOnlyLatest Example.twoCards ["alice"] "S1" := by
  intro h
  have hres : (CardRepository.SearchCardsByIdentities Example.twoCards ["alice"] "S1").result =
      .ok (Example.twoCards.card_by_card_id.map searchCard) := by
    rfl
  exact h _ hres Example.rootRow (by decide) (by decide) rfl rfl (by decide) (by decide)

/-- C18, amended: on every store the service reaches, a search returns the card
of every stored row that has a requested identity and the scope and whose chain
is not deleted, whether or not the card has been superseded. -/
theorem search_returns_whole_live_chains (w : Wiring SK) (hrt : RoundTrips w.StdEncoding)
    (db : Store) (hr : Reachable w db) (identities : List String) (scopeID : String) :
    ∃ cards,
      (CardRepository.SearchCardsByIdentities db identities scopeID).result = .ok cards ∧
      ∀ r ∈ db.card_by_card_id, r.identity ∈ identities → r.application_id = scopeID →
        CardRepository.IsChainDeleted db r.identity r.application_id r.chain_id =
          .ok false →
        searchCard r ∈ cards := by
  have hinv := reachable_chainInv w hrt db hr
  obtain ⟨ids, hids, hcases⟩ :=
    SearchCardsByIdentities_cases db identities scopeID (Or.inr hinv.chain_identity)
  have hmem : ∀ r ∈ db.card_by_card_id, r.identity ∈ identities → r.application_id = scopeID →
      CardRepository.IsChainDeleted db r.identity r.application_id r.chain_id = .ok false →
      r.id ∈ ids := by
    intro r hrow hid happ hdel
    obtain ⟨R, hR, hk, hin⟩ := hinv.card_in_chain r hrow
    obtain ⟨h1, h2, h3⟩ := (hasKey_iff _ _ _ _).1 hk
    have hfind := hinv.unique_keys R hR
    rw [h1, h2, h3] at hfind
    unfold CardRepository.IsChainDeleted scanChainDeletedAt at hdel
    rw [hfind] at hdel
    have hd : ¬ 0 < R.deleted_at.getD 0 := by
      intro hpos
      simp [hpos] at hdel
    exact (hids r.id).2 ⟨R, hR, ⟨by rw [h2]; exact happ, by rw [h1]; exact hid, hd⟩, hin⟩
  rcases hcases with ⟨hnil, hres, _⟩ | ⟨_, hres, _⟩
  · refine ⟨[], hres, ?_⟩
    intro r hrow hid happ hdel
    have := hmem r hrow hid happ hdel
    rw [hnil] at this
    cases this
  · refine ⟨_, hres, ?_⟩
    intro r hrow hid happ hdel
    refine List.mem_map.2 ⟨r, List.mem_filter.2 ⟨hrow, ?_⟩, rfl⟩
    simp only [List.contains_eq_any_beq, List.any_eq_true, beq_iff_eq]
    exact ⟨r.id, hmem r hrow hid happ hdel, rfl⟩

/-- C18 amended, concrete run: the superseded example root card is in the
result of the search for alice in scope `S1`. -/
theorem search_returns_whole_live_chains_witness :
    ∃ cards,
      (CardRepository.SearchCardsByIdentities Example.twoCards ["alice"] "S1").result =
        .ok cards ∧
      searchCard Example.rootRow ∈ cards :=
  (search_returns_whole_live_chains Example.wiring Hex_roundTrips Example.twoCards
    reachable_twoCards ["alice"] "S1").elim
    (fun cards h => ⟨cards, h.1, h.2 Example.rootRow (by decide) (by decide) rfl rfl⟩)

/-! ## Induction over the stores the service reaches -/

theorem reachable_induct (w : Wiring SK) (P : Store → Prop) (h0 : P {})
    (hstep : ∀ (db dbm : Store) (request : CardBaseRequest) (card : CardDTO)
      (g : ChainRow → ChainRow),
      Reachable w db → P db → Accepted w db request card →
      dbm = { db with card_chain := db.card_chain.map g } →
      (∀ r, (g r).identity = r.identity ∧ (g r).application_id = r.application_id ∧
        (g r).chain_id = r.chain_id ∧ (g r).ids = r.ids) →
      P (CardRepository.SaveCard w.StdEncoding dbm card))
    (db : Store) (hr : Reachable w db) : P db := by
  induction hr with
  | empty => exact h0
  | create db newV4 request hr ih =>
    rcases CardCreate_cases w newV4 db request with ⟨e, he⟩ | ⟨card, hc⟩
    · rw [he]; exact ih
    · obtain ⟨hacc, _, _, _⟩ := CardCreate_accepted _ _ _ _ _ _ hc
      rw [hc]
      exact hstep db db request card id hr ih hacc (by simp) (fun _ => ⟨rfl, rfl, rfl, rfl⟩)
  | delete db newV4 now request hr ih =>
    cases hres : Controller.CardDelete w newV4 now db request with
    | mk res db2 =>
      cases res with
      | error e =>
        rcases CardDelete_cases w newV4 now db request with ⟨e2, he⟩ | ⟨_, card, _, _, _, _, _,
          _, _, _, _, hok⟩
        · rw [he] at hres
          injection hres with _ h2
          rw [← h2]; exact ih
        · rw [hok] at hres
          injection hres with h1 _
          cases h1
      | ok card =>
        obtain ⟨hacc, _, dbm, hset, hdb⟩ := CardDelete_accepted _ _ _ _ _ _ _ hres
        obtain ⟨_, hdbm⟩ := SetChainDeleted_applied _ _ _ _ _ _ hset
        show P db2
        rw [hdb]
        refine hstep db dbm request card _ hr ih hacc hdbm ?_
        intro r
        by_cases hk : r.hasKey request.UserID request.ApplicationID card.ChainID = true
        · simp [hk]
        · simp [hk]

theorem reachable_ids_ne (w : Wiring SK) (hid : ∀ b, w.crypto.CalculateCardID b ≠ "")
    (db : Store) (hr : Reachable w db) : ∀ r ∈ db.card_by_card_id, r.id ≠ "" := by
  refine reachable_induct w (fun db => ∀ r ∈ db.card_by_card_id, r.id ≠ "") ?_ ?_ db hr
  · intro r h
    exact (List.not_mem_nil _ h).elim
  · intro db dbm request card g _ ih hacc hdbm _ r hr
    rw [SaveCard_card_by_card_id, mem_insertCardByID] at hr
    rcases hr with hr | ⟨hr, _⟩
    · rw [hr]
      show card.ID ≠ ""
      rw [hacc.id]
      exact hid _
    · rw [hdbm] at hr
      exact ih r hr

theorem NewCrypto_CalculateCardID_ne {PK SK2 : Type} (c : NativeCrypto PK SK2)
    (sum512 : Bytes → Sum512) (b : Bytes) :
    (NewCrypto c (generator.NewID (hasher.SHA512 sum512) encoder.Hex)).CalculateCardID b ≠
      "" := by
  have hlen : (sum512 b).val.length = 64 := (sum512 b).property
  have hs : sliceTo ((hasher.SHA512 sum512).Hash b) VirgilCardBytesInID =
      some ((sum512 b).val.take 32) := by
    unfold sliceTo VirgilCardBytesInID hasher.SHA512
    simp only []
    rw [if_pos (by rw [hlen]; decide)]
  have hv : (NewCrypto c (generator.NewID (hasher.SHA512 sum512) encoder.Hex)).CalculateCardID b =
      String.mk (hexEncode ((sum512 b).val.take 32)) := by
    show (IDGenerator.VirgilCardID (hasher.SHA512 sum512) encoder.Hex b).getD "" = _
    unfold IDGenerator.VirgilCardID
    simp only [hs]
    rfl
  rw [hv]
  intro he
  have h1 : (hexEncode ((sum512 b).val.take 32)).length = 64 := by
    rw [hexEncode_length, List.length_take, hlen]
    decide
  have h2 : hexEncode ((sum512 b).val.take 32) = [] := congrArg String.data he
  rw [h2] at h1
  cases h1

/-! ## Reading a card -/

theorem CardGet_ok (cardRepository : dao.CardRepositoryProvider) (request : CardBaseRequest)
    (cardID : String) (card : CardDTO)
    (h : Controller.CardGet cardRepository request cardID = .ok card) :
    ∃ c0 b, cardRepository.GetCardByID cardID = .ok c0 ∧
      c0.ApplicationID = request.ApplicationID ∧
      cardRepository.DoesCardExistByPreviousIDAndScopeID c0.ID c0.ApplicationID = .ok b ∧
      card = { c0 with IsSuperseeded := b } := by
  unfold Controller.CardGet at h
  cases hg : cardRepository.GetCardByID cardID with
  | error e =>
    rw [hg] at h
    cases e <;> cases h
  | ok c0 =>
    rw [hg] at h
    by_cases hs : c0.DoesScopeMatch request.ApplicationID = true
    · simp only [hs, Bool.not_true, Bool.false_eq_true, if_false] at h
      cases hd : cardRepository.DoesCardExistByPreviousIDAndScopeID c0.ID c0.ApplicationID with
      | error e =>
        rw [hd] at h
        cases h
      | ok b =>
        rw [hd] at h
        injection h with h
        refine ⟨c0, b, rfl, ?_, hd, h.symm⟩
        unfold CardDTO.DoesScopeMatch at hs
        exact (beq_iff_eq.1 hs).symm
    · simp [hs] at h

theorem GetCardByID_stored (w : Wiring SK) (hrt : RoundTrips w.StdEncoding) (db : Store)
    (hr : Reachable w db) (r : CardRow) (hrow : r ∈ db.card_by_card_id) :
    CardRepository.GetCardByID w.StdEncoding db r.id = .ok {
      ID := r.id,
      ContentSnapshot := r.content_snapshot,
      Identity := r.identity,
      ApplicationID := r.application_id,
      ChainID := r.chain_id,
      PublicKey := (w.StdEncoding.DecodeString r.public_key).data,
      Signatures := wrapDBSignatureListToDTOs r.signatures } :=
  GetCardByID_find_some _ db r.id r ((reachable_chainInv w hrt db hr).unique_ids r hrow)
    (keysEncoded_ok _ hrt db (reachable_backed w hrt db hr).2 r hrow)

/-- C15: on every store the service reaches, `CardGet` returns `ErrNotFound`
when no stored card has the requested id, and returns
`ErrVirgilCardApplicationIDIsNotInTheAuthApplicationList` when the stored card
with that id has an `application_id` other than the scope of the request; and
for every repository, a card that `CardGet` returns has the `ApplicationID` of
the request. -/
theorem CardGet_scope (w : Wiring SK) (hrt : RoundTrips w.StdEncoding) (db : Store)
    (hr : Reachable w db) (request : CardBaseRequest) (cardID : String) :
    ((∀ r ∈ db.card_by_card_id, r.id ≠ cardID) →
      Controller.CardGet (CardRepository.provider w.StdEncoding db) request cardID =
        .error (.api .ErrNotFound)) ∧
    (∀ r ∈ db.card_by_card_id, r.id = cardID → r.application_id ≠ request.ApplicationID →
      Controller.CardGet (CardRepository.provider w.StdEncoding db) request cardID =
        .error (.api .ErrVirgilCardApplicationIDIsNotInTheAuthApplicationList)) ∧
    (∀ (cardRepository : dao.CardRepositoryProvider) (card : CardDTO),
      Controller.CardGet cardRepository request cardID = .ok card →
        card.ApplicationID = request.ApplicationID) := by
  refine ⟨?_, ?_, ?_⟩
  · intro hnone
    have hf : db.card_by_card_id.find? (fun r => r.id == cardID) = none := by
      apply List.find?_eq_none.2
      intro r hrow
      simpa using hnone r hrow
    unfold Controller.CardGet
    simp only [CardRepository.provider, GetCardByID_find_none _ db cardID hf]
  · intro r hrow hid hne
    have hg := GetCardByID_stored w hrt db hr r hrow
    rw [hid] at hg
    unfold Controller.CardGet
    simp only [CardRepository.provider, hg, CardDTO.DoesScopeMatch]
    have hb : (request.ApplicationID == r.application_id) = false := by
      simp only [beq_eq_false_iff_ne, ne_eq]
      exact fun e => hne e.symm
    simp [hb]
  · intro cardRepository card h
    obtain ⟨c0, b, _, happ, _, hc⟩ := CardGet_ok _ _ _ _ h
    rw [hc]
    exact happ

/-- C15, concrete run: on the store with the example root card, a request for
an unknown id gets `ErrNotFound` and a request for the root card from scope
`S2` gets the scope error. -/
theorem CardGet_scope_witness :
    Controller.CardGet (CardRepository.provider encoder.Hex Example.oneCard)
        { ApplicationID := "S1" } "unknown" = .error (.api .ErrNotFound) ∧
    Controller.CardGet (CardRepository.provider encoder.Hex Example.oneCard)
        { ApplicationID := "S2" } Example.rootID =
      .error (.api .ErrVirgilCardApplicationIDIsNotInTheAuthApplicationList) :=
  ⟨(CardGet_scope Example.wiring Hex_roundTrips Example.oneCard reachable_oneCard
      { ApplicationID := "S1" } "unknown").1 (by decide),
   (CardGet_scope Example.wiring Hex_roundTrips Example.oneCard reachable_oneCard
      { ApplicationID := "S2" } Example.rootID).2.1 Example.rootRow (by decide) rfl
      (by decide)⟩

/-- C16: on every store the service reaches, with card ids that are never
empty, a successful `CardGet` returns the card with `IsSuperseeded` true exactly
when some stored card has the returned card's id as `previous_card_id` and the
returned card's `application_id`. -/
theorem CardGet_IsSuperseeded (w : Wiring SK) (hrt : RoundTrips w.StdEncoding)
    (hid : ∀ b, w.crypto.CalculateCardID b ≠ "") (db : Store) (hr : Reachable w db)
    (request : CardBaseRequest) (cardID : String) (card : CardDTO)
    (h : Controller.CardGet (CardRepository.provider w.StdEncoding db) request cardID =
      .ok card) :
    card.ID = cardID ∧
    (card.IsSuperseeded = true ↔
      ∃ c2 ∈ db.card_by_card_id,
        c2.previous_card_id = card.ID ∧ c2.application_id = card.ApplicationID) := by
  obtain ⟨c0, b, hg, _, hd, hc⟩ := CardGet_ok _ _ _ _ h
  simp only [CardRepository.provider] at hg hd
  have hrow : ∃ r ∈ db.card_by_card_id, r.id = cardID ∧ c0.ID = r.id := by
    unfold CardRepository.GetCardByID at hg
    cases hf : db.card_by_card_id.find? (fun r => r.id == cardID) with
    | none =>
      rw [hf] at hg
      cases hg
    | some r =>
      rw [hf] at hg
      have hrid : r.id = cardID := by
        have := List.find?_some hf
        simpa using this
      by_cases hk : (w.StdEncoding.DecodeString r.public_key).ok = true
      · simp only [hk, Bool.not_true, Bool.false_eq_true, if_false] at hg
        injection hg with hg
        exact ⟨r, List.mem_of_find?_eq_some hf, hrid, by rw [← hg]⟩
      · simp [hk] at hg
  obtain ⟨r, hrmem, hrid, hc0⟩ := hrow
  have hne : c0.ID ≠ "" := by
    rw [hc0]
    exact reachable_ids_ne w hid db hr r hrmem
  have e1 : card.ID = c0.ID := by rw [hc]
  have e2 : card.ApplicationID = c0.ApplicationID := by rw [hc]
  have e3 : card.IsSuperseeded = b := by rw [hc]
  refine ⟨by rw [e1, hc0, hrid], ?_⟩
  rw [e1, e2, e3, ← claimed_iff_indexed w hrt db hr c0.ID c0.ApplicationID hne,
    ← DoesCardExist_true_iff db c0.ID c0.ApplicationID hne, hd]
  constructor
  · intro hb; rw [hb]
  · intro hb
    injection hb

/-- C16, concrete run: after the example root card and its successor are
created, the root card is read with `IsSuperseeded` true and the successor
with `IsSuperseeded` false. -/
theorem CardGet_IsSuperseeded_witness :
    (∃ c2 ∈ Example.twoCards.card_by_card_id,
      c2.previous_card_id = Example.rootID ∧ c2.application_id = "S1") ∧
    ¬ ∃ c2 ∈ Example.twoCards.card_by_card_id,
      c2.previous_card_id =
        "0200000000000000000000000000000000000000000000000000000000000000" ∧
      c2.application_id = "S1" :=
  ⟨(CardGet_IsSuperseeded Example.wiring Hex_roundTrips
      (NewCrypto_CalculateCardID_ne Example.native Example.sum512) Example.twoCards
      reachable_twoCards { ApplicationID := "S1" } Example.rootID
      { ID := Example.rootID, ContentSnapshot := "01", Identity := "alice",
        ApplicationID := "S1", ChainID := "chain-1",
        Signatures := [Example.selfStamp.toDTO, Example.appStamp.toDTO,
          { Signer := "virgil", Signature := "0901" }],
        PublicKey := Example.key, IsSuperseeded := true } rfl).2.1 rfl,
   fun hex => Bool.noConfusion
    ((CardGet_IsSuperseeded Example.wiring Hex_roundTrips
      (NewCrypto_CalculateCardID_ne Example.native Example.sum512) Example.twoCards
      reachable_twoCards { ApplicationID := "S1" }
      "0200000000000000000000000000000000000000000000000000000000000000"
      { ID := "0200000000000000000000000000000000000000000000000000000000000000",
        ContentSnapshot := "02", Identity := "alice",
        ApplicationID := "S1", ChainID := "chain-1",
        Signatures := [{ Signer := "self", Signature := "0707070707070707070707070707070702" },
          { Signer := "virgil", Signature := "0902" }],
        PublicKey := Example.key, IsSuperseeded := false } rfl).2.2 hex)⟩

/-! ## Chain ids -/

theorem reachable_deletedChain : Reachable Example.wiring Example.deletedChain :=
  Reachable.delete _ none 99 Example.deleteRoot reachable_oneCard

/-- C14: `SetCardChainID` gives a card with empty `PreviousCardID` the value
that `uuid.NewV4` returns as chain id (and fails when `uuid.NewV4` fails), gives
a card with a predecessor the `chain_id` of the stored row of that predecessor,
and fails, returning no card, when that row is missing or its `chain_id` is
empty.  On every store the service reaches, every stored card that names a
predecessor has the `chain_id` of the stored row of that predecessor. -/
theorem SetCardChainID_spec (w : Wiring SK) (hrt : RoundTrips w.StdEncoding) (db : Store)
    (hr : Reachable w db) (newV4 : Option String) (card : CardDTO) :
    (card.PreviousCardID = "" →
      (∀ v, newV4 = some v →
        CardRepository.SetCardChainID newV4 db card = .ok { card with ChainID := v }) ∧
      (newV4 = none → CardRepository.SetCardChainID newV4 db card = .error .other)) ∧
    (card.PreviousCardID ≠ "" →
      (db.card_by_card_id.find? (fun r => r.id == card.PreviousCardID) = none →
        CardRepository.SetCardChainID newV4 db card = .error .other) ∧
      (∀ p, db.card_by_card_id.find? (fun r => r.id == card.PreviousCardID) = some p →
        (p.chain_id = "" → CardRepository.SetCardChainID newV4 db card = .error .other) ∧
        (p.chain_id ≠ "" →
          CardRepository.SetCardChainID newV4 db card =
            .ok { card with ChainID := p.chain_id }))) ∧
    (∀ r ∈ db.card_by_card_id, r.previous_card_id ≠ "" →
      ∃ p, db.card_by_card_id.find? (fun x => x.id == r.previous_card_id) = some p ∧
        p ∈ db.card_by_card_id ∧ p.id = r.previous_card_id ∧ p.chain_id = r.chain_id) := by
  refine ⟨?_, ?_, ?_⟩
  · intro hp
    unfold CardRepository.SetCardChainID
    rw [if_pos hp]
    constructor
    · intro v hv
      rw [hv]
      rfl
    · intro hv
      rw [hv]
  · intro hp
    unfold CardRepository.SetCardChainID
    rw [if_neg hp]
    constructor
    · intro hf
      rw [hf]
    · intro p hf
      rw [hf]
      constructor
      · intro hc
        simp only [hc, if_true]
      · intro hc
        simp only [hc, if_false]
        rfl
  · intro r hrow hne
    have hinv := reachable_chainInv w hrt db hr
    obtain ⟨p, hp, hpid, hch, _, _⟩ := hinv.predecessor r hrow hne
    refine ⟨p, ?_, hp, hpid, hch⟩
    rw [← hpid]
    exact hinv.unique_ids p hp

/-- C14, concrete run: on the store with the example root card and its
successor, a root card gets the generated chain id, and the stored successor
has the chain id of the stored root card. -/
theorem SetCardChainID_spec_witness :
    CardRepository.SetCardChainID (some "chain-9") Example.twoCards {} =
      .ok { ChainID := "chain-9" } ∧
    ∀ r ∈ Example.twoCards.card_by_card_id, r.previous_card_id ≠ "" →
      ∃ p, Example.twoCards.card_by_card_id.find? (fun x => x.id == r.previous_card_id) =
          some p ∧
        p ∈ Example.twoCards.card_by_card_id ∧ p.id = r.previous_card_id ∧
        p.chain_id = r.chain_id :=
  ⟨((SetCardChainID_spec Example.wiring Hex_roundTrips Example.twoCards reachable_twoCards
      (some "chain-9") {}).1 rfl).1 "chain-9" rfl,
   (SetCardChainID_spec Example.wiring Hex_roundTrips Example.twoCards reachable_twoCards
      (some "chain-9") {}).2.2⟩

/-! ## Creating on a deleted chain -/

/-- C11: on every store the service reaches, a `CardCreate` whose content
snapshot names a predecessor that is among the `ids` of a chain row with
`deleted_at > 0` returns an error and leaves the store as it was. -/
theorem CardCreate_deleted_chain (w : Wiring SK) (hrt : RoundTrips w.StdEncoding)
    (db : Store) (hr : Reachable w db) (newV4 : Option String) (request : CardBaseRequest)
    (csr : CSR)
    (hcsr : w.unmarshal ((encoder.Base64 w.StdEncoding).DecodeString request.CSR).data {} =
      .ok csr)
    (hp : csr.PreviousCardID ≠ "") (R : ChainRow) (hR : R ∈ db.card_chain)
    (hmem : csr.PreviousCardID ∈ R.ids) (hdel : 0 < R.deleted_at.getD 0) :
    ∃ e, Controller.CardCreate w newV4 db request = (.error e, db) := by
  rcases CardCreate_cases w newV4 db request with herr | ⟨card, hc⟩
  · exact herr
  · exfalso
    obtain ⟨hacc, _, hlive, _⟩ := CardCreate_accepted _ _ _ _ _ _ hc
    obtain ⟨csr2, hcsr2, hprev⟩ := hacc.csr
    rw [hcsr] at hcsr2
    injection hcsr2 with hcsr2
    subst hcsr2
    have hne : card.PreviousCardID ≠ "" := by rw [hprev]; exact hp
    obtain ⟨p, hf, _, hch⟩ := hacc.chain hne
    have hpm : p ∈ db.card_by_card_id := List.mem_of_find?_eq_some hf
    have hpid : p.id = card.PreviousCardID := by
      have := List.find?_some hf
      simpa using this
    obtain ⟨ha, hi⟩ := validatePreviousCardID_row _ _ _ _ _ hne p hf hacc.previous
    obtain ⟨_, _, _, hfind⟩ := chain_row_of_member w hrt db hr R hR p hpm
      (by rw [hpid, hprev]; exact hmem)
    have hl := hlive hne
    unfold CardRepository.IsChainDeleted scanChainDeletedAt at hl
    rw [← hacc.identity, ← hacc.application_id, hch, ← ha, ← hi, hfind] at hl
    simp [hdel] at hl

/-- C11, concrete run: after the chain of the example root card is deleted, the
create request for a successor of the root card fails and the store is
unchanged. -/
theorem CardCreate_deleted_chain_witness :
    ∃ e, Controller.CardCreate Example.wiring (some "chain-2") Example.deletedChain
      Example.createNext = (.error e, Example.deletedChain) :=
  CardCreate_deleted_chain Example.wiring Hex_roundTrips Example.deletedChain
    reachable_deletedChain (some "chain-2") Example.createNext
    { PublicKey := "07070707070707070707070707070707", Identity := "alice",
      PreviousCardID := Example.rootID, Version := "5.0", CreatedAt := 1700000100 }
    rfl (by decide) Example.deletedChainRow (by decide) (by decide) (by decide)

/-! ## Deletion is one way -/

theorem hasKey_unique (R : ChainRow) (i a c i2 a2 c2 : String)
    (h : R.hasKey i a c = true) (h2 : R.hasKey i2 a2 c2 = true) :
    i = i2 ∧ a = a2 ∧ c = c2 := by
  obtain ⟨e1, e2, e3⟩ := (hasKey_iff _ _ _ _).1 h
  obtain ⟨f1, f2, f3⟩ := (hasKey_iff _ _ _ _).1 h2
  exact ⟨e1.symm.trans f1, e2.symm.trans f2, e3.symm.trans f3⟩

theorem find_upsertChain (id : String) (newRow : ChainRow) (f : ChainRow → ChainRow)
    (i2 a2 c2 : String) (hA : AddsID id i2 a2 c2 newRow f) (t : List ChainRow)
    (i a c : String) (R : ChainRow)
    (hf : t.find? (fun r => r.hasKey i a c) = some R)
    (hpres : R.hasKey i2 a2 c2 = true → (f R).deleted_at = R.deleted_at) :
    ∃ R2, (upsertChain newRow f i2 a2 c2 t).find? (fun r => r.hasKey i a c) = some R2 ∧
      R2.deleted_at = R.deleted_at := by
  have hRk : R.hasKey i a c = true := by
    have := List.find?_some hf
    simpa using this
  unfold upsertChain
  cases hf2 : t.find? (fun r => r.hasKey i2 a2 c2) with
  | none =>
    have hnew : newRow.hasKey i a c = false := by
      cases hb : newRow.hasKey i a c with
      | false => rfl
      | true =>
        obtain ⟨e1, e2, e3⟩ := (hasKey_iff _ _ _ _).1 hb
        rw [hA.new_identity] at e1
        rw [hA.new_application_id] at e2
        rw [hA.new_chain_id] at e3
        rw [e1, e2, e3, hf] at hf2
        cases hf2
    refine ⟨R, ?_, rfl⟩
    rw [List.find?_cons, hnew]
    exact hf
  | some r0 =>
    have hi : ∀ r : ChainRow,
        (if r.hasKey i2 a2 c2 = true then f r else r).identity = r.identity := by
      intro r
      by_cases hk : r.hasKey i2 a2 c2 = true
      · rw [if_pos hk]; exact hA.identity_eq _
      · rw [if_neg hk]
    have ha : ∀ r : ChainRow,
        (if r.hasKey i2 a2 c2 = true then f r else r).application_id = r.application_id := by
      intro r
      by_cases hk : r.hasKey i2 a2 c2 = true
      · rw [if_pos hk]; exact hA.application_id_eq _
      · rw [if_neg hk]
    have hc : ∀ r : ChainRow,
        (if r.hasKey i2 a2 c2 = true then f r else r).chain_id = r.chain_id := by
      intro r
      by_cases hk : r.hasKey i2 a2 c2 = true
      · rw [if_pos hk]; exact hA.chain_id_eq _
      · rw [if_neg hk]
    rw [find_map_key (fun r => if r.hasKey i2 a2 c2 = true then f r else r) t
      (fun r i3 a3 c3 => hasKey_congr r _ (hi r) (ha r) (hc r) i3 a3 c3), hf]
    refine ⟨_, rfl, ?_⟩
    show (if R.hasKey i2 a2 c2 = true then f R else R).deleted_at = R.deleted_at
    by_cases hk : R.hasKey i2 a2 c2 = true
    · rw [if_pos hk]; exact hpres hk
    · rw [if_neg hk]

theorem SaveCard_find_chain (std : encoder.Provider) (db : Store) (card : CardDTO)
    (i a c : String) (R : ChainRow)
    (hf : db.card_chain.find? (fun r => r.hasKey i a c) = some R)
    (hfresh : card.PreviousCardID = "" → R.chain_id ≠ card.ChainID) :
    ∃ R2, (CardRepository.SaveCard std db card).card_chain.find?
        (fun r => r.hasKey i a c) = some R2 ∧
      R2.deleted_at = R.deleted_at := by
  rw [SaveCard_card_chain]
  by_cases hp : card.PreviousCardID = ""
  · rw [if_pos hp, createChainIdentities_eq]
    refine find_upsertChain _ _ _ _ _ _ (addsID_create _ _ _ _ _) _ _ _ _ R hf ?_
    intro hk
    exact absurd ((hasKey_iff _ _ _ _).1 hk).2.2 (hfresh hp)
  · rw [if_neg hp, updateChainIdentities_eq]
    exact find_upsertChain _ _ _ _ _ _ (addsID_update _ _ _ _) _ _ _ _ R hf (fun _ => rfl)

theorem SetChainDeleted_find (db dbm : Store) (i2 a2 c2 : String) (now : Int)
    (h : CardRepository.SetChainDeleted db i2 a2 c2 now = (.ok true, dbm))
    (i a c : String) (R : ChainRow)
    (hf : db.card_chain.find? (fun r => r.hasKey i a c) = some R) :
    (R.deleted_at ≠ some 0 → dbm.card_chain.find? (fun r => r.hasKey i a c) = some R) ∧
    (R.hasKey i2 a2 c2 = true →
      dbm.card_chain.find? (fun r => r.hasKey i a c) =
        some { R with deleted_at := some now }) := by
  obtain ⟨⟨R0, hf0, hd0⟩, hdbm⟩ := SetChainDeleted_applied _ _ _ _ _ _ h
  have hRk : R.hasKey i a c = true := by
    have := List.find?_some hf
    simpa using this
  have hfind : dbm.card_chain.find? (fun r => r.hasKey i a c) =
      some (if R.hasKey i2 a2 c2 = true then { R with deleted_at := some now } else R) := by
    rw [hdbm]
    show (db.card_chain.map (fun r =>
      if r.hasKey i2 a2 c2 = true then { r with deleted_at := some now } else r)).find?
        (fun r => r.hasKey i a c) = _
    rw [find_map_key _ _ ?_, hf]
    · rfl
    · intro r i3 a3 c3
      by_cases hk : r.hasKey i2 a2 c2 = true
      · rw [if_pos hk]; rfl
      · rw [if_neg hk]
  constructor
  · intro hd
    rw [hfind]
    by_cases hk : R.hasKey i2 a2 c2 = true
    · exfalso
      obtain ⟨e1, e2, e3⟩ := hasKey_unique R _ _ _ _ _ _ hRk hk
      rw [e1, e2, e3, hf0] at hf
      injection hf with hf
      rw [hf] at hd0
      exact hd hd0
    · rw [if_neg hk]
  · intro hk
    rw [hfind, if_pos hk]

theorem freshStep_deleted_at (w : Wiring SK) (db db2 : Store) (hstep : FreshStep w db db2)
    (i a c : String) (R : ChainRow)
    (hf : db.card_chain.find? (fun r => r.hasKey i a c) = some R)
    (hd : R.deleted_at ≠ some 0) :
    ∃ R2, db2.card_chain.find? (fun r => r.hasKey i a c) = some R2 ∧
      R2.deleted_at = R.deleted_at := by
  cases hstep with
  | create newV4 request hfresh =>
    rcases CardCreate_cases w newV4 db request with ⟨e, he⟩ | ⟨card, hc⟩
    · rw [he]; exact ⟨R, hf, rfl⟩
    · obtain ⟨_, hroot, _, _⟩ := CardCreate_accepted _ _ _ _ _ _ hc
      rw [hc]
      apply SaveCard_find_chain _ _ _ _ _ _ R hf
      intro hp
      exact hfresh _ (hroot hp) R (List.mem_of_find?_eq_some hf)
  | delete newV4 now request =>
    cases hres : Controller.CardDelete w newV4 now db request with
    | mk res db3 =>
      cases res with
      | error e =>
        rcases CardDelete_cases w newV4 now db request with ⟨e2, he⟩ | ⟨_, card, _, _, _, _, _,
          _, _, _, _, hok⟩
        · rw [he] at hres
          injection hres with _ h2
          show ∃ R2, db3.card_chain.find? _ = some R2 ∧ _
          rw [← h2]; exact ⟨R, hf, rfl⟩
        · rw [hok] at hres
          injection hres with h1 _
          cases h1
      | ok card =>
        obtain ⟨_, hprev, dbm, hset, hdb⟩ := CardDelete_accepted _ _ _ _ _ _ _ hres
        show ∃ R2, db3.card_chain.find? _ = some R2 ∧ _
        rw [hdb]
        have hm := (SetChainDeleted_find _ _ _ _ _ _ hset i a c R hf).1 hd
        exact SaveCard_find_chain _ _ _ _ _ _ R hm (fun hp => absurd hp hprev)

theorem freshRun_deleted_at (w : Wiring SK) (db db2 : Store) (hrun : FreshRun w db db2)
    (i a c : String) (R : ChainRow)
    (hf : db.card_chain.find? (fun r => r.hasKey i a c) = some R)
    (hd : R.deleted_at ≠ some 0) :
    ∃ R2, db2.card_chain.find? (fun r => r.hasKey i a c) = some R2 ∧
      R2.deleted_at = R.deleted_at := by
  induction hrun with
  | refl => exact ⟨R, hf, rfl⟩
  | step db2 db3 _ hstep ih =>
    obtain ⟨R2, hf2, hd2⟩ := ih
    obtain ⟨R3, hf3, hd3⟩ := freshStep_deleted_at w db2 db3 hstep i a c R2 hf2
      (by rw [hd2]; exact hd)
    exact ⟨R3, hf3, hd3.trans hd2⟩

theorem freshRun_reachable (w : Wiring SK) (db db2 : Store) (hrun : FreshRun w db db2)
    (hr : Reachable w db) : Reachable w db2 := by
  induction hrun with
  | refl => exact hr
  | step db2 db3 _ hstep ih =>
    cases hstep with
    | create newV4 request _ => exact Reachable.create _ newV4 request ih
    | delete newV4 now request => exact Reachable.delete _ newV4 now request ih

/-- C13, amended: along every sequence of `CardCreate` and `CardDelete` calls in
which `uuid.NewV4` never returns the chain id of an existing chain row, a chain row
whose `deleted_at` is positive keeps that `deleted_at`: the row with its key is
still there, its `deleted_at` is the same positive value, and `IsChainDeleted`
reports the chain as deleted. -/
theorem deleted_at_monotone (w : Wiring SK) (db db2 : Store) (hrun : FreshRun w db db2)
    (identity applicationID chainID : String) (R : ChainRow)
    (hf : db.card_chain.find? (fun r => r.hasKey identity applicationID chainID) = some R)
    (hpos : 0 < R.deleted_at.getD 0) :
    ∃ R2, db2.card_chain.find? (fun r => r.hasKey identity applicationID chainID) = some R2 ∧
      R2.deleted_at = R.deleted_at ∧ 0 < R2.deleted_at.getD 0 ∧
      CardRepository.IsChainDeleted db2 identity applicationID chainID = .ok true := by
  have hd : R.deleted_at ≠ some 0 := by
    intro h0
    rw [h0] at hpos
    exact absurd hpos (by decide)
  obtain ⟨R2, hf2, hd2⟩ := freshRun_deleted_at w db db2 hrun _ _ _ R hf hd
  refine ⟨R2, hf2, hd2, by rw [hd2]; exact hpos, ?_⟩
  unfold CardRepository.IsChainDeleted scanChainDeletedAt
  rw [hf2]
  show Except.ok (decide (0 < R2.deleted_at.getD 0)) = Except.ok true
  rw [hd2]
  simp [hpos]

/-- C13 amended, concrete run: after the example chain is deleted at second 99, a second
root card of alice is created with a fresh chain id; the example chain is still
reported as deleted. -/
theorem deleted_at_monotone_witness :
    CardRepository.IsChainDeleted
      (Controller.CardCreate Example.wiringMore (some "chain-5") Example.deletedChain
        Example.createOther).2 "alice" "S1" "chain-1" = .ok true :=
  (deleted_at_monotone Example.wiringMore Example.deletedChain _
    (FreshRun.step _ _ _ (FreshRun.refl _)
      (FreshStep.create Example.deletedChain (some "chain-5") Example.createOther
        (fun v hv => Option.some.inj hv ▸ by decide)))
    "alice" "S1" "chain-1" Example.deletedChainRow (by decide) (by decide)).elim
    (fun _ h => h.2.2.2)

set_option maxRecDepth 100000 in
/-- C13, counterexample: the example chain was deleted at second 99, so its
`deleted_at` is positive.  A later `CardCreate` of a root card of the same
identity and scope, to which `uuid.NewV4` returns the chain id of that chain
again, succeeds, and the create statement of `SaveCard` sets `deleted_at` of
the chain back to 0: the chain is no longer reported as deleted. -/
theorem deleted_at_reset_on_repeated_chain_id :
    (Example.deletedChain.card_chain.find? (fun r => r.hasKey "alice" "S1" "chain-1")).map
      ChainRow.deleted_at = some (some 99) ∧
    (∃ card, Controller.CardCreate Example.wiringMore (some "chain-1") Example.deletedChain
        Example.createOther = (.ok card,
          (Controller.CardCreate Example.wiringMore (some "chain-1") Example.deletedChain
            Example.createOther).2)) ∧
    ((Controller.CardCreate Example.wiringMore (some "chain-1") Example.deletedChain
        Example.createOther).2.card_chain.find?
          (fun r => r.hasKey "alice" "S1" "chain-1")).map ChainRow.deleted_at =
      some (some 0) ∧
    CardRepository.IsChainDeleted Example.deletedChain "alice" "S1" "chain-1" = .ok true ∧
    CardRepository.IsChainDeleted
      (Controller.CardCreate Example.wiringMore (some "chain-1") Example.deletedChain
        Example.createOther).2 "alice" "S1" "chain-1" = .ok false :=
  ⟨by decide, ⟨_, rfl⟩, by decide, rfl, rfl⟩

theorem CardDelete_outcome (w : Wiring SK) (newV4 : Option String) (now : Int) (db : Store)
    (request : CardBaseRequest) :
    Controller.CardDelete w newV4 now db request = (.error .ErrIdentityHeaderNotSet, db) ∨
    (∃ e, (DeleteCardValidator.Validate w.crypto (encoder.Base64 w.StdEncoding) w.unmarshal
        (CardRepository.provider w.StdEncoding db) request NewCardDTO).err = some e ∧
      Controller.CardDelete w newV4 now db request = (.error e, db)) ∨
    Controller.CardDelete w newV4 now db request = (.error .ErrInternalError, db) ∨
    (∃ c1 card,
      (DeleteCardValidator.Validate w.crypto (encoder.Base64 w.StdEncoding) w.unmarshal
        (CardRepository.provider w.StdEncoding db) request NewCardDTO).err = none ∧
      CardRepository.SetCardChainID newV4 db
        (DeleteCardValidator.Validate w.crypto (encoder.Base64 w.StdEncoding) w.unmarshal
          (CardRepository.provider w.StdEncoding db) request NewCardDTO).card = .ok c1 ∧
      w.cardSigner.SignCardByCardsService w.StdEncoding c1 = (none, card) ∧
      CardRepository.SetChainDeleted db request.UserID request.ApplicationID card.ChainID
        now = (.ok false, db) ∧
      Controller.CardDelete w newV4 now db request = (.error .ErrChainAlreadyDeleted, db)) ∨
    (∃ card db2, Controller.CardDelete w newV4 now db request = (.ok card, db2)) := by
  unfold Controller.CardDelete
  by_cases hu : request.UserID = ""
  · rw [if_pos hu]
    exact Or.inl rfl
  · rw [if_neg hu]
    simp only []
    cases hv : (DeleteCardValidator.Validate w.crypto (encoder.Base64 w.StdEncoding) w.unmarshal
        (CardRepository.provider w.StdEncoding db) request NewCardDTO).err with
    | some e => exact Or.inr (Or.inl ⟨e, rfl, rfl⟩)
    | none =>
      simp only []
      cases hc : CardRepository.SetCardChainID newV4 db
          (DeleteCardValidator.Validate w.crypto (encoder.Base64 w.StdEncoding) w.unmarshal
            (CardRepository.provider w.StdEncoding db) request NewCardDTO).card with
      | error e => exact Or.inr (Or.inr (Or.inl rfl))
      | ok c1 =>
        simp only []
        cases hs : w.cardSigner.SignCardByCardsService w.StdEncoding c1 with
        | mk se c2 =>
          cases se with
          | some e => exact Or.inr (Or.inr (Or.inl rfl))
          | none =>
            simp only []
            rcases SetChainDeleted_cases db request.UserID request.ApplicationID c2.ChainID
              now with h | ⟨dbm, h, _, _, _⟩
            · rw [h]
              exact Or.inr (Or.inr (Or.inr (Or.inl ⟨c1, c2, trivial, rfl, hs, h, rfl⟩)))
            · rw [h]
              exact Or.inr (Or.inr (Or.inr (Or.inr ⟨_, _, rfl⟩)))

theorem CardDelete_superseded_predecessor (w : Wiring SK) (newV4 : Option String)
    (now : Int) (db : Store) (request : CardBaseRequest) (params : ParametersStore)
    (csr : CSR)
    (hcsr : CSRValidator.Validate (encoder.Base64 w.StdEncoding) w.unmarshal request.CSR {}
      request.UserID = .ok (params, csr))
    (hp : csr.PreviousCardID ≠ "")
    (hex : CardRepository.DoesCardExistByPreviousIDAndScopeID db csr.PreviousCardID
      request.ApplicationID = .ok true) :
    Controller.CardDelete w newV4 now db request =
      (.error .ErrPreviousVirgilCardExistsAlready, db) := by
  obtain ⟨⟨_, _, _, _, ⟨hine, _, hieq⟩, _, _, _⟩, _⟩ :=
    (CSRValidator_Validate_ok_iff _ _ _ _ _ _ _).1 hcsr
  have hu : request.UserID ≠ "" := by rw [← hieq]; exact hine
  have hprev : validatePreviousCardID (CardRepository.provider w.StdEncoding db)
      csr.PreviousCardID request.ApplicationID csr.Identity =
        some .ErrPreviousVirgilCardExistsAlready := by
    unfold validatePreviousCardID
    rw [if_neg hp]
    simp only [CardRepository.provider, hex, if_true]
  have hb : (BaseCardValidator.Validate w.crypto (encoder.Base64 w.StdEncoding) w.unmarshal
      (CardRepository.provider w.StdEncoding db) request NewCardDTO false).err =
        some .ErrPreviousVirgilCardExistsAlready := by
    rw [BaseCardValidator_Validate_err, hcsr]
    simp only [baseStamps, Bool.false_eq_true, if_false, hprev]
  have hv : (DeleteCardValidator.Validate w.crypto (encoder.Base64 w.StdEncoding) w.unmarshal
      (CardRepository.provider w.StdEncoding db) request NewCardDTO).err =
        some .ErrPreviousVirgilCardExistsAlready := by
    unfold DeleteCardValidator.Validate
    simp only [hb]
  unfold Controller.CardDelete
  rw [if_neg hu]
  simp only [hv]

set_option maxRecDepth 100000 in
/-- C12, counterexample: after the example chain was deleted, a second delete
request that names the root card of that chain as predecessor is refused by
validation with `ErrPreviousVirgilCardExistsAlready` (40037, HTTP 400), not with
`ErrChainAlreadyDeleted` (40310, HTTP 403).  Two more runs, in which a later
delete of the chain is not refused at all: after a delete at the Unix second 0,
which leaves `deleted_at` at 0, and after a delete at second 99 followed by a
`CardCreate` to which `uuid.NewV4` returns the chain id of the deleted chain
again, a delete request that names the tombstone card succeeds. -/
theorem later_delete_refused_in_validation :
    Controller.CardDelete Example.wiring none 99 Example.oneCard Example.deleteRoot =
      (.ok Example.tombstone, Example.deletedChain) ∧
    Example.deletedChainRow ∈ Example.deletedChain.card_chain ∧
    Example.rootID ∈ Example.deletedChainRow.ids ∧
    Controller.CardDelete Example.wiring none 120 Example.deletedChain Example.deleteRoot =
      (.error .ErrPreviousVirgilCardExistsAlready, Example.deletedChain) ∧
    ApiError.ErrPreviousVirgilCardExistsAlready ≠ ApiError.ErrChainAlreadyDeleted ∧
    ApiError.ErrPreviousVirgilCardExistsAlready.code = 40037 ∧
    ApiError.ErrPreviousVirgilCardExistsAlready.httpStatus = 400 ∧
    ApiError.ErrChainAlreadyDeleted.code = 40310 ∧
    ApiError.ErrChainAlreadyDeleted.httpStatus = 403 ∧
    (∃ db1, Controller.CardDelete Example.wiringMore none 0 Example.oneCard
        Example.deleteRoot = (.ok Example.tombstone, db1) ∧
      ∃ card db2, Controller.CardDelete Example.wiringMore none 120 db1
        Example.deleteTombstone = (.ok card, db2)) ∧
    (∃ card db2, Controller.CardDelete Example.wiringMore none 120
        (Controller.CardCreate Example.wiringMore (some "chain-1") Example.deletedChain
          Example.createOther).2 Example.deleteTombstone = (.ok card, db2)) :=
  ⟨rfl, by decide, by decide, rfl, by decide, rfl, rfl, rfl, rfl, ⟨_, rfl, _, _, rfl⟩,
    ⟨_, _, rfl⟩⟩

/-- C12, amended: on a store the service has reached, after a `CardDelete` has
succeeded for a chain at a Unix second other than 0, and along any later calls
in which `uuid.NewV4` returns no chain id of an existing chain row, the row of
that chain keeps the `deleted_at` of the deletion, and every
`CardDelete` whose content snapshot names a card of that chain as predecessor
returns an error and leaves the store as it was.  The error is
`ErrChainAlreadyDeleted` when validation, the chain id lookup and the service
signature succeed; otherwise it is `ErrIdentityHeaderNotSet`, the error of the
delete validator, or `ErrInternalError`; a request whose content snapshot is
valid and whose predecessor already has a stored successor in the scope gets
`ErrPreviousVirgilCardExistsAlready`. -/
theorem CardDelete_after_delete (w : Wiring SK) (hrt : RoundTrips w.StdEncoding)
    (db0 db1 db2 : Store) (hr : Reachable w db0) (newV40 : Option String) (now0 : Int)
    (request0 : CardBaseRequest) (card0 : CardDTO)
    (hdel : Controller.CardDelete w newV40 now0 db0 request0 = (.ok card0, db1))
    (hnow : now0 ≠ 0) (hrun : FreshRun w db1 db2)
    (R : ChainRow) (hR : R ∈ db2.card_chain)
    (hk : R.hasKey request0.UserID request0.ApplicationID card0.ChainID = true)
    (newV4 : Option String) (now : Int) (request : CardBaseRequest) (csr : CSR)
    (hcsr : w.unmarshal ((encoder.Base64 w.StdEncoding).DecodeString request.CSR).data {} =
      .ok csr)
    (hmem : csr.PreviousCardID ∈ R.ids) :
    R.deleted_at = some now0 ∧
    (∃ e, Controller.CardDelete w newV4 now db2 request = (.error e, db2) ∧
      (e = .ErrChainAlreadyDeleted ∨ e = .ErrIdentityHeaderNotSet ∨ e = .ErrInternalError ∨
        (DeleteCardValidator.Validate w.crypto (encoder.Base64 w.StdEncoding) w.unmarshal
          (CardRepository.provider w.StdEncoding db2) request NewCardDTO).err = some e)) ∧
    ((DeleteCardValidator.Validate w.crypto (encoder.Base64 w.StdEncoding) w.unmarshal
        (CardRepository.provider w.StdEncoding db2) request NewCardDTO).err = none →
      ∀ c1 card,
        CardRepository.SetCardChainID newV4 db2
          (DeleteCardValidator.Validate w.crypto (encoder.Base64 w.StdEncoding) w.unmarshal
            (CardRepository.provider w.StdEncoding db2) request NewCardDTO).card = .ok c1 →
        w.cardSigner.SignCardByCardsService w.StdEncoding c1 = (none, card) →
        Controller.CardDelete w newV4 now db2 request =
          (.error .ErrChainAlreadyDeleted, db2)) ∧
    (∀ params,
      CSRValidator.Validate (encoder.Base64 w.StdEncoding) w.unmarshal request.CSR {}
        request.UserID = .ok (params, csr) →
      csr.PreviousCardID ≠ "" →
      (∃ r ∈ db2.card_by_card_id, r.previous_card_id = csr.PreviousCardID ∧
        r.application_id = request.ApplicationID) →
      Controller.CardDelete w newV4 now db2 request =
        (.error .ErrPreviousVirgilCardExistsAlready, db2)) := by
  -- the stores
  have hr1 : Reachable w db1 := by
    have := Reachable.delete db0 newV40 now0 request0 hr
    rw [hdel] at this
    exact this
  have hr2 : Reachable w db2 := freshRun_reachable w db1 db2 hrun hr1
  have hinv2 := reachable_chainInv w hrt db2 hr2
  -- the row of the chain right after the deletion
  obtain ⟨hacc0, hprev0, dbm, hset, hdb1⟩ := CardDelete_accepted _ _ _ _ _ _ _ hdel
  obtain ⟨⟨R0, hf0, _⟩, _⟩ := SetChainDeleted_applied _ _ _ _ _ _ hset
  have hk0 : R0.hasKey request0.UserID request0.ApplicationID card0.ChainID = true := by
    have := List.find?_some hf0
    simpa using this
  have hfm := (SetChainDeleted_find _ _ _ _ _ _ hset _ _ _ R0 hf0).2 hk0
  obtain ⟨R1, hf1, hd1⟩ := SaveCard_find_chain w.StdEncoding dbm card0 _ _ _ _ hfm
    (fun h => absurd h hprev0)
  rw [← hdb1] at hf1
  have hd1ne : R1.deleted_at ≠ some 0 := by
    rw [hd1]
    intro h
    injection h with h
    exact hnow h
  -- the row of the chain at the later call
  obtain ⟨R2, hf2, hd2⟩ := freshRun_deleted_at w db1 db2 hrun _ _ _ R1 hf1 hd1ne
  have hRR : R2 = R := by
    have hu := hinv2.unique_keys R hR
    obtain ⟨e1, e2, e3⟩ := (hasKey_iff _ _ _ _).1 hk
    rw [e1, e2, e3, hf2] at hu
    injection hu
  subst hRR
  have hdel2 : R2.deleted_at = some now0 := by rw [hd2, hd1]
  have hdne : R2.deleted_at ≠ some 0 := by rw [hd2]; exact hd1ne
  -- a later call that gets as far as the conditional update is refused
  have hrefused : ∀ c1 card,
      (DeleteCardValidator.Validate w.crypto (encoder.Base64 w.StdEncoding) w.unmarshal
        (CardRepository.provider w.StdEncoding db2) request NewCardDTO).err = none →
      CardRepository.SetCardChainID newV4 db2
        (DeleteCardValidator.Validate w.crypto (encoder.Base64 w.StdEncoding) w.unmarshal
          (CardRepository.provider w.StdEncoding db2) request NewCardDTO).card = .ok c1 →
      w.cardSigner.SignCardByCardsService w.StdEncoding c1 = (none, card) →
      CardRepository.SetChainDeleted db2 request.UserID request.ApplicationID card.ChainID
        now = (.ok false, db2) := by
    intro c1 card hv hc hs
    obtain ⟨hb, heq, _, hpne⟩ := DeleteCardValidator_Validate_ok _ _ _ _ _ _ hv
    rw [heq] at hc
    obtain ⟨hacc, _, _, hpr⟩ := base_accepted w newV4 db2 request false c1 card hb hc hs
    obtain ⟨csr2, hcsr2, hprev⟩ := hacc.csr
    rw [hcsr] at hcsr2
    injection hcsr2 with hcsr2
    subst hcsr2
    have hne : card.PreviousCardID ≠ "" := by
      rw [hpr]
      obtain ⟨hc1, _, _⟩ := SetCardChainID_cases _ _ _ _ hc
      rw [hc1]
      exact hpne
    obtain ⟨p, hf, _, hch⟩ := hacc.chain hne
    have hpm : p ∈ db2.card_by_card_id := List.mem_of_find?_eq_some hf
    have hpid : p.id = card.PreviousCardID := by
      have := List.find?_some hf
      simpa using this
    obtain ⟨ha, hi⟩ := validatePreviousCardID_row _ _ _ _ _ hne p hf hacc.previous
    obtain ⟨_, _, _, hfind⟩ := chain_row_of_member w hrt db2 hr2 R2 hR p hpm
      (by rw [hpid, hprev]; exact hmem)
    apply SetChainDeleted_refused db2 _ _ _ now R2 _ hdne
    rw [← hacc.identity, ← hacc.application_id, hch, ← ha, ← hi]
    exact hfind
  refine ⟨hdel2, ?_, ?_, ?_⟩
  rotate_right
  · intro params hval hne hsucc
    apply CardDelete_superseded_predecessor w newV4 now db2 request params csr hval hne
    rw [DoesCardExist_true_iff db2 _ _ hne, claimed_iff_indexed w hrt db2 hr2 _ _ hne]
    exact hsucc
  · rcases CardDelete_outcome w newV4 now db2 request with h | ⟨e, hv, h⟩ | h |
      ⟨c1, card, _, _, _, _, h⟩ | ⟨card, db3, h⟩
    · exact ⟨_, h, Or.inr (Or.inl rfl)⟩
    · exact ⟨e, h, Or.inr (Or.inr (Or.inr hv))⟩
    · exact ⟨_, h, Or.inr (Or.inr (Or.inl rfl))⟩
    · exact ⟨_, h, Or.inl rfl⟩
    · exfalso
      rcases CardDelete_cases w newV4 now db2 request with ⟨e, he⟩ | ⟨c1, card2, dbm2, _, hv,
        hc, hs, hset2, _, _, _, _⟩
      · rw [he] at h
        cases h
      · rw [hrefused c1 card2 hv hc hs] at hset2
        cases hset2
  · intro hv c1 card hc hs
    rcases CardDelete_outcome w newV4 now db2 request with h | ⟨e, hv2, h⟩ | h |
      ⟨c1b, cardb, _, _, _, _, h⟩ | ⟨cardb, db3, h⟩
    · exfalso
      obtain ⟨hb, heq, _, _⟩ := DeleteCardValidator_Validate_ok _ _ _ _ _ _ hv
      rw [heq] at hc
      obtain ⟨hacc, _, _, _⟩ := base_accepted w newV4 db2 request false c1 card hb hc hs
      have hu := hacc.user
      unfold Controller.CardDelete at h
      rw [if_neg hu] at h
      simp only [hv] at h
      rw [show CardRepository.SetCardChainID newV4 db2
        (DeleteCardValidator.Validate w.crypto (encoder.Base64 w.StdEncoding) w.unmarshal
          (CardRepository.provider w.StdEncoding db2) request NewCardDTO).card = .ok c1 by
        rw [heq]; exact hc] at h
      simp only [hs] at h
      rw [hrefused c1 card hv (by rw [heq]; exact hc) hs] at h
      cases h
    · rw [hv] at hv2
      cases hv2
    · exfalso
      obtain ⟨hb, heq, _, _⟩ := DeleteCardValidator_Validate_ok _ _ _ _ _ _ hv
      rw [heq] at hc
      obtain ⟨hacc, _, _, _⟩ := base_accepted w newV4 db2 request false c1 card hb hc hs
      have hu := hacc.user
      unfold Controller.CardDelete at h
      rw [if_neg hu] at h
      simp only [hv] at h
      rw [show CardRepository.SetCardChainID newV4 db2
        (DeleteCardValidator.Validate w.crypto (encoder.Base64 w.StdEncoding) w.unmarshal
          (CardRepository.provider w.StdEncoding db2) request NewCardDTO).card = .ok c1 by
        rw [heq]; exact hc] at h
      simp only [hs] at h
      rw [hrefused c1 card hv (by rw [heq]; exact hc) hs] at h
      cases h
    · exact h
    · exfalso
      rcases CardDelete_cases w newV4 now db2 request with ⟨e, he⟩ | ⟨c1c, card2, dbm2, _, hv3,
        hc3, hs3, hset2, _, _, _, _⟩
      · rw [he] at h
        cases h
      · rw [hrefused c1c card2 hv3 hc3 hs3] at hset2
        cases hset2

theorem reachable_oneCard_more : Reachable Example.wiringMore Example.oneCard :=
  (by decide : (Controller.CardCreate Example.wiringMore (some "chain-1") {}
      Example.createRoot).2 = Example.oneCard) ▸
    Reachable.create _ (some "chain-1") Example.createRoot Reachable.empty

set_option maxRecDepth 100000 in
/-- C12 amended, concrete run: the example chain is deleted at second 99, then
a second root card of alice is created; a delete request that names the
tombstone card of the deleted chain as predecessor passes validation and is
refused with `ErrChainAlreadyDeleted`, and the store is unchanged. -/
theorem CardDelete_after_delete_witness :
    Controller.CardDelete Example.wiringMore none 120 Example.afterOther
        Example.deleteTombstone =
      (.error .ErrChainAlreadyDeleted, Example.afterOther) :=
  (CardDelete_after_delete Example.wiringMore Hex_roundTrips Example.oneCard
    Example.deletedChain Example.afterOther reachable_oneCard_more none 99 Example.deleteRoot
    Example.tombstone rfl (by decide)
    (FreshRun.step _ _ _ (FreshRun.refl _)
      (FreshStep.create Example.deletedChain (some "chain-5") Example.createOther
        (fun v hv => Option.some.inj hv ▸ by decide)))
    Example.deletedChainRow (by decide) (by decide) none 120 Example.deleteTombstone
    { Identity := "alice", Version := "5.0", CreatedAt := 1700000300,
      PreviousCardID := Example.tombstoneID }
    rfl (by decide)).2.2.1 (by decide)
    { ID := "0400000000000000000000000000000000000000000000000000000000000000",
      ContentSnapshot := "04", Identity := "alice", PreviousCardID := Example.tombstoneID,
      ApplicationID := "S1", Version := "5.0", ChainID := "chain-1",
      CreatedAt := 1700000300 }
    { ID := "0400000000000000000000000000000000000000000000000000000000000000",
      ContentSnapshot := "04", Identity := "alice", PreviousCardID := Example.tombstoneID,
      ApplicationID := "S1", Version := "5.0", ChainID := "chain-1",
      CreatedAt := 1700000300, Signatures := [{ Signer := "virgil", Signature := "0904" }] }
    rfl rfl

/-! ## Duplicate check and delete validation -/

/-- C24: `validateVirgilCardDuplicates` returns
`ErrVirgilCardContentSnapshotIsNotUnique` exactly when the repository lookup of
the id succeeds, and nil whenever the lookup returns an error; it returns
nothing else. -/
theorem validateVirgilCardDuplicates_spec (cardRepository : dao.CardRepositoryProvider)
    (virgilCardID : String) :
    (validateVirgilCardDuplicates cardRepository virgilCardID =
        some .ErrVirgilCardContentSnapshotIsNotUnique ↔
      ∃ card, cardRepository.GetCardByID virgilCardID = .ok card) ∧
    (∀ e, cardRepository.GetCardByID virgilCardID = .error e →
      validateVirgilCardDuplicates cardRepository virgilCardID = none) ∧
    (validateVirgilCardDuplicates cardRepository virgilCardID = none ∨
      validateVirgilCardDuplicates cardRepository virgilCardID =
        some .ErrVirgilCardContentSnapshotIsNotUnique) := by
  unfold validateVirgilCardDuplicates
  cases h : cardRepository.GetCardByID virgilCardID with
  | error e =>
    refine ⟨⟨fun hh => ?_, fun hh => ?_⟩, fun _ _ => rfl, Or.inl rfl⟩
    · cases hh
    · obtain ⟨card, hc⟩ := hh
      cases hc
  | ok card =>
    refine ⟨⟨fun _ => ⟨card, rfl⟩, fun _ => rfl⟩, fun e he => ?_, Or.inr rfl⟩
    cases he

theorem DeleteCardValidator_Validate_err (crypto : crypto.Provider SK)
    (encoder : encoder.Provider) (unmarshal : Unmarshal)
    (repo : dao.CardRepositoryProvider) (request : CardBaseRequest) (card0 : CardDTO) :
    (DeleteCardValidator.Validate crypto encoder unmarshal repo request card0).err =
      match (BaseCardValidator.Validate crypto encoder unmarshal repo request card0
          false).err with
      | some e => some e
      | none =>
        if (BaseCardValidator.Validate crypto encoder unmarshal repo request card0
            false).card.PublicKey.length > 0 then some .ErrCSRPublicKeyMustBeEmpty
        else if 0 ≥ len (BaseCardValidator.Validate crypto encoder unmarshal repo request
            card0 false).card.PreviousCardID then some .ErrCSRPrevCardIDMustNotBeEmpty
        else none := by
  unfold DeleteCardValidator.Validate
  simp only []
  cases hb : (BaseCardValidator.Validate crypto encoder unmarshal repo request card0
      false).err with
  | some e => simp [hb]
  | none =>
    simp only []
    unfold DeleteCardValidator.validateCSRPublicKeyLength
      DeleteCardValidator.validateCSRCardIDToDelete
    by_cases hk : (BaseCardValidator.Validate crypto encoder unmarshal repo request card0
        false).card.PublicKey.length > 0
    · simp [hk]
    · simp only [hk, if_false]
      by_cases hp : 0 ≥ len (BaseCardValidator.Validate crypto encoder unmarshal repo request
          card0 false).card.PreviousCardID
      · simp [hp]
      · simp [hp]

theorem DeleteCardValidator_Validate_card (crypto : crypto.Provider SK)
    (encoder : encoder.Provider) (unmarshal : Unmarshal)
    (repo : dao.CardRepositoryProvider) (request : CardBaseRequest) (card0 : CardDTO) :
    (DeleteCardValidator.Validate crypto encoder unmarshal repo request card0).card =
      (BaseCardValidator.Validate crypto encoder unmarshal repo request card0 false).card ∧
    (DeleteCardValidator.Validate crypto encoder unmarshal repo request card0).calls =
      (BaseCardValidator.Validate crypto encoder unmarshal repo request card0 false).calls := by
  unfold DeleteCardValidator.Validate
  simp only []
  cases hb : (BaseCardValidator.Validate crypto encoder unmarshal repo request card0
      false).err with
  | some e => simp
  | none =>
    simp only []
    cases DeleteCardValidator.validateCSRPublicKeyLength
      (BaseCardValidator.Validate crypto encoder unmarshal repo request card0
        false).card.PublicKey with
    | some e => simp
    | none =>
      simp only []
      cases DeleteCardValidator.validateCSRCardIDToDelete
        (BaseCardValidator.Validate crypto encoder unmarshal repo request card0
          false).card.PreviousCardID with
      | some e => simp
      | none => simp

/-- C21: a failure of the base validation is returned as it is; once the base
validation has passed, `DeleteCardValidator.Validate` returns
`ErrCSRPublicKeyMustBeEmpty` if the decoded public key is not empty, otherwise
`ErrCSRPrevCardIDMustNotBeEmpty` if `previous_card_id` is empty, otherwise nil.
Every delete request it accepts has a decoded public key of length 0 and a
non-empty `previous_card_id`. -/
theorem DeleteCardValidator_Validate_spec (crypto : crypto.Provider SK)
    (encoder : encoder.Provider) (unmarshal : Unmarshal)
    (repo : dao.CardRepositoryProvider) (request : CardBaseRequest) (card0 : CardDTO) :
    (∀ e, (BaseCardValidator.Validate crypto encoder unmarshal repo request card0
        false).err = some e →
      (DeleteCardValidator.Validate crypto encoder unmarshal repo request card0).err =
        some e) ∧
    ((BaseCardValidator.Validate crypto encoder unmarshal repo request card0 false).err =
        none →
      ∃ params csr,
        CSRValidator.Validate encoder unmarshal request.CSR {} request.UserID =
          .ok (params, csr) ∧
        validatePreviousCardID repo csr.PreviousCardID request.ApplicationID csr.Identity =
          none ∧
        validateVirgilCardDuplicates repo (crypto.CalculateCardID params.csr) = none ∧
        (DeleteCardValidator.Validate crypto encoder unmarshal repo request card0).err =
          (if 0 < params.publicKey.length then some .ErrCSRPublicKeyMustBeEmpty
           else if csr.PreviousCardID = "" then some .ErrCSRPrevCardIDMustNotBeEmpty
           else none)) ∧
    ((DeleteCardValidator.Validate crypto encoder unmarshal repo request card0).err = none →
      ∃ params csr,
        CSRValidator.Validate encoder unmarshal request.CSR {} request.UserID =
          .ok (params, csr) ∧
        params.publicKey.length = 0 ∧ csr.PreviousCardID ≠ "" ∧
        (DeleteCardValidator.Validate crypto encoder unmarshal repo request
          card0).card.PublicKey.length = 0 ∧
        (DeleteCardValidator.Validate crypto encoder unmarshal repo request
          card0).card.PreviousCardID ≠ "") := by
  have hbase : (BaseCardValidator.Validate crypto encoder unmarshal repo request card0
      false).err = none →
      ∃ params csr,
        CSRValidator.Validate encoder unmarshal request.CSR {} request.UserID =
          .ok (params, csr) ∧
        validatePreviousCardID repo csr.PreviousCardID request.ApplicationID csr.Identity =
          none ∧
        validateVirgilCardDuplicates repo (crypto.CalculateCardID params.csr) = none ∧
        (BaseCardValidator.Validate crypto encoder unmarshal repo request card0
          false).card.PublicKey = params.publicKey ∧
        (BaseCardValidator.Validate crypto encoder unmarshal repo request card0
          false).card.PreviousCardID = csr.PreviousCardID ∧
        (DeleteCardValidator.Validate crypto encoder unmarshal repo request card0).err =
          (if 0 < params.publicKey.length then some .ErrCSRPublicKeyMustBeEmpty
           else if csr.PreviousCardID = "" then some .ErrCSRPrevCardIDMustNotBeEmpty
           else none) := by
    intro hb
    obtain ⟨params, csr, hcsr, _, hprev, hdup, hcard, _⟩ :=
      BaseCardValidator_Validate_ok _ _ _ _ _ _ _ hb
    rw [fillVirgilCardModel_eq] at hcard
    have hk : (BaseCardValidator.Validate crypto encoder unmarshal repo request card0
        false).card.PublicKey = params.publicKey := by rw [hcard]
    have hp : (BaseCardValidator.Validate crypto encoder unmarshal repo request card0
        false).card.PreviousCardID = csr.PreviousCardID := by rw [hcard]
    refine ⟨params, csr, hcsr, hprev, hdup, hk, hp, ?_⟩
    rw [DeleteCardValidator_Validate_err, hb]
    simp only [hk, hp]
    by_cases h1 : 0 < params.publicKey.length
    · simp [h1]
    · simp only [h1, gt_iff_lt, if_false]
      by_cases h2 : csr.PreviousCardID = ""
      · rw [if_pos h2, if_pos]
        rw [h2]
        decide
      · rw [if_neg h2, if_neg]
        have := len_pos_of_ne_empty _ h2
        omega
  refine ⟨?_, ?_, ?_⟩
  · intro e he
    rw [DeleteCardValidator_Validate_err, he]
  · intro hb
    obtain ⟨params, csr, h1, h2, h3, _, _, h6⟩ := hbase hb
    exact ⟨params, csr, h1, h2, h3, h6⟩
  · intro hd
    have hb : (BaseCardValidator.Validate crypto encoder unmarshal repo request card0
        false).err = none := by
      cases hb : (BaseCardValidator.Validate crypto encoder unmarshal repo request card0
          false).err with
      | none => rfl
      | some e =>
        rw [DeleteCardValidator_Validate_err, hb] at hd
        cases hd
    obtain ⟨params, csr, h1, _, _, hk, hp, h6⟩ := hbase hb
    rw [hd] at h6
    have hk0 : params.publicKey.length = 0 := by
      by_cases h : 0 < params.publicKey.length
      · rw [if_pos h] at h6
        cases h6
      · omega
    have hp0 : csr.PreviousCardID ≠ "" := by
      intro h
      rw [if_neg (by omega), if_pos h] at h6
      cases h6
    refine ⟨params, csr, h1, hk0, hp0, ?_, ?_⟩
    · rw [(DeleteCardValidator_Validate_card _ _ _ _ _ _).1, hk]
      exact hk0
    · rw [(DeleteCardValidator_Validate_card _ _ _ _ _ _).1, hp]
      exact hp0

/-- C21, concrete run: on the store with the example root card, the delete
request for its chain is accepted, and the create request of the successor,
which carries a public key, is refused as a delete request with
`ErrCSRPublicKeyMustBeEmpty`. -/
theorem DeleteCardValidator_Validate_spec_witness :
    (∃ params csr,
      CSRValidator.Validate (encoder.Base64 encoder.Hex) Example.unmarshal
        Example.deleteRoot.CSR {} Example.deleteRoot.UserID = .ok (params, csr) ∧
      params.publicKey.length = 0 ∧ csr.PreviousCardID ≠ "") ∧
    (DeleteCardValidator.Validate Example.wiring.crypto (encoder.Base64 encoder.Hex)
      Example.unmarshal (CardRepository.provider encoder.Hex Example.oneCard)
      Example.createNext NewCardDTO).err = some .ErrCSRPublicKeyMustBeEmpty :=
  ⟨((DeleteCardValidator_Validate_spec Example.wiring.crypto (encoder.Base64 encoder.Hex)
      Example.unmarshal (CardRepository.provider encoder.Hex Example.oneCard)
      Example.deleteRoot NewCardDTO).2.2 (by decide)).elim
    (fun params h => h.elim (fun csr h2 => ⟨params, csr, h2.1, h2.2.1, h2.2.2.1⟩)),
   ((DeleteCardValidator_Validate_spec Example.wiring.crypto (encoder.Base64 encoder.Hex)
      Example.unmarshal (CardRepository.provider encoder.Hex Example.oneCard)
      Example.createNext NewCardDTO).2.1 (by decide)).elim
    (fun params h => h.elim (fun csr h2 => by
      have hc : CSRValidator.Validate (encoder.Base64 encoder.Hex) Example.unmarshal
          Example.createNext.CSR {} Example.createNext.UserID =
          .ok (⟨Example.key, [2], []⟩,
            { PublicKey := "07070707070707070707070707070707", Identity := "alice",
              Version := "5.0", CreatedAt := 1700000100,
              PreviousCardID := Example.rootID }) := rfl
      have he := h2.1.symm.trans hc
      injection he with he
      injection he with hp hcs
      rw [h2.2.2.2, hp, hcs]
      decide))⟩

theorem BaseCardValidator_Validate_unverified (crypto : crypto.Provider SK)
    (encoder : encoder.Provider) (unmarshal : Unmarshal)
    (repo : dao.CardRepositoryProvider) (request : CardBaseRequest) (card0 : CardDTO) :
    BaseCardValidator.Validate crypto encoder unmarshal repo request card0 false =
      match CSRValidator.Validate encoder unmarshal request.CSR {} request.UserID with
      | .error e => ⟨some e, card0, []⟩
      | .ok (params, csr) =>
        match validatePreviousCardID repo csr.PreviousCardID request.ApplicationID
            csr.Identity with
        | some e => ⟨some e, card0, []⟩
        | none =>
          ⟨validateVirgilCardDuplicates repo (crypto.CalculateCardID params.csr),
           fillVirgilCardModel crypto card0 csr request request.ApplicationID params, []⟩ := by
  unfold BaseCardValidator.Validate
  cases hc : CSRValidator.Validate encoder unmarshal request.CSR {} request.UserID with
  | error e => rfl
  | ok pc =>
    obtain ⟨params, csr⟩ := pc
    simp only [Bool.false_eq_true, if_false]
    cases hp : validatePreviousCardID repo csr.PreviousCardID request.ApplicationID
        csr.Identity with
    | some e => rfl
    | none =>
      simp only []
      have hid : (fillVirgilCardModel crypto card0 csr request request.ApplicationID
          params).ID = crypto.CalculateCardID params.csr := by
        rw [fillVirgilCardModel_eq]
      rw [hid]
      cases hd : validateVirgilCardDuplicates repo (crypto.CalculateCardID params.csr) with
      | some e => rfl
      | none => rfl

/-- C22: the outcome of `DeleteCardValidator.Validate` does not depend on the
stamps of the request: with any other stamp list in place of the request's own,
against the same repository, the returned error is the same, no signature is
verified in either run, and the cards left behind differ at most in their
`Signatures`. -/
theorem DeleteCardValidator_Validate_ignores_stamps (crypto : crypto.Provider SK)
    (encoder : encoder.Provider) (unmarshal : Unmarshal)
    (repo : dao.CardRepositoryProvider) (request : CardBaseRequest) (card0 : CardDTO)
    (stamps : List CSRStamp) :
    (DeleteCardValidator.Validate crypto encoder unmarshal repo
        { request with CSRStamps := stamps } card0).err =
      (DeleteCardValidator.Validate crypto encoder unmarshal repo request card0).err ∧
    (DeleteCardValidator.Validate crypto encoder unmarshal repo
        { request with CSRStamps := stamps } card0).calls = [] ∧
    (DeleteCardValidator.Validate crypto encoder unmarshal repo request card0).calls = [] ∧
    { (DeleteCardValidator.Validate crypto encoder unmarshal repo
        { request with CSRStamps := stamps } card0).card with Signatures := [] } =
      { (DeleteCardValidator.Validate crypto encoder unmarshal repo request card0).card with
        Signatures := [] } := by
  have hcalls : ∀ r : CardBaseRequest,
      (BaseCardValidator.Validate crypto encoder unmarshal repo r card0 false).calls = [] := by
    intro r
    rw [BaseCardValidator_Validate_unverified]
    cases CSRValidator.Validate encoder unmarshal r.CSR {} r.UserID with
    | error e => rfl
    | ok pc =>
      obtain ⟨params, csr⟩ := pc
      simp only []
      cases validatePreviousCardID repo csr.PreviousCardID r.ApplicationID csr.Identity with
      | some e => rfl
      | none => rfl
  have hbase :
      (BaseCardValidator.Validate crypto encoder unmarshal repo
          { request with CSRStamps := stamps } card0 false).err =
        (BaseCardValidator.Validate crypto encoder unmarshal repo request card0 false).err ∧
      { (BaseCardValidator.Validate crypto encoder unmarshal repo
          { request with CSRStamps := stamps } card0 false).card with Signatures := [] } =
        { (BaseCardValidator.Validate crypto encoder unmarshal repo request card0
          false).card with Signatures := [] } := by
    rw [BaseCardValidator_Validate_unverified, BaseCardValidator_Validate_unverified]
    simp only []
    cases CSRValidator.Validate encoder unmarshal request.CSR {} request.UserID with
    | error e => exact ⟨rfl, rfl⟩
    | ok pc =>
      obtain ⟨params, csr⟩ := pc
      simp only []
      cases validatePreviousCardID repo csr.PreviousCardID request.ApplicationID
          csr.Identity with
      | some e => exact ⟨rfl, rfl⟩
      | none =>
        simp only [fillVirgilCardModel_eq]
        exact ⟨trivial, trivial⟩
  have hkey : ∀ c d : CardDTO, { c with Signatures := [] } = { d with Signatures := [] } →
      c.PublicKey = d.PublicKey ∧ c.PreviousCardID = d.PreviousCardID := by
    intro c d h
    injection h with _ _ _ h4 _ _ _ _ _ h10 _
    exact ⟨h10, h4⟩
  obtain ⟨hk, hp⟩ := hkey _ _ hbase.2
  refine ⟨?_, ?_, ?_, ?_⟩
  · rw [DeleteCardValidator_Validate_err, DeleteCardValidator_Validate_err, hbase.1, hk, hp]
  · rw [(DeleteCardValidator_Validate_card _ _ _ _ _ _).2]
    exact hcalls _
  · rw [(DeleteCardValidator_Validate_card _ _ _ _ _ _).2]
    exact hcalls _
  · rw [(DeleteCardValidator_Validate_card _ _ _ _ _ _).1,
      (DeleteCardValidator_Validate_card _ _ _ _ _ _).1]
    exact hbase.2

/-! ## Order of the content-snapshot checks -/

theorem parseCSR_eq (encoder : encoder.Provider) (unmarshal : Unmarshal) (s : String)
    (p0 : ParametersStore) (csr0 : CSR) :
    parseCSR encoder unmarshal s p0 csr0 =
      if (encoder.DecodeString s).ok = false then
        .error .ErrContentSnapshotIsNotABase64EncodedString
      else
        match unmarshal (encoder.DecodeString s).data csr0 with
        | .error (.UnmarshalTypeError f) =>
          if f = "created_at" then .error .ErrCSRCreationTimeIsIncorrect
          else .error .ErrContentSnapshotIsNotAJSONMessage
        | .error .other => .error .ErrContentSnapshotIsNotAJSONMessage
        | .ok csr => .ok ({ p0 with csr := (encoder.DecodeString s).data }, csr) := by
  unfold parseCSR
  simp only []
  by_cases hd : (encoder.DecodeString s).ok = true
  · simp only [hd, Bool.not_true, Bool.false_eq_true, if_false]
    cases hu : unmarshal (encoder.DecodeString s).data csr0 with
    | error e =>
      cases e with
      | UnmarshalTypeError f => simp [CreatedAtFieldName]
      | other => rfl
    | ok csr => rfl
  · have hd2 : (encoder.DecodeString s).ok = false := by simpa using hd
    simp [hd2]

theorem decodeCSRPublicKey_eq (encoder : encoder.Provider) (key : String) :
    decodeCSRPublicKeyAndCheckMaxLength encoder key =
      if key ≠ "" ∧ (encoder.DecodeString key).ok = false then .error .ErrCSRPublicKeyDecoding
      else if key ≠ "" ∧ 4096 < (encoder.DecodeString key).data.length then
        .error .ErrCSRPublicKeyIsTooLong
      else .ok (if key = "" then [] else (encoder.DecodeString key).data) := by
  unfold decodeCSRPublicKeyAndCheckMaxLength PublicKeyMaxLength
  by_cases hk : key = ""
  · simp [hk]
  · simp only [hk, if_false, ne_eq, not_false_eq_true, true_and]
    by_cases hd : (encoder.DecodeString key).ok = true
    · simp [hd]
    · have hd2 : (encoder.DecodeString key).ok = false := by simpa using hd
      simp [hd2]

theorem validateCSRIdentity_eq (identity r : String) :
    validateCSRIdentity identity r =
      if identity = "" then some .ErrCSRIdentityIsEmpty
      else if 1024 < len identity then some .ErrCSRIdentityIsIncorrect
      else if identity ≠ r then some .ErrCSRIdentityDoesNotMatchRequestIdentity
      else none := by
  unfold validateCSRIdentity IdentityMinLength IdentityMaxLength
  by_cases h : identity = ""
  · simp [h]
  · have hpos := len_pos_of_ne_empty identity h
    simp only [h, if_false]
    by_cases h2 : 1024 < len identity
    · simp [h2]
    · have h3 : ¬ (1 > len identity ∨ 1024 < len identity) := by omega
      rw [if_neg h3, if_neg h2]

theorem validateCSRPreviousCardID_eq (id : String) :
    validateCSRPreviousCardID id =
      if id ≠ "" ∧ len id ≠ 64 then some .ErrCSRPreviousCardIDIsIncorrect else none := by
  unfold validateCSRPreviousCardID IDLength
  by_cases h : id = ""
  · simp [h]
  · by_cases h2 : len id = 64
    · simp [h, h2]
    · have h3 : ¬ (64 = len id) := fun e => h2 e.symm
      simp [h, h2, h3]

theorem validateCSRCreatedAt_eq (t : Int) :
    validateCSRCreatedAt t = if t ≤ 0 then some .ErrCSRCreationTimeIsIncorrect else none := by
  unfold validateCSRCreatedAt
  by_cases h : t ≤ 0
  · simp [h]
  · simp [h]

theorem validateCSRVersion_eq (v : String) :
    validateCSRVersion v = if v ≠ "5.0" then some .ErrCSRVersionIsIncorrect else none := by
  unfold validateCSRVersion CardVersion5
  by_cases h : v = "5.0"
  · simp [h]
  · have h2 : ¬ ("5.0" = v) := fun e => h e.symm
    simp [h, h2]

theorem CSRValidator_Validate_fields (encoder : encoder.Provider) (unmarshal : Unmarshal)
    (s : String) (csr0 : CSR) (r : String) (c : CSR) (hs : s ≠ "")
    (hd : (encoder.DecodeString s).ok = true)
    (hu : unmarshal (encoder.DecodeString s).data csr0 = .ok c) :
    CSRValidator.Validate encoder unmarshal s csr0 r =
      match firstFailingCSRFieldCheck encoder c r with
      | some e => .error e
      | none =>
        .ok ({ csr := (encoder.DecodeString s).data,
               publicKey := if c.PublicKey = "" then []
                 else (encoder.DecodeString c.PublicKey).data,
               extraSnapshot := [] }, c) := by
  have hd2 : ¬ ((encoder.DecodeString s).ok = false) := by rw [hd]; decide
  unfold CSRValidator.Validate firstFailingCSRFieldCheck
  rw [if_neg hs, parseCSR_eq, if_neg hd2, hu]
  simp only []
  rw [decodeCSRPublicKey_eq, validateCSRIdentity_eq, validateCSRPreviousCardID_eq,
    validateCSRCreatedAt_eq, validateCSRVersion_eq]
  by_cases h1 : c.PublicKey ≠ "" ∧ (encoder.DecodeString c.PublicKey).ok = false
  · rw [if_pos h1, if_pos h1]
  · rw [if_neg h1, if_neg h1]
    by_cases h2 : c.PublicKey ≠ "" ∧ 4096 < (encoder.DecodeString c.PublicKey).data.length
    · rw [if_pos h2, if_pos h2]
    · rw [if_neg h2, if_neg h2]
      simp only []
      by_cases h3 : c.Identity = ""
      · rw [if_pos h3, if_pos h3]
      · rw [if_neg h3, if_neg h3]
        by_cases h4 : 1024 < len c.Identity
        · rw [if_pos h4, if_pos h4]
        · rw [if_neg h4, if_neg h4]
          by_cases h5 : c.Identity ≠ r
          · rw [if_pos h5, if_pos h5]
          · rw [if_neg h5, if_neg h5]
            simp only []
            by_cases h6 : c.PreviousCardID ≠ "" ∧ len c.PreviousCardID ≠ 64
            · rw [if_pos h6, if_pos h6]
            · rw [if_neg h6, if_neg h6]
              simp only []
              by_cases h7 : c.CreatedAt ≤ 0
              · rw [if_pos h7, if_pos h7]
              · rw [if_neg h7, if_neg h7]

/-- C26: `CSRValidator.Validate` reports the first failing check in the order:
empty snapshot, base64 decode, JSON decode, public-key decode, public-key too
long, identity empty, identity too long, identity mismatch with the request
identity, previous-card-id length, created_at, version.  A failure returns the
error and no parameter store; when no check fails the parameter store and the
decoded CSR are returned. -/
theorem CSRValidator_Validate_order (encoder : encoder.Provider) (unmarshal : Unmarshal)
    (s : String) (csr0 : CSR) (r : String) :
    (∀ e, firstFailingCSRCheck encoder unmarshal s csr0 r = some e ↔
      CSRValidator.Validate encoder unmarshal s csr0 r = .error e) ∧
    (firstFailingCSRCheck encoder unmarshal s csr0 r = none ↔
      ∃ p c, CSRValidator.Validate encoder unmarshal s csr0 r = .ok (p, c)) := by
  have key : CSRValidator.Validate encoder unmarshal s csr0 r =
      match firstFailingCSRCheck encoder unmarshal s csr0 r with
      | some e => .error e
      | none =>
        match unmarshal (encoder.DecodeString s).data csr0 with
        | .ok c =>
          .ok ({ csr := (encoder.DecodeString s).data,
                 publicKey := if c.PublicKey = "" then []
                   else (encoder.DecodeString c.PublicKey).data,
                 extraSnapshot := [] }, c)
        | .error _ => .error .ErrContentSnapshotIsNotAJSONMessage := by
    by_cases hs : s = ""
    · unfold CSRValidator.Validate firstFailingCSRCheck
      rw [if_pos hs, if_pos hs]
    · by_cases hd : (encoder.DecodeString s).ok = false
      · unfold CSRValidator.Validate firstFailingCSRCheck
        rw [if_neg hs, if_neg hs, parseCSR_eq, if_pos hd, if_pos hd]
      · have hd1 : (encoder.DecodeString s).ok = true := by simpa using hd
        cases hu : unmarshal (encoder.DecodeString s).data csr0 with
        | error e =>
          unfold CSRValidator.Validate firstFailingCSRCheck
          rw [if_neg hs, if_neg hs, parseCSR_eq, if_neg hd, if_neg hd, hu]
          cases e with
          | UnmarshalTypeError f =>
            by_cases hf : f = "created_at"
            · simp only [hf, if_true]
            · simp only [hf, if_false]
          | other => rfl
        | ok c =>
          rw [CSRValidator_Validate_fields encoder unmarshal s csr0 r c hs hd1 hu]
          unfold firstFailingCSRCheck
          rw [if_neg hs, if_neg hd, hu]
  refine ⟨fun e => ⟨fun h => ?_, fun h => ?_⟩, ⟨fun h => ?_, fun h => ?_⟩⟩
  · rw [key, h]
  · rw [key] at h
    cases hf : firstFailingCSRCheck encoder unmarshal s csr0 r with
    | some e2 =>
      rw [hf] at h
      injection h with h
      rw [h]
    | none =>
      rw [hf] at h
      simp only [] at h
      exfalso
      unfold firstFailingCSRCheck at hf
      by_cases hs : s = ""
      · rw [if_pos hs] at hf
        cases hf
      · rw [if_neg hs] at hf
        by_cases hd : (encoder.DecodeString s).ok = false
        · rw [if_pos hd] at hf
          cases hf
        · rw [if_neg hd] at hf
          cases hu : unmarshal (encoder.DecodeString s).data csr0 with
          | error e3 =>
            rw [hu] at hf
            cases e3 with
            | UnmarshalTypeError f =>
              by_cases hff : f = "created_at"
              · simp [hff] at hf
              · simp [hff] at hf
            | other => cases hf
          | ok c =>
            rw [hu] at h
            cases h
  · rw [key, h]
    unfold firstFailingCSRCheck at h
    by_cases hs : s = ""
    · rw [if_pos hs] at h
      cases h
    · rw [if_neg hs] at h
      by_cases hd : (encoder.DecodeString s).ok = false
      · rw [if_pos hd] at h
        cases h
      · rw [if_neg hd] at h
        cases hu : unmarshal (encoder.DecodeString s).data csr0 with
        | error e3 =>
          rw [hu] at h
          cases e3 with
          | UnmarshalTypeError f =>
            by_cases hff : f = "created_at"
            · simp [hff] at h
            · simp [hff] at h
          | other => cases h
        | ok c => exact ⟨_, c, rfl⟩
  · obtain ⟨p, c, hv⟩ := h
    rw [key] at hv
    cases hf : firstFailingCSRCheck encoder unmarshal s csr0 r with
    | some e2 =>
      rw [hf] at hv
      cases hv
    | none => rfl

/-! ## JSON decoding errors; the previous card id of an accepted CSR -/

/-- What `parseCSR` makes of each answer of the JSON decoder, the decoder being
any function: a type error whose field is `created_at` becomes
`ErrCSRCreationTimeIsIncorrect`, every other error
`ErrContentSnapshotIsNotAJSONMessage`. -/
theorem CSRValidator_Validate_json_errors(encoder : encoder.Provider)
    (unmarshal : Unmarshal) (s : String) (csr0 : CSR) (r : String) (hs : s ≠ "")
    (hd : (encoder.DecodeString s).ok = true) :
    CreatedAtFieldName = "created_at" ∧
    (unmarshal (encoder.DecodeString s).data csr0 =
        .error (.UnmarshalTypeError CreatedAtFieldName) →
      CSRValidator.Validate encoder unmarshal s csr0 r =
        .error .ErrCSRCreationTimeIsIncorrect) ∧
    (∀ e, unmarshal (encoder.DecodeString s).data csr0 = .error e →
      e ≠ .UnmarshalTypeError CreatedAtFieldName →
      CSRValidator.Validate encoder unmarshal s csr0 r =
        .error .ErrContentSnapshotIsNotAJSONMessage) ∧
    (∀ e, CSRValidator.Validate encoder unmarshal s csr0 r = .error e →
      e = .ErrContentSnapshotIsNotAJSONMessage →
      ∃ je, unmarshal (encoder.DecodeString s).data csr0 = .error je ∧
        je ≠ .UnmarshalTypeError CreatedAtFieldName) := by
  have hd2 : ¬ ((encoder.DecodeString s).ok = false) := by rw [hd]; decide
  have hpre : CSRValidator.Validate encoder unmarshal s csr0 r =
      match parseCSR encoder unmarshal s {} csr0 with
      | .error e => .error e
      | .ok (params, csr) =>
        match firstFailingCSRFieldCheck encoder csr r with
        | some e => .error e
        | none =>
          .ok ({ csr := (encoder.DecodeString s).data,
                 publicKey := if csr.PublicKey = "" then []
                   else (encoder.DecodeString csr.PublicKey).data,
                 extraSnapshot := [] }, csr) := by
    cases hu : unmarshal (encoder.DecodeString s).data csr0 with
    | error e =>
      unfold CSRValidator.Validate
      rw [if_neg hs, parseCSR_eq, if_neg hd2, hu]
      cases e with
      | UnmarshalTypeError f =>
        by_cases hf : f = "created_at"
        · simp only [hf, if_true]
        · simp only [hf, if_false]
      | other => rfl
    | ok c =>
      rw [CSRValidator_Validate_fields encoder unmarshal s csr0 r c hs hd hu, parseCSR_eq,
        if_neg hd2, hu]
  refine ⟨rfl, ?_, ?_, ?_⟩
  · intro hu
    rw [hpre, parseCSR_eq, if_neg hd2, hu]
    simp [CreatedAtFieldName]
  · intro e hu hne
    rw [hpre, parseCSR_eq, if_neg hd2, hu]
    cases e with
    | UnmarshalTypeError f =>
      have hf : f ≠ "created_at" := by
        intro h
        apply hne
        rw [h]
        rfl
      simp only [hf, if_false]
    | other => rfl
  · intro e hv he
    subst he
    rw [hpre, parseCSR_eq, if_neg hd2] at hv
    cases hu : unmarshal (encoder.DecodeString s).data csr0 with
    | error je =>
      refine ⟨je, rfl, ?_⟩
      intro hje
      rw [hu, hje] at hv
      simp [CreatedAtFieldName] at hv
    | ok c =>
      exfalso
      rw [hu] at hv
      simp only [] at hv
      unfold firstFailingCSRFieldCheck at hv
      split_ifs at hv <;> cases hv

/-- C29, counterexample: a content snapshot whose previous card id is 64 times
the letter z is accepted by `CSRValidator.Validate`, although its previous card
id is neither empty nor a hexadecimal id. -/
theorem CSRValidator_accepts_non_hex_previous_card_id :
    ∃ p c,
      CSRValidator.Validate encoder.Hex Example.unmarshalOdd "09" {} "alice" = .ok (p, c) ∧
      c.PreviousCardID = Example.oddID ∧ c.PreviousCardID ≠ "" ∧
      ¬ IsHexID c.PreviousCardID :=
  ⟨_, _, rfl, rfl, by decide, fun h => absurd (h.2 'z' (by decide)) (by decide)⟩

/-- C29, amended: for every CSR accepted by `CSRValidator.Validate`, the
previous card id is empty or exactly 64 bytes long; the check of the previous
card id passes exactly for such ids, whatever their characters are. -/
theorem CSRValidator_Validate_previous_card_id (encoder : encoder.Provider)
    (unmarshal : Unmarshal) (s : String) (csr0 : CSR) (r : String) (p : ParametersStore)
    (c : CSR) (h : CSRValidator.Validate encoder unmarshal s csr0 r = .ok (p, c)) :
    (c.PreviousCardID = "" ∨ len c.PreviousCardID = 64) ∧
    (∀ id : String, validateCSRPreviousCardID id = none ↔ id = "" ∨ len id = 64) := by
  obtain ⟨⟨_, _, _, _, _, hprev, _, _⟩, _⟩ := (CSRValidator_Validate_ok_iff _ _ _ _ _ _ _).1 h
  exact ⟨hprev, validateCSRPreviousCardID_none_iff⟩

/-- C29 amended, concrete run: the accepted previous card id of 64 letters z
has 64 bytes. -/
theorem CSRValidator_Validate_previous_card_id_witness :
    Example.oddID = "" ∨ len Example.oddID = 64 :=
  (CSRValidator_Validate_previous_card_id encoder.Hex Example.unmarshalOdd "09" {} "alice"
    { csr := [9] }
    { Identity := "alice", Version := "5.0", CreatedAt := 1700000500,
      PreviousCardID := Example.oddID } rfl).1

/-! ## Order of the checks of a stamp -/

theorem validateCSRStampSnapshot_eq (encoder : encoder.Provider) (snapshot : String) :
    validateCSRStampSnapshot encoder snapshot =
      if snapshot ≠ "" ∧ (encoder.DecodeString snapshot).ok = false then
        some .ErrCSRStampExtraSnapshotDecoding
      else if snapshot ≠ "" ∧ 1024 < (encoder.DecodeString snapshot).data.length then
        some .ErrExtraContentSnapshotIsTooLong
      else none := by
  unfold validateCSRStampSnapshot CSRStampSnapshotMaxLength
  by_cases hk : snapshot = ""
  · simp [hk]
  · simp only [hk, if_false, ne_eq, not_false_eq_true, true_and]
    by_cases hd : (encoder.DecodeString snapshot).ok = true
    · simp [hd]
    · have hd2 : (encoder.DecodeString snapshot).ok = false := by simpa using hd
      simp [hd2]

theorem validateCSRSigner_eq (signerType : String) :
    validateCSRSigner signerType =
      if signerType = "virgil" then some .ErrCSRStampSignerIsIncorrect
      else if 1024 < len signerType then some .ErrCSRStampSignerIsTooLong
      else if signerType = "" then some .ErrCSRStampSignerIsEmpty
      else none := by
  unfold validateCSRSigner VirgilSignatureType CSRStampSignerMaxLength
  by_cases h1 : signerType = "virgil"
  · have h1b : "virgil" = signerType := h1.symm
    rw [if_pos h1b, if_pos h1]
  · have h1b : ¬ ("virgil" = signerType) := fun e => h1 e.symm
    rw [if_neg h1b, if_neg h1]
    by_cases h2 : 1024 < len signerType
    · rw [if_pos h2, if_pos h2]
    · rw [if_neg h2, if_neg h2]
      by_cases h3 : signerType = ""
      · rw [if_pos ((len_eq_zero_iff _).2 h3), if_pos h3]
      · rw [if_neg (fun e => h3 ((len_eq_zero_iff _).1 e)), if_neg h3]

theorem validateCSRStampSignature_not_verifying (crypto : crypto.Provider SK)
    (encoder : encoder.Provider) (signature snapshot : String) (p : ParametersStore) :
    validateCSRStampSignature crypto encoder signature snapshot false p =
      ⟨if signature = "" then some .ErrCSRStampSignatureIsMissing
        else if (encoder.DecodeString signature).ok = false then some .ErrSignatureDecoding
        else none, p, []⟩ := by
  unfold validateCSRStampSignature
  by_cases h1 : signature = ""
  · rw [if_pos ((len_eq_zero_iff _).2 h1), if_pos h1]
  · rw [if_neg (fun e => h1 ((len_eq_zero_iff _).1 e)), if_neg h1]
    simp only []
    by_cases hd : (encoder.DecodeString signature).ok = true
    · simp [hd]
    · have hd2 : (encoder.DecodeString signature).ok = false := by simpa using hd
      simp [hd2]

/-- C27: on a stamp that is not a self stamp, `validateCSRStamp` returns the
first failing check in the order: snapshot present but not base64, decoded
snapshot longer than 1024 bytes, signature empty, signature not base64, signer
equal to "virgil", signer longer than 1024 bytes, signer empty; and nil if none
fails, leaving the parameter store as it was and verifying no signature.  In
particular a decoded snapshot of at most 1024 bytes and a non-empty signer of
at most 1024 bytes other than "virgil" are accepted. -/
theorem validateCSRStamp_order (crypto : crypto.Provider SK) (encoder : encoder.Provider)
    (s : CSRStamp) (p : ParametersStore) (hself : s.IsSelf = false) :
    (validateCSRStamp crypto encoder s p).err = firstFailingStampCheck encoder s ∧
    (validateCSRStamp crypto encoder s p).params = p ∧
    (validateCSRStamp crypto encoder s p).calls = [] ∧
    ((s.Snapshot = "" ∨ ((encoder.DecodeString s.Snapshot).ok = true ∧
        (encoder.DecodeString s.Snapshot).data.length ≤ 1024)) →
      s.Signature ≠ "" → (encoder.DecodeString s.Signature).ok = true →
      s.Signer ≠ "virgil" → len s.Signer ≤ 1024 → s.Signer ≠ "" →
      (validateCSRStamp crypto encoder s p).err = none) := by
  have hflag : (s.IsSelf && decide (0 < p.publicKey.length)) = false := by rw [hself]; rfl
  have herr : (validateCSRStamp crypto encoder s p).err = firstFailingStampCheck encoder s := by
    rw [validateCSRStamp_err, hflag, validateCSRStampSignature_not_verifying,
      validateCSRStampSnapshot_eq, validateCSRSigner_eq]
    unfold firstFailingStampCheck
    by_cases h1 : s.Snapshot ≠ "" ∧ (encoder.DecodeString s.Snapshot).ok = false
    · rw [if_pos h1, if_pos h1]
    · rw [if_neg h1, if_neg h1]
      by_cases h2 : s.Snapshot ≠ "" ∧ 1024 < (encoder.DecodeString s.Snapshot).data.length
      · rw [if_pos h2, if_pos h2]
      · rw [if_neg h2, if_neg h2]
        simp only []
        by_cases h3 : s.Signature = ""
        · rw [if_pos h3, if_pos h3]
        · rw [if_neg h3, if_neg h3]
          by_cases h4 : (encoder.DecodeString s.Signature).ok = false
          · rw [if_pos h4, if_pos h4]
          · rw [if_neg h4, if_neg h4]
  refine ⟨herr, (validateCSRStamp_other crypto encoder s p hflag).1,
    (validateCSRStamp_other crypto encoder s p hflag).2, ?_⟩
  intro hsnap hsig hdec hv hlen hne
  rw [herr]
  unfold firstFailingStampCheck
  have h1 : ¬ (s.Snapshot ≠ "" ∧ (encoder.DecodeString s.Snapshot).ok = false) := by
    rintro ⟨hn, hf⟩
    rcases hsnap with h | ⟨h, _⟩
    · exact hn h
    · rw [h] at hf
      cases hf
  have h2 : ¬ (s.Snapshot ≠ "" ∧ 1024 < (encoder.DecodeString s.Snapshot).data.length) := by
    rintro ⟨hn, hf⟩
    rcases hsnap with h | ⟨_, h⟩
    · exact hn h
    · omega
  have h4 : ¬ ((encoder.DecodeString s.Signature).ok = false) := by rw [hdec]; decide
  have h6 : ¬ (1024 < len s.Signer) := by omega
  rw [if_neg h1, if_neg h2, if_neg hsig, if_neg h4, if_neg hv, if_neg h6, if_neg hne]

theorem len_replicate_a (n : Nat) : len (String.mk (List.replicate n 'a')) = n := by
  show String.utf8ByteSize.go (List.replicate n 'a') = n
  rw [utf8ByteSize_go_ascii]
  · exact List.length_replicate _ _
  · intro c hc
    rw [List.eq_of_mem_replicate hc]
    decide

/-- C27, concrete run: an application stamp without signature is refused with
`ErrCSRStampSignatureIsMissing`, and a stamp with a custom signer of exactly
1024 bytes and a snapshot that decodes to exactly 1024 bytes is accepted. -/
theorem validateCSRStamp_order_witness :
    (validateCSRStamp Example.wiring.crypto encoder.Hex
      { Signer := "app" } { publicKey := Example.key, csr := [1] }).err =
        some .ErrCSRStampSignatureIsMissing ∧
    len Example.limitStamp.Signer = 1024 ∧
    (encoder.Hex.DecodeString Example.limitStamp.Snapshot).data.length = 1024 ∧
    (validateCSRStamp Example.wiring.crypto encoder.Hex Example.limitStamp
      { publicKey := Example.key, csr := [1] }).err = none :=
  have hsigner : Example.limitStamp.Signer.length = 1024 := List.length_replicate _ _
  have hself : Example.limitStamp.IsSelf = false :=
    Bool.eq_false_iff.2 (fun h =>
      absurd ((congrArg String.length (isSelf_signer _ h)).symm.trans hsigner) (by decide))
  have hdec : encoder.Hex.DecodeString Example.limitStamp.Snapshot =
      ⟨List.replicate 1024 0, true⟩ := Hex_roundTrips _
  ⟨((validateCSRStamp_order Example.wiring.crypto encoder.Hex { Signer := "app" }
      { publicKey := Example.key, csr := [1] } (by decide)).1).trans (by decide),
   len_replicate_a 1024,
   (congrArg (fun d => d.data.length) hdec).trans (List.length_replicate _ _),
   (validateCSRStamp_order Example.wiring.crypto encoder.Hex Example.limitStamp
      { publicKey := Example.key, csr := [1] } hself).2.2.2
     (Or.inr ⟨congrArg Decoded.ok hdec,
       Nat.le_of_eq ((congrArg (fun d => d.data.length) hdec).trans
         (List.length_replicate _ _))⟩)
     (by decide) (by decide)
     (fun h => absurd ((congrArg String.length h).symm.trans hsigner) (by decide))
     (Nat.le_of_eq (len_replicate_a 1024))
     (fun h => absurd ((congrArg String.length h).symm.trans hsigner) (by decide))⟩

/-! ## Signers of an accepted stamp list -/

theorem CSRStampsValidator_Validate_none_iff (crypto : crypto.Provider SK)
    (encoder : encoder.Provider) (xs : List CSRStamp) (scopeID : String)
    (p : ParametersStore) :
    (CSRStampsValidator.Validate crypto encoder xs scopeID p).err = none ↔
      1 ≤ xs.length ∧ xs.length ≤ 8 ∧
      (∀ s ∈ xs, (validateCSRStamp crypto encoder s p).err = none) ∧
      xs.countP CSRStamp.IsSelf = 1 := by
  have hin : 1 ≤ xs.length → xs.length ≤ 8 →
      CSRStampsValidator.Validate crypto encoder xs scopeID p =
        validateCSRStampsLoop crypto encoder xs false p := by
    intro h1 h2
    unfold CSRStampsValidator.Validate CSRStampsListMinLength CSRStampsListMaxLength
    rw [if_neg (by omega), if_neg (by omega)]
  have hval := validateCSRStampsLoop_err_of_valid crypto encoder xs false p p rfl rfl
  simp only [Bool.toNat_false, Nat.add_zero] at hval
  constructor
  · intro h
    by_cases h1 : 1 ≤ xs.length
    · by_cases h2 : xs.length ≤ 8
      · rw [hin h1 h2] at h
        have hv := validateCSRStampsLoop_valid_of_none crypto encoder xs false p p rfl rfl h
        refine ⟨h1, h2, hv, ?_⟩
        have he := hval hv
        rw [h] at he
        by_contra hc
        by_cases h0 : xs.countP CSRStamp.IsSelf = 0
        · rw [if_pos h0] at he; cases he
        · rw [if_neg h0, if_neg hc] at he; cases he
      · exfalso
        unfold CSRStampsValidator.Validate CSRStampsListMinLength CSRStampsListMaxLength at h
        rw [if_neg (by omega), if_pos (by omega)] at h
        cases h
    · exfalso
      unfold CSRStampsValidator.Validate CSRStampsListMinLength at h
      rw [if_pos (by omega)] at h
      cases h
  · rintro ⟨h1, h2, hv, hc⟩
    rw [hin h1 h2, hval hv, hc]
    rfl

theorem countP_IsApplication_le (xs : List CSRStamp) :
    xs.countP CSRStamp.IsApplication + xs.countP CSRStamp.IsSelf ≤ xs.length := by
  induction xs with
  | nil => simp
  | cons s rest ih =>
    have hex : ¬ (s.IsApplication = true ∧ s.IsSelf = true) := by
      rintro ⟨ha, hs⟩
      have h1 : s.Signer = "app" := by
        unfold CSRStamp.IsApplication ApplicationSignatureType at ha
        exact (beq_iff_eq.1 ha).symm
      have h2 := isSelf_signer s hs
      rw [h1] at h2
      exact absurd h2 (by decide)
    simp only [List.countP_cons, List.length_cons]
    by_cases ha : s.IsApplication = true
    · by_cases hs : s.IsSelf = true
      · exact absurd ⟨ha, hs⟩ hex
      · simp only [ha, hs, if_true, Bool.false_eq_true, if_false]
        omega
    · by_cases hs : s.IsSelf = true
      · simp only [ha, hs, if_true, Bool.false_eq_true, if_false]
        omega
      · simp only [ha, hs, Bool.false_eq_true, if_false]
        omega

/-- C30, counterexample: the create request for the example root card with two
application stamps is accepted by the create validation and by `CardCreate`. -/
theorem create_accepts_two_application_stamps :
    (CreateCardValidator.Validate Example.wiring.crypto (encoder.Base64 encoder.Hex)
      Example.unmarshal (CardRepository.provider encoder.Hex {}) Example.createRootTwoApps
      NewCardDTO).err = none ∧
    (∃ card db, Controller.CardCreate Example.wiring (some "chain-1") {}
      Example.createRootTwoApps = (.ok card, db)) ∧
    Example.createRootTwoApps.CSRStamps.countP CSRStamp.IsApplication = 2 ∧
    ¬ AtMostOneAppAndOneSelf Example.createRootTwoApps.CSRStamps :=
  ⟨by decide, ⟨_, _, rfl⟩, by decide, fun h => absurd h.1 (by decide)⟩

/-- C30, amended: every stamp list accepted by the create validation contains
exactly one stamp with signer "self", no stamp with signer "virgil", and at
most seven stamps with signer "app", a bound that comes from the list length of
at most 8 alone: a list accepted by the stamp validation stays accepted when
one more valid application stamp is added, as long as it has fewer than 8
stamps. -/
theorem accepted_stamps_signers (crypto : crypto.Provider SK) (encoder : encoder.Provider)
    (unmarshal : Unmarshal) (repo : dao.CardRepositoryProvider) (request : CardBaseRequest)
    (card0 : CardDTO)
    (h : (CreateCardValidator.Validate crypto encoder unmarshal repo request card0).err =
      none) :
    request.CSRStamps.countP CSRStamp.IsSelf = 1 ∧
    request.CSRStamps.countP CSRStamp.IsApplication ≤ 7 ∧
    request.CSRStamps.length ≤ 8 ∧
    (∀ s ∈ request.CSRStamps, s.Signer ≠ "virgil") ∧
    (∀ (xs : List CSRStamp) (scopeID : String) (p : ParametersStore) (a : CSRStamp),
      (CSRStampsValidator.Validate crypto encoder xs scopeID p).err = none →
      xs.length < 8 → a.IsApplication = true →
      (validateCSRStamp crypto encoder a p).err = none →
      (CSRStampsValidator.Validate crypto encoder (xs ++ [a]) scopeID p).err = none) := by
  have hst : ∃ params, (CSRStampsValidator.Validate crypto encoder request.CSRStamps
      request.ApplicationID params).err = none := by
    rw [CreateCardValidator_Validate_err] at h
    cases hc : CSRValidator.Validate encoder unmarshal request.CSR {} request.UserID with
    | error e =>
      rw [hc] at h
      cases h
    | ok pc =>
      obtain ⟨params, csr⟩ := pc
      rw [hc] at h
      simp only [] at h
      cases hs : (CSRStampsValidator.Validate crypto encoder request.CSRStamps
          request.ApplicationID params).err with
      | none => exact ⟨params, hs⟩
      | some e =>
        rw [hs] at h
        cases h
  obtain ⟨params, hs⟩ := hst
  obtain ⟨_, h8, hv, hself⟩ := (CSRStampsValidator_Validate_none_iff _ _ _ _ _).1 hs
  refine ⟨hself, ?_, h8, ?_, ?_⟩
  · have := countP_IsApplication_le request.CSRStamps
    omega
  · intro s hsm
    exact validateCSRStamp_signer crypto encoder s params (hv s hsm)
  · intro xs scopeID p a hacc hlen happ hva
    obtain ⟨h1, _, hvx, hsx⟩ := (CSRStampsValidator_Validate_none_iff _ _ _ _ _).1 hacc
    apply (CSRStampsValidator_Validate_none_iff _ _ _ _ _).2
    have hns : a.IsSelf = false := by
      cases hb : a.IsSelf with
      | false => rfl
      | true =>
        have h1 : a.Signer = "app" := by
          unfold CSRStamp.IsApplication ApplicationSignatureType at happ
          exact (beq_iff_eq.1 happ).symm
        have h2 := isSelf_signer a hb
        rw [h1] at h2
        exact absurd h2 (by decide)
    refine ⟨by simp, by simp; omega, ?_, ?_⟩
    · intro s hsm
      rcases List.mem_append.1 hsm with hm | hm
      · exact hvx s hm
      · rw [List.mem_singleton.1 hm]
        exact hva
    · rw [List.countP_append, hsx]
      simp [hns]

/-- C30 amended, concrete run: the accepted request with two application stamps
has exactly one self stamp, and its stamp list with one more application stamp
is accepted by the stamp validation. -/
theorem accepted_stamps_signers_witness :
    Example.createRootTwoApps.CSRStamps.countP CSRStamp.IsSelf = 1 ∧
    (CSRStampsValidator.Validate Example.wiring.crypto (encoder.Base64 encoder.Hex)
      (Example.createRootTwoApps.CSRStamps ++ [{ Signer := "app", Signature := "cc" }]) "S1"
      { publicKey := Example.key, csr := [1] }).err = none :=
  ⟨(accepted_stamps_signers Example.wiring.crypto (encoder.Base64 encoder.Hex)
      Example.unmarshal (CardRepository.provider encoder.Hex {}) Example.createRootTwoApps
      NewCardDTO (by decide)).1,
   (accepted_stamps_signers Example.wiring.crypto (encoder.Base64 encoder.Hex)
      Example.unmarshal (CardRepository.provider encoder.Hex {}) Example.createRootTwoApps
      NewCardDTO (by decide)).2.2.2.2 Example.createRootTwoApps.CSRStamps "S1"
      { publicKey := Example.key, csr := [1] } { Signer := "app", Signature := "cc" }
      (by decide) (by decide) (by decide) (by decide)⟩

/-! ## Submitting a create request twice -/

theorem CardCreate_refused (w : Wiring SK) (newV4 : Option String) (db : Store)
    (request : CardBaseRequest) (e : ApiError)
    (h : (CreateCardValidator.Validate w.crypto (encoder.Base64 w.StdEncoding) w.unmarshal
      (CardRepository.provider w.StdEncoding db) request NewCardDTO).err = some e) :
    Controller.CardCreate w newV4 db request = (.error e, db) := by
  unfold Controller.CardCreate
  simp only [h]

theorem GetCardByID_saved (std : encoder.Provider) (hrt : RoundTrips std) (db : Store)
    (card : CardDTO) :
    ∃ got, CardRepository.GetCardByID std (CardRepository.SaveCard std db card) card.ID =
      .ok got := by
  have hf : (CardRepository.SaveCard std db card).card_by_card_id.find?
      (fun r => r.id == card.ID) = some (CardRow.ofCard std card) := by
    rw [SaveCard_card_by_card_id]
    exact find_insertCardByID (CardRow.ofCard std card) db.card_by_card_id
  have hk : (std.DecodeString (CardRow.ofCard std card).public_key).ok = true := by
    show (std.DecodeString (std.EncodeToString card.PublicKey)).ok = true
    rw [hrt]
  exact ⟨_, GetCardByID_find_some std _ card.ID _ hf hk⟩

/-- C25, counterexample: the create request for the successor of the example
root card succeeds once; submitted again it is refused with
`ErrPreviousVirgilCardExistsAlready`, not with the duplicate error. -/
theorem repeated_create_of_successor :
    (∃ card, Controller.CardCreate Example.wiring (some "chain-2") Example.oneCard
      Example.createNext = (.ok card, Example.twoCards)) ∧
    Controller.CardCreate Example.wiring (some "chain-3") Example.twoCards
      Example.createNext = (.error .ErrPreviousVirgilCardExistsAlready, Example.twoCards) ∧
    ApiError.ErrPreviousVirgilCardExistsAlready ≠
      ApiError.ErrVirgilCardContentSnapshotIsNotUnique :=
  ⟨⟨_, rfl⟩, rfl, by decide⟩

/-- C25, amended: for every create request for which `CardCreate` succeeds,
submitting the identical request again is rejected and leaves the store
unchanged; the error is `ErrVirgilCardContentSnapshotIsNotUnique` when the card
names no predecessor, and `ErrPreviousVirgilCardExistsAlready` when it names
one. -/
theorem CardCreate_twice (w : Wiring SK) (hrt : RoundTrips w.StdEncoding)
    (newV4 newV42 : Option String) (db db2 : Store) (request : CardBaseRequest)
    (card : CardDTO)
    (h : Controller.CardCreate w newV4 db request = (.ok card, db2)) :
    (card.PreviousCardID = "" →
      Controller.CardCreate w newV42 db2 request =
        (.error .ErrVirgilCardContentSnapshotIsNotUnique, db2)) ∧
    (card.PreviousCardID ≠ "" →
      Controller.CardCreate w newV42 db2 request =
        (.error .ErrPreviousVirgilCardExistsAlready, db2)) := by
  obtain ⟨hacc, _, _, hdb⟩ := CardCreate_accepted _ _ _ _ _ _ h
  obtain ⟨_, hv, _, _, _, _, _⟩ := (CardCreate_ok_iff _ _ _ _ _ _).1 h
  rw [CreateCardValidator_Validate_err] at hv
  cases hc : CSRValidator.Validate (encoder.Base64 w.StdEncoding) w.unmarshal request.CSR {}
      request.UserID with
  | error e =>
    rw [hc] at hv
    cases hv
  | ok pc =>
    obtain ⟨params, csr⟩ := pc
    rw [hc] at hv
    simp only [] at hv
    cases hs : (CSRStampsValidator.Validate w.crypto (encoder.Base64 w.StdEncoding)
        request.CSRStamps request.ApplicationID params).err with
    | some e =>
      rw [hs] at hv
      cases hv
    | none =>
      obtain ⟨⟨_, _, hun, _, _, _, _, _⟩, hparams⟩ :=
        (CSRValidator_Validate_ok_iff _ _ _ _ _ _ _).1 hc
      obtain ⟨csr2, hun2, hprev⟩ := hacc.csr
      rw [hun] at hun2
      injection hun2 with hun2
      subst hun2
      have hid : w.crypto.CalculateCardID params.csr = card.ID := by
        rw [hacc.id, hparams]
      constructor
      · intro hp
        apply CardCreate_refused
        rw [CreateCardValidator_Validate_err, hc]
        simp only [hs]
        have hpv : validatePreviousCardID (CardRepository.provider w.StdEncoding db2)
            csr.PreviousCardID request.ApplicationID csr.Identity = none := by
          unfold validatePreviousCardID
          rw [if_pos (by rw [← hprev]; exact hp)]
        rw [hpv]
        simp only []
        obtain ⟨got, hgot⟩ := GetCardByID_saved w.StdEncoding hrt db card
        rw [hid]
        unfold validateVirgilCardDuplicates
        simp only [CardRepository.provider]
        rw [hdb, hgot]
      · intro hp
        apply CardCreate_refused
        rw [CreateCardValidator_Validate_err, hc]
        simp only [hs]
        have hne : csr.PreviousCardID ≠ "" := by rw [← hprev]; exact hp
        have hex : CardRepository.DoesCardExistByPreviousIDAndScopeID db2 csr.PreviousCardID
            request.ApplicationID = .ok true := by
          rw [DoesCardExist_true_iff db2 _ _ hne, hdb, SaveCard_card_previous_ids, if_pos hp,
            mem_insertPreviousID, hprev, hacc.application_id]
          exact Or.inl rfl
        have hpv : validatePreviousCardID (CardRepository.provider w.StdEncoding db2)
            csr.PreviousCardID request.ApplicationID csr.Identity =
              some .ErrPreviousVirgilCardExistsAlready := by
          unfold validatePreviousCardID
          rw [if_neg hne]
          simp only [CardRepository.provider, hex, if_true]
        rw [hpv]

/-- C25 amended, concrete run: the create request for the example root card,
submitted again on the store it left, is refused with the duplicate error and
the store is unchanged. -/
theorem CardCreate_twice_witness :
    Controller.CardCreate Example.wiring (some "chain-3") Example.oneCard
      Example.createRoot =
        (.error .ErrVirgilCardContentSnapshotIsNotUnique, Example.oneCard) :=
  (CardCreate_twice Example.wiring Hex_roundTrips (some "chain-1") (some "chain-3") {}
    Example.oneCard Example.createRoot
    { ID := Example.rootID, ContentSnapshot := "01", Identity := "alice",
      ApplicationID := "S1", Version := "5.0", ChainID := "chain-1",
      CreatedAt := 1700000000,
      Signatures := [Example.selfStamp.toDTO, Example.appStamp.toDTO,
        { Signer := "virgil", Signature := "0901" }],
      PublicKey := Example.key } rfl).1 rfl

/-! ## The stamps of a tombstone card -/

theorem countP_IsVirgil_map (l : List CSRStamp) :
    (l.map CSRStamp.toDTO).countP CardSignatureDTO.IsVirgil = l.countP CSRStamp.IsVirgil := by
  induction l with
  | nil => rfl
  | cons s l ih =>
    rw [List.map_cons, List.countP_cons, List.countP_cons, ih]
    rfl

/-- C23, counterexample: the delete request for the example root card with a
client stamp whose signer is "virgil" is accepted; the tombstone returned and
the row saved carry two stamps with signer "virgil", the client's and the
service's. -/
theorem delete_accepts_client_virgil_stamp :
    ∃ db2, Controller.CardDelete Example.wiring none 99 Example.oneCard
        Example.deleteRootVirgil =
      (.ok { Example.tombstone with Signatures :=
        [{ Signer := "virgil", Signature := "zz" },
         { Signer := "virgil", Signature := "0903" }] }, db2) ∧
    (db2.card_by_card_id.find? (fun r => r.id == Example.tombstoneID)).map
        (fun r => wrapDBSignatureListToDTOs r.signatures) =
      some [{ Signer := "virgil", Signature := "zz" },
        { Signer := "virgil", Signature := "0903" }] ∧
    List.countP CardSignatureDTO.IsVirgil
      [{ Signer := "virgil", Signature := "zz" },
       { Signer := "virgil", Signature := "0903" }] = 2 :=
  ⟨_, rfl, rfl, rfl⟩

/-- C23, amended: every tombstone card returned and saved by a successful
`CardDelete` carries the stamps of the request, unchanged, followed by the one
stamp with signer "virgil" that the service appends (the signature of the
decoded snapshot under the service key); the row saved under the card's id
holds the same signatures.  The number of stamps with signer "virgil" is one
more than the number the request supplied, so it is exactly one precisely when
the request supplied none. -/
theorem CardDelete_signatures (w : Wiring SK) (newV4 : Option String) (now : Int)
    (db db2 : Store) (request : CardBaseRequest) (card : CardDTO)
    (h : Controller.CardDelete w newV4 now db request = (.ok card, db2)) :
    (∃ signature,
      w.crypto.SignVirgilCard (w.StdEncoding.DecodeString request.CSR).data []
        w.cards5PrivateKey = .ok signature ∧
      card.Signatures = request.CSRStamps.map CSRStamp.toDTO ++
        [{ Signer := "virgil", Signature := w.StdEncoding.EncodeToString signature }]) ∧
    db2.card_by_card_id.find? (fun r => r.id == card.ID) =
      some (CardRow.ofCard w.StdEncoding card) ∧
    wrapDBSignatureListToDTOs (CardRow.ofCard w.StdEncoding card).signatures =
      card.Signatures ∧
    card.Signatures.countP CardSignatureDTO.IsVirgil =
      request.CSRStamps.countP CSRStamp.IsVirgil + 1 ∧
    (card.Signatures.countP CardSignatureDTO.IsVirgil = 1 ↔
      ∀ s ∈ request.CSRStamps, s.Signer ≠ "virgil") := by
  rcases CardDelete_cases w newV4 now db request with ⟨e, he⟩ | ⟨c1, card2, dbm, _, hv, hc, hs,
    hset, _, _, _, hres⟩
  · rw [he] at h
    cases h
  · rw [hres] at h
    injection h with h1 h2
    injection h1 with h1
    subst h1
    obtain ⟨hb, heq, _, _⟩ := DeleteCardValidator_Validate_ok _ _ _ _ _ _ hv
    rw [heq] at hc
    obtain ⟨params, csr, _, _, _, _, h5, _⟩ := BaseCardValidator_Validate_ok _ _ _ _ _ _ _ hb
    obtain ⟨hc1, _, _⟩ := SetCardChainID_cases _ _ _ _ hc
    obtain ⟨_, signature, hsig, hc2⟩ := SignCardByCardsService_ok _ _ _ _ hs
    rw [h5, fillVirgilCardModel_eq] at hc1
    have hsn : c1.ContentSnapshot = request.CSR := by rw [hc1]; rfl
    have hsg : c1.Signatures = request.CSRStamps.map CSRStamp.toDTO := by
      rw [hc1]
      show NewCardDTO.Signatures ++ request.CSRStamps.map CSRStamp.toDTO = _
      rfl
    have hcard : card2.Signatures = request.CSRStamps.map CSRStamp.toDTO ++
        [{ Signer := "virgil", Signature := w.StdEncoding.EncodeToString signature }] := by
      rw [hc2, ← hsg]
    have hcount : card2.Signatures.countP CardSignatureDTO.IsVirgil =
        request.CSRStamps.countP CSRStamp.IsVirgil + 1 := by
      rw [hcard, List.countP_append, countP_IsVirgil_map]
      rfl
    refine ⟨⟨signature, ?_, hcard⟩, ?_, wrap_roundtrip _, hcount, ?_⟩
    · rw [← hsn]
      exact hsig
    · rw [← h2, SaveCard_card_by_card_id]
      exact find_insertCardByID (CardRow.ofCard w.StdEncoding card2) dbm.card_by_card_id
    · rw [hcount]
      constructor
      · intro h0 s hs1 hs2
        have h00 : request.CSRStamps.countP CSRStamp.IsVirgil = 0 := by omega
        rw [List.countP_eq_zero] at h00
        apply h00 s hs1
        unfold CSRStamp.IsVirgil VirgilSignatureType
        rw [hs2]
        decide
      · intro h0
        have h00 : request.CSRStamps.countP CSRStamp.IsVirgil = 0 := by
          rw [List.countP_eq_zero]
          intro s hs1 hs2
          apply h0 s hs1
          unfold CSRStamp.IsVirgil VirgilSignatureType at hs2
          exact (beq_iff_eq.1 hs2).symm
        omega

/-- C23 amended, concrete run: the delete request for the example root card,
which carries no stamps, yields a tombstone whose only stamp is the service's
"virgil" stamp, and that is what the saved row holds. -/
theorem CardDelete_signatures_witness :
    Example.tombstone.Signatures = [{ Signer := "virgil", Signature := "0903" }] ∧
    Example.deletedChain.card_by_card_id.find? (fun r => r.id == Example.tombstoneID) =
      some (CardRow.ofCard Example.wiring.StdEncoding Example.tombstone) ∧
    List.countP CardSignatureDTO.IsVirgil Example.tombstone.Signatures = 1 :=
  have h := CardDelete_signatures Example.wiring none 99 Example.oneCard Example.deletedChain
    Example.deleteRoot Example.tombstone rfl
  ⟨rfl, h.2.1, h.2.2.2.2.2 (fun _ hs => (List.not_mem_nil _ hs).elim)⟩

/-! ## Search identities; the stored signature list; error codes -/

/-- C37: `CardSearchRequest.GetIdentities` returns the one-element list
`[Identity]` whenever `Identity` is non-empty, whatever `Identities` holds, and
otherwise exactly `Identities`, in order (the empty list when both are absent);
so the result never holds the single identity together with the list. -/
theorem GetIdentities_spec (r : CardSearchRequest) :
    r.GetIdentities = (if r.Identity ≠ "" then [r.Identity] else r.Identities) ∧
    ({ r with Identity := "" }).GetIdentities = r.Identities ∧
    ({ Identity := "alice", Identities := ["bob", "carol"] } : CardSearchRequest).GetIdentities =
      ["alice"] ∧
    ({ Identities := ["bob", "carol"] } : CardSearchRequest).GetIdentities = ["bob", "carol"] ∧
    ({} : CardSearchRequest).GetIdentities = [] := by
  have key : ∀ q : CardSearchRequest,
      q.GetIdentities = (if q.Identity ≠ "" then [q.Identity] else q.Identities) := by
    intro q
    unfold CardSearchRequest.GetIdentities
    by_cases h : q.Identity ≠ ""
    · rw [if_pos h, if_pos h]
      rfl
    · rw [if_neg h, if_neg h]
      by_cases hl : q.Identities.length > 0
      · rw [if_pos hl]
        rfl
      · rw [if_neg hl]
        have h0 : q.Identities.length = 0 := by omega
        rw [List.length_eq_zero] at h0
        rw [h0]
  refine ⟨key r, ?_, by decide, by decide, by decide⟩
  rw [key]
  simp

/-- C39: for every list `xs` of signature entries, converting it with
`wrapSignatureDTOsToDBSignatureList` and back with `wrapDBSignatureListToDTOs`
gives a list of the same length with, at every position, the same signer,
signature and snapshot. -/
theorem signature_list_round_trip (xs : List CardSignatureDTO) :
    (wrapDBSignatureListToDTOs (wrapSignatureDTOsToDBSignatureList xs)).length = xs.length ∧
    (wrapSignatureDTOsToDBSignatureList xs).length = xs.length ∧
    ∀ i : Nat,
      ((wrapDBSignatureListToDTOs (wrapSignatureDTOsToDBSignatureList xs))[i]?).map
          CardSignatureDTO.Signer = (xs[i]?).map CardSignatureDTO.Signer ∧
      ((wrapDBSignatureListToDTOs (wrapSignatureDTOsToDBSignatureList xs))[i]?).map
          CardSignatureDTO.Signature = (xs[i]?).map CardSignatureDTO.Signature ∧
      ((wrapDBSignatureListToDTOs (wrapSignatureDTOsToDBSignatureList xs))[i]?).map
          CardSignatureDTO.Snapshot = (xs[i]?).map CardSignatureDTO.Snapshot := by
  rw [wrap_roundtrip, wrapSignatureDTOs_eq_map, List.length_map]
  exact ⟨rfl, rfl, fun _ => ⟨rfl, rfl, rfl⟩⟩

theorem code_declaration (e : ApiError) : e.declaration.code = e.code := by
  cases e <;> rfl

theorem declaration_mem (e : ApiError) : e.declaration ∈ ApiError.declared 0 := by
  cases e with
  | ErrIdentitySearchCountIsLimited n =>
    show ApiError.ErrIdentitySearchCountIsLimited 0 ∈ ApiError.declared 0
    decide
  | _ => decide

theorem declared_codes_nodup : ((ApiError.declared 0).map ApiError.code).Nodup := by
  decide

/-- C40: the numeric codes of the forty error values declared in
`api/errors.go` are pairwise distinct: two error values have the same code
exactly when they come from the same declaration. -/
theorem error_codes_distinct :
    (∀ n, ((ApiError.declared n).map ApiError.code).Nodup) ∧
    (∀ n, (ApiError.declared n).length = 40) ∧
    (∀ e : ApiError, e.declaration ∈ ApiError.declared 0) ∧
    (∀ e1 e2 : ApiError, e1.code = e2.code ↔ e1.declaration = e2.declaration) := by
  have hmap : ∀ n, (ApiError.declared n).map ApiError.code =
      (ApiError.declared 0).map ApiError.code := fun _ => rfl
  refine ⟨fun n => ?_, fun n => rfl, declaration_mem, ?_⟩
  · rw [hmap]
    exact declared_codes_nodup
  · intro e1 e2
    constructor
    · intro h
      apply List.inj_on_of_nodup_map declared_codes_nodup (declaration_mem e1)
        (declaration_mem e2)
      rw [code_declaration, code_declaration]
      exact h
    · intro h
      rw [← code_declaration e1, ← code_declaration e2, h]

/-! ## The error of a failed signature verification; the snapshot is decoded twice -/

theorem validateCSRStampSnapshot_decoded (encoder : encoder.Provider) (snapshot : String)
    (h : validateCSRStampSnapshot encoder snapshot = none) (hne : snapshot ≠ "") :
    (encoder.DecodeString snapshot).ok = true := by
  unfold validateCSRStampSnapshot at h
  rw [if_neg hne] at h
  simp only [] at h
  cases hok : (encoder.DecodeString snapshot).ok
  · simp [hok] at h
  · rfl

theorem validateCSRStampSignature_ne_internal (crypto : crypto.Provider SK)
    (encoder : encoder.Provider) (sig snap : String) (flag : Bool) (p : ParametersStore)
    (h : snap ≠ "" → (encoder.DecodeString snap).ok = true) :
    (validateCSRStampSignature crypto encoder sig snap flag p).err ≠
      some .ErrInternalError := by
  unfold validateCSRStampSignature
  simp only []
  by_cases h1 : 0 = len sig
  · rw [if_pos h1]
    simp
  · rw [if_neg h1]
    by_cases h2 : (!(encoder.DecodeString sig).ok) = true
    · rw [if_pos h2]
      simp
    · rw [if_neg h2]
      cases flag
      · simp
      · rw [if_pos rfl]
        by_cases h3 : snap = ""
        · rw [if_pos h3]
          split <;> simp
        · rw [if_neg h3]
          have hok := h h3
          rw [hok]
          simp only [Bool.not_true, Bool.false_eq_true, if_false]
          split <;> simp

theorem validateCSRStamp_ne_internal (crypto : crypto.Provider SK)
    (encoder : encoder.Provider) (s : CSRStamp) (p : ParametersStore) :
    (validateCSRStamp crypto encoder s p).err ≠ some .ErrInternalError := by
  rw [validateCSRStamp_err]
  cases hs : validateCSRStampSnapshot encoder s.Snapshot with
  | some e =>
    simp only []
    intro he
    injection he with he
    subst he
    unfold validateCSRStampSnapshot at hs
    simp only [] at hs
    split_ifs at hs <;> simp at hs
  | none =>
    simp only []
    have h2 := validateCSRStampSignature_ne_internal crypto encoder s.Signature s.Snapshot
      (s.IsSelf && decide (0 < p.publicKey.length)) p
      (validateCSRStampSnapshot_decoded encoder s.Snapshot hs)
    cases hg : (validateCSRStampSignature crypto encoder s.Signature s.Snapshot
        (s.IsSelf && decide (0 < p.publicKey.length)) p).err with
    | some e => rw [hg] at h2; simpa using h2
    | none =>
      simp only []
      unfold validateCSRSigner
      split_ifs <;> simp

theorem validateCSRStampsLoop_ne_internal (crypto : crypto.Provider SK)
    (encoder : encoder.Provider) (xs : List CSRStamp) :
    ∀ (flag : Bool) (p : ParametersStore),
      (validateCSRStampsLoop crypto encoder xs flag p).err ≠ some .ErrInternalError := by
  induction xs with
  | nil => intro flag p; cases flag <;> simp [validateCSRStampsLoop]
  | cons x xs ih =>
    intro flag p
    have hx := validateCSRStamp_ne_internal crypto encoder x p
    unfold validateCSRStampsLoop
    simp only []
    split
    · next e he => rw [he] at hx; rw [he]; exact hx
    · split_ifs
      · simp
      · exact ih true _
      · exact ih flag _

theorem CSRStampsValidator_Validate_ne_internal (crypto : crypto.Provider SK)
    (encoder : encoder.Provider) (xs : List CSRStamp) (scopeID : String)
    (p : ParametersStore) :
    (CSRStampsValidator.Validate crypto encoder xs scopeID p).err ≠
      some .ErrInternalError := by
  unfold CSRStampsValidator.Validate
  split_ifs
  · simp
  · simp
  · exact validateCSRStampsLoop_ne_internal crypto encoder xs false p

/-- C38: within `CSRStampsValidator.Validate` the `ErrInternalError` branch of
`validateCSRStampSignature` is never taken.  The decoder being a function,
whenever `validateCSRStamp` reaches the signature check of a stamp with a
non-empty extra snapshot, `validateCSRStampSnapshot` has already decoded that
string with success, so the second decoding succeeds; hence neither
`validateCSRStamp` nor `CSRStampsValidator.Validate` returns
`ErrInternalError`.  The branch itself is live: called directly with a snapshot
that does not decode, `validateCSRStampSignature` returns `ErrInternalError`. -/
theorem internal_error_branch_unreachable (crypto : crypto.Provider SK)
    (encoder : encoder.Provider) :
    (∀ s : CSRStamp, validateCSRStampSnapshot encoder s.Snapshot = none →
      s.Snapshot ≠ "" → (encoder.DecodeString s.Snapshot).ok = true) ∧
    (∀ (s : CSRStamp) (p : ParametersStore),
      (validateCSRStamp crypto encoder s p).err ≠ some .ErrInternalError) ∧
    (∀ (xs : List CSRStamp) (scopeID : String) (p : ParametersStore),
      (CSRStampsValidator.Validate crypto encoder xs scopeID p).err ≠
        some .ErrInternalError) ∧
    (∀ (signature snapshot : String) (p : ParametersStore),
      signature ≠ "" → (encoder.DecodeString signature).ok = true →
      snapshot ≠ "" → (encoder.DecodeString snapshot).ok = false →
      (validateCSRStampSignature crypto encoder signature snapshot true p).err =
        some .ErrInternalError) := by
  refine ⟨fun s h hne => validateCSRStampSnapshot_decoded encoder s.Snapshot h hne,
    validateCSRStamp_ne_internal crypto encoder,
    CSRStampsValidator_Validate_ne_internal crypto encoder, ?_⟩
  intro signature snapshot p h1 h2 h3 h4
  unfold validateCSRStampSignature
  have hl : ¬ 0 = len signature := fun h => h1 ((len_eq_zero_iff signature).1 h)
  rw [if_neg hl]
  simp only [h2, h4, h3, Bool.not_true, Bool.not_false, Bool.false_eq_true, if_false, if_true]

/-- C38, concrete run: the extra snapshot "0a0b" passes the snapshot check and
so decodes; the self stamp that carries it, with a signature that does not
verify, is refused with the verification error; and the signature check called
on its own with the snapshot "zz" takes the internal-error branch. -/
theorem internal_error_branch_unreachable_witness :
    (encoder.Hex.DecodeString "0a0b").ok = true ∧
    (validateCSRStamp Example.wiring.crypto encoder.Hex
        { Signer := "self", Signature := "01", Snapshot := "0a0b" }
        { publicKey := Example.key, csr := [1] }).err =
      some .ErrSignatureVerificationFailed ∧
    (validateCSRStampSignature Example.wiring.crypto encoder.Hex "01" "zz" true
        { publicKey := Example.key, csr := [1] }).err = some .ErrInternalError :=
  have h := internal_error_branch_unreachable Example.wiring.crypto encoder.Hex
  ⟨h.1 { Signer := "self", Signature := "01", Snapshot := "0a0b" } (by decide) (by decide),
   by decide,
   h.2.2.2 "01" "zz" { publicKey := Example.key, csr := [1] } (by decide) (by decide)
     (by decide) (by decide)⟩

/-! ## Failures of the signature primitive -/

theorem validateCSRStampSignature_verifying (crypto : crypto.Provider SK)
    (encoder : encoder.Provider) (s : CSRStamp) (p : ParametersStore)
    (hsnap : validateCSRStampSnapshot encoder s.Snapshot = none)
    (hsig : s.Signature ≠ "") (hdec : (encoder.DecodeString s.Signature).ok = true) :
    (validateCSRStampSignature crypto encoder s.Signature s.Snapshot true p).err =
      match crypto.ValidateVirgilCardSignature p.csr (stampExtra encoder s) p.publicKey
          (encoder.DecodeString s.Signature).data with
      | some _ => some .ErrSignatureVerificationFailed
      | none => none := by
  exact congrArg StampsOutcome.err
    (validateCSRStampSignature_self crypto encoder s p hsnap hsig hdec)

/-- C31, counterexample: with a crypto library that cannot import the
three-byte public key of the CSR, `ValidateVirgilCardSignature` fails on the
key import; the stamp validation of the self stamp reports
`ErrSignatureVerificationFailed` (HTTP 400), not `ErrInternalError`. -/
theorem key_import_failure_reported_as_verification_failure :
    Crypto.ValidateVirgilCardSignature Example.nativeStrict [1] [] [1, 2, 3] [1, 1] =
      some .publicKeyImport ∧
    CSRStampsValidator.Validate Example.cryptoStrict encoder.Hex
        [{ Signer := "self", Signature := "0101" }] "S1" { publicKey := [1, 2, 3], csr := [1] } =
      ⟨some .ErrSignatureVerificationFailed, { publicKey := [1, 2, 3], csr := [1] },
        [⟨[1], [], [1, 2, 3], [1, 1]⟩]⟩ ∧
    ApiError.ErrSignatureVerificationFailed ≠ ApiError.ErrInternalError ∧
    ApiError.ErrSignatureVerificationFailed.httpStatus = 400 := by
  decide

/-- C31, amended: during stamp validation every non-nil error of
`ValidateVirgilCardSignature` is reported as the validation failure
`ErrSignatureVerificationFailed`: a verification that completes with ok=false,
and equally a failure of the primitive itself (the public key cannot be
imported, or `Verify` returns an error).  A verification that completes with
ok=true is accepted, and no outcome of the verification is reported as
`ErrInternalError`. -/
theorem verification_errors_reported {PK : Type} (c : NativeCrypto PK SK)
    (idGenerator : generator.IDProvider) (encoder : encoder.Provider) (s : CSRStamp)
    (p : ParametersStore)
    (hsnap : validateCSRStampSnapshot encoder s.Snapshot = none)
    (hsig : s.Signature ≠ "") (hdec : (encoder.DecodeString s.Signature).ok = true) :
    (c.ImportPublicKey p.publicKey = none →
      (validateCSRStampSignature (NewCrypto c idGenerator) encoder s.Signature s.Snapshot
        true p).err = some .ErrSignatureVerificationFailed) ∧
    (∀ key, c.ImportPublicKey p.publicKey = some key →
      c.Verify (p.csr ++ stampExtra encoder s) (encoder.DecodeString s.Signature).data key =
        none →
      (validateCSRStampSignature (NewCrypto c idGenerator) encoder s.Signature s.Snapshot
        true p).err = some .ErrSignatureVerificationFailed) ∧
    (∀ key, c.ImportPublicKey p.publicKey = some key →
      c.Verify (p.csr ++ stampExtra encoder s) (encoder.DecodeString s.Signature).data key =
        some false →
      (validateCSRStampSignature (NewCrypto c idGenerator) encoder s.Signature s.Snapshot
        true p).err = some .ErrSignatureVerificationFailed) ∧
    (∀ key, c.ImportPublicKey p.publicKey = some key →
      c.Verify (p.csr ++ stampExtra encoder s) (encoder.DecodeString s.Signature).data key =
        some true →
      (validateCSRStampSignature (NewCrypto c idGenerator) encoder s.Signature s.Snapshot
        true p).err = none) ∧
    (validateCSRStampSignature (NewCrypto c idGenerator) encoder s.Signature s.Snapshot
        true p).err ≠ some .ErrInternalError := by
  have key := validateCSRStampSignature_verifying (NewCrypto c idGenerator) encoder s p hsnap
    hsig hdec
  have hv : (NewCrypto c idGenerator).ValidateVirgilCardSignature p.csr (stampExtra encoder s)
      p.publicKey (encoder.DecodeString s.Signature).data =
      Crypto.ValidateVirgilCardSignature c p.csr (stampExtra encoder s) p.publicKey
        (encoder.DecodeString s.Signature).data := rfl
  rw [hv] at key
  refine ⟨?_, ?_, ?_, ?_, ?_⟩
  · intro h
    rw [key]
    unfold Crypto.ValidateVirgilCardSignature
    rw [h]
  · intro k h hver
    rw [key]
    unfold Crypto.ValidateVirgilCardSignature
    rw [h]
    simp only []
    rw [hver]
  · intro k h hver
    rw [key]
    unfold Crypto.ValidateVirgilCardSignature
    rw [h]
    simp only []
    rw [hver]
    rfl
  · intro k h hver
    rw [key]
    unfold Crypto.ValidateVirgilCardSignature
    rw [h]
    simp only []
    rw [hver]
    rfl
  · rw [key]
    split <;> simp

/-- C31 amended, concrete run: for the self stamp of a CSR whose three-byte
public key the library cannot import, the signature check reports
`ErrSignatureVerificationFailed`. -/
theorem verification_errors_reported_witness :
    (validateCSRStampSignature Example.cryptoStrict encoder.Hex "0101" "" true
      { publicKey := [1, 2, 3], csr := [1] }).err = some .ErrSignatureVerificationFailed :=
  (verification_errors_reported Example.nativeStrict
    (generator.NewID (hasher.SHA512 Example.sum512) encoder.Hex) encoder.Hex
    { Signer := "self", Signature := "0101" } { publicKey := [1, 2, 3], csr := [1] }
    (by decide) (by decide) (by decide)).1 (by decide)

/-! ## Requests without the identity header -/

theorem CSRValidator_Validate_error_mem (encoder : encoder.Provider)
    (unmarshal : Unmarshal) (s : String) (csr0 : CSR) (r : String) (e : ApiError)
    (h : CSRValidator.Validate encoder unmarshal s csr0 r = .error e) :
    e ∈ [ApiError.ErrCSRIsEmpty, .ErrContentSnapshotIsNotABase64EncodedString,
      .ErrContentSnapshotIsNotAJSONMessage, .ErrCSRCreationTimeIsIncorrect,
      .ErrCSRPublicKeyDecoding, .ErrCSRPublicKeyIsTooLong, .ErrCSRIdentityIsEmpty,
      .ErrCSRIdentityIsIncorrect, .ErrCSRIdentityDoesNotMatchRequestIdentity,
      .ErrCSRPreviousCardIDIsIncorrect, .ErrCSRVersionIsIncorrect] := by
  by_cases hs : s = ""
  · unfold CSRValidator.Validate at h
    rw [if_pos hs] at h
    injection h with h
    subst h
    decide
  · by_cases hd : (encoder.DecodeString s).ok = true
    · cases hu : unmarshal (encoder.DecodeString s).data csr0 with
      | error je =>
        unfold CSRValidator.Validate at h
        rw [if_neg hs, parseCSR_eq, hu] at h
        simp only [hd, Bool.true_eq_false, if_false] at h
        cases je with
        | UnmarshalTypeError f =>
          simp only [] at h
          by_cases hf : f = "created_at"
          · rw [if_pos hf] at h
            injection h with h
            subst h
            decide
          · rw [if_neg hf] at h
            injection h with h
            subst h
            decide
        | other =>
          simp only [] at h
          injection h with h
          subst h
          decide
      | ok c =>
        rw [CSRValidator_Validate_fields encoder unmarshal s csr0 r c hs hd hu] at h
        cases hf : firstFailingCSRFieldCheck encoder c r with
        | none => rw [hf] at h; cases h
        | some e2 =>
          rw [hf] at h
          injection h with h
          subst h
          unfold firstFailingCSRFieldCheck at hf
          split_ifs at hf <;> (injection hf with hf; subst hf; decide)
    · unfold CSRValidator.Validate at h
      rw [if_neg hs, parseCSR_eq] at h
      have hd2 : (encoder.DecodeString s).ok = false := by
        cases hb : (encoder.DecodeString s).ok
        · rfl
        · exact (hd hb).elim
      rw [if_pos hd2] at h
      injection h with h
      subst h
      decide

theorem CSRValidator_Validate_no_identity (encoder : encoder.Provider)
    (unmarshal : Unmarshal) (s : String) (csr0 : CSR) :
    ∃ e, CSRValidator.Validate encoder unmarshal s csr0 "" = .error e ∧
      e ≠ .ErrIdentityHeaderNotSet := by
  cases h : CSRValidator.Validate encoder unmarshal s csr0 "" with
  | error e =>
    refine ⟨e, rfl, ?_⟩
    have hm := CSRValidator_Validate_error_mem encoder unmarshal s csr0 "" e h
    intro he
    subst he
    revert hm
    decide
  | ok pc =>
    obtain ⟨p, c⟩ := pc
    obtain ⟨⟨_, _, _, _, ⟨h1, _, h2⟩, _⟩, _⟩ :=
      (CSRValidator_Validate_ok_iff encoder unmarshal s csr0 "" p c).1 h
    exact (h1 h2).elim

/-- C33: a delete request whose caller identity is empty is answered with
`ErrIdentityHeaderNotSet` (code 20311, HTTP 400) and the store is untouched.  A
create request whose caller identity is empty is not: `CardCreate` validates
first, and the content-snapshot validation always fails for an empty request
identity, with an error other than `ErrIdentityHeaderNotSet`; the check of the
header that follows the validation is never reached. -/
theorem empty_identity_header (w : Wiring SK) (newV4 : Option String) (now : Int)
    (db : Store) (request : CardBaseRequest) (h : request.UserID = "") :
    Controller.CardDelete w newV4 now db request = (.error .ErrIdentityHeaderNotSet, db) ∧
    (∃ e, Controller.CardCreate w newV4 db request = (.error e, db) ∧
      CSRValidator.Validate (encoder.Base64 w.StdEncoding) w.unmarshal request.CSR {}
        request.UserID = .error e ∧
      e ≠ .ErrIdentityHeaderNotSet) ∧
    ApiError.ErrIdentityHeaderNotSet.code = 20311 ∧
    ApiError.ErrIdentityHeaderNotSet.httpStatus = 400 := by
  refine ⟨?_, ?_, rfl, rfl⟩
  · unfold Controller.CardDelete
    rw [if_pos h]
  · obtain ⟨e, he, hne⟩ := CSRValidator_Validate_no_identity (encoder.Base64 w.StdEncoding)
      w.unmarshal request.CSR {}
    rw [h]
    refine ⟨e, ?_, he, hne⟩
    apply CardCreate_refused
    rw [CreateCardValidator_Validate_err, h, he]

/-- C33, concrete run: the create request of the example root card, sent
without the identity header to the empty store, is answered with
`ErrCSRIdentityDoesNotMatchRequestIdentity` (code 40034); the same request sent
to `CardDelete` is answered with `ErrIdentityHeaderNotSet`. -/
theorem empty_identity_header_witness :
    Controller.CardCreate Example.wiring (some "chain-1") {} Example.createRootNoIdentity =
      (.error .ErrCSRIdentityDoesNotMatchRequestIdentity, {}) ∧
    ApiError.ErrCSRIdentityDoesNotMatchRequestIdentity.code = 40034 ∧
    Controller.CardDelete Example.wiring (some "chain-1") 99 {} Example.createRootNoIdentity =
      (.error .ErrIdentityHeaderNotSet, {}) :=
  ⟨rfl, rfl,
   (empty_identity_header Example.wiring (some "chain-1") 99 {} Example.createRootNoIdentity
     rfl).1⟩

/-! ## An accepted create request has a verified self stamp -/

theorem countP_one_unique {α : Type} (q : α → Bool) (xs : List α) :
    xs.countP q = 1 → ∀ a ∈ xs, ∀ b ∈ xs, q a = true → q b = true → a = b := by
  induction xs with
  | nil => intro h; simp at h
  | cons x xs ih =>
    intro h a ha b hb qa qb
    rw [List.countP_cons] at h
    by_cases hx : q x = true
    · simp only [hx, if_true] at h
      have h0 : xs.countP q = 0 := by omega
      rw [List.countP_eq_zero] at h0
      have hax : a = x := by
        rcases List.mem_cons.1 ha with h1 | h1
        · exact h1
        · exact (h0 a h1 qa).elim
      have hbx : b = x := by
        rcases List.mem_cons.1 hb with h1 | h1
        · exact h1
        · exact (h0 b h1 qb).elim
      rw [hax, hbx]
    · simp only [hx, Bool.false_eq_true, if_false, Nat.add_zero] at h
      have hax : a ∈ xs := by
        rcases List.mem_cons.1 ha with h1 | h1
        · rw [h1] at qa; exact (hx qa).elim
        · exact h1
      have hbx : b ∈ xs := by
        rcases List.mem_cons.1 hb with h1 | h1
        · rw [h1] at qb; exact (hx qb).elim
        · exact h1
      exact ih h a hax b hbx qa qb

theorem validateCSRStampsLoop_no_key (crypto : crypto.Provider SK)
    (encoder : encoder.Provider) (xs : List CSRStamp) :
    ∀ (flag : Bool) (p : ParametersStore), p.publicKey.length = 0 →
      (validateCSRStampsLoop crypto encoder xs flag p).calls = [] := by
  induction xs with
  | nil => intro flag p _; cases flag <;> simp [validateCSRStampsLoop]
  | cons x xs ih =>
    intro flag p hp
    have hf : (x.IsSelf && decide (0 < p.publicKey.length)) = false := by
      rw [hp]
      simp
    obtain ⟨h1, h2⟩ := validateCSRStamp_other crypto encoder x p hf
    unfold validateCSRStampsLoop
    simp only []
    split
    · exact h2
    · split_ifs
      · exact h2
      · simp only [h2, List.nil_append]
        rw [h1]
        exact ih true p hp
      · simp only [h2, List.nil_append]
        rw [h1]
        exact ih flag p hp

theorem CSRStampsValidator_Validate_no_key (crypto : crypto.Provider SK)
    (encoder : encoder.Provider) (xs : List CSRStamp) (scopeID : String)
    (p : ParametersStore) (hp : p.publicKey.length = 0) :
    (CSRStampsValidator.Validate crypto encoder xs scopeID p).calls = [] := by
  unfold CSRStampsValidator.Validate
  split_ifs
  · rfl
  · rfl
  · exact validateCSRStampsLoop_no_key crypto encoder xs false p hp

/-- C35: every create request accepted by `CreateCardValidator.Validate` has
exactly one self stamp, and the validation has called
`ValidateVirgilCardSignature` for it, on the CSR bytes, that stamp's extra
snapshot, the CSR's own public key (at least 16 bytes) and the stamp's decoded
signature, and the call returned no error.  A request whose CSR has an empty
public key, for which the verification of the self stamp is skipped (no call
is made), is never accepted: if every earlier check passes it is rejected with
`ErrCSRPublicKeyIsTooShort`. -/
theorem accepted_create_self_verified (crypto : crypto.Provider SK)
    (encoder : encoder.Provider) (unmarshal : Unmarshal)
    (repo : dao.CardRepositoryProvider) (request : CardBaseRequest) (card0 : CardDTO) :
    ((CreateCardValidator.Validate crypto encoder unmarshal repo request card0).err = none →
      ∃ params csr s,
        CSRValidator.Validate encoder unmarshal request.CSR {} request.UserID =
          .ok (params, csr) ∧
        params.csr = (encoder.DecodeString request.CSR).data ∧
        params.publicKey = (encoder.DecodeString csr.PublicKey).data ∧
        16 ≤ params.publicKey.length ∧
        s ∈ request.CSRStamps ∧ s.Signer = "self" ∧
        (∀ t ∈ request.CSRStamps, t.IsSelf = true → t = s) ∧
        request.CSRStamps.countP CSRStamp.IsSelf = 1 ∧
        crypto.ValidateVirgilCardSignature params.csr (stampExtra encoder s) params.publicKey
          (encoder.DecodeString s.Signature).data = none ∧
        selfVerifyCall encoder s params ∈
          (CreateCardValidator.Validate crypto encoder unmarshal repo request card0).calls) ∧
    (∀ params csr,
      CSRValidator.Validate encoder unmarshal request.CSR {} request.UserID =
        .ok (params, csr) →
      params.publicKey.length = 0 →
      (CreateCardValidator.Validate crypto encoder unmarshal repo request card0).err ≠ none ∧
      (CSRStampsValidator.Validate crypto encoder request.CSRStamps request.ApplicationID
        params).calls = [] ∧
      ((BaseCardValidator.Validate crypto encoder unmarshal repo request card0 true).err =
          none →
        (CreateCardValidator.Validate crypto encoder unmarshal repo request card0).err =
          some .ErrCSRPublicKeyIsTooShort)) := by
  constructor
  · intro h
    obtain ⟨hb, heq, hlen⟩ := CreateCardValidator_Validate_ok _ _ _ _ _ _ h
    obtain ⟨params, csr, hc, hst, _, _, hcard, hcalls⟩ :=
      BaseCardValidator_Validate_ok _ _ _ _ _ _ _ hb
    have hst2 : (CSRStampsValidator.Validate crypto encoder request.CSRStamps
        request.ApplicationID params).err = none := hst
    obtain ⟨hmin, hmax, hvalid, hcount⟩ :=
      (CSRStampsValidator_Validate_none_iff crypto encoder request.CSRStamps
        request.ApplicationID params).1 hst2
    have hV : CSRStampsValidator.Validate crypto encoder request.CSRStamps
        request.ApplicationID params =
        validateCSRStampsLoop crypto encoder request.CSRStamps false params := by
      unfold CSRStampsValidator.Validate
      rw [if_neg (by unfold CSRStampsListMinLength; omega),
        if_neg (by unfold CSRStampsListMaxLength; omega)]
    have hpk : (BaseCardValidator.Validate crypto encoder unmarshal repo request card0
        true).card.PublicKey = params.publicKey :=
      congrArg CardDTO.PublicKey (hcard.trans (fillVirgilCardModel_eq _ _ _ _ _ _))
    rw [hpk] at hlen
    obtain ⟨⟨_, _, _, hkey, _, _, _, _⟩, hparams⟩ :=
      (CSRValidator_Validate_ok_iff _ _ _ _ _ _ _).1 hc
    have hkeyne : csr.PublicKey ≠ "" := by
      intro he
      rw [hparams] at hlen
      simp only [he, if_true, List.length_nil] at hlen
      omega
    have hpos : 0 < request.CSRStamps.countP CSRStamp.IsSelf := by omega
    obtain ⟨s, hs, hself⟩ := List.countP_pos_iff.1 hpos
    have hloop : (validateCSRStampsLoop crypto encoder request.CSRStamps false params).err =
        none := by
      rw [← hV]
      exact hst2
    obtain ⟨_, hmem, hver⟩ := validateCSRStampsLoop_self crypto encoder s request.CSRStamps
      params hloop hs hself (by omega)
    refine ⟨params, csr, s, hc, ?_, ?_, hlen, hs, isSelf_signer s hself, ?_, hcount, hver, ?_⟩
    · rw [hparams]
    · rw [hparams]
      simp only [hkeyne, if_false]
    · intro t ht htself
      exact countP_one_unique CSRStamp.IsSelf request.CSRStamps hcount t ht s hs htself hself
    · rw [heq, hcalls]
      show selfVerifyCall encoder s params ∈ (CSRStampsValidator.Validate crypto encoder
        request.CSRStamps request.ApplicationID params).calls
      rw [hV]
      exact hmem
  · intro params csr hc hp
    have herr := CreateCardValidator_Validate_err crypto encoder unmarshal repo request card0
    rw [hc] at herr
    simp only [] at herr
    refine ⟨?_, CSRStampsValidator_Validate_no_key crypto encoder _ _ params hp, ?_⟩
    · rw [herr]
      split
      · simp
      · split
        · simp
        · split
          · simp
          · rw [if_pos (by omega)]
            simp
    · intro hb
      obtain ⟨params2, csr2, hc2, hst, hprev, hdup, _, _⟩ :=
        BaseCardValidator_Validate_ok _ _ _ _ _ _ _ hb
      rw [hc] at hc2
      injection hc2 with hc2
      injection hc2 with hp2 hcsr2
      subst hp2
      subst hcsr2
      have hst2 : (CSRStampsValidator.Validate crypto encoder request.CSRStamps
          request.ApplicationID params).err = none := hst
      rw [herr, hst2]
      simp only []
      rw [hprev]
      simp only []
      rw [hdup]
      simp only []
      rw [if_pos (by omega)]

/-- C35, concrete run: the create request of the example root card is accepted
on the empty store, and the one verification recorded for it is that of its
self stamp under the CSR's key; the same request for the tombstone message,
whose CSR has no public key, is refused with `ErrCSRPublicKeyIsTooShort`
without any verification. -/
theorem accepted_create_self_verified_witness :
    (CreateCardValidator.Validate Example.wiring.crypto (encoder.Base64 encoder.Hex)
        Example.unmarshal (CardRepository.provider encoder.Hex {}) Example.createRoot
        NewCardDTO).calls = [⟨[1], [], Example.key, Example.key ++ [1]⟩] ∧
    (∃ params csr s,
      CSRValidator.Validate (encoder.Base64 encoder.Hex) Example.unmarshal
        Example.createRoot.CSR {} Example.createRoot.UserID = .ok (params, csr) ∧
      params.csr = ((encoder.Base64 encoder.Hex).DecodeString Example.createRoot.CSR).data ∧
      params.publicKey = ((encoder.Base64 encoder.Hex).DecodeString csr.PublicKey).data ∧
      16 ≤ params.publicKey.length ∧
      s ∈ Example.createRoot.CSRStamps ∧ s.Signer = "self" ∧
      (∀ t ∈ Example.createRoot.CSRStamps, t.IsSelf = true → t = s) ∧
      Example.createRoot.CSRStamps.countP CSRStamp.IsSelf = 1 ∧
      Example.wiring.crypto.ValidateVirgilCardSignature params.csr
        (stampExtra (encoder.Base64 encoder.Hex) s) params.publicKey
        ((encoder.Base64 encoder.Hex).DecodeString s.Signature).data = none ∧
      selfVerifyCall (encoder.Base64 encoder.Hex) s params ∈
        (CreateCardValidator.Validate Example.wiring.crypto (encoder.Base64 encoder.Hex)
          Example.unmarshal (CardRepository.provider encoder.Hex {}) Example.createRoot
          NewCardDTO).calls) ∧
    (CreateCardValidator.Validate Example.wiring.crypto (encoder.Base64 encoder.Hex)
        Example.unmarshal (CardRepository.provider encoder.Hex Example.oneCard)
        { Example.deleteRoot with CSRStamps := [{ Signer := "self", Signature := "0a" }] }
        NewCardDTO).err = some .ErrCSRPublicKeyIsTooShort :=
  have h := accepted_create_self_verified Example.wiring.crypto (encoder.Base64 encoder.Hex)
    Example.unmarshal (CardRepository.provider encoder.Hex {}) Example.createRoot NewCardDTO
  have h2 := accepted_create_self_verified Example.wiring.crypto (encoder.Base64 encoder.Hex)
    Example.unmarshal (CardRepository.provider encoder.Hex Example.oneCard)
    { Example.deleteRoot with CSRStamps := [{ Signer := "self", Signature := "0a" }] }
    NewCardDTO
  ⟨by decide, h.1 (by decide),
   (h2.2 ⟨[], [3], []⟩ ⟨"", "alice", Example.rootID, "5.0", 1700000200⟩ rfl rfl).2.2
     (by decide)⟩

/-! ## What `SaveCard` writes -/

theorem mem_insertCardByIdentity (row r : CardRow) (t : List CardRow) :
    r ∈ insertCardByIdentity row t ↔
      r = row ∨ (r ∈ t ∧ ¬ (r.identity = row.identity ∧
        r.application_id = row.application_id ∧ r.id = row.id)) := by
  unfold insertCardByIdentity
  simp only [List.mem_cons, List.mem_filter, Bool.not_eq_true_eq_eq_false, Bool.and_eq_true,
    beq_iff_eq, Bool.not_eq_eq_eq_not, Bool.not_true, Bool.and_eq_false_imp, and_imp]
  constructor
  · rintro (h | ⟨h1, h2⟩)
    · exact Or.inl h
    · refine Or.inr ⟨h1, ?_⟩
      rintro ⟨a, b, c⟩
      have := h2 a b
      simp [c] at this
  · rintro (h | ⟨h1, h2⟩)
    · exact Or.inl h
    · refine Or.inr ⟨h1, fun a b => ?_⟩
      by_cases c : r.id = row.id
      · exact (h2 ⟨a, b, c⟩).elim
      · simpa using c

theorem mem_upsertChain_iff (newRow : ChainRow) (f : ChainRow → ChainRow) (i a c : String)
    (t : List ChainRow) (R2 : ChainRow) :
    R2 ∈ upsertChain newRow f i a c t ↔
      (R2 ∈ t ∧ R2.hasKey i a c = false) ∨
      (R2 = newRow ∧ ∀ R ∈ t, R.hasKey i a c = false) ∨
      (∃ R ∈ t, R.hasKey i a c = true ∧ R2 = f R) := by
  constructor
  · intro h
    rcases mem_upsertChain newRow f i a c t R2 h with h1 | ⟨h1, h2⟩ | h1
    · exact Or.inl h1
    · refine Or.inr (Or.inl ⟨h1, fun R hR => ?_⟩)
      have := List.find?_eq_none.1 h2 R hR
      simpa using this
    · exact Or.inr (Or.inr h1)
  · intro h
    unfold upsertChain
    cases hf : t.find? (fun r => r.hasKey i a c) with
    | none =>
      simp only []
      rcases h with ⟨h1, _⟩ | ⟨h1, _⟩ | ⟨R, hR, hk, _⟩
      · exact List.mem_cons_of_mem _ h1
      · rw [h1]
        exact List.mem_cons_self _ _
      · have := List.find?_eq_none.1 hf R hR
        simp [hk] at this
    | some r0 =>
      simp only []
      have hk0 : r0.hasKey i a c = true := by
        have := List.find?_some hf
        simpa using this
      have hm0 : r0 ∈ t := List.mem_of_find?_eq_some hf
      rcases h with ⟨h1, h2⟩ | ⟨_, h2⟩ | ⟨R, hR, hk, h3⟩
      · refine List.mem_map.2 ⟨R2, h1, ?_⟩
        rw [h2]
        rfl
      · have := h2 r0 hm0
        rw [hk0] at this
        cases this
      · refine List.mem_map.2 ⟨R, hR, ?_⟩
        rw [if_pos hk, h3]

/-- C36: the store left by `SaveCard(card)` differs from the store before it as
follows.  `card_by_card_id` and `card_by_identity` hold the full row of the
card in place of any row with its primary key, and their other rows as before.
`card_previous_ids` gains `(previous_card_id, application_id)` exactly when the
card has a non-empty `previous_card_id`.  In `card_chain` the rows with another
key than `(identity, application_id, chain_id)` are as before; the row with
that key has `card.id` added to `ids` (a row with only that id is created when
there was none); for a root card its `deleted_at` is set to 0 and its creation
time to that of the card, for a successor both are left as they were (null in
a created row). -/
theorem SaveCard_effect (std : encoder.Provider) (db : Store) (card : CardDTO) :
    (∀ r, r ∈ (CardRepository.SaveCard std db card).card_by_card_id ↔
      r = CardRow.ofCard std card ∨ (r ∈ db.card_by_card_id ∧ r.id ≠ card.ID)) ∧
    (∀ r, r ∈ (CardRepository.SaveCard std db card).card_by_identity ↔
      r = CardRow.ofCard std card ∨
      (r ∈ db.card_by_identity ∧ ¬ (r.identity = card.Identity ∧
        r.application_id = card.ApplicationID ∧ r.id = card.ID))) ∧
    (∀ p, p ∈ (CardRepository.SaveCard std db card).card_previous_ids ↔
      (card.PreviousCardID ≠ "" ∧ p = ⟨card.PreviousCardID, card.ApplicationID⟩) ∨
      p ∈ db.card_previous_ids) ∧
    (∀ R2, R2 ∈ (CardRepository.SaveCard std db card).card_chain ↔
      (R2 ∈ db.card_chain ∧
        R2.hasKey card.Identity card.ApplicationID card.ChainID = false) ∨
      (R2 = ⟨card.Identity, card.ApplicationID, card.ChainID, [card.ID],
          if card.PreviousCardID = "" then some card.CreatedAt else none,
          if card.PreviousCardID = "" then some 0 else none⟩ ∧
        ∀ R ∈ db.card_chain,
          R.hasKey card.Identity card.ApplicationID card.ChainID = false) ∨
      (∃ R ∈ db.card_chain,
        R.hasKey card.Identity card.ApplicationID card.ChainID = true ∧
        R2 = { R with
          ids := addID card.ID R.ids,
          created_at_timestamp :=
            if card.PreviousCardID = "" then some card.CreatedAt
            else R.created_at_timestamp,
          deleted_at := if card.PreviousCardID = "" then some 0 else R.deleted_at })) ∧
    (∃ R2 ∈ (CardRepository.SaveCard std db card).card_chain,
      R2.hasKey card.Identity card.ApplicationID card.ChainID = true ∧ card.ID ∈ R2.ids) := by
  refine ⟨?_, ?_, ?_, ?_, ?_⟩
  · intro r
    rw [SaveCard_card_by_card_id, mem_insertCardByID]
    rfl
  · intro r
    rw [SaveCard_card_by_identity, mem_insertCardByIdentity]
    rfl
  · intro p
    rw [SaveCard_card_previous_ids]
    by_cases h : card.PreviousCardID ≠ ""
    · rw [if_pos h, mem_insertPreviousID]
      simp only [h, ne_eq, not_false_eq_true, true_and]
    · rw [if_neg h]
      simp only [h, false_and, false_or]
  · intro R2
    rw [SaveCard_card_chain]
    by_cases h : card.PreviousCardID = ""
    · rw [if_pos h, createChainIdentities_eq, mem_upsertChain_iff]
      simp only [h, if_true]
    · rw [if_neg h, updateChainIdentities_eq, mem_upsertChain_iff]
      simp only [h, if_false]
  · rw [SaveCard_card_chain]
    by_cases h : card.PreviousCardID = ""
    · rw [if_pos h, createChainIdentities_eq]
      exact upsertChain_has card.ID _ _ _ _ _ (addsID_create _ _ _ _ _) _
    · rw [if_neg h, updateChainIdentities_eq]
      exact upsertChain_has card.ID _ _ _ _ _ (addsID_update _ _ _ _) _

/-- C36, concrete run: saving the example tombstone card, a successor of the
root card, on the store that holds the root card puts its row into
`card_by_card_id`, puts `(root id, S1)` into `card_previous_ids`, and leaves a
chain row with the key of the card that lists its id. -/
theorem SaveCard_effect_witness :
    CardRow.ofCard encoder.Hex Example.tombstone ∈
      (CardRepository.SaveCard encoder.Hex Example.oneCard Example.tombstone).card_by_card_id ∧
    (⟨Example.rootID, "S1"⟩ : PreviousIDRow) ∈
      (CardRepository.SaveCard encoder.Hex Example.oneCard
        Example.tombstone).card_previous_ids ∧
    (∃ R2 ∈ (CardRepository.SaveCard encoder.Hex Example.oneCard Example.tombstone).card_chain,
      R2.hasKey "alice" "S1" "chain-1" = true ∧ Example.tombstoneID ∈ R2.ids) :=
  have h := SaveCard_effect encoder.Hex Example.oneCard Example.tombstone
  ⟨(h.1 _).2 (Or.inl rfl), (h.2.2.1 _).2 (Or.inl ⟨by decide, rfl⟩), h.2.2.2.2⟩

/-! ## Codec round trips -/

theorem decodeMap_encodeStd :
    ∀ n : Fin 64, decodeMap (encodeStd.getD n.val 'A') = some n.val := by
  decide

theorem decodeMap_sextet (n : Nat) (h : n < 64) :
    decodeMap (encodeStd.getD n 'A') = some n :=
  decodeMap_encodeStd ⟨n, h⟩

theorem decodeMap_padding : decodeMap StdPadding = none := by
  decide

theorem base64DecodeLoop_sextet (s : Nat) (h : s < 64) (rest : List Char) (q : List Nat) :
    base64DecodeLoop (encodeStd.getD s 'A' :: rest) q =
      if q.length = 3 then
        ⟨quantumBytes (q ++ [s]) ++ (base64DecodeLoop rest []).data,
          (base64DecodeLoop rest []).ok⟩
      else base64DecodeLoop rest (q ++ [s]) := by
  simp only [base64DecodeLoop, decodeMap_sextet s h]

theorem base64DecodeLoop_four (s0 s1 s2 s3 : Nat) (h0 : s0 < 64) (h1 : s1 < 64)
    (h2 : s2 < 64) (h3 : s3 < 64) (rest : List Char) :
    base64DecodeLoop (encodeStd.getD s0 'A' :: encodeStd.getD s1 'A' ::
        encodeStd.getD s2 'A' :: encodeStd.getD s3 'A' :: rest) [] =
      ⟨quantumBytes [s0, s1, s2, s3] ++ (base64DecodeLoop rest []).data,
        (base64DecodeLoop rest []).ok⟩ := by
  rw [base64DecodeLoop_sextet s0 h0]
  show base64DecodeLoop _ [s0] = _
  rw [base64DecodeLoop_sextet s1 h1]
  show base64DecodeLoop _ [s0, s1] = _
  rw [base64DecodeLoop_sextet s2 h2]
  show base64DecodeLoop _ [s0, s1, s2] = _
  rw [base64DecodeLoop_sextet s3 h3]
  rfl

theorem base64DecodeLoop_three (s0 s1 s2 : Nat) (h0 : s0 < 64) (h1 : s1 < 64)
    (h2 : s2 < 64) :
    base64DecodeLoop [encodeStd.getD s0 'A', encodeStd.getD s1 'A',
        encodeStd.getD s2 'A', StdPadding] [] = ⟨quantumBytes [s0, s1, s2], true⟩ := by
  rw [base64DecodeLoop_sextet s0 h0]
  show base64DecodeLoop _ [s0] = _
  rw [base64DecodeLoop_sextet s1 h1]
  show base64DecodeLoop _ [s0, s1] = _
  rw [base64DecodeLoop_sextet s2 h2]
  show base64DecodeLoop [StdPadding] [s0, s1, s2] = _
  simp only [base64DecodeLoop, decodeMap_padding]
  simp [StdPadding, skipNewlines]

theorem base64DecodeLoop_two (s0 s1 : Nat) (h0 : s0 < 64) (h1 : s1 < 64) :
    base64DecodeLoop [encodeStd.getD s0 'A', encodeStd.getD s1 'A', StdPadding,
        StdPadding] [] = ⟨quantumBytes [s0, s1], true⟩ := by
  rw [base64DecodeLoop_sextet s0 h0]
  show base64DecodeLoop _ [s0] = _
  rw [base64DecodeLoop_sextet s1 h1]
  show base64DecodeLoop [StdPadding, StdPadding] [s0, s1] = _
  simp only [base64DecodeLoop, decodeMap_padding]
  simp [StdPadding, skipNewlines]

theorem quantumBytes_three (a b c : Byte) :
    quantumBytes [a.val / 4, a.val % 4 * 16 + b.val / 16, b.val % 16 * 4 + c.val / 64,
      c.val % 64] = [a, b, c] := by
  have ha := a.isLt
  have hb := b.isLt
  have hc := c.isLt
  have h1 : (Fin.ofNat (a.val / 4 * 4 + (a.val % 4 * 16 + b.val / 16) / 16) : Byte) = a := by
    apply Fin.ext
    show (a.val / 4 * 4 + (a.val % 4 * 16 + b.val / 16) / 16) % 256 = a.val
    omega
  have h2 : (Fin.ofNat ((a.val % 4 * 16 + b.val / 16) % 16 * 16 +
      (b.val % 16 * 4 + c.val / 64) / 4) : Byte) = b := by
    apply Fin.ext
    show ((a.val % 4 * 16 + b.val / 16) % 16 * 16 + (b.val % 16 * 4 + c.val / 64) / 4) % 256 =
      b.val
    omega
  have h3 : (Fin.ofNat ((b.val % 16 * 4 + c.val / 64) % 4 * 64 + c.val % 64) : Byte) = c := by
    apply Fin.ext
    show ((b.val % 16 * 4 + c.val / 64) % 4 * 64 + c.val % 64) % 256 = c.val
    omega
  simp only [quantumBytes, h1, h2, h3]

theorem quantumBytes_two (a b : Byte) :
    quantumBytes [a.val / 4, a.val % 4 * 16 + b.val / 16, b.val % 16 * 4] = [a, b] := by
  have ha := a.isLt
  have hb := b.isLt
  have h1 : (Fin.ofNat (a.val / 4 * 4 + (a.val % 4 * 16 + b.val / 16) / 16) : Byte) = a := by
    apply Fin.ext
    show (a.val / 4 * 4 + (a.val % 4 * 16 + b.val / 16) / 16) % 256 = a.val
    omega
  have h2 : (Fin.ofNat ((a.val % 4 * 16 + b.val / 16) % 16 * 16 + b.val % 16 * 4 / 4) :
      Byte) = b := by
    apply Fin.ext
    show ((a.val % 4 * 16 + b.val / 16) % 16 * 16 + b.val % 16 * 4 / 4) % 256 = b.val
    omega
  simp only [quantumBytes, h1, h2]

theorem quantumBytes_one (a : Byte) :
    quantumBytes [a.val / 4, a.val % 4 * 16] = [a] := by
  have ha := a.isLt
  have h1 : (Fin.ofNat (a.val / 4 * 4 + a.val % 4 * 16 / 16) : Byte) = a := by
    apply Fin.ext
    show (a.val / 4 * 4 + a.val % 4 * 16 / 16) % 256 = a.val
    omega
  simp only [quantumBytes, h1]

theorem base64Decode_base64Encode :
    ∀ (n : Nat) (b : Bytes), b.length ≤ n →
      base64DecodeLoop (base64Encode b) [] = ⟨b, true⟩ := by
  intro n
  induction n with
  | zero =>
    intro b hb
    have : b = [] := List.length_eq_zero.1 (by omega)
    rw [this]
    rfl
  | succ n ih =>
    intro b hb
    match b, hb with
    | [], _ => rfl
    | [a], _ =>
      have ha := a.isLt
      show base64DecodeLoop [encodeStd.getD (a.val / 4) 'A',
        encodeStd.getD (a.val % 4 * 16) 'A', StdPadding, StdPadding] [] = _
      rw [base64DecodeLoop_two _ _ (by omega) (by omega), quantumBytes_one]
    | [a, b], _ =>
      have ha := a.isLt
      have hb := b.isLt
      show base64DecodeLoop [encodeStd.getD (a.val / 4) 'A',
        encodeStd.getD (a.val % 4 * 16 + b.val / 16) 'A',
        encodeStd.getD (b.val % 16 * 4) 'A', StdPadding] [] = _
      rw [base64DecodeLoop_three _ _ _ (by omega) (by omega) (by omega), quantumBytes_two]
    | a :: b :: c :: rest, hlen =>
      have ha := a.isLt
      have hb := b.isLt
      have hc := c.isLt
      have hrest : rest.length ≤ n := by
        simp only [List.length_cons] at hlen
        omega
      show base64DecodeLoop (encodeStd.getD (a.val / 4) 'A' ::
        encodeStd.getD (a.val % 4 * 16 + b.val / 16) 'A' ::
        encodeStd.getD (b.val % 16 * 4 + c.val / 64) 'A' ::
        encodeStd.getD (c.val % 64) 'A' :: base64Encode rest) [] = _
      rw [base64DecodeLoop_four _ _ _ _ (by omega) (by omega) (by omega) (by omega),
        quantumBytes_three, ih rest hrest]
      rfl

theorem StdEncoding_roundTrips : RoundTrips base64.StdEncoding := by
  intro b
  exact base64Decode_base64Encode b.length b (Nat.le_refl _)

/-- C34: codec round trip.  For every byte string `b`,
`Base64.DecodeString(Base64.EncodeToString(b))` returns `b` with no error, and
`Hex.DecodeString(Hex.EncodeToString(b))` returns `b` with no error; `Base64`
hands over to `base64.StdEncoding` and `Hex` to `encoding/hex`. -/
theorem codec_round_trip (b : Bytes) :
    (encoder.Base64 base64.StdEncoding).DecodeString
        ((encoder.Base64 base64.StdEncoding).EncodeToString b) = ⟨b, true⟩ ∧
    encoder.Hex.DecodeString (encoder.Hex.EncodeToString b) = ⟨b, true⟩ ∧
    (encoder.Base64 base64.StdEncoding).EncodeToString [77, 97] = "TWE=" ∧
    (encoder.Base64 base64.StdEncoding).DecodeString "TWE=" = ⟨[77, 97], true⟩ ∧
    (encoder.Base64 base64.StdEncoding).DecodeString "TWE" = ⟨[], false⟩ ∧
    encoder.Hex.EncodeToString [77, 97] = "4d61" ∧
    encoder.Hex.DecodeString "4d6" = ⟨[77], false⟩ :=
  ⟨StdEncoding_roundTrips b, Hex_roundTrips b, by decide, by decide, by decide, by decide,
    by decide⟩

/-! ## Datastore failures -/

theorem CardCreate_eq_CardCreateOn (w : Wiring SK) (newV4 : Option String) (db : Store)
    (request : CardBaseRequest) :
    (Controller.CardCreate w newV4 db request).1 =
      Controller.CardCreateOn w (CardRepository.repository w.StdEncoding newV4 db)
        request := by
  unfold Controller.CardCreate Controller.CardCreateOn
  simp only [CardRepository.repository]
  split
  · next e he => try simp only [he]
  · next he =>
    try simp only [he]
    by_cases hu : request.UserID = ""
    · rw [if_pos hu, if_pos hu]
    · rw [if_neg hu, if_neg hu]
      split
      · next d hd => try simp only [hd]
      · next c1 hc =>
        try simp only [hc]
        split
        · next d hd => try simp only [hd]
        · next hd => try simp only [hd]
        · next hd =>
          try simp only [hd]
          split
          · next e2 c2 hs => try simp only [hs]
          · next c2 hs => try simp only [hs]

theorem CardDelete_eq_CardDeleteOn (w : Wiring SK) (newV4 : Option String) (now : Int)
    (db : Store) (request : CardBaseRequest) :
    (Controller.CardDelete w newV4 now db request).1 =
      Controller.CardDeleteOn w (CardRepository.repository w.StdEncoding newV4 db) now
        request := by
  unfold Controller.CardDelete Controller.CardDeleteOn
  simp only [CardRepository.repository]
  by_cases hu : request.UserID = ""
  · rw [if_pos hu, if_pos hu]
  · rw [if_neg hu, if_neg hu]
    split
    · next e he => try simp only [he]
    · next he =>
      try simp only [he]
      split
      · next d hd => try simp only [hd]
      · next c1 hc =>
        try simp only [hc]
        split
        · next e2 c2 hs => try simp only [hs]
        · next c2 hs =>
          try simp only [hs]
          rcases SetChainDeleted_cases db request.UserID request.ApplicationID c2.ChainID
            now with h | ⟨dbm, h, _, _, _⟩
          · simp only [h]
          · simp only [h]

theorem CardSearch_eq_CardSearchOn (newV4 : Option String) (std : encoder.Provider)
    (db : Store) (request : CardSearchRequest) :
    Controller.CardSearch db request =
      Controller.CardSearchOn (CardRepository.repository std newV4 db) request := rfl

theorem CSRValidator_Validate_identity (encoder : encoder.Provider) (unmarshal : Unmarshal)
    (s : String) (csr0 : CSR) (r : String) (p : ParametersStore) (c : CSR)
    (h : CSRValidator.Validate encoder unmarshal s csr0 r = .ok (p, c)) : r ≠ "" := by
  obtain ⟨⟨_, _, _, _, ⟨h1, _, h2⟩, _⟩, _⟩ :=
    (CSRValidator_Validate_ok_iff encoder unmarshal s csr0 r p c).1 h
  rw [← h2]
  exact h1

theorem CreateCardValidator_Validate_user (crypto : crypto.Provider SK)
    (encoder : encoder.Provider) (unmarshal : Unmarshal)
    (repo : dao.CardRepositoryProvider) (request : CardBaseRequest) (card0 : CardDTO)
    (h : (CreateCardValidator.Validate crypto encoder unmarshal repo request card0).err =
      none) : request.UserID ≠ "" := by
  obtain ⟨hb, _, _⟩ := CreateCardValidator_Validate_ok _ _ _ _ _ _ h
  obtain ⟨params, csr, hc, _⟩ := BaseCardValidator_Validate_ok _ _ _ _ _ _ _ hb
  exact CSRValidator_Validate_identity _ _ _ _ _ _ _ hc

theorem validatePreviousCardID_failure (q : dao.CardRepositoryProvider)
    (prev scope identity : String) (d : dao.Error) (hp : prev ≠ "")
    (h : q.DoesCardExistByPreviousIDAndScopeID prev scope = .error d) :
    validatePreviousCardID q prev scope identity = some .ErrInternalError := by
  unfold validatePreviousCardID
  rw [if_neg hp, h]

theorem validatePreviousCardID_read_failure (q : dao.CardRepositoryProvider)
    (prev scope identity : String) (d : dao.Error) (hp : prev ≠ "")
    (h1 : q.DoesCardExistByPreviousIDAndScopeID prev scope = .ok false)
    (h2 : q.GetCardByID prev = .error d) :
    validatePreviousCardID q prev scope identity =
      some .ErrPreviousVirgilCardDoesNotExist := by
  unfold validatePreviousCardID
  rw [if_neg hp, h1]
  simp only [Bool.false_eq_true, if_false]
  rw [h2]

/-- C32, counterexample: on a repository whose `GetCardByID` fails with a
driver error, other than not-found, the create request for the successor of
the example root card is rejected with the validation error
`ErrPreviousVirgilCardDoesNotExist` (code 40015, HTTP 400), and the create
request for the root card succeeds, the failed duplicate check counting as
passed. -/
theorem read_failure_not_internal_error :
    Example.failingReads.GetCardByID Example.rootID = .error .other ∧
    Controller.CardCreateOn Example.wiring Example.failingReads Example.createNext =
      .error .ErrPreviousVirgilCardDoesNotExist ∧
    ApiError.ErrPreviousVirgilCardDoesNotExist.code = 40015 ∧
    ApiError.ErrPreviousVirgilCardDoesNotExist.httpStatus = 400 ∧
    (∃ card, Controller.CardCreateOn Example.wiring Example.failingReads Example.createRoot =
      .ok card) :=
  ⟨rfl, rfl, rfl, rfl, ⟨_, rfl⟩⟩

/-- C32, amended: a repository error met while serving a request is surfaced
as `ErrInternalError` (code 10000) when it comes from
`DoesCardExistByPreviousIDAndScopeID` in the predecessor check of a create or
delete request, from `SetCardChainID`, `IsChainDeleted`, `SetChainDeleted` or
`SaveCard` in `CardCreate` and `CardDelete`, from `SearchCardsByIdentities` in
`CardSearch`, and, when it is not not-found, from `GetCardByID` in `CardGet`.
An error of `GetCardByID` during the validation of a create or delete request,
of whatever kind, is read as the card being absent: for the previous card the
request is rejected with `ErrPreviousVirgilCardDoesNotExist`, and for the id of
the new card the duplicate check passes. -/
theorem datastore_failures_surfaced (w : Wiring SK) (repo : dao.Repository)
    (request : CardBaseRequest) (now : Int) (search : CardSearchRequest)
    (cardID : String) :
    (∀ (prev scope identity : String) (d : dao.Error), prev ≠ "" →
      repo.DoesCardExistByPreviousIDAndScopeID prev scope = .error d →
      validatePreviousCardID repo.toCardRepositoryProvider prev scope identity =
        some .ErrInternalError) ∧
    (∀ (prev scope identity : String) (d : dao.Error), prev ≠ "" →
      repo.DoesCardExistByPreviousIDAndScopeID prev scope = .ok false →
      repo.GetCardByID prev = .error d →
      validatePreviousCardID repo.toCardRepositoryProvider prev scope identity =
        some .ErrPreviousVirgilCardDoesNotExist) ∧
    (∀ (id : String) (d : dao.Error), repo.GetCardByID id = .error d →
      validateVirgilCardDuplicates repo.toCardRepositoryProvider id = none) ∧
    (∀ (params : ParametersStore) (csr : CSR) (d : dao.Error),
      CSRValidator.Validate (encoder.Base64 w.StdEncoding) w.unmarshal request.CSR {}
        request.UserID = .ok (params, csr) →
      csr.PreviousCardID ≠ "" →
      repo.DoesCardExistByPreviousIDAndScopeID csr.PreviousCardID request.ApplicationID =
        .error d →
      ((CSRStampsValidator.Validate w.crypto (encoder.Base64 w.StdEncoding) request.CSRStamps
          request.ApplicationID params).err = none →
        Controller.CardCreateOn w repo request = .error .ErrInternalError) ∧
      Controller.CardDeleteOn w repo now request = .error .ErrInternalError) ∧
    ((CreateCardValidator.Validate w.crypto (encoder.Base64 w.StdEncoding) w.unmarshal
        repo.toCardRepositoryProvider request NewCardDTO).err = none →
      (∀ d, repo.SetCardChainID (CreateCardValidator.Validate w.crypto
          (encoder.Base64 w.StdEncoding) w.unmarshal repo.toCardRepositoryProvider request
          NewCardDTO).card = .error d →
        Controller.CardCreateOn w repo request = .error .ErrInternalError) ∧
      (∀ c1 d, repo.SetCardChainID (CreateCardValidator.Validate w.crypto
          (encoder.Base64 w.StdEncoding) w.unmarshal repo.toCardRepositoryProvider request
          NewCardDTO).card = .ok c1 →
        c1.PreviousCardID ≠ "" →
        repo.IsChainDeleted request.UserID request.ApplicationID c1.ChainID = .error d →
        Controller.CardCreateOn w repo request = .error .ErrInternalError) ∧
      (∀ c1 c2 d, repo.SetCardChainID (CreateCardValidator.Validate w.crypto
          (encoder.Base64 w.StdEncoding) w.unmarshal repo.toCardRepositoryProvider request
          NewCardDTO).card = .ok c1 →
        (c1.PreviousCardID = "" ∨
          repo.IsChainDeleted request.UserID request.ApplicationID c1.ChainID = .ok false) →
        w.cardSigner.SignCardByCardsService w.StdEncoding c1 = (none, c2) →
        repo.SaveCard c2 = some d →
        Controller.CardCreateOn w repo request = .error .ErrInternalError)) ∧
    (request.UserID ≠ "" →
      (DeleteCardValidator.Validate w.crypto (encoder.Base64 w.StdEncoding) w.unmarshal
        repo.toCardRepositoryProvider request NewCardDTO).err = none →
      (∀ d, repo.SetCardChainID (DeleteCardValidator.Validate w.crypto
          (encoder.Base64 w.StdEncoding) w.unmarshal repo.toCardRepositoryProvider request
          NewCardDTO).card = .error d →
        Controller.CardDeleteOn w repo now request = .error .ErrInternalError) ∧
      (∀ c1 c2 d, repo.SetCardChainID (DeleteCardValidator.Validate w.crypto
          (encoder.Base64 w.StdEncoding) w.unmarshal repo.toCardRepositoryProvider request
          NewCardDTO).card = .ok c1 →
        w.cardSigner.SignCardByCardsService w.StdEncoding c1 = (none, c2) →
        repo.SetChainDeleted request.UserID request.ApplicationID c2.ChainID now =
          .error d →
        Controller.CardDeleteOn w repo now request = .error .ErrInternalError) ∧
      (∀ c1 c2 d, repo.SetCardChainID (DeleteCardValidator.Validate w.crypto
          (encoder.Base64 w.StdEncoding) w.unmarshal repo.toCardRepositoryProvider request
          NewCardDTO).card = .ok c1 →
        w.cardSigner.SignCardByCardsService w.StdEncoding c1 = (none, c2) →
        repo.SetChainDeleted request.UserID request.ApplicationID c2.ChainID now =
          .ok true →
        repo.SaveCard c2 = some d →
        Controller.CardDeleteOn w repo now request = .error .ErrInternalError)) ∧
    (∀ d, SearchCardValidator.Validate search = none →
      repo.SearchCardsByIdentities search.GetIdentities search.ApplicationID = .error d →
      Controller.CardSearchOn repo search = .error .ErrInternalError) ∧
    (repo.GetCardByID cardID = .error .other →
      Controller.CardGet repo.toCardRepositoryProvider request cardID =
        .error (.api .ErrInternalError)) ∧
    ApiError.ErrInternalError.code = 10000 := by
  refine ⟨?_, ?_, ?_, ?_, ?_, ?_, ?_, ?_, rfl⟩
  · intro prev scope identity d hp h
    exact validatePreviousCardID_failure _ prev scope identity d hp h
  · intro prev scope identity d hp h1 h2
    exact validatePreviousCardID_read_failure _ prev scope identity d hp h1 h2
  · intro id d h
    unfold validateVirgilCardDuplicates
    rw [h]
  · intro params csr d hc hp hd
    have hprev := validatePreviousCardID_failure repo.toCardRepositoryProvider
      csr.PreviousCardID request.ApplicationID csr.Identity d hp hd
    have hu := CSRValidator_Validate_identity _ _ _ _ _ _ _ hc
    constructor
    · intro hst
      have herr := CreateCardValidator_Validate_err w.crypto (encoder.Base64 w.StdEncoding)
        w.unmarshal repo.toCardRepositoryProvider request NewCardDTO
      rw [hc] at herr
      simp only [hst, hprev] at herr
      unfold Controller.CardCreateOn
      simp only [herr]
    · have herr := DeleteCardValidator_Validate_err w.crypto (encoder.Base64 w.StdEncoding)
        w.unmarshal repo.toCardRepositoryProvider request NewCardDTO
      rw [BaseCardValidator_Validate_unverified, hc] at herr
      simp only [hprev] at herr
      unfold Controller.CardDeleteOn
      rw [if_neg hu]
      simp only [herr]
  · intro hv
    have hu := CreateCardValidator_Validate_user _ _ _ _ _ _ hv
    refine ⟨?_, ?_, ?_⟩
    · intro d hd
      unfold Controller.CardCreateOn
      simp only [hv, if_neg hu, hd]
    · intro c1 d hc hp hd
      unfold Controller.CardCreateOn
      simp only [hv, if_neg hu, hc, hp, ne_eq, not_false_eq_true, if_true, hd]
    · intro c1 c2 d hc hdel hs hsave
      unfold Controller.CardCreateOn
      simp only [hv, if_neg hu, hc]
      have hdel2 : (if c1.PreviousCardID ≠ "" then
          repo.IsChainDeleted request.UserID request.ApplicationID c1.ChainID
          else Except.ok false) = Except.ok false := by
        rcases hdel with h | h
        · rw [if_neg (by simpa using h)]
        · by_cases hp : c1.PreviousCardID ≠ ""
          · rw [if_pos hp, h]
          · rw [if_neg hp]
      simp only [hdel2, hs, hsave]
  · intro hu hv
    refine ⟨?_, ?_, ?_⟩
    · intro d hd
      unfold Controller.CardDeleteOn
      simp only [hv, if_neg hu, hd]
    · intro c1 c2 d hc hs hd
      unfold Controller.CardDeleteOn
      simp only [hv, if_neg hu, hc, hs, hd]
    · intro c1 c2 d hc hs hd hsave
      unfold Controller.CardDeleteOn
      simp only [hv, if_neg hu, hc, hs, hd, hsave]
  · intro d hv hs
    unfold Controller.CardSearchOn
    simp only [hv, hs]
  · intro h
    unfold Controller.CardGet
    rw [h]

/-- C32 amended, concrete run: on a repository whose `SaveCard` fails, the
create request for the example root card is answered with `ErrInternalError`. -/
theorem datastore_failures_surfaced_witness :
    Controller.CardCreateOn Example.wiring Example.failingSave Example.createRoot =
      .error .ErrInternalError :=
  (datastore_failures_surfaced Example.wiring Example.failingSave Example.createRoot 0 {}
    "").2.2.2.2.1 (by decide) |>.2.2
    { ID := Example.rootID, ContentSnapshot := "01", Identity := "alice",
      ApplicationID := "S1", Version := "5.0", ChainID := "chain-1",
      CreatedAt := 1700000000,
      Signatures := [Example.selfStamp.toDTO, Example.appStamp.toDTO],
      PublicKey := Example.key }
    { ID := Example.rootID, ContentSnapshot := "01", Identity := "alice",
      ApplicationID := "S1", Version := "5.0", ChainID := "chain-1",
      CreatedAt := 1700000000,
      Signatures := [Example.selfStamp.toDTO, Example.appStamp.toDTO,
        { Signer := "virgil", Signature := "0901" }],
      PublicKey := Example.key }
    .other rfl (Or.inl rfl) rfl rfl

/-- C1, counterexample: a content snapshot that is valid in every other field
and whose previous card id is 64 characters long, 64 times the letter é, is
refused with `ErrCSRPreviousCardIDIsIncorrect`, because the id is 128 bytes
long; one whose previous card id is 32 characters long, 32 times é, is
accepted, because it is 64 bytes long. -/
theorem previous_card_id_length_counts_bytes :
    Example.accented64.length = 64 ∧ len Example.accented64 = 128 ∧
    CSRValidator.Validate encoder.Hex Example.unmarshalAccented "0a" {} "alice" =
      .error .ErrCSRPreviousCardIDIsIncorrect ∧
    Example.accented32.length = 32 ∧ len Example.accented32 = 64 ∧
    (∃ p c, CSRValidator.Validate encoder.Hex Example.unmarshalAccented "0b" {} "alice" =
      .ok (p, c) ∧ c.PreviousCardID = Example.accented32) := by
  refine ⟨by decide, by decide, ?_, by decide, by decide, ?_⟩
  · rfl
  · exact ⟨_, _, rfl, rfl⟩

/-! ## Which JSON decoding error a content snapshot is refused with -/

theorem decodeMembers_saved (equalFold : String → String → Bool)
    (members : List (String × JsonValue)) :
    ∀ (csr : CSR) (saved : Option String),
      (decodeMembers equalFold members csr saved).2 =
        match saved with
        | some e => some e
        | none => (firstMistyped equalFold members).map CSRField.name := by
  induction members with
  | nil =>
    intro csr saved
    cases saved <;> rfl
  | cons m rest ih =>
    intro csr saved
    obtain ⟨key, v⟩ := m
    unfold decodeMembers firstMistyped
    cases hf : fieldOfKey equalFold key with
    | none =>
      simp only []
      exact ih csr saved
    | some f =>
      simp only []
      by_cases hfit : v.fits f = true
      · rw [if_pos hfit, if_pos hfit]
        exact ih _ saved
      · rw [if_neg hfit, if_neg hfit, ih]
        cases saved <;> rfl

theorem jsonUnmarshal_object (parse : Bytes → Option JsonDocument)
    (equalFold : String → String → Bool) (data : Bytes) (csr0 : CSR)
    (members : List (String × JsonValue)) (h : parse data = some (.object members)) :
    (∀ f, firstMistyped equalFold members = some f →
      jsonUnmarshal parse equalFold data csr0 = .error (.UnmarshalTypeError f.name)) ∧
    (firstMistyped equalFold members = none →
      jsonUnmarshal parse equalFold data csr0 =
        .ok (decodeMembers equalFold members csr0 none).1) := by
  have hs := decodeMembers_saved equalFold members csr0 none
  simp only [] at hs
  constructor
  · intro f hf
    rw [hf] at hs
    unfold jsonUnmarshal
    rw [h]
    simp only []
    cases hr : decodeMembers equalFold members csr0 none with
    | mk c sv =>
      rw [hr] at hs
      simp only [Option.map_some'] at hs
      rw [hs]
  · intro hf
    rw [hf] at hs
    unfold jsonUnmarshal
    rw [h]
    simp only []
    cases hr : decodeMembers equalFold members csr0 none with
    | mk c sv =>
      rw [hr] at hs
      simp only [Option.map_none'] at hs
      rw [hs]

theorem CSRField_name_created_at (f : CSRField) :
    f.name = CreatedAtFieldName ↔ f = .CreatedAt := by
  cases f <;> decide

/-- C28, counterexample: in the document `{"identity": 5, "created_at": "145"}`
the member `created_at` carries a string, a value of a non-integer type, yet
`CSRValidator.Validate` fails with `ErrContentSnapshotIsNotAJSONMessage`
(40003), not with `ErrCSRCreationTimeIsIncorrect`: the type error that
`json.Unmarshal` returns is the first one it met, against `identity`. -/
theorem mistyped_created_at_after_mistyped_identity :
    Example.parseJson (encoder.Hex.DecodeString "08").data =
      some (.object [("identity", .integer 5), ("created_at", .string "145")]) ∧
    (JsonValue.string "145").fits .CreatedAt = false ∧
    jsonUnmarshal Example.parseJson Example.equalFold (encoder.Hex.DecodeString "08").data {} =
      .error (.UnmarshalTypeError "identity") ∧
    CSRValidator.Validate encoder.Hex (jsonUnmarshal Example.parseJson Example.equalFold)
        "08" {} "alice" = .error .ErrContentSnapshotIsNotAJSONMessage ∧
    ApiError.ErrContentSnapshotIsNotAJSONMessage ≠ ApiError.ErrCSRCreationTimeIsIncorrect ∧
    ApiError.ErrContentSnapshotIsNotAJSONMessage.code = 40003 :=
  ⟨by decide, by decide, rfl, rfl, by decide, rfl⟩

/-- C28, amended: for a content snapshot that is not empty and decodes from
base64 to a JSON object, `CSRValidator.Validate` fails with
`ErrCSRCreationTimeIsIncorrect` when `created_at` is the first member of the
document, in document order, whose value does not have the type of its field
(for `created_at`: anything but null or an integer within `int64`, for example
the string "145"); it fails with `ErrContentSnapshotIsNotAJSONMessage` when the
first such member belongs to another field, even if a mistyped `created_at`
follows, when the text is not valid JSON, and when it is an array or a scalar;
and it does not fail with `ErrContentSnapshotIsNotAJSONMessage` when no member
is mistyped.  In terms of the library alone: the error is
`ErrCSRCreationTimeIsIncorrect` exactly for a type error of `json.Unmarshal`
whose `Field` is `created_at`, and `ErrContentSnapshotIsNotAJSONMessage` for
every other error of `json.Unmarshal`. -/
theorem CSRValidator_Validate_json_decoding (encoder : encoder.Provider)
    (parse : Bytes → Option JsonDocument) (equalFold : String → String → Bool)
    (s : String) (csr0 : CSR) (r : String) (hs : s ≠ "")
    (hd : (encoder.DecodeString s).ok = true) :
    (parse (encoder.DecodeString s).data = none →
      CSRValidator.Validate encoder (jsonUnmarshal parse equalFold) s csr0 r =
        .error .ErrContentSnapshotIsNotAJSONMessage) ∧
    (parse (encoder.DecodeString s).data = some .other →
      CSRValidator.Validate encoder (jsonUnmarshal parse equalFold) s csr0 r =
        .error .ErrContentSnapshotIsNotAJSONMessage) ∧
    (∀ members, parse (encoder.DecodeString s).data = some (.object members) →
      (firstMistyped equalFold members = some .CreatedAt →
        CSRValidator.Validate encoder (jsonUnmarshal parse equalFold) s csr0 r =
          .error .ErrCSRCreationTimeIsIncorrect) ∧
      (∀ f, firstMistyped equalFold members = some f → f ≠ .CreatedAt →
        CSRValidator.Validate encoder (jsonUnmarshal parse equalFold) s csr0 r =
          .error .ErrContentSnapshotIsNotAJSONMessage) ∧
      (firstMistyped equalFold members = none →
        CSRValidator.Validate encoder (jsonUnmarshal parse equalFold) s csr0 r ≠
          .error .ErrContentSnapshotIsNotAJSONMessage)) ∧
    (∀ (unmarshal : Unmarshal) (e : JsonError),
      unmarshal (encoder.DecodeString s).data csr0 = .error e →
      CSRValidator.Validate encoder unmarshal s csr0 r =
        .error (if e = .UnmarshalTypeError CreatedAtFieldName then
          .ErrCSRCreationTimeIsIncorrect else .ErrContentSnapshotIsNotAJSONMessage)) := by
  have hlib : ∀ (unmarshal : Unmarshal) (e : JsonError),
      unmarshal (encoder.DecodeString s).data csr0 = .error e →
      CSRValidator.Validate encoder unmarshal s csr0 r =
        .error (if e = .UnmarshalTypeError CreatedAtFieldName then
          .ErrCSRCreationTimeIsIncorrect else .ErrContentSnapshotIsNotAJSONMessage) := by
    intro unmarshal e he
    obtain ⟨_, h1, h2, _⟩ := CSRValidator_Validate_json_errors encoder unmarshal s csr0 r hs hd
    by_cases hc : e = .UnmarshalTypeError CreatedAtFieldName
    · rw [if_pos hc]
      rw [hc] at he
      exact h1 he
    · rw [if_neg hc]
      exact h2 e he hc
  refine ⟨?_, ?_, ?_, hlib⟩
  · intro hp
    have he : jsonUnmarshal parse equalFold (encoder.DecodeString s).data csr0 =
        .error .other := by
      unfold jsonUnmarshal
      rw [hp]
    rw [hlib _ _ he, if_neg (by decide)]
  · intro hp
    have he : jsonUnmarshal parse equalFold (encoder.DecodeString s).data csr0 =
        .error (.UnmarshalTypeError "") := by
      unfold jsonUnmarshal
      rw [hp]
    rw [hlib _ _ he, if_neg (by decide)]
  · intro members hp
    obtain ⟨hbad, hgood⟩ := jsonUnmarshal_object parse equalFold (encoder.DecodeString s).data
      csr0 members hp
    refine ⟨?_, ?_, ?_⟩
    · intro hf
      rw [hlib _ _ (hbad _ hf)]
      exact congrArg Except.error (if_pos rfl)
    · intro f hf hne
      have hn : ¬ (JsonError.UnmarshalTypeError f.name =
          JsonError.UnmarshalTypeError CreatedAtFieldName) := by
        intro h
        injection h with h
        exact hne ((CSRField_name_created_at f).1 h)
      rw [hlib _ _ (hbad _ hf), if_neg hn]
    · intro hf hv
      obtain ⟨_, _, _, h4⟩ := CSRValidator_Validate_json_errors encoder
        (jsonUnmarshal parse equalFold) s csr0 r hs hd
      obtain ⟨je, hje, _⟩ := h4 _ hv rfl
      rw [hgood hf] at hje
      cases hje

/-- C28 amended, concrete run: the document `{"created_at": "145"}`, whose
first and only mistyped member is `created_at`, is refused with
`ErrCSRCreationTimeIsIncorrect`, and so is `{"created_at": 1.5}`. -/
theorem CSRValidator_Validate_json_decoding_witness :
    CSRValidator.Validate encoder.Hex (jsonUnmarshal Example.parseJson Example.equalFold)
        "06" {} "alice" = .error .ErrCSRCreationTimeIsIncorrect ∧
    CSRValidator.Validate encoder.Hex (jsonUnmarshal Example.parseJson Example.equalFold)
        "0c" {} "alice" = .error .ErrCSRCreationTimeIsIncorrect :=
  ⟨((CSRValidator_Validate_json_decoding encoder.Hex Example.parseJson Example.equalFold
      "06" {} "alice" (by decide) (by decide)).2.2.1 _ rfl).1 (by decide),
   ((CSRValidator_Validate_json_decoding encoder.Hex Example.parseJson Example.equalFold
      "0c" {} "alice" (by decide) (by decide)).2.2.1 _ rfl).1 (by decide)⟩

end VirgilCards
